import Mathlib

/-!
# darktable `iop/colorequal.c` : the colour equaliser

A shallow embedding of the numerical core of `src/iop/colorequal.c`:

* `_periodic_RBF_interpolate` : the periodic radial-basis interpolation that
  turns 8 hue nodes into a hue-indexed table;
* `_prefilter_chromaticity` and `_guide_with_chromaticity` : the two guided
  filters;
* `process` and `commit_params`.

`float` is modelled by an ordered field `α` (the theorems about the
transcendental functions take `α = ℝ`).  Functions of `<math.h>` and of other
darktable headers that the file calls but does not define are parameters of the
definitions, so every definition below is computable.  A `float *` buffer is a
total function from the offset to the value stored there; offsets beyond the
allocated length are never read by the code.
-/

namespace Colorequal

open Finset

section Model

variable {α : Type} [LinearOrderedField α] [FloorRing α]

/-! ## Hue nodes and the periodic RBF interpolation -/

/-- `#define NODES 8`. -/
abbrev NODES : Nat := 8

/-- `#define ANGLE_SHIFT +20.f`. -/
def ANGLE_SHIFT : α := 20

/-- `_deg_to_rad` : `(angle + ANGLE_SHIFT) * M_PI_F / 180.f`. -/
def _deg_to_rad (M_PI_F : α) (angle : α) : α :=
  (angle + ANGLE_SHIFT) * M_PI_F / 180

/-- `_get_hue_node` : angular coordinate of the `k`-th hue node, hue shift included. -/
def _get_hue_node (M_PI_F : α) (k : Nat) (hue_shift : α) : α :=
  _deg_to_rad M_PI_F ((k : α) * 360 / ((NODES : Nat) : α) + hue_shift)

/-- `_cosine_coeffs` : `expf(-l * l / c)`. -/
def _cosine_coeffs (expf : α → α) (l c : α) : α :=
  expf (-l * l / c)

/-- Number of terms of the cosine series, `m = (int)ceilf(3.f * sqrtf(smoothing))`,
as the number of iterations of `for(int l = 0; l < m; l++)`. -/
def rbf_terms (sqrtf : α → α) (smoothing : α) : Nat :=
  (Int.ceil (3 * sqrtf smoothing)).toNat

/-- The inner loop over `l` shared by the matrix construction and the table
evaluation: `Σ_{l<m} _cosine_coeffs(l, smoothing) * cosf(l * fabsf(h1 - h2))`. -/
def rbf_series (expf cosf sqrtf : α → α) (smoothing : α) (h1 h2 : α) : α :=
  ∑ l in range (rbf_terms sqrtf smoothing),
    _cosine_coeffs expf (l : α) smoothing * cosf ((l : α) * |h1 - h2|)

/-- The matrix `A[i][j]` that `_periodic_RBF_interpolate` builds from the nodes. -/
def rbf_A (expf cosf sqrtf : α → α) (M_PI_F : α) (smoothing hue_shift : α)
    (i j : Fin NODES) : α :=
  expf (rbf_series expf cosf sqrtf smoothing
    (_get_hue_node M_PI_F i hue_shift) (_get_hue_node M_PI_F j hue_shift))

/-- Body of the table loop of `_periodic_RBF_interpolate` for one hue angle:
`Σ_k nodes[k] * expf(Σ_l …)`, then `fmaxf(0.f, ·)` when `clip` is set.  Here
`x` is the content of `nodes` after `pseudo_solve`. -/
def rbf_eval (expf cosf sqrtf : α → α) (M_PI_F : α) (x : Fin NODES → α)
    (smoothing hue_shift : α) (clip : Bool) (hue : α) : α :=
  let v := ∑ k : Fin NODES, x k *
    expf (rbf_series expf cosf sqrtf smoothing hue (_get_hue_node M_PI_F k hue_shift))
  if clip then max 0 v else v

/-- Hue angle of table entry `i`: `(float)i * M_PI_F / 180.f - M_PI_F`. -/
def lut_hue (M_PI_F : α) (i : Nat) : α :=
  (i : α) * M_PI_F / 180 - M_PI_F

/-- `_periodic_RBF_interpolate` : the content of `LUT` after the call.  The
entries `i < LUT_ELEM` are written (`LUT_ELEM` comes from
`common/darktable_ucs_22_helpers.h`).  `pseudo_solve` (from `iop/choleski.h`) is
the linear solver, which overwrites `nodes` with the coefficients. -/
def _periodic_RBF_interpolate (expf cosf sqrtf : α → α) (M_PI_F : α)
    (pseudo_solve : (Fin NODES → Fin NODES → α) → (Fin NODES → α) → (Fin NODES → α))
    (LUT_ELEM : Nat) (nodes : Fin NODES → α) (smoothing : α) (LUT : Nat → α)
    (hue_shift : α) (clip : Bool) : Nat → α :=
  fun i =>
    if i < LUT_ELEM then
      rbf_eval expf cosf sqrtf M_PI_F
        (pseudo_solve (rbf_A expf cosf sqrtf M_PI_F smoothing hue_shift) nodes)
        smoothing hue_shift clip (lut_hue M_PI_F i)
    else LUT i

/-! ## Buffers, loops and the external image operations -/

/-- The fields of `dt_iop_roi_t` that the module reads. -/
structure dt_iop_roi_t (α : Type) where
  width : Nat
  height : Nat
  scale : α

/-- A loop `for(size_t k = 0; k < n; k++)` over pixels with `ch` floats each,
whose iteration `k` leaves `f k c` at offset `ch * k + c` for every `c < ch` and
reads no slot that another iteration writes; `old` is the content of the buffer
before the loop (kept beyond the `n` pixels). -/
def forPixels (ch n : Nat) (f : Nat → Nat → α) (old : Nat → α) : Nat → α :=
  fun i => if i < ch * n then f (i / ch) (i % ch) else old i

/-- The Gaussian blur of `common/gaussian.h`, external to the module:
`dt_gaussian_init(width, height, ch, max, min, sigma, 0)` returns a handle or
`NULL`, `dt_gaussian_blur` and `dt_gaussian_blur_4c` blur a buffer with it. -/
structure GaussianLib (α : Type) where
  dt_gaussian_t : Type
  dt_gaussian_init : Nat → Nat → Nat → α → Option dt_gaussian_t
  dt_gaussian_blur : dt_gaussian_t → (Nat → α) → (Nat → α)
  dt_gaussian_blur_4c : dt_gaussian_t → (Nat → α) → (Nat → α)

/-- `_mean_gaussian` : blurs `buf` in place; the result is the content of `buf`
after the call (unchanged when `dt_gaussian_init` returns `NULL`). -/
def _mean_gaussian (G : GaussianLib α) (buf : Nat → α) (width height ch : Nat)
    (sigma : α) : Nat → α :=
  match G.dt_gaussian_init width height ch sigma with
  | none => buf
  | some g => if ch = 4 then G.dt_gaussian_blur_4c g buf else G.dt_gaussian_blur g buf

/-- Type of the external `interpolate_bilinear(in, width_in, height_in, out,
width_out, height_out, ch)` of `common/interpolation.h`: the content of `out`
after the call. -/
abbrev Bilinear (α : Type) := (Nat → α) → Nat → Nat → Nat → Nat → Nat → (Nat → α)

/-- Modelled from the spec: `interpolatef(w, a, b)` of `common/math.h`, which is
not part of this file; the spec gives the blend as
`result = weight·target' + (1−weight)·target_original`. -/
def interpolatef (w a b : α) : α :=
  w * a + (1 - w) * b

/-- `FLT_EPSILON` of `<float.h>` for IEEE single precision. -/
def FLT_EPSILON : α := 1 / 2 ^ 23

/-- `_get_scaling` : `MAX(1.0f, MIN(4.0f, floorf(sigma - 1.5f)))`. -/
def _get_scaling (sigma : α) : α :=
  max 1 (min 4 ((Int.floor (sigma - 1.5) : ℤ) : α))

/-- `_fast_sqrtf` : `a / (0.5f - a * 0.5f + a)`. -/
def _fast_sqrtf (a : α) : α :=
  a / (0.5 - a * 0.5 + a)

/-! ## The guided filters: quantities shared by both -/

/-- `sigma = csigma * roi->scale`. -/
def filter_sigma (roi : dt_iop_roi_t α) (csigma : α) : α :=
  csigma * roi.scale

/-- `scaling = _get_scaling(sigma)`. -/
def filter_scaling (roi : dt_iop_roi_t α) (csigma : α) : α :=
  _get_scaling (filter_sigma roi csigma)

/-- `ds_width = width / scaling` (a `size_t` divided by a `float`, stored in a
`size_t`). -/
def ds_width (roi : dt_iop_roi_t α) (csigma : α) : Nat :=
  Nat.floor ((roi.width : α) / filter_scaling roi csigma)

/-- `ds_height = height / scaling`. -/
def ds_height (roi : dt_iop_roi_t α) (csigma : α) : Nat :=
  Nat.floor ((roi.height : α) / filter_scaling roi csigma)

/-- `ds_pixels = ds_width * ds_height`. -/
def ds_pixels (roi : dt_iop_roi_t α) (csigma : α) : Nat :=
  ds_width roi csigma * ds_height roi csigma

/-- `resized = width != ds_width || height != ds_height`. -/
def resized (roi : dt_iop_roi_t α) (csigma : α) : Bool :=
  roi.width != ds_width roi csigma || roi.height != ds_height roi csigma

/-- First loop of both filters: the products `x * y` of the guide channels,
4 floats per pixel. -/
def covariance_init (ds_UV : Nat → α) (n : Nat) : Nat → α :=
  forPixels 4 n (fun k c =>
    match c with
    | 0 => ds_UV (2 * k + 0) * ds_UV (2 * k + 0)
    | 1 => ds_UV (2 * k) * ds_UV (2 * k + 1)
    | 2 => ds_UV (2 * k) * ds_UV (2 * k + 1)
    | _ => ds_UV (2 * k + 1) * ds_UV (2 * k + 1)) (fun _ => 0)

/-- The loop `covariance[4 * k + c] -= avg(x) * avg(y)` of both filters. -/
def covariance_finish (covariance ds_UV : Nat → α) (n : Nat) : Nat → α :=
  forPixels 4 n (fun k c =>
    match c with
    | 0 => covariance (4 * k + 0) - ds_UV (2 * k + 0) * ds_UV (2 * k + 0)
    | 1 => covariance (4 * k + 1) - ds_UV (2 * k + 0) * ds_UV (2 * k + 1)
    | 2 => covariance (4 * k + 2) - ds_UV (2 * k + 0) * ds_UV (2 * k + 1)
    | _ => covariance (4 * k + 3) - ds_UV (2 * k + 1) * ds_UV (2 * k + 1)) covariance

/-- `Sigma` at pixel `k` after `Sigma[0] += epsilon; Sigma[3] += epsilon`. -/
def Sigma (covariance : Nat → α) (epsilon : α) (k c : Nat) : α :=
  match c with
  | 0 => covariance (4 * k + 0) + epsilon
  | 1 => covariance (4 * k + 1)
  | 2 => covariance (4 * k + 2)
  | _ => covariance (4 * k + 3) + epsilon

/-- `sigma_inv = { Sigma[3] / det, -Sigma[1] / det, -Sigma[2] / det, Sigma[0] / det }`. -/
def sigma_inv (covariance : Nat → α) (epsilon det : α) (k c : Nat) : α :=
  match c with
  | 0 => Sigma covariance epsilon k 3 / det
  | 1 => -Sigma covariance epsilon k 1 / det
  | 2 => -Sigma covariance epsilon k 2 / det
  | _ => Sigma covariance epsilon k 0 / det

/-- The four coefficients `a[4 * k + c]` of both filters, from the correlations
`corr` of the target with the guide (in the prefilter `corr` is `covariance`
itself): the products with `sigma_inv` when `fabsf(det) > 4.f * FLT_EPSILON`,
and `0.f` otherwise. -/
def coeff_a (corr covariance : Nat → α) (epsilon det : α) (k c : Nat) : α :=
  if |det| > 4 * FLT_EPSILON then
    match c with
    | 0 => corr (4 * k + 0) * sigma_inv covariance epsilon det k 0
            + corr (4 * k + 1) * sigma_inv covariance epsilon det k 1
    | 1 => corr (4 * k + 0) * sigma_inv covariance epsilon det k 2
            + corr (4 * k + 1) * sigma_inv covariance epsilon det k 3
    | 2 => corr (4 * k + 2) * sigma_inv covariance epsilon det k 0
            + corr (4 * k + 3) * sigma_inv covariance epsilon det k 1
    | _ => corr (4 * k + 2) * sigma_inv covariance epsilon det k 2
            + corr (4 * k + 3) * sigma_inv covariance epsilon det k 3
  else 0

/-! ## `_prefilter_chromaticity` -/

/-- `gsigma = MAX(0.3f, 0.5f * sigma / scaling)` of `_prefilter_chromaticity`. -/
def prefilter_gsigma (roi : dt_iop_roi_t α) (csigma : α) : α :=
  max 0.3 (0.5 * filter_sigma roi csigma / filter_scaling roi csigma)

/-- `ds_UV` before the blur: `UV` itself, or its downsampled copy when `resized`. -/
def prefilter_ds_UV0 (B : Bilinear α) (UV : Nat → α) (roi : dt_iop_roi_t α)
    (csigma : α) : Nat → α :=
  if resized roi csigma then
    B UV roi.width roi.height (ds_width roi csigma) (ds_height roi csigma) 2
  else UV

/-- `ds_UV` after `_mean_gaussian(ds_UV, ds_width, ds_height, 2, gsigma)`. -/
def prefilter_ds_UV (G : GaussianLib α) (B : Bilinear α) (UV : Nat → α)
    (roi : dt_iop_roi_t α) (csigma : α) : Nat → α :=
  _mean_gaussian G (prefilter_ds_UV0 B UV roi csigma)
    (ds_width roi csigma) (ds_height roi csigma) 2 (prefilter_gsigma roi csigma)

/-- `covariance` when the loop computing `a` and `b` starts. -/
def prefilter_covariance (G : GaussianLib α) (B : Bilinear α) (UV : Nat → α)
    (roi : dt_iop_roi_t α) (csigma : α) : Nat → α :=
  covariance_finish
    (_mean_gaussian G (covariance_init (prefilter_ds_UV0 B UV roi csigma) (ds_pixels roi csigma))
      (ds_width roi csigma) (ds_height roi csigma) 4 (prefilter_gsigma roi csigma))
    (prefilter_ds_UV G B UV roi csigma) (ds_pixels roi csigma)

/-- `det = Sigma[0] * Sigma[3] - Sigma[1] * Sigma[2]` of `_prefilter_chromaticity`. -/
def prefilter_det (covariance : Nat → α) (epsilon : α) (k : Nat) : α :=
  Sigma covariance epsilon k 0 * Sigma covariance epsilon k 3
    - Sigma covariance epsilon k 1 * Sigma covariance epsilon k 2

/-- `a[4 * k + c]` of `_prefilter_chromaticity`, before `a` is blurred. -/
def prefilter_a (covariance : Nat → α) (epsilon : α) (k c : Nat) : α :=
  coeff_a covariance covariance epsilon (prefilter_det covariance epsilon k) k c

/-- `b[2 * k + c]` of `_prefilter_chromaticity`, before `b` is blurred. -/
def prefilter_b (ds_UV covariance : Nat → α) (epsilon : α) (k c : Nat) : α :=
  match c with
  | 0 => ds_UV (2 * k + 0)
          - prefilter_a covariance epsilon k 0 * ds_UV (2 * k + 0)
          - prefilter_a covariance epsilon k 1 * ds_UV (2 * k + 1)
  | _ => ds_UV (2 * k + 1)
          - prefilter_a covariance epsilon k 2 * ds_UV (2 * k + 0)
          - prefilter_a covariance epsilon k 3 * ds_UV (2 * k + 1)

/-- `a_full` : `a` blurred, then upsampled when `resized`. -/
def prefilter_a_full (G : GaussianLib α) (B : Bilinear α) (UV : Nat → α)
    (roi : dt_iop_roi_t α) (csigma epsilon : α) : Nat → α :=
  let a := _mean_gaussian G
    (forPixels 4 (ds_pixels roi csigma)
      (prefilter_a (prefilter_covariance G B UV roi csigma) epsilon) (fun _ => 0))
    (ds_width roi csigma) (ds_height roi csigma) 4 (prefilter_gsigma roi csigma)
  if resized roi csigma then
    B a (ds_width roi csigma) (ds_height roi csigma) roi.width roi.height 4
  else a

/-- `b_full` : `b` blurred, then upsampled when `resized`. -/
def prefilter_b_full (G : GaussianLib α) (B : Bilinear α) (UV : Nat → α)
    (roi : dt_iop_roi_t α) (csigma epsilon : α) : Nat → α :=
  let b := _mean_gaussian G
    (forPixels 2 (ds_pixels roi csigma)
      (prefilter_b (prefilter_ds_UV G B UV roi csigma)
        (prefilter_covariance G B UV roi csigma) epsilon) (fun _ => 0))
    (ds_width roi csigma) (ds_height roi csigma) 2 (prefilter_gsigma roi csigma)
  if resized roi csigma then
    B b (ds_width roi csigma) (ds_height roi csigma) roi.width roi.height 2
  else b

/-- Content of the caller's buffer `UV` when the last loop starts: when not
`resized`, `ds_UV` is `UV` itself and has been blurred in place. -/
def prefilter_UV_guide (G : GaussianLib α) (B : Bilinear α) (UV : Nat → α)
    (roi : dt_iop_roi_t α) (csigma : α) : Nat → α :=
  if resized roi csigma then UV else prefilter_ds_UV G B UV roi csigma

/-- The last loop of `_prefilter_chromaticity` ("Apply the guided filter"). -/
def prefilter_apply (a_full b_full UV weights : Nat → α) (pixels : Nat) : Nat → α :=
  forPixels 2 pixels (fun k c =>
    match c with
    | 0 => interpolatef (weights k)
            (a_full (4 * k + 0) * UV (2 * k + 0) + a_full (4 * k + 1) * UV (2 * k + 1)
              + b_full (2 * k + 0))
            (UV (2 * k + 0))
    | _ => interpolatef (weights k)
            (a_full (4 * k + 2) * UV (2 * k + 0) + a_full (4 * k + 3) * UV (2 * k + 1)
              + b_full (2 * k + 1))
            (UV (2 * k + 1))) UV

/-- `_prefilter_chromaticity` : the content of `UV` after the call. -/
def _prefilter_chromaticity (G : GaussianLib α) (B : Bilinear α) (UV weights : Nat → α)
    (roi : dt_iop_roi_t α) (csigma epsilon : α) : Nat → α :=
  prefilter_apply
    (prefilter_a_full G B UV roi csigma epsilon)
    (prefilter_b_full G B UV roi csigma epsilon)
    (prefilter_UV_guide G B UV roi csigma)
    weights (roi.width * roi.height)

/-! ## `_guide_with_chromaticity` -/

/-- The three caller buffers that `_guide_with_chromaticity` may write. -/
structure GuideBuffers (α : Type) where
  UV : Nat → α
  corrections : Nat → α
  b_corrections : Nat → α

/-- `gsigma = MAX(0.2f, 0.5f * sigma / scaling)` of `_guide_with_chromaticity`. -/
def guide_gsigma (roi : dt_iop_roi_t α) (csigma : α) : α :=
  max 0.2 (0.5 * filter_sigma roi csigma / filter_scaling roi csigma)

/-- `ds_UV` before the blur. -/
def guide_ds_UV0 (B : Bilinear α) (UV : Nat → α) (roi : dt_iop_roi_t α)
    (csigma : α) : Nat → α :=
  if resized roi csigma then
    B UV roi.width roi.height (ds_width roi csigma) (ds_height roi csigma) 2
  else UV

/-- `ds_corrections` before the blur. -/
def guide_ds_corrections0 (B : Bilinear α) (corrections : Nat → α) (roi : dt_iop_roi_t α)
    (csigma : α) : Nat → α :=
  if resized roi csigma then
    B corrections roi.width roi.height (ds_width roi csigma) (ds_height roi csigma) 2
  else corrections

/-- `ds_b_corrections` before the blur. -/
def guide_ds_b_corrections0 (B : Bilinear α) (b_corrections : Nat → α)
    (roi : dt_iop_roi_t α) (csigma : α) : Nat → α :=
  if resized roi csigma then
    B b_corrections roi.width roi.height (ds_width roi csigma) (ds_height roi csigma) 1
  else b_corrections

/-- The loop "Get the correlations between corrections and UV". -/
def correlations_init (ds_UV ds_corrections ds_b_corrections : Nat → α) (n : Nat) :
    Nat → α :=
  forPixels 4 n (fun k c =>
    match c with
    | 0 => ds_UV (2 * k + 0) * ds_corrections (2 * k + 1)
    | 1 => ds_UV (2 * k + 1) * ds_corrections (2 * k + 1)
    | 2 => ds_UV (2 * k + 0) * ds_b_corrections k
    | _ => ds_UV (2 * k + 1) * ds_b_corrections k) (fun _ => 0)

/-- The loop "Finish the guide * guided correlation computation". -/
def correlations_finish (correlations ds_UV ds_corrections ds_b_corrections : Nat → α)
    (n : Nat) : Nat → α :=
  forPixels 4 n (fun k c =>
    match c with
    | 0 => correlations (4 * k + 0) - ds_UV (2 * k + 0) * ds_corrections (2 * k + 1)
    | 1 => correlations (4 * k + 1) - ds_UV (2 * k + 1) * ds_corrections (2 * k + 1)
    | 2 => correlations (4 * k + 2) - ds_UV (2 * k + 0) * ds_b_corrections k
    | _ => correlations (4 * k + 3) - ds_UV (2 * k + 1) * ds_b_corrections k) correlations

/-- `ds_UV` after `_mean_gaussian(ds_UV, ds_width, ds_height, 2, gsigma)`. -/
def guide_ds_UV (G : GaussianLib α) (B : Bilinear α) (UV : Nat → α)
    (roi : dt_iop_roi_t α) (csigma : α) : Nat → α :=
  _mean_gaussian G (guide_ds_UV0 B UV roi csigma)
    (ds_width roi csigma) (ds_height roi csigma) 2 (guide_gsigma roi csigma)

/-- `ds_corrections` after `_mean_gaussian(ds_corrections, ds_width, ds_height, 2, gsigma)`. -/
def guide_ds_corrections (G : GaussianLib α) (B : Bilinear α) (corrections : Nat → α)
    (roi : dt_iop_roi_t α) (csigma : α) : Nat → α :=
  _mean_gaussian G (guide_ds_corrections0 B corrections roi csigma)
    (ds_width roi csigma) (ds_height roi csigma) 2 (guide_gsigma roi csigma)

/-- `ds_b_corrections` after
`_mean_gaussian(ds_b_corrections, ds_width, ds_height, 1, 0.2f * gsigma)`. -/
def guide_ds_b_corrections (G : GaussianLib α) (B : Bilinear α) (b_corrections : Nat → α)
    (roi : dt_iop_roi_t α) (csigma : α) : Nat → α :=
  _mean_gaussian G (guide_ds_b_corrections0 B b_corrections roi csigma)
    (ds_width roi csigma) (ds_height roi csigma) 1 (0.2 * guide_gsigma roi csigma)

/-- `covariance` when the loop computing `a` and `b` starts. -/
def guide_covariance (G : GaussianLib α) (B : Bilinear α) (UV : Nat → α)
    (roi : dt_iop_roi_t α) (csigma : α) : Nat → α :=
  covariance_finish
    (_mean_gaussian G (covariance_init (guide_ds_UV0 B UV roi csigma) (ds_pixels roi csigma))
      (ds_width roi csigma) (ds_height roi csigma) 4 (guide_gsigma roi csigma))
    (guide_ds_UV G B UV roi csigma) (ds_pixels roi csigma)

/-- `correlations` when the loop computing `a` and `b` starts. -/
def guide_correlations (G : GaussianLib α) (B : Bilinear α) (bufs : GuideBuffers α)
    (roi : dt_iop_roi_t α) (csigma : α) : Nat → α :=
  correlations_finish
    (_mean_gaussian G
      (correlations_init (guide_ds_UV0 B bufs.UV roi csigma)
        (guide_ds_corrections0 B bufs.corrections roi csigma)
        (guide_ds_b_corrections0 B bufs.b_corrections roi csigma) (ds_pixels roi csigma))
      (ds_width roi csigma) (ds_height roi csigma) 4 (guide_gsigma roi csigma))
    (guide_ds_UV G B bufs.UV roi csigma)
    (guide_ds_corrections G B bufs.corrections roi csigma)
    (guide_ds_b_corrections G B bufs.b_corrections roi csigma) (ds_pixels roi csigma)

/-- `det = MAX((Sigma[0] * Sigma[3] - Sigma[1] * Sigma[2]), 1e-15f)` of
`_guide_with_chromaticity`. -/
def guide_det (covariance : Nat → α) (epsilon : α) (k : Nat) : α :=
  max (Sigma covariance epsilon k 0 * Sigma covariance epsilon k 3
        - Sigma covariance epsilon k 1 * Sigma covariance epsilon k 2) 1e-15

/-- `a[4 * k + c]` of `_guide_with_chromaticity`, before `a` is blurred. -/
def guide_a (correlations covariance : Nat → α) (epsilon : α) (k c : Nat) : α :=
  coeff_a correlations covariance epsilon (guide_det covariance epsilon k) k c

/-- `b[2 * k + c]` of `_guide_with_chromaticity`, before `b` is blurred. -/
def guide_b (ds_UV ds_corrections ds_b_corrections correlations covariance : Nat → α)
    (epsilon : α) (k c : Nat) : α :=
  match c with
  | 0 => ds_corrections (2 * k + 1)
          - guide_a correlations covariance epsilon k 0 * ds_UV (2 * k + 0)
          - guide_a correlations covariance epsilon k 1 * ds_UV (2 * k + 1)
  | _ => ds_b_corrections k
          - guide_a correlations covariance epsilon k 2 * ds_UV (2 * k + 0)
          - guide_a correlations covariance epsilon k 3 * ds_UV (2 * k + 1)

/-- `a_full` : `a` blurred, then upsampled when `resized`. -/
def guide_a_full (G : GaussianLib α) (B : Bilinear α) (bufs : GuideBuffers α)
    (roi : dt_iop_roi_t α) (csigma epsilon : α) : Nat → α :=
  let a := _mean_gaussian G
    (forPixels 4 (ds_pixels roi csigma)
      (guide_a (guide_correlations G B bufs roi csigma)
        (guide_covariance G B bufs.UV roi csigma) epsilon) (fun _ => 0))
    (ds_width roi csigma) (ds_height roi csigma) 4 (guide_gsigma roi csigma)
  if resized roi csigma then
    B a (ds_width roi csigma) (ds_height roi csigma) roi.width roi.height 4
  else a

/-- `b_full` : `b` blurred, then upsampled when `resized`. -/
def guide_b_full (G : GaussianLib α) (B : Bilinear α) (bufs : GuideBuffers α)
    (roi : dt_iop_roi_t α) (csigma epsilon : α) : Nat → α :=
  let b := _mean_gaussian G
    (forPixels 2 (ds_pixels roi csigma)
      (guide_b (guide_ds_UV G B bufs.UV roi csigma)
        (guide_ds_corrections G B bufs.corrections roi csigma)
        (guide_ds_b_corrections G B bufs.b_corrections roi csigma)
        (guide_correlations G B bufs roi csigma)
        (guide_covariance G B bufs.UV roi csigma) epsilon) (fun _ => 0))
    (ds_width roi csigma) (ds_height roi csigma) 2 (guide_gsigma roi csigma)
  if resized roi csigma then
    B b (ds_width roi csigma) (ds_height roi csigma) roi.width roi.height 2
  else b

/-- Content of the caller's three buffers when the last loop starts: when not
`resized`, `ds_UV`, `ds_corrections` and `ds_b_corrections` are the caller's
buffers themselves and have been blurred in place. -/
def guide_buffers_at_apply (G : GaussianLib α) (B : Bilinear α) (bufs : GuideBuffers α)
    (roi : dt_iop_roi_t α) (csigma : α) : GuideBuffers α :=
  if resized roi csigma then bufs
  else
    { UV := guide_ds_UV G B bufs.UV roi csigma
      corrections := guide_ds_corrections G B bufs.corrections roi csigma
      b_corrections := guide_ds_b_corrections G B bufs.b_corrections roi csigma }

/-- The filtered saturation gain `cv[0]` (`c = 0`) and brightness delta `cv[1]`
(`c = 1`) of pixel `k` in the last loop. -/
def guide_cv (a_full b_full UV : Nat → α) (k c : Nat) : α :=
  match c with
  | 0 => a_full (4 * k + 0) * UV (2 * k + 0) + a_full (4 * k + 1) * UV (2 * k + 1)
          + b_full (2 * k + 0)
  | _ => a_full (4 * k + 2) * UV (2 * k + 0) + a_full (4 * k + 3) * UV (2 * k + 1)
          + b_full (2 * k + 1)

/-- The last loop of `_guide_with_chromaticity` ("Apply the guided filter"): it
stores `corrections[2 * k + 1]` and `b_corrections[k]` and leaves
`corrections[2 * k + 0]` as it finds it. -/
def guide_apply (a_full b_full weights : Nat → α) (bufs : GuideBuffers α) (pixels : Nat) :
    GuideBuffers α :=
  { UV := bufs.UV
    corrections := forPixels 2 pixels (fun k c =>
      match c with
      | 0 => bufs.corrections (2 * k + 0)
      | _ => interpolatef (weights k) (guide_cv a_full b_full bufs.UV k 0) 1)
      bufs.corrections
    b_corrections := forPixels 1 pixels (fun k _ =>
      interpolatef (weights k) (guide_cv a_full b_full bufs.UV k 1) 0)
      bufs.b_corrections }

/-- `_guide_with_chromaticity` : the content of `UV`, `corrections` and
`b_corrections` after the call. -/
def _guide_with_chromaticity (G : GaussianLib α) (B : Bilinear α) (bufs : GuideBuffers α)
    (weights : Nat → α) (roi : dt_iop_roi_t α) (csigma epsilon : α) : GuideBuffers α :=
  guide_apply
    (guide_a_full G B bufs roi csigma epsilon)
    (guide_b_full G B bufs roi csigma epsilon)
    weights
    (guide_buffers_at_apply G B bufs roi csigma)
    (roi.width * roi.height)

/-! ## `process` -/

/-- The colour-science helpers of other darktable headers that the module
calls.  A helper that writes through a pointer to memory that already holds
data takes the previous content as its last argument (`dot_product`,
`dt_UCS_JCH_to_HSB`) or works in place (`gamut_map_HSB`). -/
structure ColorLib (α : Type) where
  XYZ_D50_to_D65_CAT16 : Nat → Nat → α
  XYZ_D65_to_D50_CAT16 : Nat → Nat → α
  dt_colormatrix_mul : (Nat → Nat → α) → (Nat → Nat → α) → (Nat → Nat → α)
  dot_product : (Nat → α) → (Nat → Nat → α) → (Nat → α) → (Nat → α)
  dt_D65_XYZ_to_xyY : (Nat → α) → (Nat → α)
  xyY_to_dt_UCS_UV : (Nat → α) → (Nat → α)
  Y_to_dt_UCS_L_star : α → α
  dt_UCS_LUV_to_JCH : α → α → (Nat → α) → (Nat → α)
  dt_UCS_JCH_to_HSB : (Nat → α) → (Nat → α) → (Nat → α)
  lookup_gamut : (Nat → α) → α → α
  gamut_map_HSB : (Nat → α) → (Nat → α) → α → (Nat → α)
  dt_UCS_HSB_to_XYZ : (Nat → α) → α → (Nat → α)
  dt_fast_expf : α → α
  dt_UCS_22_build_gamut_LUT : (Nat → Nat → α) → (Nat → α) → (Nat → α)

/-- The fields of `dt_iop_order_iccprofile_info_t` that the module reads; `addr`
stands for the address of the structure, which `commit_params` compares. -/
structure dt_iop_order_iccprofile_info_t (α : Type) where
  addr : Nat
  matrix_in : Nat → Nat → α
  matrix_out : Nat → Nat → α

/-- `dt_iop_colorequal_data_t`; `work_profile` holds the address of the cached
profile (`none` for `NULL`). -/
structure dt_iop_colorequal_data_t (α : Type) where
  LUT_saturation : Nat → α
  LUT_hue : Nat → α
  LUT_brightness : Nat → α
  gamut_LUT : Nat → α
  lut_inited : Bool
  white_level : α
  chroma_size : α
  chroma_feathering : α
  param_size : α
  param_feathering : α
  use_filter : Bool
  work_profile : Option Nat
  hue_shift : α

/-- Pixel `k` of a buffer as the array of `ch` floats that a helper receives
(`dt_aligned_pixel_t` for `ch = 4`, `float[2]` for `ch = 2`): the floats
`buf[ch * k + c]` for `c < ch`, and nothing of the neighbouring pixels. -/
def pixel_at (buf : Nat → α) (ch k : Nat) : Nat → α :=
  fun c => if c < ch then buf (ch * k + c) else 0

/-- `XYZ_D65` of pixel `k` in STEP 1: `dot_product(pix_in, input_matrix, XYZ_D65)`
on `XYZ_D65 = { 0.0f, 0.0f, 0.0f, 0.0f }`. -/
def process_XYZ (E : ColorLib α) (input_matrix : Nat → Nat → α) (inp : Nat → α) (k : Nat) :
    Nat → α :=
  E.dot_product (pixel_at inp 4 k) input_matrix (fun _ => 0)

/-- The chroma proxy `val` of STEP 1, from `XYZ_D65`. -/
def chroma_proxy (XYZ_D65 : Nat → α) : α :=
  let X := _fast_sqrtf (XYZ_D65 0)
  let Y := _fast_sqrtf (XYZ_D65 1)
  let Z := _fast_sqrtf (XYZ_D65 2)
  let dmin := min X (min Y Z)
  let dmax := max X (max Y Z)
  let delta := dmax - dmin
  if |dmax| > 1e-6 ∧ |delta| > 1e-6 then delta / dmax else 0

/-- The weight of STEP 1: `coef = dt_fast_expf(-(20.0f * (2.0f * val - 0.4f)))`,
`weights[k] = fmaxf(1.0f / (1.0f + coef), 0.0f)`. -/
def achromatic_weight (dt_fast_expf : α → α) (val : α) : α :=
  max (1 / (1 + dt_fast_expf (-(20 * (2 * val - 0.4))))) 0

/-- `weights` after STEP 1, before it is blurred. -/
def process_weights0 (E : ColorLib α) (input_matrix : Nat → Nat → α) (inp : Nat → α)
    (npixels : Nat) : Nat → α :=
  forPixels 1 npixels (fun k _ =>
    achromatic_weight E.dt_fast_expf (chroma_proxy (process_XYZ E input_matrix inp k)))
    (fun _ => 0)

/-- `UV` after STEP 1. -/
def process_UV0 (E : ColorLib α) (input_matrix : Nat → Nat → α) (inp : Nat → α)
    (npixels : Nat) : Nat → α :=
  forPixels 2 npixels (fun k c =>
    E.xyY_to_dt_UCS_UV (E.dt_D65_XYZ_to_xyY (process_XYZ E input_matrix inp k)) c)
    (fun _ => 0)

/-- `L` after STEP 1. -/
def process_L (E : ColorLib α) (input_matrix : Nat → Nat → α) (inp : Nat → α)
    (npixels : Nat) : Nat → α :=
  forPixels 1 npixels (fun k _ =>
    E.Y_to_dt_UCS_L_star (E.dt_D65_XYZ_to_xyY (process_XYZ E input_matrix inp k) 2))
    (fun _ => 0)

/-- `JCH` of pixel `k` in STEP 3. -/
def process_JCH (E : ColorLib α) (white : α) (UV L : Nat → α) (k : Nat) : Nat → α :=
  E.dt_UCS_LUV_to_JCH (L k) white (pixel_at UV 2 k)

/-- `pix_out` of pixel `k` right after `dt_UCS_JCH_to_HSB(JCH, pix_out)`: the HSB
triple converted from the input pixel. -/
def process_HSB (E : ColorLib α) (white : α) (UV L out : Nat → α) (k : Nat) : Nat → α :=
  E.dt_UCS_JCH_to_HSB (process_JCH E white UV L k) (pixel_at out 4 k)

/-- The corrections looked up for pixel `k` in STEP 3: `c = 0` the hue offset,
`c = 1` the saturation gain, `c = 2` the brightness delta. -/
def lookup_corrections (E : ColorLib α) (d : dt_iop_colorequal_data_t α)
    (JCH HSB : Nat → α) (c : Nat) : α :=
  if JCH 1 > 0 then
    match c with
    | 0 => E.lookup_gamut d.LUT_hue (HSB 0)
    | 1 => E.lookup_gamut d.LUT_saturation (HSB 0)
    | _ => HSB 1 * (E.lookup_gamut d.LUT_brightness (HSB 0) - 1)
  else
    match c with
    | 0 => 0
    | 1 => 1
    | _ => 0

/-- The three buffers after the loop of STEP 3. -/
def process_lookup (E : ColorLib α) (d : dt_iop_colorequal_data_t α) (white : α)
    (UV L out : Nat → α) (npixels : Nat) : GuideBuffers α :=
  { UV := UV
    corrections := forPixels 2 npixels (fun k c =>
      lookup_corrections E d (process_JCH E white UV L k) (process_HSB E white UV L out k) c)
      (fun _ => 0)
    b_corrections := forPixels 1 npixels (fun k _ =>
      lookup_corrections E d (process_JCH E white UV L k) (process_HSB E white UV L out k) 2)
      (fun _ => 0) }

/-- `out` after the loop of STEP 3: HSB in channels 0..2 as `dt_UCS_JCH_to_HSB`
leaves them, then `pix_out[3] = pix_in[3]`. -/
def process_out3 (E : ColorLib α) (white : α) (UV L inp out : Nat → α) (npixels : Nat) :
    Nat → α :=
  forPixels 4 npixels (fun k c =>
    if c = 3 then inp (4 * k + 3) else process_HSB E white UV L out k c) out

/-- `B_norm` after the loop of STEP 3: `0.01f`, then `fmaxf(B_norm, pix_out[2])`
over the pixels. -/
def process_B_norm (E : ColorLib α) (white : α) (UV L out : Nat → α) (npixels : Nat) : α :=
  (List.range npixels).foldl (fun m k => max m (process_HSB E white UV L out k 2)) 0.01

/-- "Apply the corrections": `pix_out` of one pixel when `gamut_map_HSB` is called. -/
def apply_corrections (pix_out : Nat → α) (hue_offset sat_gain b_correction : α) : Nat → α :=
  fun c =>
    match c with
    | 0 => pix_out 0 + hue_offset
    | 1 => max 0 (pix_out 1 * (1 + 1.5 * (sat_gain - 1)))
    | 2 => max 0 (pix_out 2 * (1 + 6 * b_correction))
    | _ => pix_out c

/-- One pixel of the loop for `mask_mode == 0`: corrections, gamut mapping and
conversion back to RGB. -/
def process_pixel_rgb (E : ColorLib α) (d : dt_iop_colorequal_data_t α) (white : α)
    (output_matrix : Nat → Nat → α) (pix_out : Nat → α)
    (hue_offset sat_gain b_correction : α) : Nat → α :=
  let mapped := E.gamut_map_HSB (apply_corrections pix_out hue_offset sat_gain b_correction)
    d.gamut_LUT white
  E.dot_product (E.dt_UCS_HSB_to_XYZ mapped white) output_matrix mapped

/-- One pixel of the loop for `mask_mode != 0`; `mode = mask_mode - 1` and
`B_norm` is already `1.5f / B_norm`. -/
def process_pixel_mask (mode : Int) (B_norm : α) (pix_out : Nat → α)
    (hue_offset sat_gain b_correction weight : α) : Nat → α :=
  let val := pix_out 2 * B_norm
  let corr :=
    if mode = 2 then 6 * b_correction
    else if mode = 1 then sat_gain - 1
    else if mode = 0 then 0.2 * hue_offset
    else 0.5 * (weight - 0.5)
  let neg : Bool := decide (corr < 0)
  let corr := |corr|
  fun c =>
    match c with
    | 0 => max 0 (if neg then val - corr else val)
    | 1 => max 0 (if neg then val - corr else val - corr)
    | 2 => max 0 (if neg then val else val - corr)
    | _ => pix_out c

/-- `input_matrix` of STEP 0. -/
def process_input_matrix (E : ColorLib α) (wp : dt_iop_order_iccprofile_info_t α) :
    Nat → Nat → α :=
  E.dt_colormatrix_mul E.XYZ_D50_to_D65_CAT16 wp.matrix_in

/-- `output_matrix` of STEP 0. -/
def process_output_matrix (E : ColorLib α) (wp : dt_iop_order_iccprofile_info_t α) :
    Nat → Nat → α :=
  E.dt_colormatrix_mul wp.matrix_out E.XYZ_D65_to_D50_CAT16

/-- `white = Y_to_dt_UCS_L_star(d->white_level)`. -/
def process_white (E : ColorLib α) (d : dt_iop_colorequal_data_t α) : α :=
  E.Y_to_dt_UCS_L_star d.white_level

/-- `weights` after the blur that follows STEP 1. -/
def process_weights (E : ColorLib α) (G : GaussianLib α)
    (wp : dt_iop_order_iccprofile_info_t α) (inp : Nat → α) (roi_out : dt_iop_roi_t α) :
    Nat → α :=
  _mean_gaussian G
    (process_weights0 E (process_input_matrix E wp) inp (roi_out.width * roi_out.height))
    roi_out.width roi_out.height 1 roi_out.scale

/-- `UV` when STEP 3 starts: prefiltered when `d->use_filter` is set. -/
def process_UV (E : ColorLib α) (G : GaussianLib α) (B : Bilinear α)
    (d : dt_iop_colorequal_data_t α) (wp : dt_iop_order_iccprofile_info_t α)
    (inp : Nat → α) (roi_out : dt_iop_roi_t α) : Nat → α :=
  if d.use_filter then
    _prefilter_chromaticity G B
      (process_UV0 E (process_input_matrix E wp) inp (roi_out.width * roi_out.height))
      (process_weights E G wp inp roi_out) roi_out d.chroma_size d.chroma_feathering
  else process_UV0 E (process_input_matrix E wp) inp (roi_out.width * roi_out.height)

/-- The output buffer after the loop of STEP 3: the HSB triple converted from
each input pixel, and its alpha. -/
def process_out_hsb (E : ColorLib α) (G : GaussianLib α) (B : Bilinear α)
    (d : dt_iop_colorequal_data_t α) (wp : dt_iop_order_iccprofile_info_t α)
    (inp out : Nat → α) (roi_out : dt_iop_roi_t α) : Nat → α :=
  process_out3 E (process_white E d) (process_UV E G B d wp inp roi_out)
    (process_L E (process_input_matrix E wp) inp (roi_out.width * roi_out.height))
    inp out (roi_out.width * roi_out.height)

/-- `corrections` and `b_corrections` when the corrections are applied: the
looked-up values, passed through `_guide_with_chromaticity` when
`d->use_filter` is set. -/
def process_corrections (E : ColorLib α) (G : GaussianLib α) (B : Bilinear α)
    (d : dt_iop_colorequal_data_t α) (wp : dt_iop_order_iccprofile_info_t α)
    (inp out : Nat → α) (roi_out : dt_iop_roi_t α) : GuideBuffers α :=
  let looked := process_lookup E d (process_white E d) (process_UV E G B d wp inp roi_out)
    (process_L E (process_input_matrix E wp) inp (roi_out.width * roi_out.height))
    out (roi_out.width * roi_out.height)
  if d.use_filter then
    _guide_with_chromaticity G B looked (process_weights E G wp inp roi_out) roi_out
      d.param_size d.param_feathering
  else looked

/-- `process` : the content of the output buffer `o` after the call.  `colors`
is `piece->colors`, `gui_mask_mode` is `g->mask_mode` (`none` when `g` is
`NULL`), `fullpipe` the test on the pipe type, `work_profile` the result of
`dt_ioppr_get_pipe_current_profile_info` (`none` for `NULL`). -/
def process (E : ColorLib α) (G : GaussianLib α) (B : Bilinear α)
    (d : dt_iop_colorequal_data_t α) (colors : Nat) (gui_mask_mode : Option Int)
    (fullpipe : Bool) (work_profile : Option (dt_iop_order_iccprofile_info_t α))
    (inp out : Nat → α) (roi_out : dt_iop_roi_t α) : Nat → α :=
  if colors ≠ 4 then out
  else
    let mask_mode : Int :=
      match gui_mask_mode with
      | some m => if fullpipe then m else 0
      | none => 0
    let npixels := roi_out.width * roi_out.height
    match work_profile with
    | none => out
    | some wp =>
      let out3 := process_out_hsb E G B d wp inp out roi_out
      let bufs := process_corrections E G B d wp inp out roi_out
      if mask_mode = 0 then
        forPixels 4 npixels (fun k c =>
          process_pixel_rgb E d (process_white E d) (process_output_matrix E wp)
            (pixel_at out3 4 k)
            (bufs.corrections (2 * k + 0)) (bufs.corrections (2 * k + 1))
            (bufs.b_corrections k) c) out3
      else
        forPixels 4 npixels (fun k c =>
          process_pixel_mask (mask_mode - 1)
            (1.5 / process_B_norm E (process_white E d) (process_UV E G B d wp inp roi_out)
              (process_L E (process_input_matrix E wp) inp npixels) out npixels)
            (pixel_at out3 4 k)
            (bufs.corrections (2 * k + 0)) (bufs.corrections (2 * k + 1))
            (bufs.b_corrections k) (process_weights E G wp inp roi_out k) c) out3

/-! ## `commit_params` -/

/-- The fields of `dt_iop_colorequal_params_t` (without the reserved ones). -/
structure dt_iop_colorequal_params_t (α : Type) where
  smoothing_hue : α
  white_level : α
  chroma_size : α
  param_size : α
  use_filter : Bool
  sat_red : α
  sat_orange : α
  sat_yellow : α
  sat_green : α
  sat_cyan : α
  sat_blue : α
  sat_lavender : α
  sat_magenta : α
  hue_red : α
  hue_orange : α
  hue_yellow : α
  hue_green : α
  hue_cyan : α
  hue_blue : α
  hue_lavender : α
  hue_magenta : α
  bright_red : α
  bright_orange : α
  bright_yellow : α
  bright_green : α
  bright_cyan : α
  bright_blue : α
  bright_lavender : α
  bright_magenta : α
  hue_shift : α

/-- `_pack_saturation`. -/
def _pack_saturation (p : dt_iop_colorequal_params_t α) : Fin NODES → α :=
  ![p.sat_red, p.sat_orange, p.sat_yellow, p.sat_green, p.sat_cyan, p.sat_blue,
    p.sat_lavender, p.sat_magenta]

/-- `_pack_hue` : the hue nodes, converted to radians. -/
def _pack_hue (M_PI_F : α) (p : dt_iop_colorequal_params_t α) : Fin NODES → α :=
  fun i =>
    (![p.hue_red, p.hue_orange, p.hue_yellow, p.hue_green, p.hue_cyan, p.hue_blue,
      p.hue_lavender, p.hue_magenta] i) / 180 * M_PI_F

/-- `_pack_brightness`. -/
def _pack_brightness (p : dt_iop_colorequal_params_t α) : Fin NODES → α :=
  ![p.bright_red, p.bright_orange, p.bright_yellow, p.bright_green, p.bright_cyan,
    p.bright_blue, p.bright_lavender, p.bright_magenta]

/-- `commit_params` : the content of `piece->data` after the call.  `exp2f` and
`powf` are those of `<math.h>`; `work_profile` is the result of
`dt_ioppr_get_pipe_current_profile_info` (`none` for `NULL`). -/
def commit_params (expf cosf sqrtf exp2f : α → α) (powf : α → α → α) (M_PI_F : α)
    (pseudo_solve : (Fin NODES → Fin NODES → α) → (Fin NODES → α) → (Fin NODES → α))
    (LUT_ELEM : Nat) (E : ColorLib α) (p : dt_iop_colorequal_params_t α)
    (work_profile : Option (dt_iop_order_iccprofile_info_t α))
    (d : dt_iop_colorequal_data_t α) : dt_iop_colorequal_data_t α :=
  let d : dt_iop_colorequal_data_t α :=
    { d with
      white_level := exp2f p.white_level
      chroma_size := p.chroma_size
      chroma_feathering := powf 10 (-5)
      param_size := p.param_size
      param_feathering := powf 10 (-6)
      use_filter := p.use_filter
      hue_shift := p.hue_shift }
  let d : dt_iop_colorequal_data_t α :=
    { d with
      LUT_saturation := _periodic_RBF_interpolate expf cosf sqrtf M_PI_F pseudo_solve LUT_ELEM
        (_pack_saturation p) M_PI_F d.LUT_saturation d.hue_shift true }
  let d : dt_iop_colorequal_data_t α :=
    { d with
      LUT_hue := _periodic_RBF_interpolate expf cosf sqrtf M_PI_F pseudo_solve LUT_ELEM
        (_pack_hue M_PI_F p) (1 / p.smoothing_hue * M_PI_F) d.LUT_hue d.hue_shift false }
  let d : dt_iop_colorequal_data_t α :=
    { d with
      LUT_brightness := _periodic_RBF_interpolate expf cosf sqrtf M_PI_F pseudo_solve LUT_ELEM
        (_pack_brightness p) M_PI_F d.LUT_brightness d.hue_shift true }
  match work_profile with
  | none => d
  | some wp =>
    let d : dt_iop_colorequal_data_t α :=
      if some wp.addr ≠ d.work_profile then
        { d with lut_inited := false, work_profile := some wp.addr }
      else d
    if !d.lut_inited then
      { d with
        gamut_LUT := E.dt_UCS_22_build_gamut_LUT
          (E.dt_colormatrix_mul E.XYZ_D50_to_D65_CAT16 wp.matrix_in) d.gamut_LUT
        lut_inited := true }
    else d

/-! ## Assumptions on the external blur and resampling, and stand-ins for them -/

/-- The blur maps a constant channel to the same constant: if channel `c` of
every one of the `width * height` pixels holds `x`, it still does afterwards. -/
def BlurKeepsFlat (G : GaussianLib α) : Prop :=
  ∀ (buf : Nat → α) (width height ch : Nat) (sigma : α) (c : Nat) (x : α), c < ch →
    (∀ k, k < width * height → buf (ch * k + c) = x) →
    ∀ k, k < width * height → _mean_gaussian G buf width height ch sigma (ch * k + c) = x

/-- The bilinear resampling maps a constant channel of a non-empty image to the
same constant. -/
def BilinearKeepsFlat (B : Bilinear α) : Prop :=
  ∀ (src : Nat → α) (sw sh dw dh ch c : Nat) (x : α), c < ch → 0 < sw → 0 < sh →
    (∀ k, k < sw * sh → src (ch * k + c) = x) →
    ∀ k, k < dw * dh → B src sw sh dw dh ch (ch * k + c) = x

/-- Modelled from the spec: `gaussianBlur(buffer, width, height, channels,
sigma)`, the in-place blur whose code is not part of this file.  A stand-in used
to evaluate the filters on concrete images: the weighted local average is
replaced by the plain average of the channel over the whole image. -/
def mean_blur (width height ch : Nat) (buf : Nat → α) : Nat → α :=
  fun i =>
    if i < ch * (width * height) then
      (∑ k in range (width * height), buf (ch * k + i % ch)) / ((width * height : Nat) : α)
    else buf i

/-- The blur library whose blur is `mean_blur`, for every `sigma`. -/
def meanGaussian : GaussianLib α where
  dt_gaussian_t := Nat × Nat × Nat
  dt_gaussian_init := fun width height ch _ => some (width, height, ch)
  dt_gaussian_blur := fun g buf => mean_blur g.1 g.2.1 g.2.2 buf
  dt_gaussian_blur_4c := fun g buf => mean_blur g.1 g.2.1 g.2.2 buf

/-- Modelled from the spec: `bilinearResample(src, srcW, srcH, dst, dstW, dstH,
channels)`, whose code is not part of this file.  A stand-in used to evaluate the
filters on concrete images: every destination pixel takes the source pixel at
the proportional position. -/
def nearest_resample : Bilinear α :=
  fun src sw sh dw dh ch i =>
    src (ch * (((i / ch) / dw * sh / dh) * sw + ((i / ch) % dw * sw / dw)) + i % ch)

/-- A stand-in for the colour library, used to evaluate `process` on concrete
inputs along paths that do not depend on it: the conversions copy their
argument, the matrix product returns its first factor, table lookups return the
entry 0 and the gamut table is left as it is. -/
def copyColorLib : ColorLib α where
  XYZ_D50_to_D65_CAT16 := fun i j => if i = j then 1 else 0
  XYZ_D65_to_D50_CAT16 := fun i j => if i = j then 1 else 0
  dt_colormatrix_mul := fun m _ => m
  dot_product := fun v _ old => fun c => if c < 3 then v c else old c
  dt_D65_XYZ_to_xyY := fun v => v
  xyY_to_dt_UCS_UV := fun v => v
  Y_to_dt_UCS_L_star := fun y => y
  dt_UCS_LUV_to_JCH := fun L _ uv => fun c => if c = 0 then L else uv (c - 1)
  dt_UCS_JCH_to_HSB := fun v old => fun c => if c < 3 then v c else old c
  lookup_gamut := fun LUT _ => LUT 0
  gamut_map_HSB := fun v _ _ => v
  dt_UCS_HSB_to_XYZ := fun v _ => v
  dt_fast_expf := fun _ => 1
  dt_UCS_22_build_gamut_LUT := fun _ LUT => LUT

/-- Module data with neutral tables, filtering enabled. -/
def neutral_data : dt_iop_colorequal_data_t α where
  LUT_saturation := fun _ => 1
  LUT_hue := fun _ => 0
  LUT_brightness := fun _ => 1
  gamut_LUT := fun _ => 1
  lut_inited := true
  white_level := 1
  chroma_size := 1.5
  chroma_feathering := 1e-5
  param_size := 1
  param_feathering := 1e-6
  use_filter := true
  work_profile := none
  hue_shift := 0

/-- Parameters with every node neutral (saturation and brightness 1, hue 0),
the guided filter disabled, the other fields at their defaults, and the given
node placement. -/
def identity_params (hue_shift : α) : dt_iop_colorequal_params_t α where
  smoothing_hue := 1
  white_level := 1
  chroma_size := 1.5
  param_size := 1
  use_filter := false
  sat_red := 1
  sat_orange := 1
  sat_yellow := 1
  sat_green := 1
  sat_cyan := 1
  sat_blue := 1
  sat_lavender := 1
  sat_magenta := 1
  hue_red := 0
  hue_orange := 0
  hue_yellow := 0
  hue_green := 0
  hue_cyan := 0
  hue_blue := 0
  hue_lavender := 0
  hue_magenta := 0
  bright_red := 1
  bright_orange := 1
  bright_yellow := 1
  bright_green := 1
  bright_cyan := 1
  bright_blue := 1
  bright_lavender := 1
  bright_magenta := 1
  hue_shift := hue_shift

/-- A stand-in for `pseudo_solve` on systems whose right-hand side is constant
and whose matrix has rows of equal sum (the kernel matrix of equally spaced
nodes): the solution is the constant `y₀ / Σ_j A₀ⱼ`. -/
def row_sum_solve (A : Fin NODES → Fin NODES → α) (y : Fin NODES → α) : Fin NODES → α :=
  fun _ => y 0 / ∑ j : Fin NODES, A 0 j

/-! ## `init_pipe`, and the calls a pipe makes during its life -/

/-- `init_pipe` : the content of `piece->data` after the call.  The structure
comes zeroed from `dt_calloc_aligned`; the four tables are fresh allocations,
whose content is whatever the allocator returns (the four arguments); then
`d->lut_inited = FALSE` and `d->work_profile = NULL`. -/
def init_pipe (LUT_saturation LUT_hue LUT_brightness gamut_LUT : Nat → α) :
    dt_iop_colorequal_data_t α where
  LUT_saturation := LUT_saturation
  LUT_hue := LUT_hue
  LUT_brightness := LUT_brightness
  gamut_LUT := gamut_LUT
  lut_inited := false
  white_level := 0
  chroma_size := 0
  chroma_feathering := 0
  param_size := 0
  param_feathering := 0
  use_filter := false
  work_profile := none
  hue_shift := 0

/-- A sequence of `commit_params` calls on the same `piece->data`, each with its
own parameters and current working profile, in the order of the list. -/
def commit_sequence (expf cosf sqrtf exp2f : α → α) (powf : α → α → α) (M_PI_F : α)
    (pseudo_solve : (Fin NODES → Fin NODES → α) → (Fin NODES → α) → (Fin NODES → α))
    (LUT_ELEM : Nat) (E : ColorLib α)
    (calls : List (dt_iop_colorequal_params_t α × Option (dt_iop_order_iccprofile_info_t α)))
    (d : dt_iop_colorequal_data_t α) : dt_iop_colorequal_data_t α :=
  calls.foldl (fun d call =>
    commit_params expf cosf sqrtf exp2f powf M_PI_F pseudo_solve LUT_ELEM E call.1 call.2 d) d

/-- The address of the working profile of the latest call of the sequence that
had one (`none` when no call had a profile). -/
def last_profile
    (calls : List (dt_iop_colorequal_params_t α × Option (dt_iop_order_iccprofile_info_t α))) :
    Option Nat :=
  calls.foldl (fun last call =>
    match call.2 with
    | none => last
    | some wp => some wp.addr) none

/-- A blur library that shows which standard deviation a blur is asked for:
`dt_gaussian_init` keeps `sigma` as the handle and the blurred buffer holds
`sigma` in every slot. -/
def sigmaProbe : GaussianLib α where
  dt_gaussian_t := α
  dt_gaussian_init := fun _ _ _ sigma => some sigma
  dt_gaussian_blur := fun g _ => fun _ => g
  dt_gaussian_blur_4c := fun g _ => fun _ => g

/-! ## Further stand-ins and named quantities -/

/-- The signed correction `corr` of one pixel in the loop for `mask_mode != 0`,
before `neg` and `fabsf` are taken: the `switch(mode)` over `BRIGHTNESS = 2`,
`SATURATION = 1`, `HUE = 0` and the default. -/
def mask_corr (mode : Int) (hue_offset sat_gain b_correction weight : α) : α :=
  if mode = 2 then 6 * b_correction
  else if mode = 1 then sat_gain - 1
  else if mode = 0 then 0.2 * hue_offset
  else 0.5 * (weight - 0.5)

/-- Modelled from the spec: `lookup_gamut(LUT, hue)` of
`common/darktable_ucs_22_helpers.h`, which is not part of this file.  The spec
gives the lookup as taken at the hue "wrapped into [-180°,180°) and linearly
interpolated between the two nearest integer-degree table entries, treating the
table as circular": `x` is the hue in degrees above -180°, wrapped into
`[0, 360)`, and the result blends the entries `⌊x⌋` and `⌊x⌋ + 1`. -/
def lookup_gamut (M_PI_F : α) (LUT : Nat → α) (hue : α) : α :=
  let x := (hue + M_PI_F) * 180 / M_PI_F
  let x := x - 360 * ((Int.floor (x / 360) : ℤ) : α)
  let lo := (Int.floor x).toNat
  LUT lo + (x - (lo : α)) * (LUT ((lo + 1) % 360) - LUT lo)

/-- The stand-in `copyColorLib` with the table lookup of the spec. -/
def lookupColorLib (M_PI_F : α) : ColorLib α :=
  { (copyColorLib : ColorLib α) with lookup_gamut := lookup_gamut M_PI_F }

/-- A stand-in for `pseudo_solve` on systems whose right-hand side is a multiple
of the first column of the matrix: the solution is that multiple of the first
unit vector. -/
def first_column_solve (A : Fin NODES → Fin NODES → α) (y : Fin NODES → α) : Fin NODES → α :=
  fun j => if j = 0 then y 0 / A 0 0 else 0

/-- Parameters whose hue nodes, in degrees, are the first column of the kernel
matrix of the hue table divided by its first entry (1 degree at the red node);
the guided filter is disabled and the other fields are those of
`identity_params`. -/
def first_column_params (expf cosf sqrtf : α → α) (M_PI_F hue_shift : α) :
    dt_iop_colorequal_params_t α :=
  { identity_params hue_shift with
    hue_red := 1
    hue_orange := rbf_A expf cosf sqrtf M_PI_F M_PI_F hue_shift 1 0
      / rbf_A expf cosf sqrtf M_PI_F M_PI_F hue_shift 0 0
    hue_yellow := rbf_A expf cosf sqrtf M_PI_F M_PI_F hue_shift 2 0
      / rbf_A expf cosf sqrtf M_PI_F M_PI_F hue_shift 0 0
    hue_green := rbf_A expf cosf sqrtf M_PI_F M_PI_F hue_shift 3 0
      / rbf_A expf cosf sqrtf M_PI_F M_PI_F hue_shift 0 0
    hue_cyan := rbf_A expf cosf sqrtf M_PI_F M_PI_F hue_shift 4 0
      / rbf_A expf cosf sqrtf M_PI_F M_PI_F hue_shift 0 0
    hue_blue := rbf_A expf cosf sqrtf M_PI_F M_PI_F hue_shift 5 0
      / rbf_A expf cosf sqrtf M_PI_F M_PI_F hue_shift 0 0
    hue_lavender := rbf_A expf cosf sqrtf M_PI_F M_PI_F hue_shift 6 0
      / rbf_A expf cosf sqrtf M_PI_F M_PI_F hue_shift 0 0
    hue_magenta := rbf_A expf cosf sqrtf M_PI_F M_PI_F hue_shift 7 0
      / rbf_A expf cosf sqrtf M_PI_F M_PI_F hue_shift 0 0 }

/-- Modelled from the spec: `gaussianBlur(buffer, width, height, channels,
sigma)`, the in-place blur whose code is not part of this file.  A second
stand-in used to evaluate the filters on concrete images, local unlike
`mean_blur`: every pixel takes the average of itself and of the next pixel of
the buffer, channel by channel, and the last pixel keeps its value. -/
def pair_blur (width height ch : Nat) (buf : Nat → α) : Nat → α :=
  fun i => if i + ch < ch * (width * height) then (buf i + buf (i + ch)) / 2 else buf i

/-- The blur library whose blur is `pair_blur`, for every `sigma`. -/
def pairGaussian : GaussianLib α where
  dt_gaussian_t := Nat × Nat × Nat
  dt_gaussian_init := fun width height ch _ => some (width, height, ch)
  dt_gaussian_blur := fun g buf => pair_blur g.1 g.2.1 g.2.2 buf
  dt_gaussian_blur_4c := fun g buf => pair_blur g.1 g.2.1 g.2.2 buf

/-- The covariance of pixel `k` is symmetric and positive semidefinite
(`varU, varV ≥ 0` and `covUV² ≤ varU·varV`) with both variances at most `6e-4`. -/
def small_psd_covariance (covariance : Nat → α) (k : Nat) : Prop :=
  covariance (4 * k + 2) = covariance (4 * k + 1)
  ∧ 0 ≤ covariance (4 * k + 0) ∧ 0 ≤ covariance (4 * k + 3)
  ∧ covariance (4 * k + 0) ≤ 6e-4 ∧ covariance (4 * k + 3) ≤ 6e-4
  ∧ covariance (4 * k + 1) * covariance (4 * k + 1)
      ≤ covariance (4 * k + 0) * covariance (4 * k + 3)

end Model

/-! ## Theorems -/

section Theorems

variable {α : Type} [LinearOrderedField α]

/-- Evaluating the interpolant at a node is a row of `A` times the coefficients. -/
lemma rbf_eval_node [FloorRing α] (expf cosf sqrtf : α → α) (M_PI_F : α) (x : Fin NODES → α)
    (smoothing hue_shift : α) (i : Fin NODES) :
    rbf_eval expf cosf sqrtf M_PI_F x smoothing hue_shift false
        (_get_hue_node M_PI_F i hue_shift)
      = ∑ k : Fin NODES, rbf_A expf cosf sqrtf M_PI_F smoothing hue_shift i k * x k := by
  simp only [rbf_eval, rbf_A, Bool.false_eq_true, if_false]
  exact Finset.sum_congr rfl (fun k _ => mul_comm _ _)

/-- With `clip` set the value is the unclipped one bounded below by 0. -/
lemma rbf_eval_clip [FloorRing α] (expf cosf sqrtf : α → α) (M_PI_F : α) (x : Fin NODES → α)
    (smoothing hue_shift hue : α) :
    rbf_eval expf cosf sqrtf M_PI_F x smoothing hue_shift true hue
      = max 0 (rbf_eval expf cosf sqrtf M_PI_F x smoothing hue_shift false hue) := by
  simp [rbf_eval]

/-- The series is even and 2π-periodic in the hue difference (real cosine). -/
lemma rbf_series_add_two_pi (expf sqrtf : ℝ → ℝ) (smoothing h θ : ℝ) :
    rbf_series expf Real.cos sqrtf smoothing (h + 2 * Real.pi) θ
      = rbf_series expf Real.cos sqrtf smoothing h θ := by
  unfold rbf_series
  refine Finset.sum_congr rfl (fun l _ => ?_)
  have hcos : ∀ d : ℝ, Real.cos ((l : ℝ) * |d|) = Real.cos ((l : ℝ) * d) := by
    intro d
    have h1 : (l : ℝ) * |d| = |(l : ℝ) * d| := by
      rw [abs_mul, abs_of_nonneg (show (0 : ℝ) ≤ (l : ℝ) from Nat.cast_nonneg l)]
    rw [h1, Real.cos_abs]
  rw [hcos, hcos]
  have h2 : (l : ℝ) * (h + 2 * Real.pi - θ) = (l : ℝ) * (h - θ) + l * (2 * Real.pi) := by ring
  rw [h2, Real.cos_add_nat_mul_two_pi]

/-- C1. Exact interpolation by `_periodic_RBF_interpolate`: whenever the
coefficients `x` returned by the solver satisfy `A·x = y`, the function used to
fill the table takes the value `y i` at the angle of node `i`, for every node
(with `clip` set, for `y i ≥ 0`); this holds for every smoothing and hue shift.
For the nodes `{1.2, 1, …, 1}` and hue shift 0 the value at the red node (20°)
is 1.2 and the value at the opposite node (200°) is 1, which is closer to 1 than
to 1.2. -/
theorem C1_exact_interpolation [FloorRing α] (expf cosf sqrtf : α → α) (M_PI_F : α)
    (pseudo_solve : (Fin NODES → Fin NODES → α) → (Fin NODES → α) → (Fin NODES → α))
    (y : Fin NODES → α) (smoothing hue_shift : α) (clip : Bool)
    (hsolve : ∀ i : Fin NODES,
      ∑ k : Fin NODES, rbf_A expf cosf sqrtf M_PI_F smoothing hue_shift i k
        * pseudo_solve (rbf_A expf cosf sqrtf M_PI_F smoothing hue_shift) y k = y i) :
    (∀ i : Fin NODES, (clip = true → 0 ≤ y i) →
      rbf_eval expf cosf sqrtf M_PI_F
        (pseudo_solve (rbf_A expf cosf sqrtf M_PI_F smoothing hue_shift) y)
        smoothing hue_shift clip (_get_hue_node M_PI_F i hue_shift) = y i)
    ∧ (y = ![1.2, 1, 1, 1, 1, 1, 1, 1] → hue_shift = 0 →
        _get_hue_node M_PI_F 0 hue_shift = 20 * M_PI_F / 180
        ∧ _get_hue_node M_PI_F 4 hue_shift = 200 * M_PI_F / 180
        ∧ rbf_eval expf cosf sqrtf M_PI_F
            (pseudo_solve (rbf_A expf cosf sqrtf M_PI_F smoothing hue_shift) y)
            smoothing hue_shift clip (20 * M_PI_F / 180) = 1.2
        ∧ rbf_eval expf cosf sqrtf M_PI_F
            (pseudo_solve (rbf_A expf cosf sqrtf M_PI_F smoothing hue_shift) y)
            smoothing hue_shift clip (200 * M_PI_F / 180) = 1
        ∧ |rbf_eval expf cosf sqrtf M_PI_F
            (pseudo_solve (rbf_A expf cosf sqrtf M_PI_F smoothing hue_shift) y)
            smoothing hue_shift clip (200 * M_PI_F / 180) - 1|
          < |rbf_eval expf cosf sqrtf M_PI_F
            (pseudo_solve (rbf_A expf cosf sqrtf M_PI_F smoothing hue_shift) y)
            smoothing hue_shift clip (200 * M_PI_F / 180) - 1.2|) := by
  have main : ∀ i : Fin NODES, (clip = true → 0 ≤ y i) →
      rbf_eval expf cosf sqrtf M_PI_F
        (pseudo_solve (rbf_A expf cosf sqrtf M_PI_F smoothing hue_shift) y)
        smoothing hue_shift clip (_get_hue_node M_PI_F i hue_shift) = y i := by
    intro i hclip
    cases clip with
    | false => rw [rbf_eval_node, hsolve]
    | true => rw [rbf_eval_clip, rbf_eval_node, hsolve, max_eq_right (hclip rfl)]
  refine ⟨main, ?_⟩
  intro hy hs
  have n0 : _get_hue_node M_PI_F 0 hue_shift = 20 * M_PI_F / 180 := by
    simp [_get_hue_node, _deg_to_rad, ANGLE_SHIFT, hs]
  have n4 : _get_hue_node M_PI_F 4 hue_shift = 200 * M_PI_F / 180 := by
    simp only [_get_hue_node, _deg_to_rad, ANGLE_SHIFT, hs]
    norm_num
  have y0 : y 0 = 1.2 := by rw [hy]; rfl
  have y4 : y 4 = 1 := by rw [hy]; rfl
  have v0 := main 0 (fun _ => by rw [y0]; norm_num)
  have v4 := main 4 (fun _ => by rw [y4]; norm_num)
  have e0 : ((0 : Fin NODES) : ℕ) = 0 := rfl
  have e4 : ((4 : Fin NODES) : ℕ) = 4 := rfl
  rw [e0] at v0
  rw [e4] at v4
  rw [n0] at v0
  rw [n4] at v4
  rw [y0] at v0
  rw [y4] at v4
  refine ⟨n0, n4, v0, v4, ?_⟩
  rw [v4]
  norm_num

/-- Witness for C1: the node values are the first column of `A` (real `exp`,
`cos`, `sqrt`, smoothing π, hue shift 0) and the solver returns the first unit
vector. -/
theorem C1_exact_interpolation_witness :
    (∀ i : Fin NODES,
      ∑ k : Fin NODES, rbf_A Real.exp Real.cos Real.sqrt Real.pi Real.pi 0 i k
        * (fun k : Fin NODES => if k = 0 then (1 : ℝ) else 0) k
        = rbf_A Real.exp Real.cos Real.sqrt Real.pi Real.pi 0 i 0)
    ∧ (∀ i : Fin NODES,
      rbf_eval Real.exp Real.cos Real.sqrt Real.pi
        (fun k : Fin NODES => if k = 0 then (1 : ℝ) else 0)
        Real.pi 0 true (_get_hue_node Real.pi i 0)
        = rbf_A Real.exp Real.cos Real.sqrt Real.pi Real.pi 0 i 0) :=
  have hs : ∀ i : Fin NODES,
      ∑ k : Fin NODES, rbf_A Real.exp Real.cos Real.sqrt Real.pi Real.pi 0 i k
        * (fun k : Fin NODES => if k = 0 then (1 : ℝ) else 0) k
        = rbf_A Real.exp Real.cos Real.sqrt Real.pi Real.pi 0 i 0 := by
    intro i
    simp
  ⟨hs, fun i => (C1_exact_interpolation Real.exp Real.cos Real.sqrt Real.pi
      (fun _ _ => fun k : Fin NODES => if k = 0 then (1 : ℝ) else 0)
      (fun i => rbf_A Real.exp Real.cos Real.sqrt Real.pi Real.pi 0 i 0)
      Real.pi 0 true hs).1 i (fun _ => by unfold rbf_A; exact (Real.exp_pos _).le)⟩

/-- C8. Periodicity of the table: for every coefficient vector, smoothing and
hue shift the function sampled by `_periodic_RBF_interpolate` takes the same
value at `h` and at `h + 2π` (real cosine, `M_PI_F = π`); in particular its
values at −180° and +180° agree.  Entry 0 of the table is its value at −180°
and, in a table of the 361 entries that the specification gives it, entry 360
is its value at +180°. -/
theorem C8_periodic (expf sqrtf : ℝ → ℝ)
    (pseudo_solve : (Fin NODES → Fin NODES → ℝ) → (Fin NODES → ℝ) → (Fin NODES → ℝ))
    (x : Fin NODES → ℝ) (smoothing hue_shift : ℝ) (clip : Bool) (LUT : Nat → ℝ) :
    (∀ h : ℝ,
      rbf_eval expf Real.cos sqrtf Real.pi x smoothing hue_shift clip (h + 2 * Real.pi)
        = rbf_eval expf Real.cos sqrtf Real.pi x smoothing hue_shift clip h)
    ∧ rbf_eval expf Real.cos sqrtf Real.pi x smoothing hue_shift clip (-Real.pi)
        = rbf_eval expf Real.cos sqrtf Real.pi x smoothing hue_shift clip Real.pi
    ∧ lut_hue Real.pi 0 = -Real.pi ∧ lut_hue Real.pi 360 = Real.pi
    ∧ _periodic_RBF_interpolate expf Real.cos sqrtf Real.pi pseudo_solve 361 x
          smoothing LUT hue_shift clip 0
        = _periodic_RBF_interpolate expf Real.cos sqrtf Real.pi pseudo_solve 361 x
          smoothing LUT hue_shift clip 360 := by
  have per : ∀ (c : Fin NODES → ℝ) (h : ℝ),
      rbf_eval expf Real.cos sqrtf Real.pi c smoothing hue_shift clip (h + 2 * Real.pi)
        = rbf_eval expf Real.cos sqrtf Real.pi c smoothing hue_shift clip h := by
    intro c h
    simp only [rbf_eval, rbf_series_add_two_pi]
  have wrap : ∀ c : Fin NODES → ℝ,
      rbf_eval expf Real.cos sqrtf Real.pi c smoothing hue_shift clip (-Real.pi)
        = rbf_eval expf Real.cos sqrtf Real.pi c smoothing hue_shift clip Real.pi := by
    intro c
    have h := per c (-Real.pi)
    have e : -Real.pi + 2 * Real.pi = Real.pi := by ring
    rw [e] at h
    exact h.symm
  have l0 : lut_hue Real.pi 0 = -Real.pi := by simp [lut_hue]
  have l360 : lut_hue Real.pi 360 = Real.pi := by
    simp only [lut_hue]; push_cast; ring
  refine ⟨per x, wrap x, l0, l360, ?_⟩
  simp only [_periodic_RBF_interpolate, l0, l360, show (0 : ℕ) < 361 by norm_num,
    show (360 : ℕ) < 361 by norm_num, if_true]
  exact wrap _

/-! ### The guided filters: per-pixel coefficients -/

/-- What a pixel loop leaves at offset `ch * k + c`. -/
lemma forPixels_apply {β : Type} (ch n : Nat) (f : Nat → Nat → β) (old : Nat → β) (k c : Nat)
    (hk : k < n) (hc : c < ch) : forPixels ch n f old (ch * k + c) = f k c := by
  have h1 : ch * k + c < ch * n := by
    calc ch * k + c < ch * k + ch := by omega
      _ = ch * (k + 1) := by ring
      _ ≤ ch * n := Nat.mul_le_mul_left ch hk
  have h2 : (ch * k + c) / ch = k := by
    rw [Nat.mul_add_div (by omega), Nat.div_eq_of_lt hc, Nat.add_zero]
  have h3 : (ch * k + c) % ch = c := by
    rw [Nat.mul_add_mod, Nat.mod_eq_of_lt hc]
  simp only [forPixels, h1, if_true, h2, h3]

/-- A pixel loop leaves the buffer alone beyond its `n` pixels. -/
lemma forPixels_beyond {β : Type} (ch n : Nat) (f : Nat → Nat → β) (old : Nat → β) (i : Nat)
    (hi : ch * n ≤ i) : forPixels ch n f old i = old i := by
  simp only [forPixels, if_neg (not_lt.mpr hi)]

/-- C9. Regularisation makes the 2×2 matrix invertible: both filters add
`epsilon` to the two diagonal entries of the local covariance before taking the
determinant, and for a symmetric covariance with non-negative variances and
`covUV² ≤ varU·varV` and `epsilon > 0` the determinant
`(varU+ε)(varV+ε) − covUV²` is at least `ε² > 0` in `_prefilter_chromaticity`
and in `_guide_with_chromaticity` (where it is further bounded below by
`1e-15`), so the divisions by `det` are not divisions by zero. -/
theorem C9_regularised_det_pos (covariance : Nat → α) (epsilon : α) (k : Nat)
    (hsym : covariance (4 * k + 2) = covariance (4 * k + 1))
    (hU : 0 ≤ covariance (4 * k + 0)) (hV : 0 ≤ covariance (4 * k + 3))
    (hcs : covariance (4 * k + 1) ^ 2 ≤ covariance (4 * k + 0) * covariance (4 * k + 3))
    (heps : 0 < epsilon) :
    Sigma covariance epsilon k 0 = covariance (4 * k + 0) + epsilon
    ∧ Sigma covariance epsilon k 3 = covariance (4 * k + 3) + epsilon
    ∧ prefilter_det covariance epsilon k
        = (covariance (4 * k + 0) + epsilon) * (covariance (4 * k + 3) + epsilon)
          - covariance (4 * k + 1) ^ 2
    ∧ 0 < epsilon ^ 2
    ∧ epsilon ^ 2 ≤ prefilter_det covariance epsilon k
    ∧ epsilon ^ 2 ≤ guide_det covariance epsilon k
    ∧ prefilter_det covariance epsilon k ≠ 0
    ∧ guide_det covariance epsilon k ≠ 0 := by
  have hdet : prefilter_det covariance epsilon k
        = (covariance (4 * k + 0) + epsilon) * (covariance (4 * k + 3) + epsilon)
          - covariance (4 * k + 1) ^ 2 := by
    simp only [prefilter_det, Sigma, hsym]
    ring
  have hpos : 0 < epsilon ^ 2 := by positivity
  have hle : epsilon ^ 2 ≤ prefilter_det covariance epsilon k := by
    rw [hdet]
    nlinarith [mul_nonneg heps.le hU, mul_nonneg heps.le hV]
  have hle2 : epsilon ^ 2 ≤ guide_det covariance epsilon k :=
    le_trans hle (le_max_left _ _)
  exact ⟨rfl, rfl, hdet, hpos, hle, hle2, (lt_of_lt_of_le hpos hle).ne',
    (lt_of_lt_of_le hpos hle2).ne'⟩

/-- Witness for C9: covariance `[[2, 1], [1, 2]]` and `epsilon = 1`. -/
theorem C9_regularised_det_pos_witness :
    (1 : ℚ) ^ 2 ≤ prefilter_det (fun i => if i % 4 = 0 ∨ i % 4 = 3 then (2 : ℚ) else 1) 1 0
    ∧ (1 : ℚ) ^ 2 ≤ guide_det (fun i => if i % 4 = 0 ∨ i % 4 = 3 then (2 : ℚ) else 1) 1 0 :=
  have h := C9_regularised_det_pos (fun i => if i % 4 = 0 ∨ i % 4 = 3 then (2 : ℚ) else 1)
    1 0 (by norm_num) (by norm_num) (by norm_num) (by norm_num) (by norm_num)
  ⟨h.2.2.2.2.1, h.2.2.2.2.2.1⟩

/-- The coefficients vanish when the guard on the determinant fails. -/
lemma coeff_a_degenerate (corr covariance : Nat → α) (epsilon det : α) (k c : Nat)
    (h : |det| ≤ 4 * FLT_EPSILON) : coeff_a corr covariance epsilon det k c = 0 := by
  simp only [coeff_a, if_neg (not_lt.mpr h)]

/-- C10. Degenerate determinant: in `_prefilter_chromaticity`, at a pixel with
`|det| ≤ 4·FLT_EPSILON` the four entries of `a` are 0 and `b` is the local mean
of `UV`; in `_guide_with_chromaticity`, at a pixel whose regularised determinant
(or its value after the `MAX(·, 1e-15f)`) is at most `4·FLT_EPSILON` in absolute
value the four entries of `a` are 0 and `b` is the local mean of the saturation
gain and of the brightness delta.  The quotients by `det` are not used there. -/
theorem C10_degenerate_det (ds_UV covariance : Nat → α) (epsilon : α) (k : Nat)
    (ds_UV' ds_corrections ds_b_corrections correlations covariance' : Nat → α)
    (epsilon' : α) (k' : Nat) (n n' : Nat)
    (hpre : |prefilter_det covariance epsilon k| ≤ 4 * FLT_EPSILON)
    (hguide : |Sigma covariance' epsilon' k' 0 * Sigma covariance' epsilon' k' 3
                - Sigma covariance' epsilon' k' 1 * Sigma covariance' epsilon' k' 2|
                ≤ 4 * FLT_EPSILON
              ∨ |guide_det covariance' epsilon' k'| ≤ 4 * FLT_EPSILON) :
    ((∀ c, prefilter_a covariance epsilon k c = 0)
      ∧ (∀ c, c < 4 →
          forPixels 4 n (prefilter_a covariance epsilon) (fun _ => 0) (4 * k + c) = 0)
      ∧ prefilter_b ds_UV covariance epsilon k 0 = ds_UV (2 * k + 0)
      ∧ prefilter_b ds_UV covariance epsilon k 1 = ds_UV (2 * k + 1))
    ∧ ((∀ c, guide_a correlations covariance' epsilon' k' c = 0)
      ∧ (∀ c, c < 4 →
          forPixels 4 n' (guide_a correlations covariance' epsilon') (fun _ => 0)
            (4 * k' + c) = 0)
      ∧ guide_b ds_UV' ds_corrections ds_b_corrections correlations covariance' epsilon' k' 0
          = ds_corrections (2 * k' + 1)
      ∧ guide_b ds_UV' ds_corrections ds_b_corrections correlations covariance' epsilon' k' 1
          = ds_b_corrections k') := by
  have ha : ∀ c, prefilter_a covariance epsilon k c = 0 :=
    fun c => coeff_a_degenerate _ _ _ _ _ _ hpre
  have hg : |guide_det covariance' epsilon' k'| ≤ 4 * FLT_EPSILON := by
    rcases hguide with h | h
    · have hsmall : (1e-15 : α) ≤ 4 * FLT_EPSILON := by
        simp only [FLT_EPSILON]; norm_num
      have hpos : (0 : α) < 1e-15 := by norm_num
      have h0 : 0 ≤ guide_det covariance' epsilon' k' :=
        le_trans hpos.le (le_max_right _ _)
      rw [abs_of_nonneg h0]
      exact max_le (le_trans (le_abs_self _) h) hsmall
    · exact h
  have ha' : ∀ c, guide_a correlations covariance' epsilon' k' c = 0 :=
    fun c => coeff_a_degenerate _ _ _ _ _ _ hg
  refine ⟨⟨ha, ?_, ?_, ?_⟩, ⟨ha', ?_, ?_, ?_⟩⟩
  · intro c hc
    by_cases hk : k < n
    · rw [forPixels_apply 4 n _ _ k c hk hc, ha]
    · rw [forPixels_beyond 4 n _ _ _ (by omega)]
  · simp only [prefilter_b, ha]; ring
  · simp only [prefilter_b, ha]; ring
  · intro c hc
    by_cases hk : k' < n'
    · rw [forPixels_apply 4 n' _ _ k' c hk hc, ha']
    · rw [forPixels_beyond 4 n' _ _ _ (by omega)]
  · simp only [guide_b, ha']; ring
  · simp only [guide_b, ha']; ring

/-- Witness for C10: zero covariance and `epsilon = 0` (determinant 0, and
`1e-15` after the `MAX` of the second filter). -/
theorem C10_degenerate_det_witness :
    prefilter_b (fun i => (i : ℚ) + 5) (fun _ => 0) 0 0 0 = 5
    ∧ guide_b (fun _ => (1 : ℚ)) (fun i => (i : ℚ) + 7) (fun _ => 3) (fun _ => 2)
        (fun _ => 0) 0 0 0 = 8 :=
  have h := C10_degenerate_det (fun i => (i : ℚ) + 5) (fun _ => 0) 0 0
    (fun _ => (1 : ℚ)) (fun i => (i : ℚ) + 7) (fun _ => 3) (fun _ => 2) (fun _ => 0) 0 0 1 1
    (by simp [prefilter_det, Sigma, FLT_EPSILON])
    (Or.inl (by simp [Sigma, FLT_EPSILON]))
  ⟨by rw [h.1.2.2.1]; norm_num, by rw [h.2.2.2.1]; norm_num⟩

/-! ### The guided filters: what the last loops store -/

/-- A blend of weight 0 returns the value blended with. -/
lemma interpolatef_zero (a b : α) : interpolatef 0 a b = b := by
  simp [interpolatef]

/-- `resized` is false exactly when both downsampled dimensions are the original ones. -/
lemma resized_eq_false_iff [FloorRing α] (roi : dt_iop_roi_t α) (csigma : α) :
    resized roi csigma = false
      ↔ ds_width roi csigma = roi.width ∧ ds_height roi csigma = roi.height := by
  simp only [resized, Bool.or_eq_false_iff, bne_eq_false_iff_eq]
  constructor
  · rintro ⟨h1, h2⟩; exact ⟨h1.symm, h2.symm⟩
  · rintro ⟨h1, h2⟩; exact ⟨h1.symm, h2.symm⟩

/-- With a downsampling factor of 1 nothing is resized. -/
lemma resized_of_scaling_one [FloorRing α] (roi : dt_iop_roi_t α) (csigma : α)
    (h : filter_scaling roi csigma = 1) : resized roi csigma = false := by
  rw [resized_eq_false_iff]
  simp [ds_width, ds_height, h]

/-- The two floats of pixel `k` that `_prefilter_chromaticity` stores. -/
lemma prefilter_out [FloorRing α] (G : GaussianLib α) (B : Bilinear α) (UV weights : Nat → α)
    (roi : dt_iop_roi_t α) (csigma epsilon : α) (k : Nat) (hk : k < roi.width * roi.height) :
    _prefilter_chromaticity G B UV weights roi csigma epsilon (2 * k + 0)
      = interpolatef (weights k)
          (prefilter_a_full G B UV roi csigma epsilon (4 * k + 0)
              * prefilter_UV_guide G B UV roi csigma (2 * k + 0)
            + prefilter_a_full G B UV roi csigma epsilon (4 * k + 1)
              * prefilter_UV_guide G B UV roi csigma (2 * k + 1)
            + prefilter_b_full G B UV roi csigma epsilon (2 * k + 0))
          (prefilter_UV_guide G B UV roi csigma (2 * k + 0))
    ∧ _prefilter_chromaticity G B UV weights roi csigma epsilon (2 * k + 1)
      = interpolatef (weights k)
          (prefilter_a_full G B UV roi csigma epsilon (4 * k + 2)
              * prefilter_UV_guide G B UV roi csigma (2 * k + 0)
            + prefilter_a_full G B UV roi csigma epsilon (4 * k + 3)
              * prefilter_UV_guide G B UV roi csigma (2 * k + 1)
            + prefilter_b_full G B UV roi csigma epsilon (2 * k + 1))
          (prefilter_UV_guide G B UV roi csigma (2 * k + 1)) := by
  constructor
  · simp only [_prefilter_chromaticity, prefilter_apply]
    rw [forPixels_apply 2 _ _ _ k 0 hk (by norm_num)]
  · simp only [_prefilter_chromaticity, prefilter_apply]
    rw [forPixels_apply 2 _ _ _ k 1 hk (by norm_num)]

/-- The hue-offset slot after `_guide_with_chromaticity` is the slot as the last
loop finds it. -/
lemma guide_out_hue [FloorRing α] (G : GaussianLib α) (B : Bilinear α) (bufs : GuideBuffers α)
    (weights : Nat → α) (roi : dt_iop_roi_t α) (csigma epsilon : α) (k : Nat) :
    (_guide_with_chromaticity G B bufs weights roi csigma epsilon).corrections (2 * k + 0)
      = (guide_buffers_at_apply G B bufs roi csigma).corrections (2 * k + 0) := by
  simp only [_guide_with_chromaticity, guide_apply]
  by_cases hk : k < roi.width * roi.height
  · rw [forPixels_apply 2 _ _ _ k 0 hk (by norm_num)]
  · rw [forPixels_beyond 2 _ _ _ _ (by omega)]

/-- The saturation gain and brightness delta that `_guide_with_chromaticity` stores. -/
lemma guide_out [FloorRing α] (G : GaussianLib α) (B : Bilinear α) (bufs : GuideBuffers α)
    (weights : Nat → α) (roi : dt_iop_roi_t α) (csigma epsilon : α) (k : Nat)
    (hk : k < roi.width * roi.height) :
    (_guide_with_chromaticity G B bufs weights roi csigma epsilon).corrections (2 * k + 1)
      = interpolatef (weights k)
          (guide_cv (guide_a_full G B bufs roi csigma epsilon)
            (guide_b_full G B bufs roi csigma epsilon)
            (guide_buffers_at_apply G B bufs roi csigma).UV k 0) 1
    ∧ (_guide_with_chromaticity G B bufs weights roi csigma epsilon).b_corrections k
      = interpolatef (weights k)
          (guide_cv (guide_a_full G B bufs roi csigma epsilon)
            (guide_b_full G B bufs roi csigma epsilon)
            (guide_buffers_at_apply G B bufs roi csigma).UV k 1) 0 := by
  constructor
  · simp only [_guide_with_chromaticity, guide_apply]
    rw [forPixels_apply 2 _ _ _ k 1 hk (by norm_num)]
  · simp only [_guide_with_chromaticity, guide_apply]
    have h := forPixels_apply 1 (roi.width * roi.height)
      (fun k _ => interpolatef (weights k)
        (guide_cv (guide_a_full G B bufs roi csigma epsilon)
          (guide_b_full G B bufs roi csigma epsilon)
          (guide_buffers_at_apply G B bufs roi csigma).UV k 1) 0)
      (guide_buffers_at_apply G B bufs roi csigma).b_corrections k 0 hk (by norm_num)
    simpa using h

/-- On a 2×1 region at scale 1 a radius of 1 is not downsampled. -/
lemma resized_2x1_radius_1 : resized (⟨2, 1, 1⟩ : dt_iop_roi_t ℚ) 1 = false := by
  apply resized_of_scaling_one
  simp only [filter_scaling, filter_sigma, _get_scaling]
  have h : ⌊(1 : ℚ) * 1 - 1.5⌋ = -1 := by norm_num [Int.floor_eq_iff]
  rw [h]; norm_num

/-- On a 2×1 region at scale 1 a radius of 1.5 is not downsampled. -/
lemma resized_2x1_radius_15 : resized (⟨2, 1, 1⟩ : dt_iop_roi_t ℚ) 1.5 = false := by
  apply resized_of_scaling_one
  simp only [filter_scaling, filter_sigma, _get_scaling]
  have h : ⌊(1.5 : ℚ) * 1 - 1.5⌋ = 0 := by norm_num
  rw [h]; norm_num

/-- The stand-in blur on a 2×1 image with 2 floats per pixel. -/
lemma mean_gaussian_2x1_2ch (buf : Nat → ℚ) (sigma : ℚ) (c : Nat) (hc : c < 2) :
    _mean_gaussian meanGaussian buf 2 1 2 sigma c = (buf c + buf (2 + c)) / 2 := by
  have h1 : c % 2 = c := Nat.mod_eq_of_lt hc
  have h2 : c < 2 * (2 * 1) := by omega
  simp [_mean_gaussian, meanGaussian, mean_blur, Finset.sum_range_succ, h1, h2]

/-- C3. Evaluation of `_guide_with_chromaticity` where the hue offset is not
preserved: on a 2×1 image with hue offsets (1, 0) and radius 1 (no
downsampling), with the plain channel average as blur, the hue-offset slot of
pixel 0 holds 1 before the call and 1/2 after it: the slot has been blurred
together with the saturation slot. -/
theorem C3_hue_offset_blurred_in_place :
    (fun i => if i = 0 then (1 : ℚ) else if i = 2 then 0 else 1) (2 * 0 + 0) = 1
    ∧ (_guide_with_chromaticity meanGaussian nearest_resample
        { UV := fun _ => (0 : ℚ)
          corrections := fun i => if i = 0 then (1 : ℚ) else if i = 2 then 0 else 1
          b_corrections := fun _ => 0 }
        (fun _ => 1) ⟨2, 1, 1⟩ 1 1e-6).corrections (2 * 0 + 0) = 1 / 2 := by
  refine ⟨by norm_num, ?_⟩
  rw [guide_out_hue]
  simp only [guide_buffers_at_apply, resized_2x1_radius_1, Bool.false_eq_true, if_false,
    guide_ds_corrections, guide_ds_corrections0]
  have hw : ds_width (⟨2, 1, 1⟩ : dt_iop_roi_t ℚ) 1 = 2 :=
    ((resized_eq_false_iff _ _).1 resized_2x1_radius_1).1
  have hh : ds_height (⟨2, 1, 1⟩ : dt_iop_roi_t ℚ) 1 = 1 :=
    ((resized_eq_false_iff _ _).1 resized_2x1_radius_1).2
  rw [hw, hh]
  have := mean_gaussian_2x1_2ch (fun i => if i = 0 then (1 : ℚ) else if i = 2 then 0 else 1)
    (guide_gsigma (⟨2, 1, 1⟩ : dt_iop_roi_t ℚ) 1) 0 (by norm_num)
  simpa using this

/-- When the buffers are downsampled the hue-offset slot is left untouched; when
they are not, it holds the blurred `corrections` buffer. -/
lemma guide_out_hue_cases [FloorRing α] (G : GaussianLib α) (B : Bilinear α)
    (bufs : GuideBuffers α) (weights : Nat → α) (roi : dt_iop_roi_t α) (csigma epsilon : α)
    (k : Nat) :
    (resized roi csigma = true →
      (_guide_with_chromaticity G B bufs weights roi csigma epsilon).corrections (2 * k + 0)
        = bufs.corrections (2 * k + 0))
    ∧ (resized roi csigma = false →
      (_guide_with_chromaticity G B bufs weights roi csigma epsilon).corrections (2 * k + 0)
        = _mean_gaussian G bufs.corrections roi.width roi.height 2 (guide_gsigma roi csigma)
            (2 * k + 0)) := by
  constructor
  · intro h
    rw [guide_out_hue]
    simp only [guide_buffers_at_apply, h, if_true]
  · intro h
    rw [guide_out_hue]
    have hd := (resized_eq_false_iff roi csigma).1 h
    simp only [guide_buffers_at_apply, h, Bool.false_eq_true, if_false, guide_ds_corrections,
      guide_ds_corrections0, hd.1, hd.2]

/-- The chromaticity that the last loop of `_prefilter_chromaticity` blends
with: the caller's `UV` when the buffers are downsampled, the blurred `UV` when
they are not. -/
lemma prefilter_UV_guide_cases [FloorRing α] (G : GaussianLib α) (B : Bilinear α)
    (UV : Nat → α) (roi : dt_iop_roi_t α) (csigma : α) :
    (resized roi csigma = true → prefilter_UV_guide G B UV roi csigma = UV)
    ∧ (resized roi csigma = false →
        prefilter_UV_guide G B UV roi csigma
          = _mean_gaussian G UV roi.width roi.height 2 (prefilter_gsigma roi csigma)) := by
  constructor
  · intro h
    simp only [prefilter_UV_guide, h, if_true]
  · intro h
    have hd := (resized_eq_false_iff roi csigma).1 h
    simp only [prefilter_UV_guide, h, Bool.false_eq_true, if_false, prefilter_ds_UV,
      prefilter_ds_UV0, hd.1, hd.2]

/-- C4. Evaluation of `_prefilter_chromaticity` where the blend does not use the
chromaticity passed in: on a 2×1 image with `U` = (1, 0), weight 0 everywhere and
radius 1.5 (no downsampling), with the plain channel average as blur, pixel 0
enters with `U = 1` and leaves with `U = 1/2`, although a pixel of weight 0
should keep its input chromaticity: the blend uses the `UV` buffer after it has
been blurred in place. -/
theorem C4_prefilter_blends_with_blurred_UV :
    (fun i => if i = 0 then (1 : ℚ) else 0) (2 * 0 + 0) = 1
    ∧ _prefilter_chromaticity meanGaussian nearest_resample
        (fun i => if i = 0 then (1 : ℚ) else 0) (fun _ => 0) ⟨2, 1, 1⟩ 1.5 1e-5 (2 * 0 + 0)
        = 1 / 2 := by
  refine ⟨by norm_num, ?_⟩
  rw [(prefilter_out meanGaussian nearest_resample _ _ _ _ _ 0 (by norm_num)).1,
    interpolatef_zero, (prefilter_UV_guide_cases _ _ _ _ _).2 resized_2x1_radius_15]
  have := mean_gaussian_2x1_2ch (fun i => if i = 0 then (1 : ℚ) else 0)
    (prefilter_gsigma (⟨2, 1, 1⟩ : dt_iop_roi_t ℚ) 1.5) 0 (by norm_num)
  simpa using this

/-- C5 as stated fails: a pixel of weight 0 whose looked-up saturation gain is
6/5 and brightness delta 1/10 leaves `_guide_with_chromaticity` with saturation
gain 1 and brightness delta 0, not with its looked-up values. -/
theorem C5_counterexample :
    ¬ ((_guide_with_chromaticity meanGaussian nearest_resample
          { UV := fun _ => (0 : ℚ)
            corrections := fun _ => 6 / 5
            b_corrections := fun _ => 1 / 10 }
          (fun _ => 0) ⟨2, 1, 1⟩ 1 1e-6).corrections (2 * 0 + 1) = 6 / 5
      ∧ (_guide_with_chromaticity meanGaussian nearest_resample
          { UV := fun _ => (0 : ℚ)
            corrections := fun _ => 6 / 5
            b_corrections := fun _ => 1 / 10 }
          (fun _ => 0) ⟨2, 1, 1⟩ 1 1e-6).b_corrections 0 = 1 / 10) := by
  rintro ⟨h1, -⟩
  rw [(guide_out meanGaussian nearest_resample _ _ _ _ _ 0 (by norm_num)).1,
    interpolatef_zero] at h1
  norm_num at h1

/-- C5 (amended). For every pixel `k` of the image, `_guide_with_chromaticity`
stores the saturation gain `weight_k·cv₀ + (1 − weight_k)·1` and the brightness
delta `weight_k·cv₁ + (1 − weight_k)·0`, where `cv = a_k·UV[k] + b_k` with the
smoothed full-resolution coefficients: the filtered value is blended with the
neutral correction, not with the looked-up one.  A pixel of weight 0 gets the
saturation gain 1 and the brightness delta 0. -/
theorem C5_guide_blend_neutral [FloorRing α] (G : GaussianLib α) (B : Bilinear α)
    (bufs : GuideBuffers α) (weights : Nat → α) (roi : dt_iop_roi_t α) (csigma epsilon : α)
    (k : Nat) (hk : k < roi.width * roi.height) :
    (_guide_with_chromaticity G B bufs weights roi csigma epsilon).corrections (2 * k + 1)
      = weights k
          * (guide_a_full G B bufs roi csigma epsilon (4 * k + 0)
              * (guide_buffers_at_apply G B bufs roi csigma).UV (2 * k + 0)
            + guide_a_full G B bufs roi csigma epsilon (4 * k + 1)
              * (guide_buffers_at_apply G B bufs roi csigma).UV (2 * k + 1)
            + guide_b_full G B bufs roi csigma epsilon (2 * k + 0))
        + (1 - weights k) * 1
    ∧ (_guide_with_chromaticity G B bufs weights roi csigma epsilon).b_corrections k
      = weights k
          * (guide_a_full G B bufs roi csigma epsilon (4 * k + 2)
              * (guide_buffers_at_apply G B bufs roi csigma).UV (2 * k + 0)
            + guide_a_full G B bufs roi csigma epsilon (4 * k + 3)
              * (guide_buffers_at_apply G B bufs roi csigma).UV (2 * k + 1)
            + guide_b_full G B bufs roi csigma epsilon (2 * k + 1))
        + (1 - weights k) * 0
    ∧ (weights k = 0 →
        (_guide_with_chromaticity G B bufs weights roi csigma epsilon).corrections (2 * k + 1)
          = 1
        ∧ (_guide_with_chromaticity G B bufs weights roi csigma epsilon).b_corrections k
          = 0) := by
  obtain ⟨h1, h2⟩ := guide_out G B bufs weights roi csigma epsilon k hk
  refine ⟨?_, ?_, ?_⟩
  · rw [h1]; rfl
  · rw [h2]; rfl
  · intro hw
    rw [h1, h2, hw, interpolatef_zero, interpolatef_zero]
    exact ⟨rfl, rfl⟩

/-- Witness for C5 (amended): pixel 0 of a 2×1 image, weight 0. -/
theorem C5_guide_blend_neutral_witness :
    (0 : Nat) < (⟨2, 1, 1⟩ : dt_iop_roi_t ℚ).width * (⟨2, 1, 1⟩ : dt_iop_roi_t ℚ).height
    ∧ (_guide_with_chromaticity meanGaussian nearest_resample
          { UV := fun _ => (0 : ℚ)
            corrections := fun _ => 6 / 5
            b_corrections := fun _ => 1 / 10 }
          (fun _ => 0) ⟨2, 1, 1⟩ 1 1e-6).corrections (2 * 0 + 1) = 1
    ∧ (_guide_with_chromaticity meanGaussian nearest_resample
          { UV := fun _ => (0 : ℚ)
            corrections := fun _ => 6 / 5
            b_corrections := fun _ => 1 / 10 }
          (fun _ => 0) ⟨2, 1, 1⟩ 1 1e-6).b_corrections 0 = 0 :=
  ⟨by norm_num,
    (C5_guide_blend_neutral meanGaussian nearest_resample
      { UV := fun _ => (0 : ℚ)
        corrections := fun _ => 6 / 5
        b_corrections := fun _ => 1 / 10 }
      (fun _ => 0) ⟨2, 1, 1⟩ 1 1e-6 0 (by norm_num)).2.2 rfl⟩

/-! ### The guided filters on a flat field -/

/-- The downsampling factor is at least 1. -/
lemma one_le_filter_scaling [FloorRing α] (roi : dt_iop_roi_t α) (csigma : α) :
    1 ≤ filter_scaling roi csigma :=
  le_max_left _ _

/-- An image at least `scaling` pixels wide and high has a non-empty downsampled copy. -/
lemma ds_dims_pos [FloorRing α] (roi : dt_iop_roi_t α) (csigma : α)
    (hw : filter_scaling roi csigma ≤ roi.width) (hh : filter_scaling roi csigma ≤ roi.height) :
    0 < ds_width roi csigma ∧ 0 < ds_height roi csigma := by
  have hpos : 0 < filter_scaling roi csigma :=
    lt_of_lt_of_le zero_lt_one (one_le_filter_scaling roi csigma)
  constructor
  · rw [ds_width, Nat.floor_pos, le_div_iff₀ hpos, one_mul]; exact hw
  · rw [ds_height, Nat.floor_pos, le_div_iff₀ hpos, one_mul]; exact hh

/-- Downsampling (or aliasing, when not `resized`) keeps a constant channel. -/
lemma flat_downsample [FloorRing α] (B : Bilinear α) (hB : BilinearKeepsFlat B)
    (buf : Nat → α) (roi : dt_iop_roi_t α) (csigma : α) (ch c : Nat) (x : α) (hc : c < ch)
    (hpos : 0 < roi.width * roi.height)
    (hbuf : ∀ k, k < roi.width * roi.height → buf (ch * k + c) = x) :
    ∀ k, k < ds_pixels roi csigma →
      (if resized roi csigma then
        B buf roi.width roi.height (ds_width roi csigma) (ds_height roi csigma) ch
       else buf) (ch * k + c) = x := by
  intro k hk
  cases hr : resized roi csigma with
  | true =>
    simp only [if_true]
    exact hB buf _ _ _ _ ch c x hc (Nat.pos_of_mul_pos_right hpos)
      (Nat.pos_of_mul_pos_left hpos) hbuf k hk
  | false =>
    have hd := (resized_eq_false_iff roi csigma).1 hr
    simp only [Bool.false_eq_true, if_false]
    apply hbuf
    rw [ds_pixels, hd.1, hd.2] at hk
    exact hk

/-- Upsampling (or aliasing, when not `resized`) keeps a constant channel. -/
lemma flat_upsample [FloorRing α] (B : Bilinear α) (hB : BilinearKeepsFlat B)
    (buf : Nat → α) (roi : dt_iop_roi_t α) (csigma : α) (ch c : Nat) (x : α) (hc : c < ch)
    (hdim : 0 < ds_width roi csigma ∧ 0 < ds_height roi csigma)
    (hbuf : ∀ k, k < ds_pixels roi csigma → buf (ch * k + c) = x) :
    ∀ k, k < roi.width * roi.height →
      (if resized roi csigma then
        B buf (ds_width roi csigma) (ds_height roi csigma) roi.width roi.height ch
       else buf) (ch * k + c) = x := by
  intro k hk
  cases hr : resized roi csigma with
  | true =>
    simp only [if_true]
    exact hB buf _ _ _ _ ch c x hc hdim.1 hdim.2 hbuf k hk
  | false =>
    have hd := (resized_eq_false_iff roi csigma).1 hr
    simp only [Bool.false_eq_true, if_false]
    apply hbuf
    rw [ds_pixels, hd.1, hd.2]
    exact hk

/-- The coefficients vanish where the target is uncorrelated with the guide. -/
lemma coeff_a_zero_corr (corr covariance : Nat → α) (epsilon det : α) (k c : Nat)
    (h0 : corr (4 * k + 0) = 0) (h1 : corr (4 * k + 1) = 0)
    (h2 : corr (4 * k + 2) = 0) (h3 : corr (4 * k + 3) = 0) :
    coeff_a corr covariance epsilon det k c = 0 := by
  have h0' : corr (4 * k) = 0 := h0
  unfold coeff_a
  split_ifs
  · split <;> simp only [h0, h0', h1, h2, h3, zero_mul, add_zero]
  · rfl

/-- The covariance of a flat guide is zero after `covariance_finish`. -/
lemma covariance_flat [FloorRing α] (G : GaussianLib α) (hG : BlurKeepsFlat G)
    (ds_UV0 ds_UV : Nat → α) (dw dh : Nat) (sigma U V : α)
    (h0 : ∀ k, k < dw * dh → ds_UV0 (2 * k + 0) = U ∧ ds_UV0 (2 * k + 1) = V)
    (h1 : ∀ k, k < dw * dh → ds_UV (2 * k + 0) = U ∧ ds_UV (2 * k + 1) = V) :
    ∀ k, k < dw * dh → ∀ c, c < 4 →
      covariance_finish (_mean_gaussian G (covariance_init ds_UV0 (dw * dh)) dw dh 4 sigma)
        ds_UV (dw * dh) (4 * k + c) = 0 := by
  intro k hk c hc
  have hblur : ∀ (c : Nat) (x : α), c < 4 →
      (∀ j, j < dw * dh → covariance_init ds_UV0 (dw * dh) (4 * j + c) = x) →
      _mean_gaussian G (covariance_init ds_UV0 (dw * dh)) dw dh 4 sigma (4 * k + c) = x :=
    fun c x hc hx => hG _ dw dh 4 sigma c x hc hx k hk
  have hinit : ∀ j, j < dw * dh → ∀ c, c < 4 →
      covariance_init ds_UV0 (dw * dh) (4 * j + c)
        = (match c with
          | 0 => U * U
          | 1 => U * V
          | 2 => U * V
          | _ => V * V) := by
    intro j hj c hc
    unfold covariance_init
    rw [forPixels_apply 4 _ _ _ j c hj hc]
    obtain ⟨hu, hv⟩ := h0 j hj
    have hu' : ds_UV0 (2 * j) = U := hu
    split <;> simp only [hu, hv, hu']
  obtain ⟨hu, hv⟩ := h1 k hk
  unfold covariance_finish
  rw [forPixels_apply 4 _ _ _ k c hk hc]
  have c0 := hblur 0 (U * U) (by norm_num) (fun j hj => hinit j hj 0 (by norm_num))
  have c1 := hblur 1 (U * V) (by norm_num) (fun j hj => hinit j hj 1 (by norm_num))
  have c2 := hblur 2 (U * V) (by norm_num) (fun j hj => hinit j hj 2 (by norm_num))
  have c3 := hblur 3 (V * V) (by norm_num) (fun j hj => hinit j hj 3 (by norm_num))
  split
  · rw [c0, hu]; ring
  · rw [c1, hu, hv]; ring
  · rw [c2, hu, hv]; ring
  · rw [c3, hv]; ring

/-- The stand-in blur keeps a constant channel. -/
lemma meanGaussian_keeps_flat : BlurKeepsFlat (meanGaussian : GaussianLib α) := by
  intro buf width height ch sigma c x hc hbuf k hk
  have hpos : 0 < width * height := by omega
  have hne : ((width * height : Nat) : α) ≠ 0 := Nat.cast_ne_zero.mpr (by omega)
  have hi : ch * k + c < ch * (width * height) := by
    calc ch * k + c < ch * k + ch := by omega
      _ = ch * (k + 1) := by ring
      _ ≤ ch * (width * height) := Nat.mul_le_mul_left ch hk
  have hmod : (ch * k + c) % ch = c := by
    rw [Nat.mul_add_mod, Nat.mod_eq_of_lt hc]
  have hsum : ∑ j in range (width * height), buf (ch * j + c)
      = ((width * height : Nat) : α) * x := by
    rw [Finset.sum_congr rfl (fun j hj => hbuf j (Finset.mem_range.mp hj))]
    simp
  have hblur : mean_blur width height ch buf (ch * k + c) = x := by
    simp only [mean_blur, hi, if_true, hmod, hsum]
    exact mul_div_cancel_left₀ x hne
  simp only [_mean_gaussian, meanGaussian]
  split_ifs <;> exact hblur

/-- The stand-in resampling keeps a constant channel of a non-empty image. -/
lemma nearest_resample_keeps_flat {β : Type} :
    BilinearKeepsFlat (nearest_resample : Bilinear β) := by
  intro src sw sh dw dh ch c x hc hsw hsh hsrc k hk
  have hdw : 0 < dw := Nat.pos_of_mul_pos_right (by omega : 0 < dw * dh)
  have hdh : 0 < dh := Nat.pos_of_mul_pos_left (by omega : 0 < dw * dh)
  have hdiv : (ch * k + c) / ch = k := by
    rw [Nat.mul_add_div (by omega), Nat.div_eq_of_lt hc, Nat.add_zero]
  have hmod : (ch * k + c) % ch = c := by
    rw [Nat.mul_add_mod, Nat.mod_eq_of_lt hc]
  have hrow : k / dw < dh := Nat.div_lt_of_lt_mul hk
  have hr : k / dw * sh / dh < sh :=
    Nat.div_lt_of_lt_mul (Nat.mul_lt_mul_of_pos_right hrow hsh)
  have hq : k % dw * sw / dw < sw :=
    Nat.div_lt_of_lt_mul (Nat.mul_lt_mul_of_pos_right (Nat.mod_lt k hdw) hsw)
  have hidx : k / dw * sh / dh * sw + k % dw * sw / dw < sw * sh := by
    calc k / dw * sh / dh * sw + k % dw * sw / dw
        < k / dw * sh / dh * sw + sw := by omega
      _ = (k / dw * sh / dh + 1) * sw := by ring
      _ ≤ sh * sw := Nat.mul_le_mul_right sw hr
      _ = sw * sh := Nat.mul_comm _ _
  simp only [nearest_resample, hdiv, hmod]
  exact hsrc _ hidx

/-- On a flat chromaticity image `_prefilter_chromaticity` returns `UV` unchanged. -/
lemma prefilter_flat [FloorRing α] (G : GaussianLib α) (B : Bilinear α)
    (hG : BlurKeepsFlat G) (hB : BilinearKeepsFlat B) (UV weights : Nat → α)
    (roi : dt_iop_roi_t α) (csigma epsilon U V : α)
    (hUV : ∀ k, k < roi.width * roi.height → UV (2 * k + 0) = U ∧ UV (2 * k + 1) = V)
    (hw : filter_scaling roi csigma ≤ roi.width) (hh : filter_scaling roi csigma ≤ roi.height) :
    ∀ k, k < roi.width * roi.height →
      _prefilter_chromaticity G B UV weights roi csigma epsilon (2 * k + 0) = U
      ∧ _prefilter_chromaticity G B UV weights roi csigma epsilon (2 * k + 1) = V := by
  intro k hk
  have hpos : 0 < roi.width * roi.height := by omega
  have hdim := ds_dims_pos roi csigma hw hh
  have e0 : ∀ j, j < ds_width roi csigma * ds_height roi csigma →
      prefilter_ds_UV0 B UV roi csigma (2 * j + 0) = U
      ∧ prefilter_ds_UV0 B UV roi csigma (2 * j + 1) = V := fun j hj =>
    ⟨flat_downsample B hB UV roi csigma 2 0 U (by norm_num) hpos (fun i hi => (hUV i hi).1) j hj,
     flat_downsample B hB UV roi csigma 2 1 V (by norm_num) hpos (fun i hi => (hUV i hi).2) j hj⟩
  have e1 : ∀ j, j < ds_width roi csigma * ds_height roi csigma →
      prefilter_ds_UV G B UV roi csigma (2 * j + 0) = U
      ∧ prefilter_ds_UV G B UV roi csigma (2 * j + 1) = V := fun j hj =>
    ⟨hG _ _ _ 2 _ 0 U (by norm_num) (fun i hi => (e0 i hi).1) j hj,
     hG _ _ _ 2 _ 1 V (by norm_num) (fun i hi => (e0 i hi).2) j hj⟩
  have hcov : ∀ j, j < ds_width roi csigma * ds_height roi csigma → ∀ c, c < 4 →
      prefilter_covariance G B UV roi csigma (4 * j + c) = 0 :=
    covariance_flat G hG _ _ _ _ _ U V e0 e1
  have ha : ∀ j, j < ds_width roi csigma * ds_height roi csigma → ∀ c,
      prefilter_a (prefilter_covariance G B UV roi csigma) epsilon j c = 0 := fun j hj c =>
    coeff_a_zero_corr _ _ _ _ _ _ (hcov j hj 0 (by norm_num)) (hcov j hj 1 (by norm_num))
      (hcov j hj 2 (by norm_num)) (hcov j hj 3 (by norm_num))
  have hafull : ∀ c, c < 4 → ∀ j, j < roi.width * roi.height →
      prefilter_a_full G B UV roi csigma epsilon (4 * j + c) = 0 := by
    intro c hc
    refine flat_upsample B hB _ roi csigma 4 c 0 hc hdim ?_
    refine hG _ _ _ 4 _ c 0 hc ?_
    intro j hj
    rw [forPixels_apply 4 (ds_pixels roi csigma) _ _ j c hj hc, ha j hj]
  have hb : ∀ j, j < ds_width roi csigma * ds_height roi csigma →
      prefilter_b (prefilter_ds_UV G B UV roi csigma)
          (prefilter_covariance G B UV roi csigma) epsilon j 0 = U
      ∧ prefilter_b (prefilter_ds_UV G B UV roi csigma)
          (prefilter_covariance G B UV roi csigma) epsilon j 1 = V := by
    intro j hj
    simp only [prefilter_b, ha j hj, (e1 j hj).1, (e1 j hj).2]
    constructor <;> ring
  have hbfull0 : ∀ j, j < roi.width * roi.height →
      prefilter_b_full G B UV roi csigma epsilon (2 * j + 0) = U := by
    refine flat_upsample B hB _ roi csigma 2 0 U (by norm_num) hdim ?_
    refine hG _ _ _ 2 _ 0 U (by norm_num) ?_
    intro j hj
    rw [forPixels_apply 2 (ds_pixels roi csigma) _ _ j 0 hj (by norm_num)]
    exact (hb j hj).1
  have hbfull1 : ∀ j, j < roi.width * roi.height →
      prefilter_b_full G B UV roi csigma epsilon (2 * j + 1) = V := by
    refine flat_upsample B hB _ roi csigma 2 1 V (by norm_num) hdim ?_
    refine hG _ _ _ 2 _ 1 V (by norm_num) ?_
    intro j hj
    rw [forPixels_apply 2 (ds_pixels roi csigma) _ _ j 1 hj (by norm_num)]
    exact (hb j hj).2
  have hguide : prefilter_UV_guide G B UV roi csigma (2 * k + 0) = U
      ∧ prefilter_UV_guide G B UV roi csigma (2 * k + 1) = V := by
    cases hr : resized roi csigma with
    | true =>
      rw [(prefilter_UV_guide_cases G B UV roi csigma).1 hr]
      exact hUV k hk
    | false =>
      have hd := (resized_eq_false_iff roi csigma).1 hr
      simp only [prefilter_UV_guide, hr, Bool.false_eq_true, if_false]
      apply e1
      rw [hd.1, hd.2]
      exact hk
  obtain ⟨o0, o1⟩ := prefilter_out G B UV weights roi csigma epsilon k hk
  rw [o0, o1, hafull 0 (by norm_num) k hk, hafull 1 (by norm_num) k hk,
    hafull 2 (by norm_num) k hk, hafull 3 (by norm_num) k hk, hbfull0 k hk, hbfull1 k hk,
    hguide.1, hguide.2]
  simp only [interpolatef]
  constructor <;> ring

/-- The correlations of flat corrections with a flat guide are zero after
`correlations_finish`. -/
lemma correlations_flat [FloorRing α] (G : GaussianLib α) (hG : BlurKeepsFlat G)
    (ds_UV0 ds_c0 ds_b0 ds_UV ds_c ds_b : Nat → α) (dw dh : Nat) (sigma U V s d : α)
    (h0 : ∀ k, k < dw * dh → ds_UV0 (2 * k + 0) = U ∧ ds_UV0 (2 * k + 1) = V)
    (hc0 : ∀ k, k < dw * dh → ds_c0 (2 * k + 1) = s)
    (hb0 : ∀ k, k < dw * dh → ds_b0 k = d)
    (h1 : ∀ k, k < dw * dh → ds_UV (2 * k + 0) = U ∧ ds_UV (2 * k + 1) = V)
    (hc1 : ∀ k, k < dw * dh → ds_c (2 * k + 1) = s)
    (hb1 : ∀ k, k < dw * dh → ds_b k = d) :
    ∀ k, k < dw * dh → ∀ c, c < 4 →
      correlations_finish
        (_mean_gaussian G (correlations_init ds_UV0 ds_c0 ds_b0 (dw * dh)) dw dh 4 sigma)
        ds_UV ds_c ds_b (dw * dh) (4 * k + c) = 0 := by
  intro k hk c hc
  have hblur : ∀ (c : Nat) (x : α), c < 4 →
      (∀ j, j < dw * dh → correlations_init ds_UV0 ds_c0 ds_b0 (dw * dh) (4 * j + c) = x) →
      _mean_gaussian G (correlations_init ds_UV0 ds_c0 ds_b0 (dw * dh)) dw dh 4 sigma
        (4 * k + c) = x :=
    fun c x hc hx => hG _ dw dh 4 sigma c x hc hx k hk
  have hinit : ∀ j, j < dw * dh → ∀ c, c < 4 →
      correlations_init ds_UV0 ds_c0 ds_b0 (dw * dh) (4 * j + c)
        = (match c with
          | 0 => U * s
          | 1 => V * s
          | 2 => U * d
          | _ => V * d) := by
    intro j hj c hc
    unfold correlations_init
    rw [forPixels_apply 4 _ _ _ j c hj hc]
    obtain ⟨hu, hv⟩ := h0 j hj
    split <;> simp only [hu, hv, hc0 j hj, hb0 j hj]
  obtain ⟨hu, hv⟩ := h1 k hk
  unfold correlations_finish
  rw [forPixels_apply 4 _ _ _ k c hk hc]
  have c0 := hblur 0 (U * s) (by norm_num) (fun j hj => hinit j hj 0 (by norm_num))
  have c1 := hblur 1 (V * s) (by norm_num) (fun j hj => hinit j hj 1 (by norm_num))
  have c2 := hblur 2 (U * d) (by norm_num) (fun j hj => hinit j hj 2 (by norm_num))
  have c3 := hblur 3 (V * d) (by norm_num) (fun j hj => hinit j hj 3 (by norm_num))
  split
  · rw [c0, hu, hc1 k hk]; ring
  · rw [c1, hv, hc1 k hk]; ring
  · rw [c2, hu, hb1 k hk]; ring
  · rw [c3, hv, hb1 k hk]; ring

/-- On a flat chromaticity image with constant saturation gain `s` and constant
brightness delta `d`, `_guide_with_chromaticity` blends `s` with 1 and `d` with 0. -/
lemma guide_flat [FloorRing α] (G : GaussianLib α) (B : Bilinear α)
    (hG : BlurKeepsFlat G) (hB : BilinearKeepsFlat B) (bufs : GuideBuffers α)
    (weights : Nat → α) (roi : dt_iop_roi_t α) (csigma epsilon U V s d : α)
    (hUV : ∀ k, k < roi.width * roi.height →
      bufs.UV (2 * k + 0) = U ∧ bufs.UV (2 * k + 1) = V)
    (hs : ∀ k, k < roi.width * roi.height → bufs.corrections (2 * k + 1) = s)
    (hd : ∀ k, k < roi.width * roi.height → bufs.b_corrections k = d)
    (hw : filter_scaling roi csigma ≤ roi.width) (hh : filter_scaling roi csigma ≤ roi.height) :
    ∀ k, k < roi.width * roi.height →
      (_guide_with_chromaticity G B bufs weights roi csigma epsilon).corrections (2 * k + 1)
        = interpolatef (weights k) s 1
      ∧ (_guide_with_chromaticity G B bufs weights roi csigma epsilon).b_corrections k
        = interpolatef (weights k) d 0 := by
  intro k hk
  have hpos : 0 < roi.width * roi.height := by omega
  have hdim := ds_dims_pos roi csigma hw hh
  have e0 : ∀ j, j < ds_width roi csigma * ds_height roi csigma →
      guide_ds_UV0 B bufs.UV roi csigma (2 * j + 0) = U
      ∧ guide_ds_UV0 B bufs.UV roi csigma (2 * j + 1) = V := fun j hj =>
    ⟨flat_downsample B hB bufs.UV roi csigma 2 0 U (by norm_num) hpos
        (fun i hi => (hUV i hi).1) j hj,
     flat_downsample B hB bufs.UV roi csigma 2 1 V (by norm_num) hpos
        (fun i hi => (hUV i hi).2) j hj⟩
  have e1 : ∀ j, j < ds_width roi csigma * ds_height roi csigma →
      guide_ds_UV G B bufs.UV roi csigma (2 * j + 0) = U
      ∧ guide_ds_UV G B bufs.UV roi csigma (2 * j + 1) = V := fun j hj =>
    ⟨hG _ _ _ 2 _ 0 U (by norm_num) (fun i hi => (e0 i hi).1) j hj,
     hG _ _ _ 2 _ 1 V (by norm_num) (fun i hi => (e0 i hi).2) j hj⟩
  have s0 : ∀ j, j < ds_width roi csigma * ds_height roi csigma →
      guide_ds_corrections0 B bufs.corrections roi csigma (2 * j + 1) = s :=
    flat_downsample B hB bufs.corrections roi csigma 2 1 s (by norm_num) hpos hs
  have s1 : ∀ j, j < ds_width roi csigma * ds_height roi csigma →
      guide_ds_corrections G B bufs.corrections roi csigma (2 * j + 1) = s :=
    hG _ _ _ 2 _ 1 s (by norm_num) s0
  have d0 : ∀ j, j < ds_width roi csigma * ds_height roi csigma →
      guide_ds_b_corrections0 B bufs.b_corrections roi csigma j = d := by
    intro j hj
    have h := flat_downsample B hB bufs.b_corrections roi csigma 1 0 d (by norm_num) hpos
      (fun i hi => by simpa using hd i hi) j hj
    simpa [guide_ds_b_corrections0] using h
  have d1 : ∀ j, j < ds_width roi csigma * ds_height roi csigma →
      guide_ds_b_corrections G B bufs.b_corrections roi csigma j = d := by
    intro j hj
    have h := hG (guide_ds_b_corrections0 B bufs.b_corrections roi csigma)
      (ds_width roi csigma) (ds_height roi csigma) 1 (0.2 * guide_gsigma roi csigma) 0 d
      (by norm_num) (fun i hi => by simpa using d0 i hi) j hj
    simpa [guide_ds_b_corrections] using h
  have hcorr : ∀ j, j < ds_width roi csigma * ds_height roi csigma → ∀ c, c < 4 →
      guide_correlations G B bufs roi csigma (4 * j + c) = 0 :=
    correlations_flat G hG _ _ _ _ _ _ _ _ _ U V s d e0 s0 d0 e1 s1 d1
  have ha : ∀ j, j < ds_width roi csigma * ds_height roi csigma → ∀ c,
      guide_a (guide_correlations G B bufs roi csigma)
        (guide_covariance G B bufs.UV roi csigma) epsilon j c = 0 := fun j hj c =>
    coeff_a_zero_corr _ _ _ _ _ _ (hcorr j hj 0 (by norm_num)) (hcorr j hj 1 (by norm_num))
      (hcorr j hj 2 (by norm_num)) (hcorr j hj 3 (by norm_num))
  have hafull : ∀ c, c < 4 → ∀ j, j < roi.width * roi.height →
      guide_a_full G B bufs roi csigma epsilon (4 * j + c) = 0 := by
    intro c hc
    refine flat_upsample B hB _ roi csigma 4 c 0 hc hdim ?_
    refine hG _ _ _ 4 _ c 0 hc ?_
    intro j hj
    rw [forPixels_apply 4 (ds_pixels roi csigma) _ _ j c hj hc, ha j hj]
  have hb : ∀ j, j < ds_width roi csigma * ds_height roi csigma →
      guide_b (guide_ds_UV G B bufs.UV roi csigma)
          (guide_ds_corrections G B bufs.corrections roi csigma)
          (guide_ds_b_corrections G B bufs.b_corrections roi csigma)
          (guide_correlations G B bufs roi csigma)
          (guide_covariance G B bufs.UV roi csigma) epsilon j 0 = s
      ∧ guide_b (guide_ds_UV G B bufs.UV roi csigma)
          (guide_ds_corrections G B bufs.corrections roi csigma)
          (guide_ds_b_corrections G B bufs.b_corrections roi csigma)
          (guide_correlations G B bufs roi csigma)
          (guide_covariance G B bufs.UV roi csigma) epsilon j 1 = d := by
    intro j hj
    simp only [guide_b, ha j hj, s1 j hj, d1 j hj]
    constructor <;> ring
  have hbfull0 : ∀ j, j < roi.width * roi.height →
      guide_b_full G B bufs roi csigma epsilon (2 * j + 0) = s := by
    refine flat_upsample B hB _ roi csigma 2 0 s (by norm_num) hdim ?_
    refine hG _ _ _ 2 _ 0 s (by norm_num) ?_
    intro j hj
    rw [forPixels_apply 2 (ds_pixels roi csigma) _ _ j 0 hj (by norm_num)]
    exact (hb j hj).1
  have hbfull1 : ∀ j, j < roi.width * roi.height →
      guide_b_full G B bufs roi csigma epsilon (2 * j + 1) = d := by
    refine flat_upsample B hB _ roi csigma 2 1 d (by norm_num) hdim ?_
    refine hG _ _ _ 2 _ 1 d (by norm_num) ?_
    intro j hj
    rw [forPixels_apply 2 (ds_pixels roi csigma) _ _ j 1 hj (by norm_num)]
    exact (hb j hj).2
  obtain ⟨o0, o1⟩ := guide_out G B bufs weights roi csigma epsilon k hk
  rw [o0, o1]
  constructor <;>
  simp only [guide_cv, hafull 0 (by norm_num) k hk, hafull 1 (by norm_num) k hk,
    hafull 2 (by norm_num) k hk, hafull 3 (by norm_num) k hk, hbfull0 k hk, hbfull1 k hk,
    zero_mul, zero_add]

/-- C6 as stated fails for `_guide_with_chromaticity`: on a flat 2×1 image with
saturation gain 6/5, brightness delta 1/10 and weight 1/2 everywhere (blur and
resampling keeping constants), the filter returns the saturation gain 11/10 and
the brightness delta 1/20. -/
theorem C6_counterexample :
    BlurKeepsFlat (meanGaussian : GaussianLib ℚ)
    ∧ BilinearKeepsFlat (nearest_resample : Bilinear ℚ)
    ∧ (_guide_with_chromaticity meanGaussian nearest_resample
          { UV := fun _ => (1 / 4 : ℚ)
            corrections := fun _ => 6 / 5
            b_corrections := fun _ => 1 / 10 }
          (fun _ => 1 / 2) ⟨2, 1, 1⟩ 1 1e-6).corrections (2 * 0 + 1) = 11 / 10
    ∧ (_guide_with_chromaticity meanGaussian nearest_resample
          { UV := fun _ => (1 / 4 : ℚ)
            corrections := fun _ => 6 / 5
            b_corrections := fun _ => 1 / 10 }
          (fun _ => 1 / 2) ⟨2, 1, 1⟩ 1 1e-6).b_corrections 0 = 1 / 20
    ∧ (11 / 10 : ℚ) ≠ 6 / 5 ∧ (1 / 20 : ℚ) ≠ 1 / 10 := by
  have hs : filter_scaling (⟨2, 1, 1⟩ : dt_iop_roi_t ℚ) 1 = 1 := by
    simp only [filter_scaling, filter_sigma, _get_scaling]
    have h : ⌊(1 : ℚ) * 1 - 1.5⌋ = -1 := by norm_num [Int.floor_eq_iff]
    rw [h]; norm_num
  have h := guide_flat (meanGaussian : GaussianLib ℚ) nearest_resample
    meanGaussian_keeps_flat nearest_resample_keeps_flat
    { UV := fun _ => (1 / 4 : ℚ)
      corrections := fun _ => 6 / 5
      b_corrections := fun _ => 1 / 10 }
    (fun _ => 1 / 2) ⟨2, 1, 1⟩ 1 1e-6 (1 / 4) (1 / 4) (6 / 5) (1 / 10)
    (fun _ _ => ⟨rfl, rfl⟩) (fun _ _ => rfl) (fun _ _ => rfl)
    (by rw [hs]; norm_num) (by rw [hs]; norm_num) 0 (by norm_num)
  refine ⟨meanGaussian_keeps_flat, nearest_resample_keeps_flat, ?_, ?_, by norm_num,
    by norm_num⟩
  · rw [h.1]; norm_num [interpolatef]
  · rw [h.2]; norm_num [interpolatef]

/-- C6 (amended). Flat field: assuming the blur and the bilinear resampling map a
constant channel to the same constant, for every image at least `scaling` pixels
wide and high with constant chromaticity `(U, V)`, constant saturation gain `s`
and constant brightness delta `d`, every weight map, radius and epsilon,
`_prefilter_chromaticity` returns `UV` unchanged (the coefficients are `a = 0`,
`b = mean`), and `_guide_with_chromaticity` returns the saturation gain
`weight·s + (1 − weight)·1` and the brightness delta `weight·d`; these are `s`
and `d` at the pixels of weight 1. -/
theorem C6_flat_field [FloorRing α] (G : GaussianLib α) (B : Bilinear α)
    (bufs : GuideBuffers α) (weights : Nat → α) (roi : dt_iop_roi_t α)
    (csigma epsilon csigma' epsilon' U V s d : α)
    (hG : BlurKeepsFlat G) (hB : BilinearKeepsFlat B)
    (hUV : ∀ k, k < roi.width * roi.height →
      bufs.UV (2 * k + 0) = U ∧ bufs.UV (2 * k + 1) = V)
    (hs : ∀ k, k < roi.width * roi.height → bufs.corrections (2 * k + 1) = s)
    (hd : ∀ k, k < roi.width * roi.height → bufs.b_corrections k = d)
    (hw : filter_scaling roi csigma ≤ roi.width) (hh : filter_scaling roi csigma ≤ roi.height)
    (hw' : filter_scaling roi csigma' ≤ roi.width)
    (hh' : filter_scaling roi csigma' ≤ roi.height)
    (k : Nat) (hk : k < roi.width * roi.height) :
    (_prefilter_chromaticity G B bufs.UV weights roi csigma epsilon (2 * k + 0)
        = bufs.UV (2 * k + 0)
      ∧ _prefilter_chromaticity G B bufs.UV weights roi csigma epsilon (2 * k + 1)
        = bufs.UV (2 * k + 1))
    ∧ (_guide_with_chromaticity G B bufs weights roi csigma' epsilon').corrections (2 * k + 1)
        = weights k * s + (1 - weights k) * 1
    ∧ (_guide_with_chromaticity G B bufs weights roi csigma' epsilon').b_corrections k
        = weights k * d
    ∧ (weights k = 1 →
        (_guide_with_chromaticity G B bufs weights roi csigma' epsilon').corrections
            (2 * k + 1) = bufs.corrections (2 * k + 1)
        ∧ (_guide_with_chromaticity G B bufs weights roi csigma' epsilon').b_corrections k
            = bufs.b_corrections k) := by
  have hp := prefilter_flat G B hG hB bufs.UV weights roi csigma epsilon U V hUV hw hh k hk
  have hg := guide_flat G B hG hB bufs weights roi csigma' epsilon' U V s d hUV hs hd hw' hh'
    k hk
  have e1 : interpolatef (weights k) s 1 = weights k * s + (1 - weights k) * 1 := rfl
  have e2 : interpolatef (weights k) d 0 = weights k * d := by
    simp only [interpolatef]; ring
  refine ⟨⟨?_, ?_⟩, ?_, ?_, ?_⟩
  · rw [hp.1, (hUV k hk).1]
  · rw [hp.2, (hUV k hk).2]
  · rw [hg.1, e1]
  · rw [hg.2, e2]
  · intro h1
    rw [hg.1, hg.2, e1, e2, h1, hs k hk, hd k hk]
    constructor <;> ring

/-- Witness for C6 (amended): a flat 4×4 image filtered with radius 4
(downsampling factor 2), weight 1/2. -/
theorem C6_flat_field_witness :
    (_prefilter_chromaticity (meanGaussian : GaussianLib ℚ) nearest_resample
        (fun i => if i % 2 = 0 then 1 / 4 else 1 / 3) (fun _ => 1 / 2) ⟨4, 4, 1⟩ 4 1e-5
        (2 * 5 + 0) = 1 / 4)
    ∧ (_guide_with_chromaticity (meanGaussian : GaussianLib ℚ) nearest_resample
          { UV := fun i => if i % 2 = 0 then 1 / 4 else 1 / 3
            corrections := fun i => if i % 2 = 0 then (i : ℚ) else 6 / 5
            b_corrections := fun _ => 1 / 10 }
          (fun _ => 1 / 2) ⟨4, 4, 1⟩ 4 1e-6).corrections (2 * 5 + 1) = 11 / 10 := by
  have hs : filter_scaling (⟨4, 4, 1⟩ : dt_iop_roi_t ℚ) 4 = 2 := by
    simp only [filter_scaling, filter_sigma, _get_scaling]
    have h : ⌊(4 : ℚ) * 1 - 1.5⌋ = 2 := by norm_num [Int.floor_eq_iff]
    rw [h]; norm_num
  have h := C6_flat_field (meanGaussian : GaussianLib ℚ) nearest_resample
    { UV := fun i => if i % 2 = 0 then 1 / 4 else 1 / 3
      corrections := fun i => if i % 2 = 0 then (i : ℚ) else 6 / 5
      b_corrections := fun _ => 1 / 10 }
    (fun _ => 1 / 2) ⟨4, 4, 1⟩ 4 1e-5 4 1e-6 (1 / 4) (1 / 3) (6 / 5) (1 / 10)
    meanGaussian_keeps_flat nearest_resample_keeps_flat
    (fun k _ => ⟨by simp, by simp [Nat.add_mod]⟩) (fun k _ => by simp [Nat.add_mod])
    (fun _ _ => rfl)
    (by rw [hs]; norm_num) (by rw [hs]; norm_num) (by rw [hs]; norm_num) (by rw [hs]; norm_num)
    5 (by norm_num)
  refine ⟨?_, ?_⟩
  · rw [h.1.1]; norm_num
  · rw [h.2.1]; norm_num

/-! ### `process` -/

/-- C7 as stated fails: with no working profile, a 4-channel 1×1 image of value
1 and an output buffer holding 0, the output buffer still holds 0 after
`process`, not the input pixel. -/
theorem C7_counterexample :
    process (copyColorLib : ColorLib ℚ) meanGaussian nearest_resample neutral_data 4 none
        false none (fun _ => 1) (fun _ => 0) ⟨1, 1, 1⟩ 0 = 0
    ∧ process (copyColorLib : ColorLib ℚ) meanGaussian nearest_resample neutral_data 4 none
        false none (fun _ => 1) (fun _ => 0) ⟨1, 1, 1⟩ 0 ≠ (fun _ => (1 : ℚ)) 0 := by
  constructor
  · simp [process]
  · simp [process]

/-- C7 (amended). Missing working profile: when
`dt_ioppr_get_pipe_current_profile_info` yields `NULL`, `process` returns
without writing anything: the output buffer holds exactly what it held before
the call, whatever the input image, the number of channels and the mask mode. -/
theorem C7_no_profile_leaves_output [FloorRing α] (E : ColorLib α) (G : GaussianLib α)
    (B : Bilinear α) (d : dt_iop_colorequal_data_t α) (colors : Nat)
    (gui_mask_mode : Option Int) (fullpipe : Bool) (inp out : Nat → α)
    (roi_out : dt_iop_roi_t α) :
    process E G B d colors gui_mask_mode fullpipe none inp out roi_out = out := by
  unfold process
  split_ifs <;> rfl

/-! ### The tables of the identity parameters -/

/-- With smoothing π the cosine series has 6 terms. -/
lemma rbf_terms_pi : rbf_terms Real.sqrt Real.pi = 6 := by
  have h1 : (5 : ℝ) / 3 < Real.sqrt Real.pi := by
    rw [Real.lt_sqrt (by norm_num)]
    nlinarith [Real.pi_gt_three]
  have h2 : Real.sqrt Real.pi ≤ 2 := by
    rw [Real.sqrt_le_left (by norm_num)]
    nlinarith [Real.pi_le_four]
  have h3 : ⌈3 * Real.sqrt Real.pi⌉ = 6 := by
    rw [Int.ceil_eq_iff]
    constructor
    · push_cast; linarith
    · push_cast; linarith
  simp [rbf_terms, h3]

/-- The coefficient of the `l`-th cosine, as a power of `exp(-1/π)`. -/
lemma cosine_coeffs_pi (l : ℕ) :
    _cosine_coeffs Real.exp (l : ℝ) Real.pi = Real.exp (-(1 / Real.pi)) ^ (l * l) := by
  rw [← Real.exp_nat_mul]
  simp only [_cosine_coeffs]
  congr 1
  push_cast
  ring

/-- The series with smoothing π at a hue difference of `n` sixteenths of a turn. -/
lemma rbf_series_pi (n : ℕ) (h1 h2 : ℝ) (hd : |h1 - h2| = (n : ℝ) * (Real.pi / 8)) :
    rbf_series Real.exp Real.cos Real.sqrt Real.pi h1 h2
      = 1 + Real.exp (-(1 / Real.pi)) ^ 1 * Real.cos (((1 * n : ℕ) : ℝ) * (Real.pi / 8))
          + Real.exp (-(1 / Real.pi)) ^ 4 * Real.cos (((2 * n : ℕ) : ℝ) * (Real.pi / 8))
          + Real.exp (-(1 / Real.pi)) ^ 9 * Real.cos (((3 * n : ℕ) : ℝ) * (Real.pi / 8))
          + Real.exp (-(1 / Real.pi)) ^ 16 * Real.cos (((4 * n : ℕ) : ℝ) * (Real.pi / 8))
          + Real.exp (-(1 / Real.pi)) ^ 25 * Real.cos (((5 * n : ℕ) : ℝ) * (Real.pi / 8)) := by
  have hc : ∀ l : ℕ, Real.cos ((l : ℝ) * |h1 - h2|)
      = Real.cos (((l * n : ℕ) : ℝ) * (Real.pi / 8)) := by
    intro l
    rw [hd]
    congr 1
    push_cast
    ring
  simp only [rbf_series, rbf_terms_pi, Finset.sum_range_succ, Finset.sum_range_zero,
    cosine_coeffs_pi, hc]
  norm_num
/-- The cosine of three eighths of π. -/
lemma cos_three_pi_div_eight :
    Real.cos (3 * (Real.pi / 8)) = Real.sin (Real.pi / 8) := by
  rw [← Real.cos_pi_div_two_sub]
  congr 1
  ring

/-- The values of the cosine at the multiples of π/8. -/
lemma cos_eighth (N : ℕ) :
    Real.cos ((N : ℝ) * (Real.pi / 8)) =
      (match N % 16 with
        | 0 => 1
        | 1 => Real.cos (Real.pi / 8)
        | 2 => Real.cos (Real.pi / 4)
        | 3 => Real.sin (Real.pi / 8)
        | 4 => 0
        | 5 => -Real.sin (Real.pi / 8)
        | 6 => -Real.cos (Real.pi / 4)
        | 7 => -Real.cos (Real.pi / 8)
        | 8 => -1
        | 9 => -Real.cos (Real.pi / 8)
        | 10 => -Real.cos (Real.pi / 4)
        | 11 => -Real.sin (Real.pi / 8)
        | 12 => 0
        | 13 => Real.sin (Real.pi / 8)
        | 14 => Real.cos (Real.pi / 4)
        | _ => Real.cos (Real.pi / 8)) := by
  have hr : N % 16 < 16 := Nat.mod_lt _ (by norm_num)
  have hN : (N : ℝ) * (Real.pi / 8)
      = ((N % 16 : ℕ) : ℝ) * (Real.pi / 8) + ((N / 16 : ℕ) : ℝ) * (2 * Real.pi) := by
    have h' : (N : ℝ) = 16 * ((N / 16 : ℕ) : ℝ) + ((N % 16 : ℕ) : ℝ) := by
      exact_mod_cast (Nat.div_add_mod N 16).symm
    calc (N : ℝ) * (Real.pi / 8)
        = (16 * ((N / 16 : ℕ) : ℝ) + ((N % 16 : ℕ) : ℝ)) * (Real.pi / 8) := by rw [← h']
      _ = ((N % 16 : ℕ) : ℝ) * (Real.pi / 8) + ((N / 16 : ℕ) : ℝ) * (2 * Real.pi) := by ring
  rw [hN, Real.cos_add_nat_mul_two_pi]
  generalize N % 16 = r at hr
  interval_cases r
  · simp
  · simp
  · have e : ((2 : ℕ) : ℝ) * (Real.pi / 8) = Real.pi / 4 := by push_cast; ring
    rw [e]
  · have e : ((3 : ℕ) : ℝ) * (Real.pi / 8) = 3 * (Real.pi / 8) := by push_cast; ring
    rw [e, cos_three_pi_div_eight]
  · have e : ((4 : ℕ) : ℝ) * (Real.pi / 8) = Real.pi / 2 := by push_cast; ring
    rw [e, Real.cos_pi_div_two]
  · have e : ((5 : ℕ) : ℝ) * (Real.pi / 8) = Real.pi / 8 + Real.pi / 2 := by push_cast; ring
    rw [e, Real.cos_add_pi_div_two]
  · have e : ((6 : ℕ) : ℝ) * (Real.pi / 8) = Real.pi - Real.pi / 4 := by push_cast; ring
    rw [e, Real.cos_pi_sub]
  · have e : ((7 : ℕ) : ℝ) * (Real.pi / 8) = Real.pi - Real.pi / 8 := by push_cast; ring
    rw [e, Real.cos_pi_sub]
  · have e : ((8 : ℕ) : ℝ) * (Real.pi / 8) = Real.pi := by push_cast; ring
    rw [e, Real.cos_pi]
  · have e : ((9 : ℕ) : ℝ) * (Real.pi / 8) = Real.pi / 8 + Real.pi := by push_cast; ring
    rw [e, Real.cos_add_pi]
  · have e : ((10 : ℕ) : ℝ) * (Real.pi / 8) = Real.pi / 4 + Real.pi := by push_cast; ring
    rw [e, Real.cos_add_pi]
  · have e : ((11 : ℕ) : ℝ) * (Real.pi / 8) = 3 * (Real.pi / 8) + Real.pi := by
      push_cast; ring
    rw [e, Real.cos_add_pi, cos_three_pi_div_eight]
  · have e : ((12 : ℕ) : ℝ) * (Real.pi / 8) = Real.pi / 2 + Real.pi := by push_cast; ring
    rw [e, Real.cos_add_pi, Real.cos_pi_div_two, neg_zero]
  · have e : ((13 : ℕ) : ℝ) * (Real.pi / 8) = 2 * Real.pi - 3 * (Real.pi / 8) := by
      push_cast; ring
    rw [e, Real.cos_two_pi_sub, cos_three_pi_div_eight]
  · have e : ((14 : ℕ) : ℝ) * (Real.pi / 8) = 2 * Real.pi - Real.pi / 4 := by push_cast; ring
    rw [e, Real.cos_two_pi_sub]
  · have e : ((15 : ℕ) : ℝ) * (Real.pi / 8) = 2 * Real.pi - Real.pi / 8 := by push_cast; ring
    rw [e, Real.cos_two_pi_sub]

/-- The series depends on the two hues through the absolute value of their difference. -/
lemma rbf_series_congr [FloorRing α] (expf cosf sqrtf : α → α) (smoothing h1 h2 h1' h2' : α)
    (h : |h1 - h2| = |h1' - h2'|) :
    rbf_series expf cosf sqrtf smoothing h1 h2 = rbf_series expf cosf sqrtf smoothing h1' h2' := by
  simp only [rbf_series, h]

/-- The difference of two node angles. -/
lemma hue_node_sub (i k : ℕ) (hue_shift : ℝ) :
    _get_hue_node Real.pi i hue_shift - _get_hue_node Real.pi k hue_shift
      = ((i : ℝ) - (k : ℝ)) * (Real.pi / 4) := by
  simp only [_get_hue_node, _deg_to_rad, ANGLE_SHIFT]
  push_cast
  ring

/-- A sum over one period of an 8-periodic sequence does not depend on where it starts. -/
lemma sum_periodic_eight (g : ℤ → ℝ) (hper : ∀ j, g (j + 8) = g j) (i : ℕ) (hi : i < 8) :
    ∑ k in range 8, g ((i : ℤ) - (k : ℤ)) = ∑ k in range 8, g (k : ℤ) := by
  have h1 := hper (-1)
  have h2 := hper (-2)
  have h3 := hper (-3)
  have h4 := hper (-4)
  have h5 := hper (-5)
  have h6 := hper (-6)
  have h7 := hper (-7)
  norm_num at h1 h2 h3 h4 h5 h6 h7
  interval_cases i <;> simp [Finset.sum_range_succ] <;> linarith

/-- The rows of the kernel matrix all have the same sum (the nodes are equally
spaced on the circle). -/
lemma rbf_A_row_sum (expf sqrtf : ℝ → ℝ) (smoothing hue_shift : ℝ) (i : Fin NODES) :
    ∑ k : Fin NODES, rbf_A expf Real.cos sqrtf Real.pi smoothing hue_shift i k
      = ∑ k : Fin NODES, rbf_A expf Real.cos sqrtf Real.pi smoothing hue_shift 0 k := by
  have hA : ∀ i k : Fin NODES, rbf_A expf Real.cos sqrtf Real.pi smoothing hue_shift i k
      = (fun j : ℤ => expf (rbf_series expf Real.cos sqrtf smoothing
          ((j : ℝ) * (Real.pi / 4)) 0)) ((i : ℤ) - (k : ℤ)) := by
    intro i k
    simp only [rbf_A]
    congr 1
    apply rbf_series_congr
    rw [hue_node_sub, sub_zero]
    push_cast
    rfl
  have hper : ∀ j : ℤ, (fun j : ℤ => expf (rbf_series expf Real.cos sqrtf smoothing
      ((j : ℝ) * (Real.pi / 4)) 0)) (j + 8)
      = (fun j : ℤ => expf (rbf_series expf Real.cos sqrtf smoothing
          ((j : ℝ) * (Real.pi / 4)) 0)) j := by
    intro j
    simp only
    have e : (((j + 8 : ℤ)) : ℝ) * (Real.pi / 4) = (j : ℝ) * (Real.pi / 4) + 2 * Real.pi := by
      push_cast; ring
    rw [e, rbf_series_add_two_pi]
  have h0 : ∀ k : Fin NODES, rbf_A expf Real.cos sqrtf Real.pi smoothing hue_shift 0 k
      = (fun j : ℤ => expf (rbf_series expf Real.cos sqrtf smoothing
          ((j : ℝ) * (Real.pi / 4)) 0)) (k : ℤ) := by
    intro k
    simp only [rbf_A]
    congr 1
    apply rbf_series_congr
    rw [hue_node_sub, sub_zero]
    have : ((0 : Fin NODES) : ℕ) = 0 := rfl
    rw [this]
    push_cast
    rw [zero_sub, neg_mul, abs_neg]
  rw [Finset.sum_congr rfl (fun k _ => hA i k), Finset.sum_congr rfl (fun k _ => h0 k),
    Fin.sum_univ_eq_sum_range (fun k : ℕ => (fun j : ℤ => expf (rbf_series expf Real.cos sqrtf
      smoothing ((j : ℝ) * (Real.pi / 4)) 0)) ((i : ℤ) - (k : ℤ))) 8,
    Fin.sum_univ_eq_sum_range (fun k : ℕ => (fun j : ℤ => expf (rbf_series expf Real.cos sqrtf
      smoothing ((j : ℝ) * (Real.pi / 4)) 0)) (k : ℤ)) 8]
  exact sum_periodic_eight (fun j : ℤ => expf (rbf_series expf Real.cos sqrtf
      smoothing ((j : ℝ) * (Real.pi / 4)) 0)) hper i i.isLt

/-! ### Numerical bounds for the kernel of smoothing π -/

/-- Products of two bounded non-negative reals. -/
lemma mul_between {x y xl xh yl yh : ℝ} (hxl : xl ≤ x) (hxh : x ≤ xh) (hyl : yl ≤ y)
    (hyh : y ≤ yh) (h0 : 0 ≤ xl) (h1 : 0 ≤ yl) : xl * yl ≤ x * y ∧ x * y ≤ xh * yh :=
  ⟨mul_le_mul hxl hyl h1 (h0.trans hxl),
    mul_le_mul hxh hyh (h1.trans hyl) (h0.trans (hxl.trans hxh))⟩

/-- Bounds on `exp(-1/π)`, the base of the coefficients of the cosine series. -/
lemma exp_neg_inv_pi_bounds :
    (0.72737 : ℝ) ≤ Real.exp (-(1 / Real.pi)) ∧ Real.exp (-(1 / Real.pi)) ≤ 0.72738 := by
  have hpi : 0 < Real.pi := Real.pi_pos
  have hx_hi : 1 / Real.pi ≤ 0.31831 := by
    rw [div_le_iff₀ hpi]
    nlinarith [Real.pi_gt_d6]
  have hx_lo : (0.318309 : ℝ) ≤ 1 / Real.pi := by
    rw [le_div_iff₀ hpi]
    nlinarith [Real.pi_lt_d6]
  have hup : 0.72737 * Real.exp (1 / Real.pi) ≤ 1 := by
    have h1 : Real.exp (1 / Real.pi) ≤ Real.exp 0.31831 := Real.exp_le_exp.mpr hx_hi
    have h2 := @Real.exp_bound' 0.31831 (by norm_num) (by norm_num) 5 (by norm_num)
    have h3 : 0.72737 * (∑ m in range 5, (0.31831 : ℝ) ^ m / (m.factorial : ℝ)
        + 0.31831 ^ 5 * ((5 : ℕ) + 1) / ((Nat.factorial 5 : ℝ) * (5 : ℕ))) ≤ 1 := by
      norm_num [Finset.sum_range_succ, Nat.factorial]
    nlinarith [h1, h2, h3]
  have hlow : 1 ≤ 0.72738 * Real.exp (1 / Real.pi) := by
    have h1 : Real.exp 0.318309 ≤ Real.exp (1 / Real.pi) := Real.exp_le_exp.mpr hx_lo
    have h2 := Real.sum_le_exp_of_nonneg (show (0 : ℝ) ≤ 0.318309 by norm_num) 6
    have h3 : 1 ≤ 0.72738 * (∑ m in range 6, (0.318309 : ℝ) ^ m / (m.factorial : ℝ)) := by
      norm_num [Finset.sum_range_succ, Nat.factorial]
    nlinarith [h1, h2, h3]
  have hprod : Real.exp (-(1 / Real.pi)) * Real.exp (1 / Real.pi) = 1 := by
    rw [← Real.exp_add]
    simp
  have hpos : 0 < Real.exp (1 / Real.pi) := Real.exp_pos _
  constructor
  · apply le_of_mul_le_mul_right _ hpos
    rw [hprod]
    exact hup
  · apply le_of_mul_le_mul_right _ hpos
    rw [hprod]
    exact hlow

/-- Bounds on the coefficients `exp(-l²/π)` of the cosine series, `l = 1..5`. -/
lemma exp_neg_inv_pi_pow_bounds :
    (0.72737 : ℝ) ≤ Real.exp (-(1 / Real.pi)) ^ 1
    ∧ Real.exp (-(1 / Real.pi)) ^ 1 ≤ 0.72738 ∧ (0.279912 : ℝ) ≤ Real.exp (-(1 / Real.pi)) ^ 4
    ∧ Real.exp (-(1 / Real.pi)) ^ 4 ≤ 0.2799275 ∧ (0.0569899 : ℝ) ≤ Real.exp (-(1 / Real.pi)) ^ 9
    ∧ Real.exp (-(1 / Real.pi)) ^ 9 ≤ 0.0569971 ∧ (0.0061388 : ℝ) ≤ Real.exp (-(1 / Real.pi)) ^ 16
    ∧ Real.exp (-(1 / Real.pi)) ^ 16 ≤ 0.0061402 ∧ (0.0003498 : ℝ) ≤ Real.exp (-(1 / Real.pi)) ^ 25
    ∧ Real.exp (-(1 / Real.pi)) ^ 25 ≤ 0.00035 := by
  obtain ⟨hl, hh⟩ := exp_neg_inv_pi_bounds
  have h0 : (0 : ℝ) ≤ Real.exp (-(1 / Real.pi)) := (Real.exp_pos _).le
  exact ⟨le_trans (by norm_num) (pow_le_pow_left₀ (by norm_num) hl 1),
    le_trans (pow_le_pow_left₀ h0 hh 1) (by norm_num),
    le_trans (by norm_num) (pow_le_pow_left₀ (by norm_num) hl 4),
    le_trans (pow_le_pow_left₀ h0 hh 4) (by norm_num),
    le_trans (by norm_num) (pow_le_pow_left₀ (by norm_num) hl 9),
    le_trans (pow_le_pow_left₀ h0 hh 9) (by norm_num),
    le_trans (by norm_num) (pow_le_pow_left₀ (by norm_num) hl 16),
    le_trans (pow_le_pow_left₀ h0 hh 16) (by norm_num),
    le_trans (by norm_num) (pow_le_pow_left₀ (by norm_num) hl 25),
    le_trans (pow_le_pow_left₀ h0 hh 25) (by norm_num)⟩

/-- Bounds on `√2`. -/
lemma sqrt_two_bounds : (1.41421 : ℝ) ≤ Real.sqrt 2 ∧ Real.sqrt 2 ≤ 1.41422 := by
  constructor
  · rw [Real.le_sqrt (by norm_num) (by norm_num)]
    norm_num
  · rw [Real.sqrt_le_left (by norm_num)]
    norm_num

/-- Bounds on `cos(π/4)`. -/
lemma cos_pi_div_four_bounds :
    (0.707105 : ℝ) ≤ Real.cos (Real.pi / 4) ∧ Real.cos (Real.pi / 4) ≤ 0.70711 := by
  obtain ⟨hl, hh⟩ := sqrt_two_bounds
  rw [Real.cos_pi_div_four]
  constructor <;> linarith

/-- Bounds on `cos(π/8)`. -/
lemma cos_pi_div_eight_bounds :
    (0.92387 : ℝ) ≤ Real.cos (Real.pi / 8) ∧ Real.cos (Real.pi / 8) ≤ 0.92389 := by
  obtain ⟨hl, hh⟩ := sqrt_two_bounds
  rw [Real.cos_pi_div_eight]
  have h1 : (1.84774 : ℝ) ≤ Real.sqrt (2 + Real.sqrt 2) := by
    rw [Real.le_sqrt (by norm_num) (by linarith)]
    linarith
  have h2 : Real.sqrt (2 + Real.sqrt 2) ≤ 1.84778 := by
    rw [Real.sqrt_le_left (by norm_num)]
    linarith
  constructor <;> linarith

/-- Bounds on `sin(π/8)`, which is `cos(3π/8)`. -/
lemma sin_pi_div_eight_bounds :
    (0.38268 : ℝ) ≤ Real.sin (Real.pi / 8) ∧ Real.sin (Real.pi / 8) ≤ 0.38269 := by
  obtain ⟨hl, hh⟩ := sqrt_two_bounds
  rw [Real.sin_pi_div_eight]
  have h1 : (0.76536 : ℝ) ≤ Real.sqrt (2 - Real.sqrt 2) := by
    rw [Real.le_sqrt (by norm_num) (by linarith)]
    linarith
  have h2 : Real.sqrt (2 - Real.sqrt 2) ≤ 0.76538 := by
    rw [Real.sqrt_le_left (by norm_num)]
    linarith
  constructor <;> linarith

/-- Lower bound on the kernel of smoothing π at a hue difference of 0·π/8. -/
lemma rbf_kernel_ge_0 (h1 h2 : ℝ) (hd : |h1 - h2| = ((0 : ℕ) : ℝ) * (Real.pi / 8)) :
    (7.9307 : ℝ) ≤ Real.exp (rbf_series Real.exp Real.cos Real.sqrt Real.pi h1 h2) := by
  obtain ⟨a1l, a1h, a4l, a4h, a9l, a9h, a16l, a16h, a25l, a25h⟩ := exp_neg_inv_pi_pow_bounds
  obtain ⟨Rl, Rh⟩ := cos_pi_div_four_bounds
  obtain ⟨Pl, Ph⟩ := cos_pi_div_eight_bounds
  obtain ⟨Ql, Qh⟩ := sin_pi_div_eight_bounds
  have c1 : Real.cos (((1 * 0 : ℕ) : ℝ) * (Real.pi / 8)) = 1 :=
    cos_eighth (1 * 0)
  have c2 : Real.cos (((2 * 0 : ℕ) : ℝ) * (Real.pi / 8)) = 1 :=
    cos_eighth (2 * 0)
  have c3 : Real.cos (((3 * 0 : ℕ) : ℝ) * (Real.pi / 8)) = 1 :=
    cos_eighth (3 * 0)
  have c4 : Real.cos (((4 * 0 : ℕ) : ℝ) * (Real.pi / 8)) = 1 :=
    cos_eighth (4 * 0)
  have c5 : Real.cos (((5 * 0 : ℕ) : ℝ) * (Real.pi / 8)) = 1 :=
    cos_eighth (5 * 0)
  rw [rbf_series_pi 0 h1 h2 hd]
  simp only [c1, c2, c3, c4, c5]
  have e1 : (7.9307 : ℝ) ≤ ∑ m in range 11, (2.07076 : ℝ) ^ m / (m.factorial : ℝ) := by
    norm_num [Finset.sum_range_succ, Nat.factorial]
  have e2 := Real.sum_le_exp_of_nonneg (show (0 : ℝ) ≤ 2.07076 by norm_num) 11
  exact e1.trans (e2.trans (Real.exp_le_exp.mpr (by linarith [a1l, a1h, a4l, a4h, a9l, a9h, a16l, a16h, a25l, a25h])))

/-- Upper bound on the kernel of smoothing π at a hue difference of 1·π/8. -/
lemma rbf_kernel_le_1 (h1 h2 : ℝ) (hd : |h1 - h2| = ((1 : ℕ) : ℝ) * (Real.pi / 8)) :
    Real.exp (rbf_series Real.exp Real.cos Real.sqrt Real.pi h1 h2) ≤ 6.6304 := by
  obtain ⟨a1l, a1h, a4l, a4h, a9l, a9h, a16l, a16h, a25l, a25h⟩ := exp_neg_inv_pi_pow_bounds
  obtain ⟨Rl, Rh⟩ := cos_pi_div_four_bounds
  obtain ⟨Pl, Ph⟩ := cos_pi_div_eight_bounds
  obtain ⟨Ql, Qh⟩ := sin_pi_div_eight_bounds
  have c1 : Real.cos (((1 * 1 : ℕ) : ℝ) * (Real.pi / 8)) = Real.cos (Real.pi / 8) :=
    cos_eighth (1 * 1)
  have c2 : Real.cos (((2 * 1 : ℕ) : ℝ) * (Real.pi / 8)) = Real.cos (Real.pi / 4) :=
    cos_eighth (2 * 1)
  have c3 : Real.cos (((3 * 1 : ℕ) : ℝ) * (Real.pi / 8)) = Real.sin (Real.pi / 8) :=
    cos_eighth (3 * 1)
  have c4 : Real.cos (((4 * 1 : ℕ) : ℝ) * (Real.pi / 8)) = 0 :=
    cos_eighth (4 * 1)
  have c5 : Real.cos (((5 * 1 : ℕ) : ℝ) * (Real.pi / 8)) = -Real.sin (Real.pi / 8) :=
    cos_eighth (5 * 1)
  have m1 := mul_between a1l a1h Pl Ph (by norm_num) (by norm_num)
  have m2 := mul_between a4l a4h Rl Rh (by norm_num) (by norm_num)
  have m3 := mul_between a9l a9h Ql Qh (by norm_num) (by norm_num)
  have m5 := mul_between a25l a25h Ql Qh (by norm_num) (by norm_num)
  rw [rbf_series_pi 1 h1 h2 hd]
  simp only [c1, c2, c3, c4, c5]
  have e1 := @Real.exp_bound' 0.94582 (by norm_num) (by norm_num) 6 (by norm_num)
  have e2 : (∑ m in range 6, (0.94582 : ℝ) ^ m / (m.factorial : ℝ)
      + 0.94582 ^ 6 * ((6 : ℕ) + 1) / ((Nat.factorial 6 : ℝ) * (6 : ℕ))) ≤ 2.57494 := by
    norm_num [Finset.sum_range_succ, Nat.factorial]
  have e3 : Real.exp 0.94582 ^ 2 ≤ 6.6304 :=
    le_trans (pow_le_pow_left₀ (Real.exp_pos _).le (e1.trans e2) 2) (by norm_num)
  have e4 : Real.exp (((2 : ℕ) : ℝ) * 0.94582) = Real.exp 0.94582 ^ 2 := Real.exp_nat_mul _ 2
  rw [← e4] at e3
  exact (Real.exp_le_exp.mpr (by push_cast; linarith [a1l, a1h, a4l, a4h, a9l, a9h, a16l, a16h, a25l, a25h, m1.1, m1.2, m2.1, m2.2, m3.1, m3.2, m5.1, m5.2])).trans e3

/-- Lower bound on the kernel of smoothing π at a hue difference of 2·π/8. -/
lemma rbf_kernel_ge_2 (h1 h2 : ℝ) (hd : |h1 - h2| = ((2 : ℕ) : ℝ) * (Real.pi / 8)) :
    (4.3389 : ℝ) ≤ Real.exp (rbf_series Real.exp Real.cos Real.sqrt Real.pi h1 h2) := by
  obtain ⟨a1l, a1h, a4l, a4h, a9l, a9h, a16l, a16h, a25l, a25h⟩ := exp_neg_inv_pi_pow_bounds
  obtain ⟨Rl, Rh⟩ := cos_pi_div_four_bounds
  obtain ⟨Pl, Ph⟩ := cos_pi_div_eight_bounds
  obtain ⟨Ql, Qh⟩ := sin_pi_div_eight_bounds
  have c1 : Real.cos (((1 * 2 : ℕ) : ℝ) * (Real.pi / 8)) = Real.cos (Real.pi / 4) :=
    cos_eighth (1 * 2)
  have c2 : Real.cos (((2 * 2 : ℕ) : ℝ) * (Real.pi / 8)) = 0 :=
    cos_eighth (2 * 2)
  have c3 : Real.cos (((3 * 2 : ℕ) : ℝ) * (Real.pi / 8)) = -Real.cos (Real.pi / 4) :=
    cos_eighth (3 * 2)
  have c4 : Real.cos (((4 * 2 : ℕ) : ℝ) * (Real.pi / 8)) = -1 :=
    cos_eighth (4 * 2)
  have c5 : Real.cos (((5 * 2 : ℕ) : ℝ) * (Real.pi / 8)) = -Real.cos (Real.pi / 4) :=
    cos_eighth (5 * 2)
  have m1 := mul_between a1l a1h Rl Rh (by norm_num) (by norm_num)
  have m3 := mul_between a9l a9h Rl Rh (by norm_num) (by norm_num)
  have m5 := mul_between a25l a25h Rl Rh (by norm_num) (by norm_num)
  rw [rbf_series_pi 2 h1 h2 hd]
  simp only [c1, c2, c3, c4, c5]
  have e1 : (4.3389 : ℝ) ≤ ∑ m in range 10, (1.46763 : ℝ) ^ m / (m.factorial : ℝ) := by
    norm_num [Finset.sum_range_succ, Nat.factorial]
  have e2 := Real.sum_le_exp_of_nonneg (show (0 : ℝ) ≤ 1.46763 by norm_num) 10
  exact e1.trans (e2.trans (Real.exp_le_exp.mpr (by linarith [a1l, a1h, a4l, a4h, a9l, a9h, a16l, a16h, a25l, a25h, m1.1, m1.2, m3.1, m3.2, m5.1, m5.2])))

/-- Upper bound on the kernel of smoothing π at a hue difference of 3·π/8. -/
lemma rbf_kernel_le_3 (h1 h2 : ℝ) (hd : |h1 - h2| = ((3 : ℕ) : ℝ) * (Real.pi / 8)) :
    Real.exp (rbf_series Real.exp Real.cos Real.sqrt Real.pi h1 h2) ≤ 2.796 := by
  obtain ⟨a1l, a1h, a4l, a4h, a9l, a9h, a16l, a16h, a25l, a25h⟩ := exp_neg_inv_pi_pow_bounds
  obtain ⟨Rl, Rh⟩ := cos_pi_div_four_bounds
  obtain ⟨Pl, Ph⟩ := cos_pi_div_eight_bounds
  obtain ⟨Ql, Qh⟩ := sin_pi_div_eight_bounds
  have c1 : Real.cos (((1 * 3 : ℕ) : ℝ) * (Real.pi / 8)) = Real.sin (Real.pi / 8) :=
    cos_eighth (1 * 3)
  have c2 : Real.cos (((2 * 3 : ℕ) : ℝ) * (Real.pi / 8)) = -Real.cos (Real.pi / 4) :=
    cos_eighth (2 * 3)
  have c3 : Real.cos (((3 * 3 : ℕ) : ℝ) * (Real.pi / 8)) = -Real.cos (Real.pi / 8) :=
    cos_eighth (3 * 3)
  have c4 : Real.cos (((4 * 3 : ℕ) : ℝ) * (Real.pi / 8)) = 0 :=
    cos_eighth (4 * 3)
  have c5 : Real.cos (((5 * 3 : ℕ) : ℝ) * (Real.pi / 8)) = Real.cos (Real.pi / 8) :=
    cos_eighth (5 * 3)
  have m1 := mul_between a1l a1h Ql Qh (by norm_num) (by norm_num)
  have m2 := mul_between a4l a4h Rl Rh (by norm_num) (by norm_num)
  have m3 := mul_between a9l a9h Pl Ph (by norm_num) (by norm_num)
  have m5 := mul_between a25l a25h Pl Ph (by norm_num) (by norm_num)
  rw [rbf_series_pi 3 h1 h2 hd]
  simp only [c1, c2, c3, c4, c5]
  have e1 := @Real.exp_bound' 0.51406 (by norm_num) (by norm_num) 5 (by norm_num)
  have e2 : (∑ m in range 5, (0.51406 : ℝ) ^ m / (m.factorial : ℝ)
      + 0.51406 ^ 5 * ((5 : ℕ) + 1) / ((Nat.factorial 5 : ℝ) * (5 : ℕ))) ≤ 1.6721 := by
    norm_num [Finset.sum_range_succ, Nat.factorial]
  have e3 : Real.exp 0.51406 ^ 2 ≤ 2.796 :=
    le_trans (pow_le_pow_left₀ (Real.exp_pos _).le (e1.trans e2) 2) (by norm_num)
  have e4 : Real.exp (((2 : ℕ) : ℝ) * 0.51406) = Real.exp 0.51406 ^ 2 := Real.exp_nat_mul _ 2
  rw [← e4] at e3
  exact (Real.exp_le_exp.mpr (by push_cast; linarith [a1l, a1h, a4l, a4h, a9l, a9h, a16l, a16h, a25l, a25h, m1.1, m1.2, m2.1, m2.2, m3.1, m3.2, m5.1, m5.2])).trans e3

/-- Lower bound on the kernel of smoothing π at a hue difference of 4·π/8. -/
lemma rbf_kernel_ge_4 (h1 h2 : ℝ) (hd : |h1 - h2| = ((4 : ℕ) : ℝ) * (Real.pi / 8)) :
    (2.0672 : ℝ) ≤ Real.exp (rbf_series Real.exp Real.cos Real.sqrt Real.pi h1 h2) := by
  obtain ⟨a1l, a1h, a4l, a4h, a9l, a9h, a16l, a16h, a25l, a25h⟩ := exp_neg_inv_pi_pow_bounds
  obtain ⟨Rl, Rh⟩ := cos_pi_div_four_bounds
  obtain ⟨Pl, Ph⟩ := cos_pi_div_eight_bounds
  obtain ⟨Ql, Qh⟩ := sin_pi_div_eight_bounds
  have c1 : Real.cos (((1 * 4 : ℕ) : ℝ) * (Real.pi / 8)) = 0 :=
    cos_eighth (1 * 4)
  have c2 : Real.cos (((2 * 4 : ℕ) : ℝ) * (Real.pi / 8)) = -1 :=
    cos_eighth (2 * 4)
  have c3 : Real.cos (((3 * 4 : ℕ) : ℝ) * (Real.pi / 8)) = 0 :=
    cos_eighth (3 * 4)
  have c4 : Real.cos (((4 * 4 : ℕ) : ℝ) * (Real.pi / 8)) = 1 :=
    cos_eighth (4 * 4)
  have c5 : Real.cos (((5 * 4 : ℕ) : ℝ) * (Real.pi / 8)) = 0 :=
    cos_eighth (5 * 4)
  rw [rbf_series_pi 4 h1 h2 hd]
  simp only [c1, c2, c3, c4, c5]
  have e1 : (2.0672 : ℝ) ≤ ∑ m in range 7, (0.72621 : ℝ) ^ m / (m.factorial : ℝ) := by
    norm_num [Finset.sum_range_succ, Nat.factorial]
  have e2 := Real.sum_le_exp_of_nonneg (show (0 : ℝ) ≤ 0.72621 by norm_num) 7
  exact e1.trans (e2.trans (Real.exp_le_exp.mpr (by linarith [a1l, a1h, a4l, a4h, a9l, a9h, a16l, a16h, a25l, a25h])))

/-- Upper bound on the kernel of smoothing π at a hue difference of 5·π/8. -/
lemma rbf_kernel_le_5 (h1 h2 : ℝ) (hd : |h1 - h2| = ((5 : ℕ) : ℝ) * (Real.pi / 8)) :
    Real.exp (rbf_series Real.exp Real.cos Real.sqrt Real.pi h1 h2) ≤ 1.7791 := by
  obtain ⟨a1l, a1h, a4l, a4h, a9l, a9h, a16l, a16h, a25l, a25h⟩ := exp_neg_inv_pi_pow_bounds
  obtain ⟨Rl, Rh⟩ := cos_pi_div_four_bounds
  obtain ⟨Pl, Ph⟩ := cos_pi_div_eight_bounds
  obtain ⟨Ql, Qh⟩ := sin_pi_div_eight_bounds
  have c1 : Real.cos (((1 * 5 : ℕ) : ℝ) * (Real.pi / 8)) = -Real.sin (Real.pi / 8) :=
    cos_eighth (1 * 5)
  have c2 : Real.cos (((2 * 5 : ℕ) : ℝ) * (Real.pi / 8)) = -Real.cos (Real.pi / 4) :=
    cos_eighth (2 * 5)
  have c3 : Real.cos (((3 * 5 : ℕ) : ℝ) * (Real.pi / 8)) = Real.cos (Real.pi / 8) :=
    cos_eighth (3 * 5)
  have c4 : Real.cos (((4 * 5 : ℕ) : ℝ) * (Real.pi / 8)) = 0 :=
    cos_eighth (4 * 5)
  have c5 : Real.cos (((5 * 5 : ℕ) : ℝ) * (Real.pi / 8)) = -Real.cos (Real.pi / 8) :=
    cos_eighth (5 * 5)
  have m1 := mul_between a1l a1h Ql Qh (by norm_num) (by norm_num)
  have m2 := mul_between a4l a4h Rl Rh (by norm_num) (by norm_num)
  have m3 := mul_between a9l a9h Pl Ph (by norm_num) (by norm_num)
  have m5 := mul_between a25l a25h Pl Ph (by norm_num) (by norm_num)
  rw [rbf_series_pi 5 h1 h2 hd]
  simp only [c1, c2, c3, c4, c5]
  have e1 := @Real.exp_bound' 0.28803 (by norm_num) (by norm_num) 5 (by norm_num)
  have e2 : (∑ m in range 5, (0.28803 : ℝ) ^ m / (m.factorial : ℝ)
      + 0.28803 ^ 5 * ((5 : ℕ) + 1) / ((Nat.factorial 5 : ℝ) * (5 : ℕ))) ≤ 1.3338 := by
    norm_num [Finset.sum_range_succ, Nat.factorial]
  have e3 : Real.exp 0.28803 ^ 2 ≤ 1.7791 :=
    le_trans (pow_le_pow_left₀ (Real.exp_pos _).le (e1.trans e2) 2) (by norm_num)
  have e4 : Real.exp (((2 : ℕ) : ℝ) * 0.28803) = Real.exp 0.28803 ^ 2 := Real.exp_nat_mul _ 2
  rw [← e4] at e3
  exact (Real.exp_le_exp.mpr (by push_cast; linarith [a1l, a1h, a4l, a4h, a9l, a9h, a16l, a16h, a25l, a25h, m1.1, m1.2, m2.1, m2.2, m3.1, m3.2, m5.1, m5.2])).trans e3

/-- Lower bound on the kernel of smoothing π at a hue difference of 6·π/8. -/
lemma rbf_kernel_ge_6 (h1 h2 : ℝ) (hd : |h1 - h2| = ((6 : ℕ) : ℝ) * (Real.pi / 8)) :
    (1.682 : ℝ) ≤ Real.exp (rbf_series Real.exp Real.cos Real.sqrt Real.pi h1 h2) := by
  obtain ⟨a1l, a1h, a4l, a4h, a9l, a9h, a16l, a16h, a25l, a25h⟩ := exp_neg_inv_pi_pow_bounds
  obtain ⟨Rl, Rh⟩ := cos_pi_div_four_bounds
  obtain ⟨Pl, Ph⟩ := cos_pi_div_eight_bounds
  obtain ⟨Ql, Qh⟩ := sin_pi_div_eight_bounds
  have c1 : Real.cos (((1 * 6 : ℕ) : ℝ) * (Real.pi / 8)) = -Real.cos (Real.pi / 4) :=
    cos_eighth (1 * 6)
  have c2 : Real.cos (((2 * 6 : ℕ) : ℝ) * (Real.pi / 8)) = 0 :=
    cos_eighth (2 * 6)
  have c3 : Real.cos (((3 * 6 : ℕ) : ℝ) * (Real.pi / 8)) = Real.cos (Real.pi / 4) :=
    cos_eighth (3 * 6)
  have c4 : Real.cos (((4 * 6 : ℕ) : ℝ) * (Real.pi / 8)) = -1 :=
    cos_eighth (4 * 6)
  have c5 : Real.cos (((5 * 6 : ℕ) : ℝ) * (Real.pi / 8)) = Real.cos (Real.pi / 4) :=
    cos_eighth (5 * 6)
  have m1 := mul_between a1l a1h Rl Rh (by norm_num) (by norm_num)
  have m3 := mul_between a9l a9h Rl Rh (by norm_num) (by norm_num)
  have m5 := mul_between a25l a25h Rl Rh (by norm_num) (by norm_num)
  rw [rbf_series_pi 6 h1 h2 hd]
  simp only [c1, c2, c3, c4, c5]
  have e1 : (1.682 : ℝ) ≤ ∑ m in range 6, (0.52006 : ℝ) ^ m / (m.factorial : ℝ) := by
    norm_num [Finset.sum_range_succ, Nat.factorial]
  have e2 := Real.sum_le_exp_of_nonneg (show (0 : ℝ) ≤ 0.52006 by norm_num) 6
  exact e1.trans (e2.trans (Real.exp_le_exp.mpr (by linarith [a1l, a1h, a4l, a4h, a9l, a9h, a16l, a16h, a25l, a25h, m1.1, m1.2, m3.1, m3.2, m5.1, m5.2])))

/-- Upper bound on the kernel of smoothing π at a hue difference of 7·π/8. -/
lemma rbf_kernel_le_7 (h1 h2 : ℝ) (hd : |h1 - h2| = ((7 : ℕ) : ℝ) * (Real.pi / 8)) :
    Real.exp (rbf_series Real.exp Real.cos Real.sqrt Real.pi h1 h2) ≤ 1.6559 := by
  obtain ⟨a1l, a1h, a4l, a4h, a9l, a9h, a16l, a16h, a25l, a25h⟩ := exp_neg_inv_pi_pow_bounds
  obtain ⟨Rl, Rh⟩ := cos_pi_div_four_bounds
  obtain ⟨Pl, Ph⟩ := cos_pi_div_eight_bounds
  obtain ⟨Ql, Qh⟩ := sin_pi_div_eight_bounds
  have c1 : Real.cos (((1 * 7 : ℕ) : ℝ) * (Real.pi / 8)) = -Real.cos (Real.pi / 8) :=
    cos_eighth (1 * 7)
  have c2 : Real.cos (((2 * 7 : ℕ) : ℝ) * (Real.pi / 8)) = Real.cos (Real.pi / 4) :=
    cos_eighth (2 * 7)
  have c3 : Real.cos (((3 * 7 : ℕ) : ℝ) * (Real.pi / 8)) = -Real.sin (Real.pi / 8) :=
    cos_eighth (3 * 7)
  have c4 : Real.cos (((4 * 7 : ℕ) : ℝ) * (Real.pi / 8)) = 0 :=
    cos_eighth (4 * 7)
  have c5 : Real.cos (((5 * 7 : ℕ) : ℝ) * (Real.pi / 8)) = Real.sin (Real.pi / 8) :=
    cos_eighth (5 * 7)
  have m1 := mul_between a1l a1h Pl Ph (by norm_num) (by norm_num)
  have m2 := mul_between a4l a4h Rl Rh (by norm_num) (by norm_num)
  have m3 := mul_between a9l a9h Ql Qh (by norm_num) (by norm_num)
  have m5 := mul_between a25l a25h Ql Qh (by norm_num) (by norm_num)
  rw [rbf_series_pi 7 h1 h2 hd]
  simp only [c1, c2, c3, c4, c5]
  have e1 := @Real.exp_bound' 0.25214 (by norm_num) (by norm_num) 5 (by norm_num)
  have e2 : (∑ m in range 5, (0.25214 : ℝ) ^ m / (m.factorial : ℝ)
      + 0.25214 ^ 5 * ((5 : ℕ) + 1) / ((Nat.factorial 5 : ℝ) * (5 : ℕ))) ≤ 1.28678 := by
    norm_num [Finset.sum_range_succ, Nat.factorial]
  have e3 : Real.exp 0.25214 ^ 2 ≤ 1.6559 :=
    le_trans (pow_le_pow_left₀ (Real.exp_pos _).le (e1.trans e2) 2) (by norm_num)
  have e4 : Real.exp (((2 : ℕ) : ℝ) * 0.25214) = Real.exp 0.25214 ^ 2 := Real.exp_nat_mul _ 2
  rw [← e4] at e3
  exact (Real.exp_le_exp.mpr (by push_cast; linarith [a1l, a1h, a4l, a4h, a9l, a9h, a16l, a16h, a25l, a25h, m1.1, m1.2, m2.1, m2.2, m3.1, m3.2, m5.1, m5.2])).trans e3

/-- Lower bound on the kernel of smoothing π at a hue difference of 8·π/8. -/
lemma rbf_kernel_ge_8 (h1 h2 : ℝ) (hd : |h1 - h2| = ((8 : ℕ) : ℝ) * (Real.pi / 8)) :
    (1.6508 : ℝ) ≤ Real.exp (rbf_series Real.exp Real.cos Real.sqrt Real.pi h1 h2) := by
  obtain ⟨a1l, a1h, a4l, a4h, a9l, a9h, a16l, a16h, a25l, a25h⟩ := exp_neg_inv_pi_pow_bounds
  obtain ⟨Rl, Rh⟩ := cos_pi_div_four_bounds
  obtain ⟨Pl, Ph⟩ := cos_pi_div_eight_bounds
  obtain ⟨Ql, Qh⟩ := sin_pi_div_eight_bounds
  have c1 : Real.cos (((1 * 8 : ℕ) : ℝ) * (Real.pi / 8)) = -1 :=
    cos_eighth (1 * 8)
  have c2 : Real.cos (((2 * 8 : ℕ) : ℝ) * (Real.pi / 8)) = 1 :=
    cos_eighth (2 * 8)
  have c3 : Real.cos (((3 * 8 : ℕ) : ℝ) * (Real.pi / 8)) = -1 :=
    cos_eighth (3 * 8)
  have c4 : Real.cos (((4 * 8 : ℕ) : ℝ) * (Real.pi / 8)) = 1 :=
    cos_eighth (4 * 8)
  have c5 : Real.cos (((5 * 8 : ℕ) : ℝ) * (Real.pi / 8)) = -1 :=
    cos_eighth (5 * 8)
  rw [rbf_series_pi 8 h1 h2 hd]
  simp only [c1, c2, c3, c4, c5]
  have e1 : (1.6508 : ℝ) ≤ ∑ m in range 6, (0.50132 : ℝ) ^ m / (m.factorial : ℝ) := by
    norm_num [Finset.sum_range_succ, Nat.factorial]
  have e2 := Real.sum_le_exp_of_nonneg (show (0 : ℝ) ≤ 0.50132 by norm_num) 6
  exact e1.trans (e2.trans (Real.exp_le_exp.mpr (by linarith [a1l, a1h, a4l, a4h, a9l, a9h, a16l, a16h, a25l, a25h])))

/-- Upper bound on the kernel of smoothing π at a hue difference of 9·π/8. -/
lemma rbf_kernel_le_9 (h1 h2 : ℝ) (hd : |h1 - h2| = ((9 : ℕ) : ℝ) * (Real.pi / 8)) :
    Real.exp (rbf_series Real.exp Real.cos Real.sqrt Real.pi h1 h2) ≤ 1.6559 := by
  obtain ⟨a1l, a1h, a4l, a4h, a9l, a9h, a16l, a16h, a25l, a25h⟩ := exp_neg_inv_pi_pow_bounds
  obtain ⟨Rl, Rh⟩ := cos_pi_div_four_bounds
  obtain ⟨Pl, Ph⟩ := cos_pi_div_eight_bounds
  obtain ⟨Ql, Qh⟩ := sin_pi_div_eight_bounds
  have c1 : Real.cos (((1 * 9 : ℕ) : ℝ) * (Real.pi / 8)) = -Real.cos (Real.pi / 8) :=
    cos_eighth (1 * 9)
  have c2 : Real.cos (((2 * 9 : ℕ) : ℝ) * (Real.pi / 8)) = Real.cos (Real.pi / 4) :=
    cos_eighth (2 * 9)
  have c3 : Real.cos (((3 * 9 : ℕ) : ℝ) * (Real.pi / 8)) = -Real.sin (Real.pi / 8) :=
    cos_eighth (3 * 9)
  have c4 : Real.cos (((4 * 9 : ℕ) : ℝ) * (Real.pi / 8)) = 0 :=
    cos_eighth (4 * 9)
  have c5 : Real.cos (((5 * 9 : ℕ) : ℝ) * (Real.pi / 8)) = Real.sin (Real.pi / 8) :=
    cos_eighth (5 * 9)
  have m1 := mul_between a1l a1h Pl Ph (by norm_num) (by norm_num)
  have m2 := mul_between a4l a4h Rl Rh (by norm_num) (by norm_num)
  have m3 := mul_between a9l a9h Ql Qh (by norm_num) (by norm_num)
  have m5 := mul_between a25l a25h Ql Qh (by norm_num) (by norm_num)
  rw [rbf_series_pi 9 h1 h2 hd]
  simp only [c1, c2, c3, c4, c5]
  have e1 := @Real.exp_bound' 0.25214 (by norm_num) (by norm_num) 5 (by norm_num)
  have e2 : (∑ m in range 5, (0.25214 : ℝ) ^ m / (m.factorial : ℝ)
      + 0.25214 ^ 5 * ((5 : ℕ) + 1) / ((Nat.factorial 5 : ℝ) * (5 : ℕ))) ≤ 1.28678 := by
    norm_num [Finset.sum_range_succ, Nat.factorial]
  have e3 : Real.exp 0.25214 ^ 2 ≤ 1.6559 :=
    le_trans (pow_le_pow_left₀ (Real.exp_pos _).le (e1.trans e2) 2) (by norm_num)
  have e4 : Real.exp (((2 : ℕ) : ℝ) * 0.25214) = Real.exp 0.25214 ^ 2 := Real.exp_nat_mul _ 2
  rw [← e4] at e3
  exact (Real.exp_le_exp.mpr (by push_cast; linarith [a1l, a1h, a4l, a4h, a9l, a9h, a16l, a16h, a25l, a25h, m1.1, m1.2, m2.1, m2.2, m3.1, m3.2, m5.1, m5.2])).trans e3

/-- Lower bound on the kernel of smoothing π at a hue difference of 10·π/8. -/
lemma rbf_kernel_ge_10 (h1 h2 : ℝ) (hd : |h1 - h2| = ((10 : ℕ) : ℝ) * (Real.pi / 8)) :
    (1.682 : ℝ) ≤ Real.exp (rbf_series Real.exp Real.cos Real.sqrt Real.pi h1 h2) := by
  obtain ⟨a1l, a1h, a4l, a4h, a9l, a9h, a16l, a16h, a25l, a25h⟩ := exp_neg_inv_pi_pow_bounds
  obtain ⟨Rl, Rh⟩ := cos_pi_div_four_bounds
  obtain ⟨Pl, Ph⟩ := cos_pi_div_eight_bounds
  obtain ⟨Ql, Qh⟩ := sin_pi_div_eight_bounds
  have c1 : Real.cos (((1 * 10 : ℕ) : ℝ) * (Real.pi / 8)) = -Real.cos (Real.pi / 4) :=
    cos_eighth (1 * 10)
  have c2 : Real.cos (((2 * 10 : ℕ) : ℝ) * (Real.pi / 8)) = 0 :=
    cos_eighth (2 * 10)
  have c3 : Real.cos (((3 * 10 : ℕ) : ℝ) * (Real.pi / 8)) = Real.cos (Real.pi / 4) :=
    cos_eighth (3 * 10)
  have c4 : Real.cos (((4 * 10 : ℕ) : ℝ) * (Real.pi / 8)) = -1 :=
    cos_eighth (4 * 10)
  have c5 : Real.cos (((5 * 10 : ℕ) : ℝ) * (Real.pi / 8)) = Real.cos (Real.pi / 4) :=
    cos_eighth (5 * 10)
  have m1 := mul_between a1l a1h Rl Rh (by norm_num) (by norm_num)
  have m3 := mul_between a9l a9h Rl Rh (by norm_num) (by norm_num)
  have m5 := mul_between a25l a25h Rl Rh (by norm_num) (by norm_num)
  rw [rbf_series_pi 10 h1 h2 hd]
  simp only [c1, c2, c3, c4, c5]
  have e1 : (1.682 : ℝ) ≤ ∑ m in range 6, (0.52006 : ℝ) ^ m / (m.factorial : ℝ) := by
    norm_num [Finset.sum_range_succ, Nat.factorial]
  have e2 := Real.sum_le_exp_of_nonneg (show (0 : ℝ) ≤ 0.52006 by norm_num) 6
  exact e1.trans (e2.trans (Real.exp_le_exp.mpr (by linarith [a1l, a1h, a4l, a4h, a9l, a9h, a16l, a16h, a25l, a25h, m1.1, m1.2, m3.1, m3.2, m5.1, m5.2])))

/-- Upper bound on the kernel of smoothing π at a hue difference of 11·π/8. -/
lemma rbf_kernel_le_11 (h1 h2 : ℝ) (hd : |h1 - h2| = ((11 : ℕ) : ℝ) * (Real.pi / 8)) :
    Real.exp (rbf_series Real.exp Real.cos Real.sqrt Real.pi h1 h2) ≤ 1.7791 := by
  obtain ⟨a1l, a1h, a4l, a4h, a9l, a9h, a16l, a16h, a25l, a25h⟩ := exp_neg_inv_pi_pow_bounds
  obtain ⟨Rl, Rh⟩ := cos_pi_div_four_bounds
  obtain ⟨Pl, Ph⟩ := cos_pi_div_eight_bounds
  obtain ⟨Ql, Qh⟩ := sin_pi_div_eight_bounds
  have c1 : Real.cos (((1 * 11 : ℕ) : ℝ) * (Real.pi / 8)) = -Real.sin (Real.pi / 8) :=
    cos_eighth (1 * 11)
  have c2 : Real.cos (((2 * 11 : ℕ) : ℝ) * (Real.pi / 8)) = -Real.cos (Real.pi / 4) :=
    cos_eighth (2 * 11)
  have c3 : Real.cos (((3 * 11 : ℕ) : ℝ) * (Real.pi / 8)) = Real.cos (Real.pi / 8) :=
    cos_eighth (3 * 11)
  have c4 : Real.cos (((4 * 11 : ℕ) : ℝ) * (Real.pi / 8)) = 0 :=
    cos_eighth (4 * 11)
  have c5 : Real.cos (((5 * 11 : ℕ) : ℝ) * (Real.pi / 8)) = -Real.cos (Real.pi / 8) :=
    cos_eighth (5 * 11)
  have m1 := mul_between a1l a1h Ql Qh (by norm_num) (by norm_num)
  have m2 := mul_between a4l a4h Rl Rh (by norm_num) (by norm_num)
  have m3 := mul_between a9l a9h Pl Ph (by norm_num) (by norm_num)
  have m5 := mul_between a25l a25h Pl Ph (by norm_num) (by norm_num)
  rw [rbf_series_pi 11 h1 h2 hd]
  simp only [c1, c2, c3, c4, c5]
  have e1 := @Real.exp_bound' 0.28803 (by norm_num) (by norm_num) 5 (by norm_num)
  have e2 : (∑ m in range 5, (0.28803 : ℝ) ^ m / (m.factorial : ℝ)
      + 0.28803 ^ 5 * ((5 : ℕ) + 1) / ((Nat.factorial 5 : ℝ) * (5 : ℕ))) ≤ 1.3338 := by
    norm_num [Finset.sum_range_succ, Nat.factorial]
  have e3 : Real.exp 0.28803 ^ 2 ≤ 1.7791 :=
    le_trans (pow_le_pow_left₀ (Real.exp_pos _).le (e1.trans e2) 2) (by norm_num)
  have e4 : Real.exp (((2 : ℕ) : ℝ) * 0.28803) = Real.exp 0.28803 ^ 2 := Real.exp_nat_mul _ 2
  rw [← e4] at e3
  exact (Real.exp_le_exp.mpr (by push_cast; linarith [a1l, a1h, a4l, a4h, a9l, a9h, a16l, a16h, a25l, a25h, m1.1, m1.2, m2.1, m2.2, m3.1, m3.2, m5.1, m5.2])).trans e3

/-- Lower bound on the kernel of smoothing π at a hue difference of 12·π/8. -/
lemma rbf_kernel_ge_12 (h1 h2 : ℝ) (hd : |h1 - h2| = ((12 : ℕ) : ℝ) * (Real.pi / 8)) :
    (2.0672 : ℝ) ≤ Real.exp (rbf_series Real.exp Real.cos Real.sqrt Real.pi h1 h2) := by
  obtain ⟨a1l, a1h, a4l, a4h, a9l, a9h, a16l, a16h, a25l, a25h⟩ := exp_neg_inv_pi_pow_bounds
  obtain ⟨Rl, Rh⟩ := cos_pi_div_four_bounds
  obtain ⟨Pl, Ph⟩ := cos_pi_div_eight_bounds
  obtain ⟨Ql, Qh⟩ := sin_pi_div_eight_bounds
  have c1 : Real.cos (((1 * 12 : ℕ) : ℝ) * (Real.pi / 8)) = 0 :=
    cos_eighth (1 * 12)
  have c2 : Real.cos (((2 * 12 : ℕ) : ℝ) * (Real.pi / 8)) = -1 :=
    cos_eighth (2 * 12)
  have c3 : Real.cos (((3 * 12 : ℕ) : ℝ) * (Real.pi / 8)) = 0 :=
    cos_eighth (3 * 12)
  have c4 : Real.cos (((4 * 12 : ℕ) : ℝ) * (Real.pi / 8)) = 1 :=
    cos_eighth (4 * 12)
  have c5 : Real.cos (((5 * 12 : ℕ) : ℝ) * (Real.pi / 8)) = 0 :=
    cos_eighth (5 * 12)
  rw [rbf_series_pi 12 h1 h2 hd]
  simp only [c1, c2, c3, c4, c5]
  have e1 : (2.0672 : ℝ) ≤ ∑ m in range 7, (0.72621 : ℝ) ^ m / (m.factorial : ℝ) := by
    norm_num [Finset.sum_range_succ, Nat.factorial]
  have e2 := Real.sum_le_exp_of_nonneg (show (0 : ℝ) ≤ 0.72621 by norm_num) 7
  exact e1.trans (e2.trans (Real.exp_le_exp.mpr (by linarith [a1l, a1h, a4l, a4h, a9l, a9h, a16l, a16h, a25l, a25h])))

/-- Upper bound on the kernel of smoothing π at a hue difference of 13·π/8. -/
lemma rbf_kernel_le_13 (h1 h2 : ℝ) (hd : |h1 - h2| = ((13 : ℕ) : ℝ) * (Real.pi / 8)) :
    Real.exp (rbf_series Real.exp Real.cos Real.sqrt Real.pi h1 h2) ≤ 2.796 := by
  obtain ⟨a1l, a1h, a4l, a4h, a9l, a9h, a16l, a16h, a25l, a25h⟩ := exp_neg_inv_pi_pow_bounds
  obtain ⟨Rl, Rh⟩ := cos_pi_div_four_bounds
  obtain ⟨Pl, Ph⟩ := cos_pi_div_eight_bounds
  obtain ⟨Ql, Qh⟩ := sin_pi_div_eight_bounds
  have c1 : Real.cos (((1 * 13 : ℕ) : ℝ) * (Real.pi / 8)) = Real.sin (Real.pi / 8) :=
    cos_eighth (1 * 13)
  have c2 : Real.cos (((2 * 13 : ℕ) : ℝ) * (Real.pi / 8)) = -Real.cos (Real.pi / 4) :=
    cos_eighth (2 * 13)
  have c3 : Real.cos (((3 * 13 : ℕ) : ℝ) * (Real.pi / 8)) = -Real.cos (Real.pi / 8) :=
    cos_eighth (3 * 13)
  have c4 : Real.cos (((4 * 13 : ℕ) : ℝ) * (Real.pi / 8)) = 0 :=
    cos_eighth (4 * 13)
  have c5 : Real.cos (((5 * 13 : ℕ) : ℝ) * (Real.pi / 8)) = Real.cos (Real.pi / 8) :=
    cos_eighth (5 * 13)
  have m1 := mul_between a1l a1h Ql Qh (by norm_num) (by norm_num)
  have m2 := mul_between a4l a4h Rl Rh (by norm_num) (by norm_num)
  have m3 := mul_between a9l a9h Pl Ph (by norm_num) (by norm_num)
  have m5 := mul_between a25l a25h Pl Ph (by norm_num) (by norm_num)
  rw [rbf_series_pi 13 h1 h2 hd]
  simp only [c1, c2, c3, c4, c5]
  have e1 := @Real.exp_bound' 0.51406 (by norm_num) (by norm_num) 5 (by norm_num)
  have e2 : (∑ m in range 5, (0.51406 : ℝ) ^ m / (m.factorial : ℝ)
      + 0.51406 ^ 5 * ((5 : ℕ) + 1) / ((Nat.factorial 5 : ℝ) * (5 : ℕ))) ≤ 1.6721 := by
    norm_num [Finset.sum_range_succ, Nat.factorial]
  have e3 : Real.exp 0.51406 ^ 2 ≤ 2.796 :=
    le_trans (pow_le_pow_left₀ (Real.exp_pos _).le (e1.trans e2) 2) (by norm_num)
  have e4 : Real.exp (((2 : ℕ) : ℝ) * 0.51406) = Real.exp 0.51406 ^ 2 := Real.exp_nat_mul _ 2
  rw [← e4] at e3
  exact (Real.exp_le_exp.mpr (by push_cast; linarith [a1l, a1h, a4l, a4h, a9l, a9h, a16l, a16h, a25l, a25h, m1.1, m1.2, m2.1, m2.2, m3.1, m3.2, m5.1, m5.2])).trans e3

/-- Lower bound on the kernel of smoothing π at a hue difference of 14·π/8. -/
lemma rbf_kernel_ge_14 (h1 h2 : ℝ) (hd : |h1 - h2| = ((14 : ℕ) : ℝ) * (Real.pi / 8)) :
    (4.3389 : ℝ) ≤ Real.exp (rbf_series Real.exp Real.cos Real.sqrt Real.pi h1 h2) := by
  obtain ⟨a1l, a1h, a4l, a4h, a9l, a9h, a16l, a16h, a25l, a25h⟩ := exp_neg_inv_pi_pow_bounds
  obtain ⟨Rl, Rh⟩ := cos_pi_div_four_bounds
  obtain ⟨Pl, Ph⟩ := cos_pi_div_eight_bounds
  obtain ⟨Ql, Qh⟩ := sin_pi_div_eight_bounds
  have c1 : Real.cos (((1 * 14 : ℕ) : ℝ) * (Real.pi / 8)) = Real.cos (Real.pi / 4) :=
    cos_eighth (1 * 14)
  have c2 : Real.cos (((2 * 14 : ℕ) : ℝ) * (Real.pi / 8)) = 0 :=
    cos_eighth (2 * 14)
  have c3 : Real.cos (((3 * 14 : ℕ) : ℝ) * (Real.pi / 8)) = -Real.cos (Real.pi / 4) :=
    cos_eighth (3 * 14)
  have c4 : Real.cos (((4 * 14 : ℕ) : ℝ) * (Real.pi / 8)) = -1 :=
    cos_eighth (4 * 14)
  have c5 : Real.cos (((5 * 14 : ℕ) : ℝ) * (Real.pi / 8)) = -Real.cos (Real.pi / 4) :=
    cos_eighth (5 * 14)
  have m1 := mul_between a1l a1h Rl Rh (by norm_num) (by norm_num)
  have m3 := mul_between a9l a9h Rl Rh (by norm_num) (by norm_num)
  have m5 := mul_between a25l a25h Rl Rh (by norm_num) (by norm_num)
  rw [rbf_series_pi 14 h1 h2 hd]
  simp only [c1, c2, c3, c4, c5]
  have e1 : (4.3389 : ℝ) ≤ ∑ m in range 10, (1.46763 : ℝ) ^ m / (m.factorial : ℝ) := by
    norm_num [Finset.sum_range_succ, Nat.factorial]
  have e2 := Real.sum_le_exp_of_nonneg (show (0 : ℝ) ≤ 1.46763 by norm_num) 10
  exact e1.trans (e2.trans (Real.exp_le_exp.mpr (by linarith [a1l, a1h, a4l, a4h, a9l, a9h, a16l, a16h, a25l, a25h, m1.1, m1.2, m3.1, m3.2, m5.1, m5.2])))

/-- Upper bound on the kernel of smoothing π at a hue difference of 15·π/8. -/
lemma rbf_kernel_le_15 (h1 h2 : ℝ) (hd : |h1 - h2| = ((15 : ℕ) : ℝ) * (Real.pi / 8)) :
    Real.exp (rbf_series Real.exp Real.cos Real.sqrt Real.pi h1 h2) ≤ 6.6304 := by
  obtain ⟨a1l, a1h, a4l, a4h, a9l, a9h, a16l, a16h, a25l, a25h⟩ := exp_neg_inv_pi_pow_bounds
  obtain ⟨Rl, Rh⟩ := cos_pi_div_four_bounds
  obtain ⟨Pl, Ph⟩ := cos_pi_div_eight_bounds
  obtain ⟨Ql, Qh⟩ := sin_pi_div_eight_bounds
  have c1 : Real.cos (((1 * 15 : ℕ) : ℝ) * (Real.pi / 8)) = Real.cos (Real.pi / 8) :=
    cos_eighth (1 * 15)
  have c2 : Real.cos (((2 * 15 : ℕ) : ℝ) * (Real.pi / 8)) = Real.cos (Real.pi / 4) :=
    cos_eighth (2 * 15)
  have c3 : Real.cos (((3 * 15 : ℕ) : ℝ) * (Real.pi / 8)) = Real.sin (Real.pi / 8) :=
    cos_eighth (3 * 15)
  have c4 : Real.cos (((4 * 15 : ℕ) : ℝ) * (Real.pi / 8)) = 0 :=
    cos_eighth (4 * 15)
  have c5 : Real.cos (((5 * 15 : ℕ) : ℝ) * (Real.pi / 8)) = -Real.sin (Real.pi / 8) :=
    cos_eighth (5 * 15)
  have m1 := mul_between a1l a1h Pl Ph (by norm_num) (by norm_num)
  have m2 := mul_between a4l a4h Rl Rh (by norm_num) (by norm_num)
  have m3 := mul_between a9l a9h Ql Qh (by norm_num) (by norm_num)
  have m5 := mul_between a25l a25h Ql Qh (by norm_num) (by norm_num)
  rw [rbf_series_pi 15 h1 h2 hd]
  simp only [c1, c2, c3, c4, c5]
  have e1 := @Real.exp_bound' 0.94582 (by norm_num) (by norm_num) 6 (by norm_num)
  have e2 : (∑ m in range 6, (0.94582 : ℝ) ^ m / (m.factorial : ℝ)
      + 0.94582 ^ 6 * ((6 : ℕ) + 1) / ((Nat.factorial 6 : ℝ) * (6 : ℕ))) ≤ 2.57494 := by
    norm_num [Finset.sum_range_succ, Nat.factorial]
  have e3 : Real.exp 0.94582 ^ 2 ≤ 6.6304 :=
    le_trans (pow_le_pow_left₀ (Real.exp_pos _).le (e1.trans e2) 2) (by norm_num)
  have e4 : Real.exp (((2 : ℕ) : ℝ) * 0.94582) = Real.exp 0.94582 ^ 2 := Real.exp_nat_mul _ 2
  rw [← e4] at e3
  exact (Real.exp_le_exp.mpr (by push_cast; linarith [a1l, a1h, a4l, a4h, a9l, a9h, a16l, a16h, a25l, a25h, m1.1, m1.2, m2.1, m2.2, m3.1, m3.2, m5.1, m5.2])).trans e3

/-- Hue difference between node 0 and node `k`, in sixteenths of a turn. -/
lemma hue_diff_node (k : ℕ) (hue_shift : ℝ) :
    |_get_hue_node Real.pi 0 hue_shift - _get_hue_node Real.pi k hue_shift|
      = ((2 * k : ℕ) : ℝ) * (Real.pi / 8) := by
  rw [hue_node_sub]
  have h : ((0 : ℕ) : ℝ) - (k : ℝ) = -(k : ℝ) := by simp
  rw [h, neg_mul, abs_neg, abs_of_nonneg (by positivity)]
  push_cast
  ring

/-- Hue difference between table entry 180 (hue 0) and node `k` placed with a
shift of 2.5°, in sixteenths of a turn. -/
lemma hue_diff_mid (k : ℕ) :
    |lut_hue Real.pi 180 - _get_hue_node Real.pi k 2.5|
      = ((2 * k + 1 : ℕ) : ℝ) * (Real.pi / 8) := by
  have h : lut_hue Real.pi 180 - _get_hue_node Real.pi k 2.5
      = -(((2 * k + 1 : ℕ) : ℝ) * (Real.pi / 8)) := by
    simp only [lut_hue, _get_hue_node, _deg_to_rad, ANGLE_SHIFT]
    push_cast
    ring
  rw [h, abs_neg, abs_of_nonneg (by positivity)]

/-- The row sum of the kernel matrix of smoothing π. -/
lemma rbf_A_row_sum_ge (hue_shift : ℝ) :
    (25.7577 : ℝ) ≤ ∑ k : Fin NODES,
      rbf_A Real.exp Real.cos Real.sqrt Real.pi Real.pi hue_shift 0 k := by
  have g0 := rbf_kernel_ge_0 _ _ (hue_diff_node 0 hue_shift)
  have g1 := rbf_kernel_ge_2 _ _ (hue_diff_node 1 hue_shift)
  have g2 := rbf_kernel_ge_4 _ _ (hue_diff_node 2 hue_shift)
  have g3 := rbf_kernel_ge_6 _ _ (hue_diff_node 3 hue_shift)
  have g4 := rbf_kernel_ge_8 _ _ (hue_diff_node 4 hue_shift)
  have g5 := rbf_kernel_ge_10 _ _ (hue_diff_node 5 hue_shift)
  have g6 := rbf_kernel_ge_12 _ _ (hue_diff_node 6 hue_shift)
  have g7 := rbf_kernel_ge_14 _ _ (hue_diff_node 7 hue_shift)
  rw [Fin.sum_univ_eight]
  simp only [rbf_A]
  have e : ∀ (a b c d e f g h : ℝ), 7.9307 ≤ a → 4.3389 ≤ b → 2.0672 ≤ c → 1.682 ≤ d →
      1.6508 ≤ e → 1.682 ≤ f → 2.0672 ≤ g → 4.3389 ≤ h →
      25.7577 ≤ a + b + c + d + e + f + g + h := by
    intro a b c d e f g h ha hb hc hd he hf hg hh
    linarith
  exact e _ _ _ _ _ _ _ _ g0 g1 g2 g3 g4 g5 g6 g7

/-- The sum of the kernel of smoothing π over the nodes, seen from half-way
between two nodes. -/
lemma rbf_mid_sum_le :
    ∑ k : Fin NODES, Real.exp (rbf_series Real.exp Real.cos Real.sqrt Real.pi
      (lut_hue Real.pi 180) (_get_hue_node Real.pi k 2.5)) ≤ (25.7228 : ℝ) := by
  have g0 := rbf_kernel_le_1 _ _ (hue_diff_mid 0)
  have g1 := rbf_kernel_le_3 _ _ (hue_diff_mid 1)
  have g2 := rbf_kernel_le_5 _ _ (hue_diff_mid 2)
  have g3 := rbf_kernel_le_7 _ _ (hue_diff_mid 3)
  have g4 := rbf_kernel_le_9 _ _ (hue_diff_mid 4)
  have g5 := rbf_kernel_le_11 _ _ (hue_diff_mid 5)
  have g6 := rbf_kernel_le_13 _ _ (hue_diff_mid 6)
  have g7 := rbf_kernel_le_15 _ _ (hue_diff_mid 7)
  rw [Fin.sum_univ_eight]
  have e : ∀ (a b c d e f g h : ℝ), a ≤ 6.6304 → b ≤ 2.796 → c ≤ 1.7791 → d ≤ 1.6559 →
      e ≤ 1.6559 → f ≤ 1.7791 → g ≤ 2.796 → h ≤ 6.6304 →
      a + b + c + d + e + f + g + h ≤ 25.7228 := by
    intro a b c d e f g h ha hb hc hd he hf hg hh
    linarith
  exact e _ _ _ _ _ _ _ _ g0 g1 g2 g3 g4 g5 g6 g7

/-- `row_sum_solve` solves the kernel system exactly for a constant right-hand side. -/
lemma row_sum_solve_exact (sqrtf : ℝ → ℝ) (smoothing hue_shift : ℝ) (y : Fin NODES → ℝ)
    (c : ℝ) (hy : ∀ i, y i = c) (i : Fin NODES) :
    ∑ k : Fin NODES, rbf_A Real.exp Real.cos sqrtf Real.pi smoothing hue_shift i k
        * row_sum_solve (rbf_A Real.exp Real.cos sqrtf Real.pi smoothing hue_shift) y k
      = y i := by
  have hpos : 0 < ∑ k : Fin NODES,
      rbf_A Real.exp Real.cos sqrtf Real.pi smoothing hue_shift 0 k :=
    Finset.sum_pos (fun k _ => Real.exp_pos _) Finset.univ_nonempty
  simp only [row_sum_solve]
  rw [← Finset.sum_mul, rbf_A_row_sum, hy 0, hy i]
  field_simp

/-- With every saturation node at 1 and the nodes shifted by 2.5°, the table
function at hue 0 (entry 180), half-way between two nodes, is below 1. -/
lemma identity_lut_mid_lt_one (y : Fin NODES → ℝ) (hy : y 0 = 1) :
    rbf_eval Real.exp Real.cos Real.sqrt Real.pi
      (row_sum_solve (rbf_A Real.exp Real.cos Real.sqrt Real.pi Real.pi 2.5) y)
      Real.pi 2.5 true (lut_hue Real.pi 180) < 1 := by
  have hS := rbf_A_row_sum_ge 2.5
  have hM := rbf_mid_sum_le
  have hpos : 0 < ∑ k : Fin NODES,
      rbf_A Real.exp Real.cos Real.sqrt Real.pi Real.pi 2.5 0 k := by linarith
  simp only [rbf_eval, row_sum_solve, hy, if_true]
  rw [← Finset.mul_sum, max_lt_iff]
  refine ⟨by norm_num, ?_⟩
  rw [one_div, inv_mul_lt_iff₀ hpos]
  linarith

/-- The neutral corrections leave a pixel with non-negative saturation and
brightness as it is. -/
lemma apply_corrections_neutral (pix_out : Nat → α) (h1 : 0 ≤ pix_out 1) (h2 : 0 ≤ pix_out 2)
    (c : Nat) : apply_corrections pix_out 0 1 0 c = pix_out c := by
  unfold apply_corrections
  split
  · simp
  · simp [h1]
  · simp [h2]
  · rfl

/-- The three tables that `commit_params` builds. -/
lemma commit_params_LUT [FloorRing α] (expf cosf sqrtf exp2f : α → α) (powf : α → α → α)
    (M_PI_F : α)
    (pseudo_solve : (Fin NODES → Fin NODES → α) → (Fin NODES → α) → (Fin NODES → α))
    (LUT_ELEM : Nat) (E : ColorLib α) (p : dt_iop_colorequal_params_t α)
    (work_profile : Option (dt_iop_order_iccprofile_info_t α))
    (d : dt_iop_colorequal_data_t α) :
    (commit_params expf cosf sqrtf exp2f powf M_PI_F pseudo_solve LUT_ELEM E p work_profile
        d).LUT_saturation
      = _periodic_RBF_interpolate expf cosf sqrtf M_PI_F pseudo_solve LUT_ELEM
          (_pack_saturation p) M_PI_F d.LUT_saturation p.hue_shift true
    ∧ (commit_params expf cosf sqrtf exp2f powf M_PI_F pseudo_solve LUT_ELEM E p work_profile
        d).LUT_hue
      = _periodic_RBF_interpolate expf cosf sqrtf M_PI_F pseudo_solve LUT_ELEM
          (_pack_hue M_PI_F p) (1 / p.smoothing_hue * M_PI_F) d.LUT_hue p.hue_shift false
    ∧ (commit_params expf cosf sqrtf exp2f powf M_PI_F pseudo_solve LUT_ELEM E p work_profile
        d).LUT_brightness
      = _periodic_RBF_interpolate expf cosf sqrtf M_PI_F pseudo_solve LUT_ELEM
          (_pack_brightness p) M_PI_F d.LUT_brightness p.hue_shift true
    ∧ (commit_params expf cosf sqrtf exp2f powf M_PI_F pseudo_solve LUT_ELEM E p work_profile
        d).use_filter = p.use_filter := by
  cases work_profile with
  | none => exact ⟨rfl, rfl, rfl, rfl⟩
  | some wp =>
    simp only [commit_params]
    split_ifs <;> exact ⟨rfl, rfl, rfl, rfl⟩

/-- C2 as stated fails: with every saturation and brightness node at 1, every hue
node at 0 and the nodes placed with a shift of 2.5°, a solver that solves the
kernel system exactly (real `exp`, `cos`, `sqrt`, `M_PI_F = π`) gives tables
whose entry 180 (hue 0°, half-way between two nodes) is below 1, for the
saturation and for the brightness. -/
theorem C2_counterexample :
    (∀ i : Fin NODES,
      ∑ k : Fin NODES, rbf_A Real.exp Real.cos Real.sqrt Real.pi Real.pi 2.5 i k
        * row_sum_solve (rbf_A Real.exp Real.cos Real.sqrt Real.pi Real.pi 2.5)
            (_pack_saturation (identity_params (2.5 : ℝ))) k
        = _pack_saturation (identity_params (2.5 : ℝ)) i)
    ∧ (commit_params Real.exp Real.cos Real.sqrt (fun x => 2 ^ x) (fun x y => x ^ y) Real.pi
        row_sum_solve 361 copyColorLib (identity_params 2.5) none
        neutral_data).LUT_saturation 180 < 1
    ∧ (commit_params Real.exp Real.cos Real.sqrt (fun x => 2 ^ x) (fun x y => x ^ y) Real.pi
        row_sum_solve 361 copyColorLib (identity_params 2.5) none
        neutral_data).LUT_brightness 180 < 1 := by
  have hsat : ∀ i, _pack_saturation (identity_params (2.5 : ℝ)) i = 1 := by
    intro i; fin_cases i <;> rfl
  have hbri : ∀ i, _pack_brightness (identity_params (2.5 : ℝ)) i = 1 := by
    intro i; fin_cases i <;> rfl
  have hL := commit_params_LUT Real.exp Real.cos Real.sqrt (fun x => 2 ^ x) (fun x y => x ^ y)
    Real.pi row_sum_solve 361 copyColorLib (identity_params (2.5 : ℝ)) none neutral_data
  refine ⟨fun i => row_sum_solve_exact Real.sqrt Real.pi 2.5 _ 1 hsat i, ?_, ?_⟩
  · rw [hL.1]
    simp only [_periodic_RBF_interpolate, show (180 : ℕ) < 361 by norm_num, if_true]
    exact identity_lut_mid_lt_one _ (hsat 0)
  · rw [hL.2.2.1]
    simp only [_periodic_RBF_interpolate, show (180 : ℕ) < 361 by norm_num, if_true]
    exact identity_lut_mid_lt_one _ (hbri 0)

/-- With the filter disabled the corrections applied are the looked-up ones. -/
lemma process_corrections_no_filter [FloorRing α] (E : ColorLib α) (G : GaussianLib α)
    (B : Bilinear α) (d : dt_iop_colorequal_data_t α) (wp : dt_iop_order_iccprofile_info_t α)
    (inp out : Nat → α) (roi_out : dt_iop_roi_t α) (hf : d.use_filter = false) (k : Nat)
    (hk : k < roi_out.width * roi_out.height) (c : Nat) (hc : c < 2) :
    (process_corrections E G B d wp inp out roi_out).corrections (2 * k + c)
      = lookup_corrections E d
          (process_JCH E (process_white E d) (process_UV E G B d wp inp roi_out)
            (process_L E (process_input_matrix E wp) inp (roi_out.width * roi_out.height)) k)
          (process_HSB E (process_white E d) (process_UV E G B d wp inp roi_out)
            (process_L E (process_input_matrix E wp) inp (roi_out.width * roi_out.height))
            out k) c
    ∧ (process_corrections E G B d wp inp out roi_out).b_corrections k
      = lookup_corrections E d
          (process_JCH E (process_white E d) (process_UV E G B d wp inp roi_out)
            (process_L E (process_input_matrix E wp) inp (roi_out.width * roi_out.height)) k)
          (process_HSB E (process_white E d) (process_UV E G B d wp inp roi_out)
            (process_L E (process_input_matrix E wp) inp (roi_out.width * roi_out.height))
            out k) 2 := by
  simp only [process_corrections, hf, Bool.false_eq_true, if_false, process_lookup]
  constructor
  · rw [forPixels_apply 2 _ _ _ k c hk hc]
  · have h := forPixels_apply 1 (roi_out.width * roi_out.height)
      (fun k _ => lookup_corrections E d
          (process_JCH E (process_white E d) (process_UV E G B d wp inp roi_out)
            (process_L E (process_input_matrix E wp) inp (roi_out.width * roi_out.height)) k)
          (process_HSB E (process_white E d) (process_UV E G B d wp inp roi_out)
            (process_L E (process_input_matrix E wp) inp (roi_out.width * roi_out.height))
            out k) 2) (fun _ => 0) k 0 hk (by norm_num)
    simpa using h

/-- The pixel that STEP 3 leaves in the output buffer: HSB, then the alpha of the input. -/
lemma process_out_hsb_apply [FloorRing α] (E : ColorLib α) (G : GaussianLib α)
    (B : Bilinear α) (d : dt_iop_colorequal_data_t α) (wp : dt_iop_order_iccprofile_info_t α)
    (inp out : Nat → α) (roi_out : dt_iop_roi_t α) (k : Nat)
    (hk : k < roi_out.width * roi_out.height) (c : Nat) (hc : c < 4) :
    pixel_at (process_out_hsb E G B d wp inp out roi_out) 4 k c
      = if c = 3 then inp (4 * k + 3)
        else process_HSB E (process_white E d) (process_UV E G B d wp inp roi_out)
          (process_L E (process_input_matrix E wp) inp (roi_out.width * roi_out.height))
          out k c := by
  simp only [pixel_at, process_out_hsb, process_out3, if_pos hc]
  rw [forPixels_apply 4 _ _ _ k c hk hc]

/-- In mask mode 0, with a working profile, the output pixel is the converted
and gamut-mapped corrected pixel. -/
lemma process_rgb_apply [FloorRing α] (E : ColorLib α) (G : GaussianLib α)
    (B : Bilinear α) (d : dt_iop_colorequal_data_t α) (gui_mask_mode : Option Int)
    (fullpipe : Bool) (wp : dt_iop_order_iccprofile_info_t α)
    (inp out : Nat → α) (roi_out : dt_iop_roi_t α)
    (hmask : gui_mask_mode = none ∨ fullpipe = false ∨ gui_mask_mode = some 0) (k : Nat)
    (hk : k < roi_out.width * roi_out.height) (c : Nat) (hc : c < 4) :
    process E G B d 4 gui_mask_mode fullpipe (some wp) inp out roi_out (4 * k + c)
      = process_pixel_rgb E d (process_white E d) (process_output_matrix E wp)
          (pixel_at (process_out_hsb E G B d wp inp out roi_out) 4 k)
          ((process_corrections E G B d wp inp out roi_out).corrections (2 * k + 0))
          ((process_corrections E G B d wp inp out roi_out).corrections (2 * k + 1))
          ((process_corrections E G B d wp inp out roi_out).b_corrections k) c := by
  have hm : (match gui_mask_mode with
      | some m => if fullpipe then m else 0
      | none => (0 : Int)) = 0 := by
    rcases hmask with h | h | h
    · rw [h]
    · rw [h]; cases gui_mask_mode <;> simp
    · rw [h]; simp
  simp only [process, ne_eq, not_true_eq_false, if_false, hm, if_true]
  rw [forPixels_apply 4 _ _ _ k c hk hc]

/-- C2 (amended). Identity parameters: with all 8 saturation nodes = 1, all 8
brightness nodes = 1, all 8 hue nodes = 0 and filtering disabled, when the
solver solves the kernel system exactly and returns 0 for the zero right-hand
side, the tables built by `commit_params` give the hue offset 0 at every table
entry, and the functions sampled into the saturation and brightness tables take
the value 1 at the 8 node angles (not at every hue).  For every pixel whose
looked-up corrections are neutral (hue offset 0, saturation gain 1, brightness
gain 1: in particular every pixel of chroma 0) and whose converted saturation
and brightness are non-negative, the correction is a no-op: the HSB triple that
`process` hands to gamut mapping is the HSB triple converted from the input
pixel. -/
theorem C2_identity_tables [FloorRing α] (expf cosf sqrtf exp2f : α → α) (powf : α → α → α)
    (M_PI_F : α)
    (pseudo_solve : (Fin NODES → Fin NODES → α) → (Fin NODES → α) → (Fin NODES → α))
    (LUT_ELEM : Nat) (E : ColorLib α) (G : GaussianLib α) (B : Bilinear α)
    (p : dt_iop_colorequal_params_t α)
    (cp_profile : Option (dt_iop_order_iccprofile_info_t α))
    (d0 d : dt_iop_colorequal_data_t α) (gui_mask_mode : Option Int) (fullpipe : Bool)
    (wp : dt_iop_order_iccprofile_info_t α) (inp out : Nat → α) (roi_out : dt_iop_roi_t α)
    (k : Nat) (JCH HSB : Nat → α)
    (hd : d = commit_params expf cosf sqrtf exp2f powf M_PI_F pseudo_solve LUT_ELEM E p
      cp_profile d0)
    (hsat : ∀ i, _pack_saturation p i = 1) (hbright : ∀ i, _pack_brightness p i = 1)
    (hhue : ∀ i, _pack_hue M_PI_F p i = 0) (hfilter : p.use_filter = false)
    (hsolve : ∀ i : Fin NODES,
      ∑ j : Fin NODES, rbf_A expf cosf sqrtf M_PI_F M_PI_F p.hue_shift i j
        * pseudo_solve (rbf_A expf cosf sqrtf M_PI_F M_PI_F p.hue_shift) (fun _ => 1) j = 1)
    (hzero : pseudo_solve
      (rbf_A expf cosf sqrtf M_PI_F (1 / p.smoothing_hue * M_PI_F) p.hue_shift) (fun _ => 0)
      = fun _ => 0)
    (hmask : gui_mask_mode = none ∨ fullpipe = false ∨ gui_mask_mode = some 0)
    (hk : k < roi_out.width * roi_out.height)
    (hJCH : JCH = process_JCH E (process_white E d) (process_UV E G B d wp inp roi_out)
      (process_L E (process_input_matrix E wp) inp (roi_out.width * roi_out.height)) k)
    (hHSB : HSB = process_HSB E (process_white E d) (process_UV E G B d wp inp roi_out)
      (process_L E (process_input_matrix E wp) inp (roi_out.width * roi_out.height)) out k)
    (hlook : JCH 1 > 0 →
      E.lookup_gamut d.LUT_hue (HSB 0) = 0 ∧ E.lookup_gamut d.LUT_saturation (HSB 0) = 1
      ∧ E.lookup_gamut d.LUT_brightness (HSB 0) = 1)
    (hpos : 0 ≤ HSB 1 ∧ 0 ≤ HSB 2) :
    (∀ i, i < LUT_ELEM → d.LUT_hue i = 0)
    ∧ (∀ j : Fin NODES,
        rbf_eval expf cosf sqrtf M_PI_F
          (pseudo_solve (rbf_A expf cosf sqrtf M_PI_F M_PI_F p.hue_shift) (_pack_saturation p))
          M_PI_F p.hue_shift true (_get_hue_node M_PI_F j p.hue_shift) = 1
        ∧ rbf_eval expf cosf sqrtf M_PI_F
          (pseudo_solve (rbf_A expf cosf sqrtf M_PI_F M_PI_F p.hue_shift) (_pack_brightness p))
          M_PI_F p.hue_shift true (_get_hue_node M_PI_F j p.hue_shift) = 1)
    ∧ (∀ i, i < LUT_ELEM →
        d.LUT_saturation i = rbf_eval expf cosf sqrtf M_PI_F
          (pseudo_solve (rbf_A expf cosf sqrtf M_PI_F M_PI_F p.hue_shift) (_pack_saturation p))
          M_PI_F p.hue_shift true (lut_hue M_PI_F i)
        ∧ d.LUT_brightness i = rbf_eval expf cosf sqrtf M_PI_F
          (pseudo_solve (rbf_A expf cosf sqrtf M_PI_F M_PI_F p.hue_shift) (_pack_brightness p))
          M_PI_F p.hue_shift true (lut_hue M_PI_F i))
    ∧ (∀ c, apply_corrections (pixel_at (process_out_hsb E G B d wp inp out roi_out) 4 k)
          ((process_corrections E G B d wp inp out roi_out).corrections (2 * k + 0))
          ((process_corrections E G B d wp inp out roi_out).corrections (2 * k + 1))
          ((process_corrections E G B d wp inp out roi_out).b_corrections k) c
        = pixel_at (process_out_hsb E G B d wp inp out roi_out) 4 k c)
    ∧ (∀ c, c < 4 →
        process E G B d 4 gui_mask_mode fullpipe (some wp) inp out roi_out (4 * k + c)
          = E.dot_product
              (E.dt_UCS_HSB_to_XYZ
                (E.gamut_map_HSB (pixel_at (process_out_hsb E G B d wp inp out roi_out) 4 k)
                  d.gamut_LUT (process_white E d)) (process_white E d))
              (process_output_matrix E wp)
              (E.gamut_map_HSB (pixel_at (process_out_hsb E G B d wp inp out roi_out) 4 k)
                d.gamut_LUT (process_white E d)) c) := by
  obtain ⟨hLs, hLh, hLb, hLf⟩ := commit_params_LUT expf cosf sqrtf exp2f powf M_PI_F pseudo_solve
    LUT_ELEM E p cp_profile d0
  rw [← hd] at hLs hLh hLb hLf
  have hf : d.use_filter = false := by rw [hLf, hfilter]
  have esat : _pack_saturation p = fun _ => 1 := funext hsat
  have ebri : _pack_brightness p = fun _ => 1 := funext hbright
  have ehue : _pack_hue M_PI_F p = fun _ => 0 := funext hhue
  -- the tables
  have t1 : ∀ i, i < LUT_ELEM → d.LUT_hue i = 0 := by
    intro i hi
    rw [hLh]
    simp only [_periodic_RBF_interpolate, hi, if_true, ehue, hzero, rbf_eval, zero_mul,
      Finset.sum_const_zero, Bool.false_eq_true, if_false]
  have t2 : ∀ (y : Fin NODES → α), (∀ i, y i = 1) → ∀ j : Fin NODES,
      rbf_eval expf cosf sqrtf M_PI_F
        (pseudo_solve (rbf_A expf cosf sqrtf M_PI_F M_PI_F p.hue_shift) y)
        M_PI_F p.hue_shift true (_get_hue_node M_PI_F j p.hue_shift) = 1 := by
    intro y hy j
    have ey : y = fun _ => 1 := funext hy
    rw [ey, rbf_eval_clip, rbf_eval_node, hsolve j]
    exact max_eq_right zero_le_one
  have t3 : ∀ i, i < LUT_ELEM →
      d.LUT_saturation i = rbf_eval expf cosf sqrtf M_PI_F
        (pseudo_solve (rbf_A expf cosf sqrtf M_PI_F M_PI_F p.hue_shift) (_pack_saturation p))
        M_PI_F p.hue_shift true (lut_hue M_PI_F i)
      ∧ d.LUT_brightness i = rbf_eval expf cosf sqrtf M_PI_F
        (pseudo_solve (rbf_A expf cosf sqrtf M_PI_F M_PI_F p.hue_shift) (_pack_brightness p))
        M_PI_F p.hue_shift true (lut_hue M_PI_F i) := by
    intro i hi
    rw [hLs, hLb]
    constructor <;> simp only [_periodic_RBF_interpolate, hi, if_true]
  -- the corrections of pixel k
  obtain ⟨c0, cb⟩ := process_corrections_no_filter E G B d wp inp out roi_out hf k hk 0
    (by norm_num)
  obtain ⟨c1, -⟩ := process_corrections_no_filter E G B d wp inp out roi_out hf k hk 1
    (by norm_num)
  rw [← hJCH, ← hHSB] at c0 c1 cb
  have l0 : lookup_corrections E d JCH HSB 0 = 0 := by
    unfold lookup_corrections
    split_ifs with h
    · exact (hlook h).1
    · rfl
  have l1 : lookup_corrections E d JCH HSB 1 = 1 := by
    unfold lookup_corrections
    split_ifs with h
    · exact (hlook h).2.1
    · rfl
  have l2 : lookup_corrections E d JCH HSB 2 = 0 := by
    unfold lookup_corrections
    split_ifs with h
    · show HSB 1 * (E.lookup_gamut d.LUT_brightness (HSB 0) - 1) = 0
      rw [(hlook h).2.2]; ring
    · rfl
  have p1 : pixel_at (process_out_hsb E G B d wp inp out roi_out) 4 k 1 = HSB 1 := by
    rw [process_out_hsb_apply E G B d wp inp out roi_out k hk 1 (by norm_num), hHSB]
    simp
  have p2 : pixel_at (process_out_hsb E G B d wp inp out roi_out) 4 k 2 = HSB 2 := by
    rw [process_out_hsb_apply E G B d wp inp out roi_out k hk 2 (by norm_num), hHSB]
    simp
  have t4 : ∀ c, apply_corrections (pixel_at (process_out_hsb E G B d wp inp out roi_out) 4 k)
        ((process_corrections E G B d wp inp out roi_out).corrections (2 * k + 0))
        ((process_corrections E G B d wp inp out roi_out).corrections (2 * k + 1))
        ((process_corrections E G B d wp inp out roi_out).b_corrections k) c
      = pixel_at (process_out_hsb E G B d wp inp out roi_out) 4 k c := by
    intro c
    rw [c0, c1, cb, l0, l1, l2]
    exact apply_corrections_neutral _ (by rw [p1]; exact hpos.1) (by rw [p2]; exact hpos.2) c
  refine ⟨t1, fun j => ⟨t2 _ hsat j, t2 _ hbright j⟩, t3, t4, ?_⟩
  intro c hc
  rw [process_rgb_apply E G B d gui_mask_mode fullpipe wp inp out roi_out hmask k hk c hc]
  simp only [process_pixel_rgb, funext t4]

/-- Witness for C2 (amended): real `exp`, `cos`, `sqrt`, the identity parameters
with the nodes shifted by 2.5°, the exact solver for constant right-hand sides,
and a black 1×1 image (chroma 0). -/
theorem C2_identity_tables_witness :
    (∀ i, i < 361 →
      (commit_params Real.exp Real.cos Real.sqrt (fun x => 2 ^ x) (fun x y => x ^ y) Real.pi
        row_sum_solve 361 copyColorLib (identity_params 2.5) none neutral_data).LUT_hue i = 0)
    ∧ (∀ j : Fin NODES,
        rbf_eval Real.exp Real.cos Real.sqrt Real.pi
          (row_sum_solve (rbf_A Real.exp Real.cos Real.sqrt Real.pi Real.pi 2.5)
            (_pack_saturation (identity_params (2.5 : ℝ))))
          Real.pi 2.5 true (_get_hue_node Real.pi j 2.5) = 1) := by
  have hf : (commit_params Real.exp Real.cos Real.sqrt (fun x => 2 ^ x) (fun x y => x ^ y)
      Real.pi row_sum_solve 361 copyColorLib (identity_params 2.5) none
      neutral_data).use_filter = false :=
    (commit_params_LUT Real.exp Real.cos Real.sqrt (fun x => 2 ^ x) (fun x y => x ^ y)
      Real.pi row_sum_solve 361 copyColorLib (identity_params (2.5 : ℝ)) none
      neutral_data).2.2.2
  have hJ : process_JCH copyColorLib
      (process_white copyColorLib
        (commit_params Real.exp Real.cos Real.sqrt (fun x => 2 ^ x) (fun x y => x ^ y) Real.pi
          row_sum_solve 361 copyColorLib (identity_params 2.5) none neutral_data))
      (process_UV copyColorLib meanGaussian nearest_resample
        (commit_params Real.exp Real.cos Real.sqrt (fun x => 2 ^ x) (fun x y => x ^ y) Real.pi
          row_sum_solve 361 copyColorLib (identity_params 2.5) none neutral_data)
        ⟨0, fun _ _ => 0, fun _ _ => 0⟩ (fun _ => 0) ⟨1, 1, 1⟩)
      (process_L copyColorLib (process_input_matrix copyColorLib ⟨0, fun _ _ => 0, fun _ _ => 0⟩)
        (fun _ => 0) (1 * 1)) 0 = fun _ => (0 : ℝ) := by
    funext c
    have hUV : process_UV copyColorLib meanGaussian nearest_resample
        (commit_params Real.exp Real.cos Real.sqrt (fun x => 2 ^ x) (fun x y => x ^ y) Real.pi
          row_sum_solve 361 copyColorLib (identity_params 2.5) none neutral_data)
        ⟨0, fun _ _ => 0, fun _ _ => 0⟩ (fun _ => 0) ⟨1, 1, 1⟩ = fun _ => (0 : ℝ) := by
      funext i
      simp only [process_UV, hf, Bool.false_eq_true, if_false]
      simp [process_UV0, forPixels, process_XYZ, pixel_at, copyColorLib]
    have hL : process_L copyColorLib
        (process_input_matrix copyColorLib ⟨0, fun _ _ => 0, fun _ _ => 0⟩)
        (fun _ => 0) (1 * 1) = fun _ => (0 : ℝ) := by
      funext i
      simp [process_L, forPixels, process_XYZ, pixel_at, copyColorLib]
    rw [process_JCH, hUV, hL]
    simp [copyColorLib, pixel_at]
  have h := C2_identity_tables Real.exp Real.cos Real.sqrt (fun x => 2 ^ x) (fun x y => x ^ y)
    Real.pi row_sum_solve 361 copyColorLib meanGaussian nearest_resample
    (identity_params (2.5 : ℝ)) none neutral_data _ none false
    ⟨0, fun _ _ => 0, fun _ _ => 0⟩ (fun _ => 0) (fun _ => 0) ⟨1, 1, 1⟩ 0 _ _ rfl
    (by intro i; fin_cases i <;> rfl) (by intro i; fin_cases i <;> rfl)
    (by
      intro i
      have hz : ∀ j : Fin NODES, (![0, 0, 0, 0, 0, 0, 0, 0] : Fin NODES → ℝ) j = 0 := by
        intro j; fin_cases j <;> rfl
      simp only [_pack_hue, identity_params, hz, zero_div, zero_mul]) rfl
    (fun i => row_sum_solve_exact Real.sqrt Real.pi 2.5 (fun _ => 1) 1 (fun _ => rfl) i)
    (by funext i; simp [row_sum_solve]) (Or.inl rfl) (by norm_num) rfl rfl
    (by rw [hJ]; intro h0; exact absurd h0 (lt_irrefl _))
    (by
      have hH : ∀ c, c < 3 → process_HSB copyColorLib
          (process_white copyColorLib
            (commit_params Real.exp Real.cos Real.sqrt (fun x => 2 ^ x) (fun x y => x ^ y)
              Real.pi row_sum_solve 361 copyColorLib (identity_params 2.5) none neutral_data))
          (process_UV copyColorLib meanGaussian nearest_resample
            (commit_params Real.exp Real.cos Real.sqrt (fun x => 2 ^ x) (fun x y => x ^ y)
              Real.pi row_sum_solve 361 copyColorLib (identity_params 2.5) none neutral_data)
            ⟨0, fun _ _ => 0, fun _ _ => 0⟩ (fun _ => 0) ⟨1, 1, 1⟩)
          (process_L copyColorLib
            (process_input_matrix copyColorLib ⟨0, fun _ _ => 0, fun _ _ => 0⟩)
            (fun _ => 0) (1 * 1)) (fun _ => 0) 0 c = 0 := by
        intro c hc
        simp only [process_HSB, hJ]
        simp [copyColorLib, pixel_at]
      exact ⟨(hH 1 (by norm_num)).ge, (hH 2 (by norm_num)).ge⟩)
  exact ⟨h.1, fun j => (h.2.1 j).1⟩

/-! ### The regularised normal equations -/

/-- The algebra behind the normal equations: a row times the analytic inverse
of a symmetric 2x2 matrix, times the matrix, is the row. -/
lemma normal_equations_row (c0 c1 s0 s1 s3 det : α) (hne : det ≠ 0)
    (hd : s0 * s3 - s1 * s1 = det) :
    (c0 * (s3 / det) + c1 * (-s1 / det)) * s0 + (c0 * (-s1 / det) + c1 * (s0 / det)) * s1 = c0
    ∧ (c0 * (s3 / det) + c1 * (-s1 / det)) * s1 + (c0 * (-s1 / det) + c1 * (s0 / det)) * s3
        = c1 := by
  constructor
  · have h : (c0 * (s3 / det) + c1 * (-s1 / det)) * s0
        + (c0 * (-s1 / det) + c1 * (s0 / det)) * s1 = c0 * ((s0 * s3 - s1 * s1) / det) := by
      ring
    rw [h, hd, div_self hne, mul_one]
  · have h : (c0 * (s3 / det) + c1 * (-s1 / det)) * s1
        + (c0 * (-s1 / det) + c1 * (s0 / det)) * s3 = c1 * ((s0 * s3 - s1 * s1) / det) := by
      ring
    rw [h, hd, div_self hne, mul_one]

/-- With a symmetric covariance and a guard that passes on the determinant of
`Sigma`, the products of `coeff_a` with `Sigma` give back the correlations, and
the coefficients are the correlations times the analytic inverse. -/
lemma coeff_a_normal (corr covariance : Nat → α) (epsilon det : α) (k : Nat)
    (hsym : covariance (4 * k + 2) = covariance (4 * k + 1))
    (hdet : det = Sigma covariance epsilon k 0 * Sigma covariance epsilon k 3
              - Sigma covariance epsilon k 1 * Sigma covariance epsilon k 2)
    (hguard : |det| > 4 * FLT_EPSILON) :
    (coeff_a corr covariance epsilon det k 0 * Sigma covariance epsilon k 0
        + coeff_a corr covariance epsilon det k 1 * Sigma covariance epsilon k 2
        = corr (4 * k + 0)
      ∧ coeff_a corr covariance epsilon det k 0 * Sigma covariance epsilon k 1
        + coeff_a corr covariance epsilon det k 1 * Sigma covariance epsilon k 3
        = corr (4 * k + 1)
      ∧ coeff_a corr covariance epsilon det k 2 * Sigma covariance epsilon k 0
        + coeff_a corr covariance epsilon det k 3 * Sigma covariance epsilon k 2
        = corr (4 * k + 2)
      ∧ coeff_a corr covariance epsilon det k 2 * Sigma covariance epsilon k 1
        + coeff_a corr covariance epsilon det k 3 * Sigma covariance epsilon k 3
        = corr (4 * k + 3))
    ∧ (coeff_a corr covariance epsilon det k 0
        = (corr (4 * k + 0) * (covariance (4 * k + 3) + epsilon)
            - corr (4 * k + 1) * covariance (4 * k + 1)) / det
      ∧ coeff_a corr covariance epsilon det k 1
        = (-(corr (4 * k + 0) * covariance (4 * k + 1))
            + corr (4 * k + 1) * (covariance (4 * k + 0) + epsilon)) / det
      ∧ coeff_a corr covariance epsilon det k 2
        = (corr (4 * k + 2) * (covariance (4 * k + 3) + epsilon)
            - corr (4 * k + 3) * covariance (4 * k + 1)) / det
      ∧ coeff_a corr covariance epsilon det k 3
        = (-(corr (4 * k + 2) * covariance (4 * k + 1))
            + corr (4 * k + 3) * (covariance (4 * k + 0) + epsilon)) / det) := by
  have hpos : (0 : α) < 4 * FLT_EPSILON := by simp only [FLT_EPSILON]; norm_num
  have hne : det ≠ 0 := by
    intro h0
    rw [h0, abs_zero] at hguard
    exact absurd hguard (not_lt.mpr hpos.le)
  have hd : (covariance (4 * k + 0) + epsilon) * (covariance (4 * k + 3) + epsilon)
      - covariance (4 * k + 1) * covariance (4 * k + 1) = det := by
    rw [hdet]; simp only [Sigma, hsym]
  have r1 := normal_equations_row (corr (4 * k + 0)) (corr (4 * k + 1))
    (covariance (4 * k + 0) + epsilon) (covariance (4 * k + 1))
    (covariance (4 * k + 3) + epsilon) det hne hd
  have r2 := normal_equations_row (corr (4 * k + 2)) (corr (4 * k + 3))
    (covariance (4 * k + 0) + epsilon) (covariance (4 * k + 1))
    (covariance (4 * k + 3) + epsilon) det hne hd
  simp only [coeff_a, if_pos hguard, sigma_inv, Sigma, hsym]
  refine ⟨⟨r1.1, r1.2, r2.1, r2.2⟩, ⟨?_, ?_, ?_, ?_⟩⟩ <;> ring

/-- When the guard of the second filter passes, its clamped determinant is the
determinant of `Sigma` itself. -/
lemma guide_det_of_guard (covariance : Nat → α) (epsilon : α) (k : Nat)
    (hguard : |guide_det covariance epsilon k| > 4 * FLT_EPSILON) :
    guide_det covariance epsilon k
      = Sigma covariance epsilon k 0 * Sigma covariance epsilon k 3
          - Sigma covariance epsilon k 1 * Sigma covariance epsilon k 2 := by
  have hsmall : (1e-15 : α) ≤ 4 * FLT_EPSILON := by
    simp only [FLT_EPSILON]; norm_num
  have hpos : (0 : α) < 1e-15 := by norm_num
  have h0 : 0 ≤ guide_det covariance epsilon k := le_trans hpos.le (le_max_right _ _)
  rw [abs_of_nonneg h0] at hguard
  unfold guide_det at hguard ⊢
  rcases le_total (Sigma covariance epsilon k 0 * Sigma covariance epsilon k 3
      - Sigma covariance epsilon k 1 * Sigma covariance epsilon k 2) 1e-15 with h | h
  · rw [max_eq_right h] at hguard
    exact absurd hguard (not_lt.mpr hsmall)
  · exact max_eq_left h

/-- C11: at a pixel whose determinant passes the guard
`fabsf(det) > 4.f * FLT_EPSILON`, with a symmetric covariance `Σ` of the guide,
the coefficient rows of both filters solve the regularised normal equations
`a_t · (Σ + ε·I) = (cov(t,U), cov(t,V))` (in the prefilter the targets are `U`
and `V` themselves, in the second filter the saturation gain and the brightness
delta), each coefficient is the correlation row times the analytic inverse
`(1/det)·[[Σ_VV+ε, −Σ_UV],[−Σ_UV, Σ_UU+ε]]`, and
`b_t = mean(t) − a_tU·mean(U) − a_tV·mean(V)`. -/
theorem C11_normal_equations (ds_UV covariance : Nat → α) (epsilon : α) (k : Nat)
    (ds_UV' ds_corrections ds_b_corrections correlations covariance' : Nat → α)
    (epsilon' : α) (k' : Nat)
    (hsym : covariance (4 * k + 2) = covariance (4 * k + 1))
    (hguard : |prefilter_det covariance epsilon k| > 4 * FLT_EPSILON)
    (hsym' : covariance' (4 * k' + 2) = covariance' (4 * k' + 1))
    (hguard' : |guide_det covariance' epsilon' k'| > 4 * FLT_EPSILON) :
    ((prefilter_a covariance epsilon k 0 * Sigma covariance epsilon k 0
          + prefilter_a covariance epsilon k 1 * Sigma covariance epsilon k 2
          = covariance (4 * k + 0)
        ∧ prefilter_a covariance epsilon k 0 * Sigma covariance epsilon k 1
          + prefilter_a covariance epsilon k 1 * Sigma covariance epsilon k 3
          = covariance (4 * k + 1)
        ∧ prefilter_a covariance epsilon k 2 * Sigma covariance epsilon k 0
          + prefilter_a covariance epsilon k 3 * Sigma covariance epsilon k 2
          = covariance (4 * k + 2)
        ∧ prefilter_a covariance epsilon k 2 * Sigma covariance epsilon k 1
          + prefilter_a covariance epsilon k 3 * Sigma covariance epsilon k 3
          = covariance (4 * k + 3))
      ∧ (prefilter_a covariance epsilon k 0
          = (covariance (4 * k + 0) * (covariance (4 * k + 3) + epsilon)
              - covariance (4 * k + 1) * covariance (4 * k + 1))
            / prefilter_det covariance epsilon k
        ∧ prefilter_a covariance epsilon k 1
          = (-(covariance (4 * k + 0) * covariance (4 * k + 1))
              + covariance (4 * k + 1) * (covariance (4 * k + 0) + epsilon))
            / prefilter_det covariance epsilon k
        ∧ prefilter_a covariance epsilon k 2
          = (covariance (4 * k + 2) * (covariance (4 * k + 3) + epsilon)
              - covariance (4 * k + 3) * covariance (4 * k + 1))
            / prefilter_det covariance epsilon k
        ∧ prefilter_a covariance epsilon k 3
          = (-(covariance (4 * k + 2) * covariance (4 * k + 1))
              + covariance (4 * k + 3) * (covariance (4 * k + 0) + epsilon))
            / prefilter_det covariance epsilon k)
      ∧ prefilter_b ds_UV covariance epsilon k 0
          = ds_UV (2 * k + 0) - prefilter_a covariance epsilon k 0 * ds_UV (2 * k + 0)
              - prefilter_a covariance epsilon k 1 * ds_UV (2 * k + 1)
      ∧ prefilter_b ds_UV covariance epsilon k 1
          = ds_UV (2 * k + 1) - prefilter_a covariance epsilon k 2 * ds_UV (2 * k + 0)
              - prefilter_a covariance epsilon k 3 * ds_UV (2 * k + 1))
    ∧ ((guide_a correlations covariance' epsilon' k' 0 * Sigma covariance' epsilon' k' 0
          + guide_a correlations covariance' epsilon' k' 1 * Sigma covariance' epsilon' k' 2
          = correlations (4 * k' + 0)
        ∧ guide_a correlations covariance' epsilon' k' 0 * Sigma covariance' epsilon' k' 1
          + guide_a correlations covariance' epsilon' k' 1 * Sigma covariance' epsilon' k' 3
          = correlations (4 * k' + 1)
        ∧ guide_a correlations covariance' epsilon' k' 2 * Sigma covariance' epsilon' k' 0
          + guide_a correlations covariance' epsilon' k' 3 * Sigma covariance' epsilon' k' 2
          = correlations (4 * k' + 2)
        ∧ guide_a correlations covariance' epsilon' k' 2 * Sigma covariance' epsilon' k' 1
          + guide_a correlations covariance' epsilon' k' 3 * Sigma covariance' epsilon' k' 3
          = correlations (4 * k' + 3))
      ∧ (guide_a correlations covariance' epsilon' k' 0
          = (correlations (4 * k' + 0) * (covariance' (4 * k' + 3) + epsilon')
              - correlations (4 * k' + 1) * covariance' (4 * k' + 1))
            / guide_det covariance' epsilon' k'
        ∧ guide_a correlations covariance' epsilon' k' 1
          = (-(correlations (4 * k' + 0) * covariance' (4 * k' + 1))
              + correlations (4 * k' + 1) * (covariance' (4 * k' + 0) + epsilon'))
            / guide_det covariance' epsilon' k'
        ∧ guide_a correlations covariance' epsilon' k' 2
          = (correlations (4 * k' + 2) * (covariance' (4 * k' + 3) + epsilon')
              - correlations (4 * k' + 3) * covariance' (4 * k' + 1))
            / guide_det covariance' epsilon' k'
        ∧ guide_a correlations covariance' epsilon' k' 3
          = (-(correlations (4 * k' + 2) * covariance' (4 * k' + 1))
              + correlations (4 * k' + 3) * (covariance' (4 * k' + 0) + epsilon'))
            / guide_det covariance' epsilon' k')
      ∧ guide_det covariance' epsilon' k'
          = (covariance' (4 * k' + 0) + epsilon') * (covariance' (4 * k' + 3) + epsilon')
              - covariance' (4 * k' + 1) * covariance' (4 * k' + 1)
      ∧ guide_b ds_UV' ds_corrections ds_b_corrections correlations covariance' epsilon' k' 0
          = ds_corrections (2 * k' + 1)
              - guide_a correlations covariance' epsilon' k' 0 * ds_UV' (2 * k' + 0)
              - guide_a correlations covariance' epsilon' k' 1 * ds_UV' (2 * k' + 1)
      ∧ guide_b ds_UV' ds_corrections ds_b_corrections correlations covariance' epsilon' k' 1
          = ds_b_corrections k'
              - guide_a correlations covariance' epsilon' k' 2 * ds_UV' (2 * k' + 0)
              - guide_a correlations covariance' epsilon' k' 3 * ds_UV' (2 * k' + 1)) := by
  have hp := coeff_a_normal covariance covariance epsilon (prefilter_det covariance epsilon k) k
    hsym rfl hguard
  have hdet' := guide_det_of_guard covariance' epsilon' k' hguard'
  have hg := coeff_a_normal correlations covariance' epsilon' (guide_det covariance' epsilon' k')
    k' hsym' hdet' hguard'
  refine ⟨⟨hp.1, hp.2, rfl, rfl⟩, ⟨hg.1, hg.2, ?_, rfl, rfl⟩⟩
  rw [hdet']; simp only [Sigma, hsym']

/-- Witness for C11: unit covariance, `epsilon = 1` (determinant 4) in both
filters; the second filter with correlations `(1, 2, 3, 4)`. -/
theorem C11_normal_equations_witness :
    prefilter_a (fun i => if i = 0 ∨ i = 3 then (1 : ℚ) else 0) 1 0 0 = 1 / 2
    ∧ guide_a (fun i => (i : ℚ) + 1) (fun i => if i = 0 ∨ i = 3 then (1 : ℚ) else 0) 1 0 3
        = 2 :=
  have h := C11_normal_equations (fun _ => (0 : ℚ))
    (fun i => if i = 0 ∨ i = 3 then (1 : ℚ) else 0) 1 0
    (fun _ => (0 : ℚ)) (fun _ => 0) (fun _ => 0) (fun i => (i : ℚ) + 1)
    (fun i => if i = 0 ∨ i = 3 then (1 : ℚ) else 0) 1 0
    (by norm_num)
    (by norm_num [prefilter_det, Sigma, FLT_EPSILON])
    (by norm_num)
    (by norm_num [guide_det, Sigma, FLT_EPSILON])
  ⟨by rw [h.1.2.1.1]; norm_num [prefilter_det, Sigma],
   by rw [h.2.2.1.2.2.2, h.2.2.2.1]; norm_num⟩

/-! ### The widths of the Gaussian averages -/

/-- The probe library returns the standard deviation it was asked for. -/
lemma mean_gaussian_sigmaProbe {β : Type} (buf : Nat → β) (width height ch : Nat) (sigma : β)
    (i : Nat) :
    _mean_gaussian (sigmaProbe : GaussianLib β) buf width height ch sigma i = sigma := by
  simp only [_mean_gaussian, sigmaProbe]
  split_ifs <;> rfl

/-- C12, counterexample: on a 2x1 region at scale 1/2 with radius 1 the width the
claim gives is `max(0.3, 0.25) = 3/10`, and the first filter does blur its guide
with it, but the second filter blurs its guide with `1/4` and the brightness
corrections with `1/20`. -/
theorem C12_counterexample :
    max (0.3 : ℚ) (0.5 * filter_sigma (⟨2, 1, 1 / 2⟩ : dt_iop_roi_t ℚ) 1
        / filter_scaling (⟨2, 1, 1 / 2⟩ : dt_iop_roi_t ℚ) 1) = 3 / 10
    ∧ prefilter_ds_UV sigmaProbe nearest_resample (fun _ => 0)
        (⟨2, 1, 1 / 2⟩ : dt_iop_roi_t ℚ) 1 0 = 3 / 10
    ∧ guide_ds_UV sigmaProbe nearest_resample (fun _ => 0)
        (⟨2, 1, 1 / 2⟩ : dt_iop_roi_t ℚ) 1 0 = 1 / 4
    ∧ guide_ds_b_corrections sigmaProbe nearest_resample (fun _ => 0)
        (⟨2, 1, 1 / 2⟩ : dt_iop_roi_t ℚ) 1 0 = 1 / 20 := by
  have hs : filter_scaling (⟨2, 1, 1 / 2⟩ : dt_iop_roi_t ℚ) 1 = 1 := by
    simp only [filter_scaling, filter_sigma, _get_scaling]
    norm_num [Int.floor_eq_iff]
  refine ⟨?_, ?_, ?_, ?_⟩
  · rw [hs]; norm_num [filter_sigma]
  · simp only [prefilter_ds_UV, mean_gaussian_sigmaProbe, prefilter_gsigma, hs]
    norm_num [filter_sigma]
  · simp only [guide_ds_UV, mean_gaussian_sigmaProbe, guide_gsigma, hs]
    norm_num [filter_sigma]
  · simp only [guide_ds_b_corrections, mean_gaussian_sigmaProbe, guide_gsigma, hs]
    norm_num [filter_sigma]

/-- C12, amended: the first filter takes each of its Gaussian averages (guide
mean, second moments, smoothing of `a` and of `b`) with
`gsigma = max(0.3, 0.5·sigma/scaling)`; the second filter takes the guide mean,
the second moments, the mean of the corrections, the cross-correlations and the
smoothing of `a` and `b` with `gsigma' = max(0.2, 0.5·sigma/scaling)`, and the
mean of the brightness corrections with `0.2·gsigma'`, which is narrower than
`gsigma'`.  The two widths `gsigma` and `gsigma'` agree when
`0.5·sigma/scaling ≥ 0.3`. -/
theorem C12_blur_widths [FloorRing α] (G : GaussianLib α) (B : Bilinear α) (UV : Nat → α)
    (bufs : GuideBuffers α) (roi : dt_iop_roi_t α) (csigma epsilon : α) :
    (prefilter_gsigma roi csigma
        = max 0.3 (0.5 * (csigma * roi.scale) / _get_scaling (csigma * roi.scale))
      ∧ prefilter_ds_UV G B UV roi csigma
        = _mean_gaussian G (prefilter_ds_UV0 B UV roi csigma)
            (ds_width roi csigma) (ds_height roi csigma) 2 (prefilter_gsigma roi csigma)
      ∧ prefilter_covariance G B UV roi csigma
        = covariance_finish
            (_mean_gaussian G
              (covariance_init (prefilter_ds_UV0 B UV roi csigma) (ds_pixels roi csigma))
              (ds_width roi csigma) (ds_height roi csigma) 4 (prefilter_gsigma roi csigma))
            (prefilter_ds_UV G B UV roi csigma) (ds_pixels roi csigma)
      ∧ prefilter_a_full G B UV roi csigma epsilon
        = (if resized roi csigma then
            B (_mean_gaussian G
                (forPixels 4 (ds_pixels roi csigma)
                  (prefilter_a (prefilter_covariance G B UV roi csigma) epsilon) (fun _ => 0))
                (ds_width roi csigma) (ds_height roi csigma) 4 (prefilter_gsigma roi csigma))
              (ds_width roi csigma) (ds_height roi csigma) roi.width roi.height 4
          else
            _mean_gaussian G
              (forPixels 4 (ds_pixels roi csigma)
                (prefilter_a (prefilter_covariance G B UV roi csigma) epsilon) (fun _ => 0))
              (ds_width roi csigma) (ds_height roi csigma) 4 (prefilter_gsigma roi csigma))
      ∧ prefilter_b_full G B UV roi csigma epsilon
        = (if resized roi csigma then
            B (_mean_gaussian G
                (forPixels 2 (ds_pixels roi csigma)
                  (prefilter_b (prefilter_ds_UV G B UV roi csigma)
                    (prefilter_covariance G B UV roi csigma) epsilon) (fun _ => 0))
                (ds_width roi csigma) (ds_height roi csigma) 2 (prefilter_gsigma roi csigma))
              (ds_width roi csigma) (ds_height roi csigma) roi.width roi.height 2
          else
            _mean_gaussian G
              (forPixels 2 (ds_pixels roi csigma)
                (prefilter_b (prefilter_ds_UV G B UV roi csigma)
                  (prefilter_covariance G B UV roi csigma) epsilon) (fun _ => 0))
              (ds_width roi csigma) (ds_height roi csigma) 2 (prefilter_gsigma roi csigma)))
    ∧ (guide_gsigma roi csigma
        = max 0.2 (0.5 * (csigma * roi.scale) / _get_scaling (csigma * roi.scale))
      ∧ guide_ds_UV G B bufs.UV roi csigma
        = _mean_gaussian G (guide_ds_UV0 B bufs.UV roi csigma)
            (ds_width roi csigma) (ds_height roi csigma) 2 (guide_gsigma roi csigma)
      ∧ guide_covariance G B bufs.UV roi csigma
        = covariance_finish
            (_mean_gaussian G
              (covariance_init (guide_ds_UV0 B bufs.UV roi csigma) (ds_pixels roi csigma))
              (ds_width roi csigma) (ds_height roi csigma) 4 (guide_gsigma roi csigma))
            (guide_ds_UV G B bufs.UV roi csigma) (ds_pixels roi csigma)
      ∧ guide_ds_corrections G B bufs.corrections roi csigma
        = _mean_gaussian G (guide_ds_corrections0 B bufs.corrections roi csigma)
            (ds_width roi csigma) (ds_height roi csigma) 2 (guide_gsigma roi csigma)
      ∧ guide_ds_b_corrections G B bufs.b_corrections roi csigma
        = _mean_gaussian G (guide_ds_b_corrections0 B bufs.b_corrections roi csigma)
            (ds_width roi csigma) (ds_height roi csigma) 1 (0.2 * guide_gsigma roi csigma)
      ∧ guide_correlations G B bufs roi csigma
        = correlations_finish
            (_mean_gaussian G
              (correlations_init (guide_ds_UV0 B bufs.UV roi csigma)
                (guide_ds_corrections0 B bufs.corrections roi csigma)
                (guide_ds_b_corrections0 B bufs.b_corrections roi csigma)
                (ds_pixels roi csigma))
              (ds_width roi csigma) (ds_height roi csigma) 4 (guide_gsigma roi csigma))
            (guide_ds_UV G B bufs.UV roi csigma)
            (guide_ds_corrections G B bufs.corrections roi csigma)
            (guide_ds_b_corrections G B bufs.b_corrections roi csigma) (ds_pixels roi csigma)
      ∧ guide_a_full G B bufs roi csigma epsilon
        = (if resized roi csigma then
            B (_mean_gaussian G
                (forPixels 4 (ds_pixels roi csigma)
                  (guide_a (guide_correlations G B bufs roi csigma)
                    (guide_covariance G B bufs.UV roi csigma) epsilon) (fun _ => 0))
                (ds_width roi csigma) (ds_height roi csigma) 4 (guide_gsigma roi csigma))
              (ds_width roi csigma) (ds_height roi csigma) roi.width roi.height 4
          else
            _mean_gaussian G
              (forPixels 4 (ds_pixels roi csigma)
                (guide_a (guide_correlations G B bufs roi csigma)
                  (guide_covariance G B bufs.UV roi csigma) epsilon) (fun _ => 0))
              (ds_width roi csigma) (ds_height roi csigma) 4 (guide_gsigma roi csigma))
      ∧ guide_b_full G B bufs roi csigma epsilon
        = (if resized roi csigma then
            B (_mean_gaussian G
                (forPixels 2 (ds_pixels roi csigma)
                  (guide_b (guide_ds_UV G B bufs.UV roi csigma)
                    (guide_ds_corrections G B bufs.corrections roi csigma)
                    (guide_ds_b_corrections G B bufs.b_corrections roi csigma)
                    (guide_correlations G B bufs roi csigma)
                    (guide_covariance G B bufs.UV roi csigma) epsilon) (fun _ => 0))
                (ds_width roi csigma) (ds_height roi csigma) 2 (guide_gsigma roi csigma))
              (ds_width roi csigma) (ds_height roi csigma) roi.width roi.height 2
          else
            _mean_gaussian G
              (forPixels 2 (ds_pixels roi csigma)
                (guide_b (guide_ds_UV G B bufs.UV roi csigma)
                  (guide_ds_corrections G B bufs.corrections roi csigma)
                  (guide_ds_b_corrections G B bufs.b_corrections roi csigma)
                  (guide_correlations G B bufs roi csigma)
                  (guide_covariance G B bufs.UV roi csigma) epsilon) (fun _ => 0))
              (ds_width roi csigma) (ds_height roi csigma) 2 (guide_gsigma roi csigma)))
    ∧ 0.2 * guide_gsigma roi csigma < guide_gsigma roi csigma
    ∧ guide_gsigma roi csigma ≤ prefilter_gsigma roi csigma
    ∧ (0.3 ≤ 0.5 * (csigma * roi.scale) / _get_scaling (csigma * roi.scale) →
        guide_gsigma roi csigma = prefilter_gsigma roi csigma)
    ∧ (∀ i, prefilter_ds_UV sigmaProbe B UV roi csigma i = prefilter_gsigma roi csigma)
    ∧ (∀ i, guide_ds_UV sigmaProbe B bufs.UV roi csigma i = guide_gsigma roi csigma)
    ∧ (∀ i, guide_ds_corrections sigmaProbe B bufs.corrections roi csigma i
        = guide_gsigma roi csigma)
    ∧ (∀ i, guide_ds_b_corrections sigmaProbe B bufs.b_corrections roi csigma i
        = 0.2 * guide_gsigma roi csigma) := by
  have hg : (0 : α) < guide_gsigma roi csigma :=
    lt_of_lt_of_le (by norm_num) (le_max_left _ _)
  refine ⟨⟨rfl, rfl, rfl, rfl, rfl⟩, ⟨rfl, rfl, rfl, rfl, rfl, rfl, rfl, rfl⟩, ?_, ?_, ?_,
    ?_, ?_, ?_, ?_⟩
  · linarith
  · simp only [guide_gsigma, prefilter_gsigma]
    exact max_le_max (by norm_num) le_rfl
  · intro h
    simp only [guide_gsigma, prefilter_gsigma, filter_sigma, filter_scaling]
    rw [max_eq_right h, max_eq_right (le_trans (by norm_num) h)]
  · intro i; simp only [prefilter_ds_UV, mean_gaussian_sigmaProbe]
  · intro i; simp only [guide_ds_UV, mean_gaussian_sigmaProbe]
  · intro i; simp only [guide_ds_corrections, mean_gaussian_sigmaProbe]
  · intro i; simp only [guide_ds_b_corrections, mean_gaussian_sigmaProbe]

/-! ### The downsampling factor -/

/-- The downsampling factor is the cast of an integer clamp. -/
lemma get_scaling_int [FloorRing α] (sigma : α) :
    _get_scaling sigma = ((max 1 (min 4 (Int.floor (sigma - 1.5))) : ℤ) : α) := by
  simp only [_get_scaling]
  push_cast
  rfl

/-- C13: `_get_scaling(sigma)` is `floor(sigma − 1.5)` clamped to `[1, 4]`; it is
one of 1, 2, 3, 4, non-decreasing in `sigma`, equal to 1 exactly when
`sigma < 3.5` and equal to 4 exactly when `sigma ≥ 5.5`. -/
theorem C13_get_scaling [FloorRing α] :
    (∀ sigma : α, _get_scaling sigma
        = if Int.floor (sigma - 1.5) < 1 then 1
          else if 4 < Int.floor (sigma - 1.5) then 4
          else ((Int.floor (sigma - 1.5) : ℤ) : α))
    ∧ (∀ sigma : α, _get_scaling sigma = 1 ∨ _get_scaling sigma = 2
        ∨ _get_scaling sigma = 3 ∨ _get_scaling sigma = 4)
    ∧ (∀ s t : α, s ≤ t → _get_scaling s ≤ _get_scaling t)
    ∧ (∀ sigma : α, _get_scaling sigma = 1 ↔ sigma < 3.5)
    ∧ (∀ sigma : α, _get_scaling sigma = 4 ↔ 5.5 ≤ sigma) := by
  refine ⟨?_, ?_, ?_, ?_, ?_⟩
  · intro sigma
    rw [get_scaling_int]
    split_ifs with h1 h2
    · have : max 1 (min 4 (Int.floor (sigma - 1.5))) = 1 := by omega
      rw [this]; norm_num
    · have : max 1 (min 4 (Int.floor (sigma - 1.5))) = 4 := by omega
      rw [this]; norm_num
    · have : max 1 (min 4 (Int.floor (sigma - 1.5))) = Int.floor (sigma - 1.5) := by omega
      rw [this]
  · intro sigma
    rw [get_scaling_int]
    have h : max 1 (min 4 (Int.floor (sigma - 1.5))) = 1
        ∨ max 1 (min 4 (Int.floor (sigma - 1.5))) = 2
        ∨ max 1 (min 4 (Int.floor (sigma - 1.5))) = 3
        ∨ max 1 (min 4 (Int.floor (sigma - 1.5))) = 4 := by omega
    rcases h with h | h | h | h <;> rw [h] <;> norm_num
  · intro s t hst
    rw [get_scaling_int, get_scaling_int]
    have hf : Int.floor (s - 1.5) ≤ Int.floor (t - 1.5) :=
      Int.floor_mono (by linarith)
    exact_mod_cast (show max 1 (min 4 (Int.floor (s - 1.5)))
      ≤ max 1 (min 4 (Int.floor (t - 1.5))) by omega)
  · intro sigma
    rw [get_scaling_int]
    have h1 : (((max 1 (min 4 (Int.floor (sigma - 1.5))) : ℤ) : α) = 1)
        ↔ max 1 (min 4 (Int.floor (sigma - 1.5))) = 1 := by
      constructor
      · intro h; exact_mod_cast h
      · intro h; rw [h]; norm_num
    have h2 : Int.floor (sigma - 1.5) < 2 ↔ sigma - 1.5 < ((2 : ℤ) : α) := Int.floor_lt
    rw [h1]
    constructor
    · intro h
      have : Int.floor (sigma - 1.5) < 2 := by omega
      have := h2.mp this
      push_cast at this
      linarith
    · intro h
      have : Int.floor (sigma - 1.5) < 2 := h2.mpr (by push_cast; linarith)
      omega
  · intro sigma
    rw [get_scaling_int]
    have h1 : (((max 1 (min 4 (Int.floor (sigma - 1.5))) : ℤ) : α) = 4)
        ↔ max 1 (min 4 (Int.floor (sigma - 1.5))) = 4 := by
      constructor
      · intro h; exact_mod_cast h
      · intro h; rw [h]; norm_num
    have h2 : 4 ≤ Int.floor (sigma - 1.5) ↔ ((4 : ℤ) : α) ≤ sigma - 1.5 := Int.le_floor
    rw [h1]
    constructor
    · intro h
      have : 4 ≤ Int.floor (sigma - 1.5) := by omega
      have := h2.mp this
      push_cast at this
      linarith
    · intro h
      have : 4 ≤ Int.floor (sigma - 1.5) := h2.mpr (by push_cast; linarith)
      omega

/-! ### The achromatic weight -/

/-- A lower bound of `exp 8`, for the values of the weight at 0 and at 1. -/
lemma exp_eight_gt : (999 : ℝ) < Real.exp 8 := by
  have h1 : (2.7 : ℝ) < Real.exp 1 := lt_trans (by norm_num) Real.exp_one_gt_d9
  have h2 : Real.exp 8 = Real.exp 1 ^ 8 := by
    rw [← Real.exp_nat_mul]; norm_num
  rw [h2]
  calc (999 : ℝ) < 2.7 ^ 8 := by norm_num
    _ ≤ Real.exp 1 ^ 8 := pow_le_pow_left₀ (by norm_num) h1.le 8

/-- With the exponential for `dt_fast_expf`, the `fmaxf(·, 0.0f)` changes
nothing: the weight is the logistic function. -/
lemma achromatic_weight_exp (val : ℝ) :
    achromatic_weight Real.exp val = 1 / (1 + Real.exp (-(20 * (2 * val - 0.4)))) := by
  unfold achromatic_weight
  exact max_eq_left (by positivity)

/-- C14: with the exponential for `dt_fast_expf`, the weight that `process`
computes for a pixel is `1 / (1 + exp(−20·(2·val − 0.4)))` of its chroma proxy
`val`; as a function of `val` it is strictly increasing, lies in `[0, 1]`, is
`1/2` at `0.2`, below `0.001` at `0` and above `0.999` at `1`. -/
theorem C14_achromatic_weight :
    (∀ val : ℝ, achromatic_weight Real.exp val
        = 1 / (1 + Real.exp (-(20 * (2 * val - 0.4)))))
    ∧ StrictMono (achromatic_weight Real.exp)
    ∧ (∀ val : ℝ, 0 ≤ achromatic_weight Real.exp val ∧ achromatic_weight Real.exp val ≤ 1)
    ∧ achromatic_weight Real.exp 0.2 = 1 / 2
    ∧ achromatic_weight Real.exp 0 < 0.001
    ∧ 0.999 < achromatic_weight Real.exp 1
    ∧ (∀ (E : ColorLib ℝ) (input_matrix : Nat → Nat → ℝ) (inp : Nat → ℝ) (npixels k : Nat),
        k < npixels →
        process_weights0 E input_matrix inp npixels k
          = achromatic_weight E.dt_fast_expf
              (chroma_proxy (process_XYZ E input_matrix inp k))) := by
  refine ⟨achromatic_weight_exp, ?_, ?_, ?_, ?_, ?_, ?_⟩
  · intro a b hab
    rw [achromatic_weight_exp, achromatic_weight_exp]
    have he : Real.exp (-(20 * (2 * b - 0.4))) < Real.exp (-(20 * (2 * a - 0.4))) :=
      Real.exp_lt_exp.mpr (by linarith)
    exact one_div_lt_one_div_of_lt (by positivity) (by linarith)
  · intro val
    rw [achromatic_weight_exp]
    have he : 0 < Real.exp (-(20 * (2 * val - 0.4))) := Real.exp_pos _
    constructor
    · positivity
    · rw [div_le_one (by positivity)]; linarith
  · rw [achromatic_weight_exp]
    have h0 : (-(20 * (2 * 0.2 - 0.4)) : ℝ) = 0 := by norm_num
    rw [h0, Real.exp_zero]; norm_num
  · rw [achromatic_weight_exp]
    have h8 : (-(20 * (2 * 0 - 0.4)) : ℝ) = 8 := by norm_num
    rw [h8, div_lt_iff₀ (by positivity)]
    have := exp_eight_gt
    linarith
  · rw [achromatic_weight_exp]
    have h32 : (-(20 * (2 * 1 - 0.4)) : ℝ) = -32 := by norm_num
    have hle : Real.exp (-32) ≤ Real.exp (-8) := Real.exp_le_exp.mpr (by norm_num)
    have hinv : Real.exp (-8) < 1 / 999 := by
      rw [Real.exp_neg, ← one_div]
      exact one_div_lt_one_div_of_lt (by norm_num) exp_eight_gt
    rw [h32, lt_div_iff₀ (by positivity)]
    linarith
  · intro E input_matrix inp npixels k hk
    have h := forPixels_apply 1 npixels (fun k _ =>
      achromatic_weight E.dt_fast_expf (chroma_proxy (process_XYZ E input_matrix inp k)))
      (fun _ => 0) k 0 hk (by norm_num)
    simpa [process_weights0] using h

/-! ### Applying and looking up the corrections -/

/-- C15: in mask mode 0 the triple handed to gamut mapping for a pixel with HSB
`(h, s, b)`, hue offset `dh`, saturation gain `g` and brightness delta `dl` is
`h + dh`, `max(0, s·(1 + 1.5·(g − 1)))`, `max(0, b·(1 + 6·dl))`, so that the
saturation and the brightness handed over are never negative; and the output
pixel of `process` is the matrix product of the converted, gamut-mapped
corrected pixel. -/
theorem C15_correction_application [FloorRing α] (E : ColorLib α) (G : GaussianLib α)
    (B : Bilinear α) (d : dt_iop_colorequal_data_t α) (gui_mask_mode : Option Int)
    (fullpipe : Bool) (wp : dt_iop_order_iccprofile_info_t α)
    (inp out : Nat → α) (roi_out : dt_iop_roi_t α) (pix_out : Nat → α) (dh g dl : α)
    (hmask : gui_mask_mode = none ∨ fullpipe = false ∨ gui_mask_mode = some 0) (k : Nat)
    (hk : k < roi_out.width * roi_out.height) (c : Nat) (hc : c < 4) :
    (apply_corrections pix_out dh g dl 0 = pix_out 0 + dh
      ∧ apply_corrections pix_out dh g dl 1 = max 0 (pix_out 1 * (1 + 1.5 * (g - 1)))
      ∧ apply_corrections pix_out dh g dl 2 = max 0 (pix_out 2 * (1 + 6 * dl))
      ∧ 0 ≤ apply_corrections pix_out dh g dl 1
      ∧ 0 ≤ apply_corrections pix_out dh g dl 2)
    ∧ process E G B d 4 gui_mask_mode fullpipe (some wp) inp out roi_out (4 * k + c)
      = E.dot_product
          (E.dt_UCS_HSB_to_XYZ
            (E.gamut_map_HSB
              (apply_corrections (pixel_at (process_out_hsb E G B d wp inp out roi_out) 4 k)
                ((process_corrections E G B d wp inp out roi_out).corrections (2 * k + 0))
                ((process_corrections E G B d wp inp out roi_out).corrections (2 * k + 1))
                ((process_corrections E G B d wp inp out roi_out).b_corrections k))
              d.gamut_LUT (process_white E d))
            (process_white E d))
          (process_output_matrix E wp)
          (E.gamut_map_HSB
            (apply_corrections (pixel_at (process_out_hsb E G B d wp inp out roi_out) 4 k)
              ((process_corrections E G B d wp inp out roi_out).corrections (2 * k + 0))
              ((process_corrections E G B d wp inp out roi_out).corrections (2 * k + 1))
              ((process_corrections E G B d wp inp out roi_out).b_corrections k))
            d.gamut_LUT (process_white E d)) c := by
  refine ⟨⟨rfl, rfl, rfl, le_max_left _ _, le_max_left _ _⟩, ?_⟩
  rw [process_rgb_apply E G B d gui_mask_mode fullpipe wp inp out roi_out hmask k hk c hc]
  rfl

/-- Witness for C15: a pixel with negative saturation and brightness, a negative
gain and a negative delta, in a 1x1 image. -/
theorem C15_correction_application_witness :
    apply_corrections (fun _ => (-1 : ℚ)) 1 (-3) (-2) 1 = 5
    ∧ apply_corrections (fun _ => (-1 : ℚ)) 1 (-3) (-2) 2 = 11 :=
  have h := C15_correction_application (copyColorLib : ColorLib ℚ) meanGaussian
    nearest_resample neutral_data none false ⟨0, fun _ _ => 0, fun _ _ => 0⟩
    (fun _ => 0) (fun _ => 0) ⟨1, 1, 1⟩ (fun _ => (-1 : ℚ)) 1 (-3) (-2)
    (Or.inl rfl) 0 (by decide) 0 (by decide)
  ⟨by rw [h.1.2.1]; norm_num, by rw [h.1.2.2.1]; norm_num⟩

/-- C16: the corrections looked up for a pixel are neutral (hue offset 0,
saturation gain 1, brightness delta 0) when its JCH chroma is not strictly
positive, and otherwise `LUT_hue(h)`, `LUT_saturation(h)` and
`s·(LUT_brightness(h) − 1)` for its own HSB hue `h` and saturation `s`; these
are the values that STEP 3 of `process` stores for the pixel. -/
theorem C16_correction_lookup [FloorRing α] (E : ColorLib α)
    (d : dt_iop_colorequal_data_t α) (white : α) (UV L out : Nat → α) (npixels k : Nat)
    (JCH HSB : Nat → α) (hk : k < npixels) :
    (¬ (JCH 1 > 0) →
        lookup_corrections E d JCH HSB 0 = 0
        ∧ lookup_corrections E d JCH HSB 1 = 1
        ∧ lookup_corrections E d JCH HSB 2 = 0)
    ∧ (JCH 1 > 0 →
        lookup_corrections E d JCH HSB 0 = E.lookup_gamut d.LUT_hue (HSB 0)
        ∧ lookup_corrections E d JCH HSB 1 = E.lookup_gamut d.LUT_saturation (HSB 0)
        ∧ lookup_corrections E d JCH HSB 2
            = HSB 1 * (E.lookup_gamut d.LUT_brightness (HSB 0) - 1))
    ∧ (process_lookup E d white UV L out npixels).corrections (2 * k + 0)
        = lookup_corrections E d (process_JCH E white UV L k)
            (process_HSB E white UV L out k) 0
    ∧ (process_lookup E d white UV L out npixels).corrections (2 * k + 1)
        = lookup_corrections E d (process_JCH E white UV L k)
            (process_HSB E white UV L out k) 1
    ∧ (process_lookup E d white UV L out npixels).b_corrections k
        = lookup_corrections E d (process_JCH E white UV L k)
            (process_HSB E white UV L out k) 2 := by
  refine ⟨?_, ?_, ?_, ?_, ?_⟩
  · intro h
    simp only [lookup_corrections, if_neg h, and_self]
  · intro h
    simp only [lookup_corrections, if_pos h, and_self]
  · simp only [process_lookup]
    rw [forPixels_apply 2 npixels _ _ k 0 hk (by norm_num)]
  · simp only [process_lookup]
    rw [forPixels_apply 2 npixels _ _ k 1 hk (by norm_num)]
  · have h := forPixels_apply 1 npixels (fun k _ =>
      lookup_corrections E d (process_JCH E white UV L k) (process_HSB E white UV L out k) 2)
      (fun _ => 0) k 0 hk (by norm_num)
    simpa [process_lookup] using h

/-- Witness for C16: with saturation table 3 everywhere, a pixel of chroma 0
gets the gain 1 and a pixel of chroma 1 gets the gain 3. -/
theorem C16_correction_lookup_witness :
    (process_lookup (copyColorLib : ColorLib ℚ)
        { (neutral_data : dt_iop_colorequal_data_t ℚ) with LUT_saturation := fun _ => 3 }
        1 (fun i => if i < 2 then 0 else 1) (fun _ => 1) (fun _ => 0) 2).corrections
          (2 * 0 + 1) = 1
    ∧ (process_lookup (copyColorLib : ColorLib ℚ)
        { (neutral_data : dt_iop_colorequal_data_t ℚ) with LUT_saturation := fun _ => 3 }
        1 (fun i => if i < 2 then 0 else 1) (fun _ => 1) (fun _ => 0) 2).corrections
          (2 * 1 + 1) = 3 :=
  ⟨by
    rw [(C16_correction_lookup (copyColorLib : ColorLib ℚ)
      { (neutral_data : dt_iop_colorequal_data_t ℚ) with LUT_saturation := fun _ => 3 }
      1 (fun i => if i < 2 then 0 else 1) (fun _ => 1) (fun _ => 0) 2 0
      (fun _ => 0) (fun _ => 0) (by decide)).2.2.2.1]
    simp [lookup_corrections, process_JCH, copyColorLib, pixel_at],
   by
    have h : (process_JCH (copyColorLib : ColorLib ℚ) 1 (fun i => if i < 2 then 0 else 1)
        (fun _ => 1) 1) 1 > 0 := by
      simp [process_JCH, copyColorLib, pixel_at]
    rw [(C16_correction_lookup (copyColorLib : ColorLib ℚ)
      { (neutral_data : dt_iop_colorequal_data_t ℚ) with LUT_saturation := fun _ => 3 }
      1 (fun i => if i < 2 then 0 else 1) (fun _ => 1) (fun _ => 0) 2 1
      (fun _ => 0) (fun _ => 0) (by decide)).2.2.2.1]
    simp only [lookup_corrections, if_pos h]
    simp [copyColorLib]⟩

/-! ### Processing without the guided filters -/

/-- Without the filters, the pixel that STEP 3 leaves in the output buffer and
the corrections looked up for it are the same for two images that agree at the
pixel. -/
lemma process_no_filter_local [FloorRing α] (E : ColorLib α) (G : GaussianLib α)
    (B : Bilinear α) (d : dt_iop_colorequal_data_t α) (wp : dt_iop_order_iccprofile_info_t α)
    (inp inp' out : Nat → α) (roi_out : dt_iop_roi_t α) (hf : d.use_filter = false) (k : Nat)
    (hk : k < roi_out.width * roi_out.height)
    (hagree : ∀ c, c < 4 → inp (4 * k + c) = inp' (4 * k + c)) :
    pixel_at (process_out_hsb E G B d wp inp out roi_out) 4 k
      = pixel_at (process_out_hsb E G B d wp inp' out roi_out) 4 k
    ∧ (∀ c, c < 2 →
        (process_corrections E G B d wp inp out roi_out).corrections (2 * k + c)
          = (process_corrections E G B d wp inp' out roi_out).corrections (2 * k + c))
    ∧ (process_corrections E G B d wp inp out roi_out).b_corrections k
        = (process_corrections E G B d wp inp' out roi_out).b_corrections k := by
  have hpix : pixel_at inp 4 k = pixel_at inp' 4 k := by
    funext c
    simp only [pixel_at]
    split_ifs with hc
    · exact hagree c hc
    · rfl
  have hXYZ : ∀ im, process_XYZ E im inp k = process_XYZ E im inp' k := by
    intro im; simp only [process_XYZ, hpix]
  have hUV : pixel_at (process_UV E G B d wp inp roi_out) 2 k
      = pixel_at (process_UV E G B d wp inp' roi_out) 2 k := by
    funext c
    simp only [pixel_at, process_UV, hf, Bool.false_eq_true, if_false, process_UV0]
    split_ifs with hc
    · rw [forPixels_apply 2 _ _ _ k c hk hc, forPixels_apply 2 _ _ _ k c hk hc, hXYZ]
    · rfl
  have hL : process_L E (process_input_matrix E wp) inp (roi_out.width * roi_out.height) k
      = process_L E (process_input_matrix E wp) inp' (roi_out.width * roi_out.height) k := by
    have h1 := forPixels_apply 1 (roi_out.width * roi_out.height) (fun k _ =>
      E.Y_to_dt_UCS_L_star (E.dt_D65_XYZ_to_xyY
        (process_XYZ E (process_input_matrix E wp) inp k) 2)) (fun _ => 0) k 0 hk (by norm_num)
    have h2 := forPixels_apply 1 (roi_out.width * roi_out.height) (fun k _ =>
      E.Y_to_dt_UCS_L_star (E.dt_D65_XYZ_to_xyY
        (process_XYZ E (process_input_matrix E wp) inp' k) 2)) (fun _ => 0) k 0 hk (by norm_num)
    simp only [one_mul, add_zero] at h1 h2
    simp only [process_L, h1, h2, hXYZ]
  have hJCH : process_JCH E (process_white E d) (process_UV E G B d wp inp roi_out)
        (process_L E (process_input_matrix E wp) inp (roi_out.width * roi_out.height)) k
      = process_JCH E (process_white E d) (process_UV E G B d wp inp' roi_out)
        (process_L E (process_input_matrix E wp) inp' (roi_out.width * roi_out.height)) k := by
    simp only [process_JCH, hUV, hL]
  have hHSB : process_HSB E (process_white E d) (process_UV E G B d wp inp roi_out)
        (process_L E (process_input_matrix E wp) inp (roi_out.width * roi_out.height)) out k
      = process_HSB E (process_white E d) (process_UV E G B d wp inp' roi_out)
        (process_L E (process_input_matrix E wp) inp' (roi_out.width * roi_out.height))
        out k := by
    simp only [process_HSB, hJCH]
  refine ⟨?_, ?_, ?_⟩
  · funext c
    by_cases hc : c < 4
    · rw [process_out_hsb_apply E G B d wp inp out roi_out k hk c hc,
        process_out_hsb_apply E G B d wp inp' out roi_out k hk c hc, hHSB,
        hagree 3 (by norm_num)]
    · simp only [pixel_at, if_neg hc]
  · intro c hc
    rw [(process_corrections_no_filter E G B d wp inp out roi_out hf k hk c hc).1,
      (process_corrections_no_filter E G B d wp inp' out roi_out hf k hk c hc).1, hJCH, hHSB]
  · rw [(process_corrections_no_filter E G B d wp inp out roi_out hf k hk 0 (by norm_num)).2,
      (process_corrections_no_filter E G B d wp inp' out roi_out hf k hk 0 (by norm_num)).2,
      hJCH, hHSB]

/-- C17: when `use_filter` is false and the mask mode is 0, neither guided
filter runs (the chromaticity is the converted one and the corrections applied
are the looked-up ones), and two input images that agree at pixel `k` give the
same output at pixel `k`, whatever their other pixels are. -/
theorem C17_no_filter_per_pixel [FloorRing α] (E : ColorLib α) (G : GaussianLib α)
    (B : Bilinear α) (d : dt_iop_colorequal_data_t α) (gui_mask_mode : Option Int)
    (fullpipe : Bool) (wp : dt_iop_order_iccprofile_info_t α)
    (inp inp' out : Nat → α) (roi_out : dt_iop_roi_t α)
    (hf : d.use_filter = false)
    (hmask : gui_mask_mode = none ∨ fullpipe = false ∨ gui_mask_mode = some 0) (k : Nat)
    (hk : k < roi_out.width * roi_out.height)
    (hagree : ∀ c, c < 4 → inp (4 * k + c) = inp' (4 * k + c)) :
    process_UV E G B d wp inp roi_out
      = process_UV0 E (process_input_matrix E wp) inp (roi_out.width * roi_out.height)
    ∧ process_corrections E G B d wp inp out roi_out
      = process_lookup E d (process_white E d)
          (process_UV0 E (process_input_matrix E wp) inp (roi_out.width * roi_out.height))
          (process_L E (process_input_matrix E wp) inp (roi_out.width * roi_out.height))
          out (roi_out.width * roi_out.height)
    ∧ (∀ c, c < 4 →
        process E G B d 4 gui_mask_mode fullpipe (some wp) inp out roi_out (4 * k + c)
          = process E G B d 4 gui_mask_mode fullpipe (some wp) inp' out roi_out (4 * k + c)) := by
  have hloc := process_no_filter_local E G B d wp inp inp' out roi_out hf k hk hagree
  refine ⟨?_, ?_, ?_⟩
  · simp only [process_UV, hf, Bool.false_eq_true, if_false]
  · simp only [process_corrections, process_UV, hf, Bool.false_eq_true, if_false]
  · intro c hc
    rw [process_rgb_apply E G B d gui_mask_mode fullpipe wp inp out roi_out hmask k hk c hc,
      process_rgb_apply E G B d gui_mask_mode fullpipe wp inp' out roi_out hmask k hk c hc,
      hloc.1, hloc.2.1 0 (by norm_num), hloc.2.1 1 (by norm_num), hloc.2.2]

/-- Witness for C17: two 2x1 images with the same first pixel and different
second pixels. -/
theorem C17_no_filter_per_pixel_witness :
    process (copyColorLib : ColorLib ℚ) meanGaussian nearest_resample
        { (neutral_data : dt_iop_colorequal_data_t ℚ) with use_filter := false }
        4 none false (some ⟨0, fun _ _ => 0, fun _ _ => 0⟩)
        (fun i => if i < 4 then 1 else 2) (fun _ => 0) ⟨2, 1, 1⟩ (4 * 0 + 1)
      = process (copyColorLib : ColorLib ℚ) meanGaussian nearest_resample
        { (neutral_data : dt_iop_colorequal_data_t ℚ) with use_filter := false }
        4 none false (some ⟨0, fun _ _ => 0, fun _ _ => 0⟩)
        (fun i => if i < 4 then 1 else 5) (fun _ => 0) ⟨2, 1, 1⟩ (4 * 0 + 1) :=
  (C17_no_filter_per_pixel (copyColorLib : ColorLib ℚ) meanGaussian nearest_resample
    { (neutral_data : dt_iop_colorequal_data_t ℚ) with use_filter := false }
    none false ⟨0, fun _ _ => 0, fun _ _ => 0⟩
    (fun i => if i < 4 then 1 else 2) (fun i => if i < 4 then 1 else 5) (fun _ => 0)
    ⟨2, 1, 1⟩ rfl (Or.inl rfl) 0 (by decide)
    (by intro c hc; simp [hc])).2.2 1 (by decide)

/-! ### Clipping of the tables -/

/-- C18: with `clip` set, every entry that `_periodic_RBF_interpolate` writes is
`max(0, ·)` of the unclipped interpolant, hence not negative; without `clip` the
entry is the unclipped interpolant itself; and `commit_params` builds the
saturation and brightness tables with `clip` set and the hue table without. -/
theorem C18_table_clipping [FloorRing α] (expf cosf sqrtf exp2f : α → α) (powf : α → α → α)
    (M_PI_F : α)
    (pseudo_solve : (Fin NODES → Fin NODES → α) → (Fin NODES → α) → (Fin NODES → α))
    (LUT_ELEM : Nat) (nodes : Fin NODES → α) (smoothing : α) (LUT : Nat → α) (hue_shift : α)
    (E : ColorLib α) (p : dt_iop_colorequal_params_t α)
    (work_profile : Option (dt_iop_order_iccprofile_info_t α))
    (d : dt_iop_colorequal_data_t α) (i : Nat) (hi : i < LUT_ELEM) :
    _periodic_RBF_interpolate expf cosf sqrtf M_PI_F pseudo_solve LUT_ELEM nodes smoothing LUT
        hue_shift false i
      = ∑ k : Fin NODES,
          pseudo_solve (rbf_A expf cosf sqrtf M_PI_F smoothing hue_shift) nodes k
            * expf (rbf_series expf cosf sqrtf smoothing (lut_hue M_PI_F i)
                (_get_hue_node M_PI_F k hue_shift))
    ∧ _periodic_RBF_interpolate expf cosf sqrtf M_PI_F pseudo_solve LUT_ELEM nodes smoothing LUT
        hue_shift true i
      = max 0 (_periodic_RBF_interpolate expf cosf sqrtf M_PI_F pseudo_solve LUT_ELEM nodes
          smoothing LUT hue_shift false i)
    ∧ 0 ≤ _periodic_RBF_interpolate expf cosf sqrtf M_PI_F pseudo_solve LUT_ELEM nodes
        smoothing LUT hue_shift true i
    ∧ (commit_params expf cosf sqrtf exp2f powf M_PI_F pseudo_solve LUT_ELEM E p work_profile
        d).LUT_saturation
      = _periodic_RBF_interpolate expf cosf sqrtf M_PI_F pseudo_solve LUT_ELEM
          (_pack_saturation p) M_PI_F d.LUT_saturation p.hue_shift true
    ∧ (commit_params expf cosf sqrtf exp2f powf M_PI_F pseudo_solve LUT_ELEM E p work_profile
        d).LUT_hue
      = _periodic_RBF_interpolate expf cosf sqrtf M_PI_F pseudo_solve LUT_ELEM
          (_pack_hue M_PI_F p) (1 / p.smoothing_hue * M_PI_F) d.LUT_hue p.hue_shift false
    ∧ (commit_params expf cosf sqrtf exp2f powf M_PI_F pseudo_solve LUT_ELEM E p work_profile
        d).LUT_brightness
      = _periodic_RBF_interpolate expf cosf sqrtf M_PI_F pseudo_solve LUT_ELEM
          (_pack_brightness p) M_PI_F d.LUT_brightness p.hue_shift true := by
  have hc := commit_params_LUT expf cosf sqrtf exp2f powf M_PI_F pseudo_solve LUT_ELEM E p
    work_profile d
  have hclip : _periodic_RBF_interpolate expf cosf sqrtf M_PI_F pseudo_solve LUT_ELEM nodes
        smoothing LUT hue_shift true i
      = max 0 (_periodic_RBF_interpolate expf cosf sqrtf M_PI_F pseudo_solve LUT_ELEM nodes
          smoothing LUT hue_shift false i) := by
    simp only [_periodic_RBF_interpolate, if_pos hi, rbf_eval, if_true, Bool.false_eq_true,
      if_false]
  refine ⟨?_, hclip, ?_, hc.1, hc.2.1, hc.2.2.1⟩
  · simp only [_periodic_RBF_interpolate, if_pos hi, rbf_eval, Bool.false_eq_true, if_false]
  · rw [hclip]; exact le_max_left _ _

/-- Witness for C18: with coefficients `-1` and a kernel that is 1 everywhere,
the unclipped entry 0 of a table of 361 entries is `-8`, a negative value, and
the clipped entry is 0. -/
theorem C18_table_clipping_witness :
    _periodic_RBF_interpolate (fun _ => (1 : ℚ)) (fun _ => 1) (fun x => x) 3
        (fun _ y => y) 361 (fun _ => -1) 3 (fun _ => 0) 0 false 0 = -8
    ∧ _periodic_RBF_interpolate (fun _ => (1 : ℚ)) (fun _ => 1) (fun x => x) 3
        (fun _ y => y) 361 (fun _ => -1) 3 (fun _ => 0) 0 true 0 = 0 :=
  have h := C18_table_clipping (fun _ => (1 : ℚ)) (fun _ => 1) (fun x => x) (fun x => x)
    (fun x _ => x) 3 (fun _ y => y) 361 (fun _ => -1) 3 (fun _ => 0) 0
    copyColorLib (identity_params 0) none neutral_data 0 (by decide)
  have h1 : _periodic_RBF_interpolate (fun _ => (1 : ℚ)) (fun _ => 1) (fun x => x) 3
        (fun _ y => y) 361 (fun _ => -1) 3 (fun _ => 0) 0 false 0 = -8 := by
    rw [h.1]; simp
  ⟨h1, by rw [h.2.1, h1]; norm_num⟩

/-! ### The alpha channel -/

/-- C19: when `process` runs to completion (4 channels, a working profile), in
the normal mode and in every mask-visualisation mode the fourth channel of each
output pixel is the fourth channel of the same input pixel, provided the matrix
product and the gamut mapping leave the fourth float of the pixel they write as
it is. -/
theorem C19_alpha_passthrough [FloorRing α] (E : ColorLib α) (G : GaussianLib α)
    (B : Bilinear α) (d : dt_iop_colorequal_data_t α) (gui_mask_mode : Option Int)
    (fullpipe : Bool) (wp : dt_iop_order_iccprofile_info_t α)
    (inp out : Nat → α) (roi_out : dt_iop_roi_t α)
    (hdot : ∀ (v : Nat → α) (M : Nat → Nat → α) (old : Nat → α),
      E.dot_product v M old 3 = old 3)
    (hmap : ∀ (pix LUT : Nat → α) (white : α), E.gamut_map_HSB pix LUT white 3 = pix 3)
    (k : Nat) (hk : k < roi_out.width * roi_out.height) :
    process E G B d 4 gui_mask_mode fullpipe (some wp) inp out roi_out (4 * k + 3)
      = inp (4 * k + 3) := by
  have h3 : pixel_at (process_out_hsb E G B d wp inp out roi_out) 4 k 3 = inp (4 * k + 3) := by
    rw [process_out_hsb_apply E G B d wp inp out roi_out k hk 3 (by norm_num)]
    simp only [if_true]
  simp only [process, ne_eq, not_true_eq_false, if_false]
  split_ifs
  all_goals
    rw [forPixels_apply 4 _ _ _ k 3 hk (by norm_num)]
    first
      | exact h3
      | (simp only [process_pixel_rgb]
         rw [hdot, hmap]
         exact h3)

/-- Witness for C19: a 1x1 image with alpha 7, in the normal mode and in the
first mask mode. -/
theorem C19_alpha_passthrough_witness :
    process (copyColorLib : ColorLib ℚ) meanGaussian nearest_resample neutral_data 4 none false
        (some ⟨0, fun _ _ => 0, fun _ _ => 0⟩) (fun i => (i : ℚ) + 4) (fun _ => 0) ⟨1, 1, 1⟩
        (4 * 0 + 3) = 7
    ∧ process (copyColorLib : ColorLib ℚ) meanGaussian nearest_resample neutral_data 4
        (some 1) true
        (some ⟨0, fun _ _ => 0, fun _ _ => 0⟩) (fun i => (i : ℚ) + 4) (fun _ => 0) ⟨1, 1, 1⟩
        (4 * 0 + 3) = 7 :=
  ⟨by
    rw [C19_alpha_passthrough (copyColorLib : ColorLib ℚ) meanGaussian nearest_resample
      neutral_data none false ⟨0, fun _ _ => 0, fun _ _ => 0⟩ (fun i => (i : ℚ) + 4)
      (fun _ => 0) ⟨1, 1, 1⟩ (fun _ _ _ => rfl) (fun _ _ _ => rfl) 0 (by decide)]
    norm_num,
   by
    rw [C19_alpha_passthrough (copyColorLib : ColorLib ℚ) meanGaussian nearest_resample
      neutral_data (some 1) true ⟨0, fun _ _ => 0, fun _ _ => 0⟩ (fun i => (i : ℚ) + 4)
      (fun _ => 0) ⟨1, 1, 1⟩ (fun _ _ _ => rfl) (fun _ _ _ => rfl) 0 (by decide)]
    norm_num⟩

/-! ### The cache of the gamut table -/

/-- What `commit_params` does to the cache when the pipe has a working profile. -/
lemma commit_params_cache_some [FloorRing α] (expf cosf sqrtf exp2f : α → α)
    (powf : α → α → α) (M_PI_F : α)
    (pseudo_solve : (Fin NODES → Fin NODES → α) → (Fin NODES → α) → (Fin NODES → α))
    (LUT_ELEM : Nat) (E : ColorLib α) (p : dt_iop_colorequal_params_t α)
    (wp : dt_iop_order_iccprofile_info_t α) (d : dt_iop_colorequal_data_t α) :
    (commit_params expf cosf sqrtf exp2f powf M_PI_F pseudo_solve LUT_ELEM E p (some wp)
        d).lut_inited = true
    ∧ (commit_params expf cosf sqrtf exp2f powf M_PI_F pseudo_solve LUT_ELEM E p (some wp)
        d).work_profile = some wp.addr
    ∧ (commit_params expf cosf sqrtf exp2f powf M_PI_F pseudo_solve LUT_ELEM E p (some wp)
        d).gamut_LUT
      = if some wp.addr ≠ d.work_profile ∨ d.lut_inited = false then
          E.dt_UCS_22_build_gamut_LUT
            (E.dt_colormatrix_mul E.XYZ_D50_to_D65_CAT16 wp.matrix_in) d.gamut_LUT
        else d.gamut_LUT := by
  by_cases h1 : some wp.addr = d.work_profile
  · cases h2 : d.lut_inited
    · simp [commit_params, h1.symm, h2]
    · simp [commit_params, h1.symm, h2]
  · simp [commit_params, h1]

/-- What `commit_params` does to the cache when the pipe has no working profile. -/
lemma commit_params_cache_none [FloorRing α] (expf cosf sqrtf exp2f : α → α)
    (powf : α → α → α) (M_PI_F : α)
    (pseudo_solve : (Fin NODES → Fin NODES → α) → (Fin NODES → α) → (Fin NODES → α))
    (LUT_ELEM : Nat) (E : ColorLib α) (p : dt_iop_colorequal_params_t α)
    (d : dt_iop_colorequal_data_t α) :
    (commit_params expf cosf sqrtf exp2f powf M_PI_F pseudo_solve LUT_ELEM E p none
        d).lut_inited = d.lut_inited
    ∧ (commit_params expf cosf sqrtf exp2f powf M_PI_F pseudo_solve LUT_ELEM E p none
        d).work_profile = d.work_profile
    ∧ (commit_params expf cosf sqrtf exp2f powf M_PI_F pseudo_solve LUT_ELEM E p none
        d).gamut_LUT = d.gamut_LUT := by
  simp [commit_params]

/-- Along a sequence of calls the cached profile is the profile of the latest
call that had one, and the table is marked built exactly when there was one. -/
lemma commit_sequence_cache [FloorRing α] (expf cosf sqrtf exp2f : α → α)
    (powf : α → α → α) (M_PI_F : α)
    (pseudo_solve : (Fin NODES → Fin NODES → α) → (Fin NODES → α) → (Fin NODES → α))
    (LUT_ELEM : Nat) (E : ColorLib α)
    (calls : List (dt_iop_colorequal_params_t α × Option (dt_iop_order_iccprofile_info_t α)))
    (d : dt_iop_colorequal_data_t α) (last : Option Nat)
    (h1 : d.work_profile = last) (h2 : d.lut_inited = true ↔ last ≠ none) :
    (calls.foldl (fun d call =>
        commit_params expf cosf sqrtf exp2f powf M_PI_F pseudo_solve LUT_ELEM E call.1 call.2 d)
        d).work_profile
      = calls.foldl (fun last call =>
          match call.2 with
          | none => last
          | some wp => some wp.addr) last
    ∧ ((calls.foldl (fun d call =>
        commit_params expf cosf sqrtf exp2f powf M_PI_F pseudo_solve LUT_ELEM E call.1 call.2 d)
        d).lut_inited = true
      ↔ calls.foldl (fun last call =>
          match call.2 with
          | none => last
          | some wp => some wp.addr) last ≠ none) := by
  induction calls generalizing d last with
  | nil => exact ⟨h1, h2⟩
  | cons call rest ih =>
    simp only [List.foldl_cons]
    rcases call with ⟨p, o⟩
    cases o with
    | none =>
      have hn := commit_params_cache_none expf cosf sqrtf exp2f powf M_PI_F pseudo_solve
        LUT_ELEM E p d
      exact ih _ last (by rw [hn.2.1]; exact h1) (by rw [hn.1]; exact h2)
    | some wp =>
      have hs := commit_params_cache_some expf cosf sqrtf exp2f powf M_PI_F pseudo_solve
        LUT_ELEM E p wp d
      exact ih _ (some wp.addr) hs.2.1 (by rw [hs.1]; simp)

/-- C20: `init_pipe` leaves the cache in the state `(false, NULL)`; a
`commit_params` call with a working profile `P` rebuilds the gamut table exactly
when `P` is not the cached profile or `lut_inited` is false, and ends in the
state `(true, P)`; a call without a profile leaves `lut_inited`, the cached
profile and the gamut table as they are.  Hence after `init_pipe` and any
sequence of calls the cached profile is that of the latest call that had one,
and a further call with profile `P` rebuilds the table exactly when no earlier
call had a profile or `P` is not the profile of the latest one that had. -/
theorem C20_gamut_cache [FloorRing α] (expf cosf sqrtf exp2f : α → α)
    (powf : α → α → α) (M_PI_F : α)
    (pseudo_solve : (Fin NODES → Fin NODES → α) → (Fin NODES → α) → (Fin NODES → α))
    (LUT_ELEM : Nat) (E : ColorLib α) :
    (∀ s h b g : Nat → α,
      (init_pipe s h b g).lut_inited = false ∧ (init_pipe s h b g).work_profile = none)
    ∧ (∀ (p : dt_iop_colorequal_params_t α) (wp : dt_iop_order_iccprofile_info_t α)
        (d : dt_iop_colorequal_data_t α),
        (commit_params expf cosf sqrtf exp2f powf M_PI_F pseudo_solve LUT_ELEM E p (some wp)
            d).lut_inited = true
        ∧ (commit_params expf cosf sqrtf exp2f powf M_PI_F pseudo_solve LUT_ELEM E p (some wp)
            d).work_profile = some wp.addr
        ∧ (commit_params expf cosf sqrtf exp2f powf M_PI_F pseudo_solve LUT_ELEM E p (some wp)
            d).gamut_LUT
          = if some wp.addr ≠ d.work_profile ∨ d.lut_inited = false then
              E.dt_UCS_22_build_gamut_LUT
                (E.dt_colormatrix_mul E.XYZ_D50_to_D65_CAT16 wp.matrix_in) d.gamut_LUT
            else d.gamut_LUT)
    ∧ (∀ (p : dt_iop_colorequal_params_t α) (d : dt_iop_colorequal_data_t α),
        (commit_params expf cosf sqrtf exp2f powf M_PI_F pseudo_solve LUT_ELEM E p none
            d).lut_inited = d.lut_inited
        ∧ (commit_params expf cosf sqrtf exp2f powf M_PI_F pseudo_solve LUT_ELEM E p none
            d).work_profile = d.work_profile
        ∧ (commit_params expf cosf sqrtf exp2f powf M_PI_F pseudo_solve LUT_ELEM E p none
            d).gamut_LUT = d.gamut_LUT)
    ∧ (∀ (s h b g : Nat → α)
        (calls : List (dt_iop_colorequal_params_t α
          × Option (dt_iop_order_iccprofile_info_t α)))
        (p : dt_iop_colorequal_params_t α) (wp : dt_iop_order_iccprofile_info_t α),
        (commit_sequence expf cosf sqrtf exp2f powf M_PI_F pseudo_solve LUT_ELEM E calls
            (init_pipe s h b g)).work_profile = last_profile calls
        ∧ ((commit_sequence expf cosf sqrtf exp2f powf M_PI_F pseudo_solve LUT_ELEM E calls
            (init_pipe s h b g)).lut_inited = true ↔ last_profile calls ≠ none)
        ∧ (commit_params expf cosf sqrtf exp2f powf M_PI_F pseudo_solve LUT_ELEM E p (some wp)
            (commit_sequence expf cosf sqrtf exp2f powf M_PI_F pseudo_solve LUT_ELEM E calls
              (init_pipe s h b g))).gamut_LUT
          = if last_profile calls = some wp.addr then
              (commit_sequence expf cosf sqrtf exp2f powf M_PI_F pseudo_solve LUT_ELEM E calls
                (init_pipe s h b g)).gamut_LUT
            else
              E.dt_UCS_22_build_gamut_LUT
                (E.dt_colormatrix_mul E.XYZ_D50_to_D65_CAT16 wp.matrix_in)
                (commit_sequence expf cosf sqrtf exp2f powf M_PI_F pseudo_solve LUT_ELEM E calls
                  (init_pipe s h b g)).gamut_LUT) := by
  refine ⟨fun s h b g => ⟨rfl, rfl⟩,
    fun p wp d => commit_params_cache_some expf cosf sqrtf exp2f powf M_PI_F pseudo_solve
      LUT_ELEM E p wp d,
    fun p d => commit_params_cache_none expf cosf sqrtf exp2f powf M_PI_F pseudo_solve
      LUT_ELEM E p d, ?_⟩
  intro s h b g calls p wp
  have hseq := commit_sequence_cache expf cosf sqrtf exp2f powf M_PI_F pseudo_solve LUT_ELEM E
    calls (init_pipe s h b g) none rfl (by simp [init_pipe])
  have hw : (commit_sequence expf cosf sqrtf exp2f powf M_PI_F pseudo_solve LUT_ELEM E calls
      (init_pipe s h b g)).work_profile = last_profile calls := hseq.1
  have hi : (commit_sequence expf cosf sqrtf exp2f powf M_PI_F pseudo_solve LUT_ELEM E calls
      (init_pipe s h b g)).lut_inited = true ↔ last_profile calls ≠ none := hseq.2
  refine ⟨hw, hi, ?_⟩
  rw [(commit_params_cache_some expf cosf sqrtf exp2f powf M_PI_F pseudo_solve LUT_ELEM E p wp
    _).2.2, hw]
  by_cases hl : last_profile calls = some wp.addr
  · have hinit : (commit_sequence expf cosf sqrtf exp2f powf M_PI_F pseudo_solve LUT_ELEM E
        calls (init_pipe s h b g)).lut_inited = true := hi.mpr (by rw [hl]; simp)
    rw [if_pos hl, if_neg]
    rw [hinit, hl]
    simp
  · rw [if_neg hl, if_pos]
    left
    exact fun h' => hl h'.symm

/-! ### Neutral greys and the second filter -/

/-- C22: after `_guide_with_chromaticity` the saturation gain of a pixel is
`weight·cv + (1 − weight)·1` and its brightness delta is `weight·cv'`, where
`cv`, `cv'` are the filtered values and `weight` the (blurred) achromatic
weight that `process` passes; at a pixel of weight 0 they are exactly 1 and 0,
whatever the looked-up values and the coefficients are, and the apply step then
leaves a non-negative saturation and brightness as they are. -/
theorem C22_neutral_greys_excluded [FloorRing α] (E : ColorLib α) (G : GaussianLib α)
    (B : Bilinear α) (d : dt_iop_colorequal_data_t α) (wp : dt_iop_order_iccprofile_info_t α)
    (inp out : Nat → α) (bufs : GuideBuffers α) (weights : Nat → α) (roi : dt_iop_roi_t α)
    (csigma epsilon : α) (pix_out : Nat → α) (hue_offset : α) (k : Nat)
    (hk : k < roi.width * roi.height) :
    ((_guide_with_chromaticity G B bufs weights roi csigma epsilon).corrections (2 * k + 1)
        = weights k * guide_cv (guide_a_full G B bufs roi csigma epsilon)
            (guide_b_full G B bufs roi csigma epsilon)
            (guide_buffers_at_apply G B bufs roi csigma).UV k 0
          + (1 - weights k) * 1
      ∧ (_guide_with_chromaticity G B bufs weights roi csigma epsilon).b_corrections k
        = weights k * guide_cv (guide_a_full G B bufs roi csigma epsilon)
            (guide_b_full G B bufs roi csigma epsilon)
            (guide_buffers_at_apply G B bufs roi csigma).UV k 1)
    ∧ (weights k = 0 →
        (_guide_with_chromaticity G B bufs weights roi csigma epsilon).corrections (2 * k + 1)
          = 1
        ∧ (_guide_with_chromaticity G B bufs weights roi csigma epsilon).b_corrections k = 0
        ∧ (0 ≤ pix_out 1 →
            apply_corrections pix_out hue_offset
              ((_guide_with_chromaticity G B bufs weights roi csigma epsilon).corrections
                (2 * k + 1))
              ((_guide_with_chromaticity G B bufs weights roi csigma epsilon).b_corrections k)
              1 = pix_out 1)
        ∧ (0 ≤ pix_out 2 →
            apply_corrections pix_out hue_offset
              ((_guide_with_chromaticity G B bufs weights roi csigma epsilon).corrections
                (2 * k + 1))
              ((_guide_with_chromaticity G B bufs weights roi csigma epsilon).b_corrections k)
              2 = pix_out 2))
    ∧ (d.use_filter = true →
        process_corrections E G B d wp inp out roi
          = _guide_with_chromaticity G B
              (process_lookup E d (process_white E d) (process_UV E G B d wp inp roi)
                (process_L E (process_input_matrix E wp) inp (roi.width * roi.height))
                out (roi.width * roi.height))
              (process_weights E G wp inp roi) roi d.param_size d.param_feathering) := by
  obtain ⟨h1, h2⟩ := guide_out G B bufs weights roi csigma epsilon k hk
  have e1 : (_guide_with_chromaticity G B bufs weights roi csigma epsilon).corrections
        (2 * k + 1)
      = weights k * guide_cv (guide_a_full G B bufs roi csigma epsilon)
          (guide_b_full G B bufs roi csigma epsilon)
          (guide_buffers_at_apply G B bufs roi csigma).UV k 0
        + (1 - weights k) * 1 := by
    rw [h1]; rfl
  have e2 : (_guide_with_chromaticity G B bufs weights roi csigma epsilon).b_corrections k
      = weights k * guide_cv (guide_a_full G B bufs roi csigma epsilon)
          (guide_b_full G B bufs roi csigma epsilon)
          (guide_buffers_at_apply G B bufs roi csigma).UV k 1 := by
    rw [h2]; simp only [interpolatef]; ring
  refine ⟨⟨e1, e2⟩, ?_, ?_⟩
  · intro hw
    have c1 : (_guide_with_chromaticity G B bufs weights roi csigma epsilon).corrections
        (2 * k + 1) = 1 := by rw [e1, hw]; ring
    have c2 : (_guide_with_chromaticity G B bufs weights roi csigma epsilon).b_corrections k
        = 0 := by rw [e2, hw]; ring
    refine ⟨c1, c2, ?_, ?_⟩
    · intro hs
      rw [c1, c2]
      show max 0 (pix_out 1 * (1 + 1.5 * (1 - 1))) = pix_out 1
      rw [sub_self, mul_zero, add_zero, mul_one]
      exact max_eq_right hs
    · intro hb
      rw [c1, c2]
      show max 0 (pix_out 2 * (1 + 6 * 0)) = pix_out 2
      rw [mul_zero, add_zero, mul_one]
      exact max_eq_right hb
  · intro hf
    simp only [process_corrections, hf, if_true]

/-- Witness for C22: a 1x1 image with looked-up gain 3 and delta 5, weight 0. -/
theorem C22_neutral_greys_excluded_witness :
    (_guide_with_chromaticity (meanGaussian : GaussianLib ℚ) nearest_resample
        ⟨fun _ => 1, fun _ => 3, fun _ => 5⟩ (fun _ => 0) ⟨1, 1, 1⟩ 1 1e-6).corrections
          (2 * 0 + 1) = 1
    ∧ (_guide_with_chromaticity (meanGaussian : GaussianLib ℚ) nearest_resample
        ⟨fun _ => 1, fun _ => 3, fun _ => 5⟩ (fun _ => 0) ⟨1, 1, 1⟩ 1 1e-6).b_corrections 0
          = 0 :=
  have h := (C22_neutral_greys_excluded (copyColorLib : ColorLib ℚ) meanGaussian
    nearest_resample neutral_data ⟨0, fun _ _ => 0, fun _ _ => 0⟩ (fun _ => 0) (fun _ => 0)
    ⟨fun _ => 1, fun _ => 3, fun _ => 5⟩ (fun _ => 0) ⟨1, 1, 1⟩ 1 1e-6 (fun _ => 1) 0 0
    (by decide)).2.1 rfl
  ⟨h.1, h.2.1⟩

/-! ### The chroma proxy -/

/-- `_fast_sqrtf(a)` is `2a / (1 + a)` when `a ≠ -1`. -/
lemma fast_sqrtf_eq (a : α) (ha : 1 + a ≠ 0) : _fast_sqrtf a = 2 * a / (1 + a) := by
  unfold _fast_sqrtf
  have h : (0.5 : α) - a * 0.5 + a = (1 + a) / 2 := by ring
  rw [h]
  field_simp
  ring

/-- C23: the chroma proxy of `process` is not invariant under exposure: for
`XYZ = (1, 3, 1)` it is `1/3`, for the same colour at twice the exposure,
`XYZ = (2, 6, 2)`, it is `2/9`, and the achromatic weights of the two pixels
differ (with the exponential for `dt_fast_expf`). -/
theorem C23_chroma_proxy_depends_on_exposure :
    chroma_proxy (fun c => if c = 1 then (3 : ℝ) else 1) = 1 / 3
    ∧ chroma_proxy (fun c => 2 * (if c = 1 then (3 : ℝ) else 1)) = 2 / 9
    ∧ achromatic_weight Real.exp
        (chroma_proxy (fun c => 2 * (if c = 1 then (3 : ℝ) else 1)))
      < achromatic_weight Real.exp (chroma_proxy (fun c => if c = 1 then (3 : ℝ) else 1)) := by
  have h1 : chroma_proxy (fun c => if c = 1 then (3 : ℝ) else 1) = 1 / 3 := by
    have f1 : _fast_sqrtf (1 : ℝ) = 1 := by rw [fast_sqrtf_eq _ (by norm_num)]; norm_num
    have f3 : _fast_sqrtf (3 : ℝ) = 3 / 2 := by rw [fast_sqrtf_eq _ (by norm_num)]; norm_num
    have a1 : |(3 / 2 : ℝ)| = 3 / 2 := abs_of_pos (by norm_num)
    have a2 : |(1 / 2 : ℝ)| = 1 / 2 := abs_of_pos (by norm_num)
    simp only [chroma_proxy]
    norm_num [f1, f3, a1, a2]
  have h2 : chroma_proxy (fun c => 2 * (if c = 1 then (3 : ℝ) else 1)) = 2 / 9 := by
    have f2 : _fast_sqrtf (2 : ℝ) = 4 / 3 := by rw [fast_sqrtf_eq _ (by norm_num)]; norm_num
    have f6 : _fast_sqrtf (6 : ℝ) = 12 / 7 := by rw [fast_sqrtf_eq _ (by norm_num)]; norm_num
    have a1 : |(12 / 7 : ℝ)| = 12 / 7 := abs_of_pos (by norm_num)
    have a2 : |(8 / 21 : ℝ)| = 8 / 21 := abs_of_pos (by norm_num)
    simp only [chroma_proxy]
    norm_num [f2, f6, a1, a2]
  refine ⟨h1, h2, ?_⟩
  rw [h1, h2, achromatic_weight_exp, achromatic_weight_exp]
  have he : Real.exp (-(20 * (2 * (1 / 3 : ℝ) - 0.4)))
      < Real.exp (-(20 * (2 * (2 / 9 : ℝ) - 0.4))) :=
    Real.exp_lt_exp.mpr (by norm_num)
  exact one_div_lt_one_div_of_lt (by positivity) (by linarith)

/-- On non-negative values `_fast_sqrtf` is `2a / (1 + a)`, non-negative, below 2
and non-decreasing. -/
lemma fast_sqrtf_range (a : α) (ha : 0 ≤ a) :
    _fast_sqrtf a = 2 * a / (1 + a) ∧ 0 ≤ _fast_sqrtf a ∧ _fast_sqrtf a < 2 := by
  have hpos : (0 : α) < 1 + a := by linarith
  have he := fast_sqrtf_eq a hpos.ne'
  refine ⟨he, ?_, ?_⟩
  · rw [he]; exact div_nonneg (by linarith) hpos.le
  · rw [he, div_lt_iff₀ hpos]; linarith

/-- C30: for an XYZ triple with non-negative components the transformed values
`_fast_sqrtf(·) = 2a/(1+a)` are non-negative and below 2; the chroma proxy is
`(max − min)/max` of them, taken as 0 unless `max > 1e-6` and
`max − min > 1e-6`; it lies in `[0, 1]`, is 0 when the three components are
equal, and is 1 when a component is 0 and the largest transformed value exceeds
`1e-6`; the divisor is not 0 when the division is made. -/
theorem C30_chroma_proxy_range (XYZ_D65 : Nat → α)
    (h0 : 0 ≤ XYZ_D65 0) (h1 : 0 ≤ XYZ_D65 1) (h2 : 0 ≤ XYZ_D65 2) :
    (∀ c, c < 3 → _fast_sqrtf (XYZ_D65 c) = 2 * XYZ_D65 c / (1 + XYZ_D65 c)
        ∧ 0 ≤ _fast_sqrtf (XYZ_D65 c) ∧ _fast_sqrtf (XYZ_D65 c) < 2)
    ∧ chroma_proxy XYZ_D65
      = (if max (_fast_sqrtf (XYZ_D65 0)) (max (_fast_sqrtf (XYZ_D65 1))
              (_fast_sqrtf (XYZ_D65 2))) > 1e-6
            ∧ max (_fast_sqrtf (XYZ_D65 0)) (max (_fast_sqrtf (XYZ_D65 1))
                (_fast_sqrtf (XYZ_D65 2)))
              - min (_fast_sqrtf (XYZ_D65 0)) (min (_fast_sqrtf (XYZ_D65 1))
                (_fast_sqrtf (XYZ_D65 2))) > 1e-6
         then
          (max (_fast_sqrtf (XYZ_D65 0)) (max (_fast_sqrtf (XYZ_D65 1))
              (_fast_sqrtf (XYZ_D65 2)))
            - min (_fast_sqrtf (XYZ_D65 0)) (min (_fast_sqrtf (XYZ_D65 1))
              (_fast_sqrtf (XYZ_D65 2))))
          / max (_fast_sqrtf (XYZ_D65 0)) (max (_fast_sqrtf (XYZ_D65 1))
              (_fast_sqrtf (XYZ_D65 2)))
         else 0)
    ∧ (0 ≤ chroma_proxy XYZ_D65 ∧ chroma_proxy XYZ_D65 ≤ 1)
    ∧ (XYZ_D65 0 = XYZ_D65 1 → XYZ_D65 1 = XYZ_D65 2 → chroma_proxy XYZ_D65 = 0)
    ∧ ((XYZ_D65 0 = 0 ∨ XYZ_D65 1 = 0 ∨ XYZ_D65 2 = 0) →
        max (_fast_sqrtf (XYZ_D65 0)) (max (_fast_sqrtf (XYZ_D65 1))
          (_fast_sqrtf (XYZ_D65 2))) > 1e-6 →
        chroma_proxy XYZ_D65 = 1)
    ∧ (max (_fast_sqrtf (XYZ_D65 0)) (max (_fast_sqrtf (XYZ_D65 1))
          (_fast_sqrtf (XYZ_D65 2))) > 1e-6 →
        max (_fast_sqrtf (XYZ_D65 0)) (max (_fast_sqrtf (XYZ_D65 1))
          (_fast_sqrtf (XYZ_D65 2))) ≠ 0) := by
  obtain ⟨-, pX, -⟩ := fast_sqrtf_range _ h0
  obtain ⟨-, pY, -⟩ := fast_sqrtf_range _ h1
  obtain ⟨-, pZ, -⟩ := fast_sqrtf_range _ h2
  generalize hX : _fast_sqrtf (XYZ_D65 0) = X at pX ⊢
  generalize hY : _fast_sqrtf (XYZ_D65 1) = Y at pY ⊢
  generalize hZ : _fast_sqrtf (XYZ_D65 2) = Z at pZ ⊢
  have hmin : 0 ≤ min X (min Y Z) := le_min pX (le_min pY pZ)
  have hmax : 0 ≤ max X (max Y Z) := le_trans pX (le_max_left _ _)
  have hle : min X (min Y Z) ≤ max X (max Y Z) :=
    le_trans (min_le_left _ _) (le_max_left _ _)
  have hdelta : 0 ≤ max X (max Y Z) - min X (min Y Z) := sub_nonneg.mpr hle
  have hform : chroma_proxy XYZ_D65
      = (if max X (max Y Z) > 1e-6 ∧ max X (max Y Z) - min X (min Y Z) > 1e-6
         then (max X (max Y Z) - min X (min Y Z)) / max X (max Y Z) else 0) := by
    simp only [chroma_proxy, hX, hY, hZ, abs_of_nonneg hmax, abs_of_nonneg hdelta]
  refine ⟨?_, hform, ?_, ?_, ?_, ?_⟩
  · intro c hc
    have hcc : c = 0 ∨ c = 1 ∨ c = 2 := by omega
    rcases hcc with rfl | rfl | rfl
    · exact fast_sqrtf_range _ h0
    · exact fast_sqrtf_range _ h1
    · exact fast_sqrtf_range _ h2
  · rw [hform]
    split_ifs with hc
    · have hpos : (0 : α) < max X (max Y Z) := lt_trans (by norm_num) hc.1
      exact ⟨div_nonneg hdelta hmax, by rw [div_le_one hpos]; linarith⟩
    · exact ⟨le_refl _, zero_le_one⟩
  · intro e01 e12
    rw [hform]
    have eXY : X = Y := by rw [← hX, ← hY, e01]
    have eYZ : Y = Z := by rw [← hY, ← hZ, e12]
    have hd : max X (max Y Z) - min X (min Y Z) = 0 := by
      rw [eXY, eYZ]; simp
    rw [hd]
    simp
  · intro hzero hbig
    have f0 : _fast_sqrtf (0 : α) = 0 := by simp [_fast_sqrtf]
    have hmin0 : min X (min Y Z) = 0 := by
      apply le_antisymm _ hmin
      rcases hzero with h | h | h
      · have : X = 0 := by rw [← hX, h, f0]
        rw [this]; exact min_le_left _ _
      · have : Y = 0 := by rw [← hY, h, f0]
        rw [this]; exact le_trans (min_le_right _ _) (min_le_left _ _)
      · have : Z = 0 := by rw [← hZ, h, f0]
        rw [this]; exact le_trans (min_le_right _ _) (min_le_right _ _)
    have hpos : (0 : α) < max X (max Y Z) := lt_trans (by norm_num) hbig
    rw [hform, hmin0, sub_zero, if_pos ⟨hbig, hbig⟩, div_self hpos.ne']
  · intro hbig h0'
    rw [h0'] at hbig
    norm_num at hbig

/-- Witness for C30: the triple `(0, 1, 3)`. -/
theorem C30_chroma_proxy_range_witness :
    chroma_proxy (fun c => if c = 0 then (0 : ℚ) else if c = 1 then 1 else 3) = 1 :=
  (C30_chroma_proxy_range (fun c => if c = 0 then (0 : ℚ) else if c = 1 then 1 else 3)
    (by norm_num) (by norm_num) (by norm_num)).2.2.2.2.1 (Or.inl (by norm_num))
    (lt_of_lt_of_le (by norm_num [_fast_sqrtf]) (le_max_right _ _))

/-! ### The apply step: neutral corrections and thresholds -/

/-- C25: with the neutral corrections (hue offset 0, saturation gain 1,
brightness delta 0) the apply step of `process` returns the hue as it is, and
`max(0, s)`, `max(0, b)` for the saturation and the brightness: the triple
`(h, s, b)` itself when `s ≥ 0` and `b ≥ 0`, and 0 in the slot of a negative
`s` or `b`. -/
theorem C25_neutral_apply (pix_out : Nat → α) :
    apply_corrections pix_out 0 1 0 0 = pix_out 0
    ∧ apply_corrections pix_out 0 1 0 1 = max 0 (pix_out 1)
    ∧ apply_corrections pix_out 0 1 0 2 = max 0 (pix_out 2)
    ∧ (0 ≤ pix_out 1 → 0 ≤ pix_out 2 →
        ∀ c, apply_corrections pix_out 0 1 0 c = pix_out c)
    ∧ (pix_out 1 < 0 → apply_corrections pix_out 0 1 0 1 = 0)
    ∧ (pix_out 2 < 0 → apply_corrections pix_out 0 1 0 2 = 0) := by
  have e0 : apply_corrections pix_out 0 1 0 0 = pix_out 0 := by
    show pix_out 0 + 0 = pix_out 0
    rw [add_zero]
  have e1 : apply_corrections pix_out 0 1 0 1 = max 0 (pix_out 1) := by
    show max 0 (pix_out 1 * (1 + 1.5 * (1 - 1))) = max 0 (pix_out 1)
    rw [sub_self, mul_zero, add_zero, mul_one]
  have e2 : apply_corrections pix_out 0 1 0 2 = max 0 (pix_out 2) := by
    show max 0 (pix_out 2 * (1 + 6 * 0)) = max 0 (pix_out 2)
    rw [mul_zero, add_zero, mul_one]
  refine ⟨e0, e1, e2, fun h1 h2 c => apply_corrections_neutral pix_out h1 h2 c, ?_, ?_⟩
  · intro h; rw [e1]; exact max_eq_left h.le
  · intro h; rw [e2]; exact max_eq_left h.le

/-- C29: in the apply step, for a saturation `s ≥ 0` the saturation handed on is
0 when the gain is at most `1/3`, positive when the gain exceeds `1/3` and
`s > 0`, and non-decreasing in the gain; for a brightness `b ≥ 0` the
brightness handed on is 0 when the delta is at most `−1/6` and non-decreasing
in the delta. -/
theorem C29_desaturation_threshold (pix_out : Nat → α) (hue_offset : α)
    (hs : 0 ≤ pix_out 1) (hb : 0 ≤ pix_out 2) :
    (∀ g dl : α, g ≤ 1 / 3 → apply_corrections pix_out hue_offset g dl 1 = 0)
    ∧ (∀ g dl : α, 1 / 3 < g → 0 < pix_out 1 →
        0 < apply_corrections pix_out hue_offset g dl 1)
    ∧ (∀ g g' dl dl' : α, g ≤ g' →
        apply_corrections pix_out hue_offset g dl 1
          ≤ apply_corrections pix_out hue_offset g' dl' 1)
    ∧ (∀ g dl : α, dl ≤ -(1 / 6) → apply_corrections pix_out hue_offset g dl 2 = 0)
    ∧ (∀ g g' dl dl' : α, dl ≤ dl' →
        apply_corrections pix_out hue_offset g dl 2
          ≤ apply_corrections pix_out hue_offset g' dl' 2) := by
  refine ⟨?_, ?_, ?_, ?_, ?_⟩
  · intro g dl hg
    show max 0 (pix_out 1 * (1 + 1.5 * (g - 1))) = 0
    apply max_eq_left
    exact mul_nonpos_of_nonneg_of_nonpos hs (by linarith)
  · intro g dl hg hpos
    show 0 < max 0 (pix_out 1 * (1 + 1.5 * (g - 1)))
    exact lt_max_of_lt_right (mul_pos hpos (by linarith))
  · intro g g' dl dl' hg
    show max 0 (pix_out 1 * (1 + 1.5 * (g - 1))) ≤ max 0 (pix_out 1 * (1 + 1.5 * (g' - 1)))
    exact max_le_max le_rfl (mul_le_mul_of_nonneg_left (by linarith) hs)
  · intro g dl hd
    show max 0 (pix_out 2 * (1 + 6 * dl)) = 0
    apply max_eq_left
    exact mul_nonpos_of_nonneg_of_nonpos hb (by linarith)
  · intro g g' dl dl' hd
    show max 0 (pix_out 2 * (1 + 6 * dl)) ≤ max 0 (pix_out 2 * (1 + 6 * dl'))
    exact max_le_max le_rfl (mul_le_mul_of_nonneg_left (by linarith) hb)

/-- Witness for C29: saturation 2 and brightness 3, at the thresholds. -/
theorem C29_desaturation_threshold_witness :
    apply_corrections (fun c => (c : ℚ) + 1) 0 (1 / 3) 0 1 = 0
    ∧ apply_corrections (fun c => (c : ℚ) + 1) 0 1 (-(1 / 6)) 2 = 0 :=
  have h := C29_desaturation_threshold (fun c => (c : ℚ) + 1) 0 (by norm_num) (by norm_num)
  ⟨h.1 (1 / 3) 0 le_rfl, h.2.2.2.1 1 (-(1 / 6)) le_rfl⟩

/-! ### The mask visualisation -/

/-- One pixel of the mask loop in terms of the signed correction. -/
lemma process_pixel_mask_eq (mode : Int) (B_norm : α) (pix_out : Nat → α)
    (hue_offset sat_gain b_correction weight : α) :
    process_pixel_mask mode B_norm pix_out hue_offset sat_gain b_correction weight 0
      = max 0 (if mask_corr mode hue_offset sat_gain b_correction weight < 0
          then pix_out 2 * B_norm - |mask_corr mode hue_offset sat_gain b_correction weight|
          else pix_out 2 * B_norm)
    ∧ process_pixel_mask mode B_norm pix_out hue_offset sat_gain b_correction weight 1
      = max 0 (pix_out 2 * B_norm
          - |mask_corr mode hue_offset sat_gain b_correction weight|)
    ∧ process_pixel_mask mode B_norm pix_out hue_offset sat_gain b_correction weight 2
      = max 0 (if mask_corr mode hue_offset sat_gain b_correction weight < 0
          then pix_out 2 * B_norm
          else pix_out 2 * B_norm
            - |mask_corr mode hue_offset sat_gain b_correction weight|) := by
  refine ⟨?_, ?_, ?_⟩
  · simp only [process_pixel_mask, mask_corr, decide_eq_true_eq]
  · simp only [process_pixel_mask, mask_corr, decide_eq_true_eq, ite_self]
  · simp only [process_pixel_mask, mask_corr, decide_eq_true_eq]

/-- In a mask mode, with a working profile, the output pixel is the pixel of the
mask loop. -/
lemma process_mask_apply [FloorRing α] (E : ColorLib α) (G : GaussianLib α)
    (B : Bilinear α) (d : dt_iop_colorequal_data_t α) (m : Int)
    (wp : dt_iop_order_iccprofile_info_t α)
    (inp out : Nat → α) (roi_out : dt_iop_roi_t α) (hm : m ≠ 0) (k : Nat)
    (hk : k < roi_out.width * roi_out.height) (c : Nat) (hc : c < 4) :
    process E G B d 4 (some m) true (some wp) inp out roi_out (4 * k + c)
      = process_pixel_mask (m - 1)
          (1.5 / process_B_norm E (process_white E d) (process_UV E G B d wp inp roi_out)
            (process_L E (process_input_matrix E wp) inp (roi_out.width * roi_out.height))
            out (roi_out.width * roi_out.height))
          (pixel_at (process_out_hsb E G B d wp inp out roi_out) 4 k)
          ((process_corrections E G B d wp inp out roi_out).corrections (2 * k + 0))
          ((process_corrections E G B d wp inp out roi_out).corrections (2 * k + 1))
          ((process_corrections E G B d wp inp out roi_out).b_corrections k)
          (process_weights E G wp inp roi_out k) c := by
  simp only [process, ne_eq, not_true_eq_false, if_false, if_true, if_neg hm]
  rw [forPixels_apply 4 _ _ _ k c hk hc]

/-- C24: in the mask loop, for a pixel of normalised brightness `val ≥ 0` and
signed correction `corr`, the three channels written are non-negative; for
`corr > 0` they are `R = val`, `G = B = max(0, val − corr)`, so that red is the
largest; for `corr < 0` they are `B = val`, `R = G = max(0, val − |corr|)`, so
that blue is the largest; for `corr = 0` they are all `val`.  In a mask mode
the output pixel of `process` is the pixel of this loop. -/
theorem C24_mask_red_blue [FloorRing α] (mode : Int) (B_norm : α) (pix_out : Nat → α)
    (hue_offset sat_gain b_correction weight : α)
    (hval : 0 ≤ pix_out 2 * B_norm) :
    (∀ c, c < 3 →
      0 ≤ process_pixel_mask mode B_norm pix_out hue_offset sat_gain b_correction weight c)
    ∧ (0 < mask_corr mode hue_offset sat_gain b_correction weight →
        process_pixel_mask mode B_norm pix_out hue_offset sat_gain b_correction weight 0
          = pix_out 2 * B_norm
        ∧ process_pixel_mask mode B_norm pix_out hue_offset sat_gain b_correction weight 1
          = max 0 (pix_out 2 * B_norm
              - mask_corr mode hue_offset sat_gain b_correction weight)
        ∧ process_pixel_mask mode B_norm pix_out hue_offset sat_gain b_correction weight 2
          = max 0 (pix_out 2 * B_norm
              - mask_corr mode hue_offset sat_gain b_correction weight)
        ∧ process_pixel_mask mode B_norm pix_out hue_offset sat_gain b_correction weight 1
          ≤ process_pixel_mask mode B_norm pix_out hue_offset sat_gain b_correction weight 0
        ∧ process_pixel_mask mode B_norm pix_out hue_offset sat_gain b_correction weight 2
          ≤ process_pixel_mask mode B_norm pix_out hue_offset sat_gain b_correction weight 0)
    ∧ (mask_corr mode hue_offset sat_gain b_correction weight < 0 →
        process_pixel_mask mode B_norm pix_out hue_offset sat_gain b_correction weight 2
          = pix_out 2 * B_norm
        ∧ process_pixel_mask mode B_norm pix_out hue_offset sat_gain b_correction weight 0
          = max 0 (pix_out 2 * B_norm
              - |mask_corr mode hue_offset sat_gain b_correction weight|)
        ∧ process_pixel_mask mode B_norm pix_out hue_offset sat_gain b_correction weight 1
          = max 0 (pix_out 2 * B_norm
              - |mask_corr mode hue_offset sat_gain b_correction weight|)
        ∧ process_pixel_mask mode B_norm pix_out hue_offset sat_gain b_correction weight 0
          ≤ process_pixel_mask mode B_norm pix_out hue_offset sat_gain b_correction weight 2
        ∧ process_pixel_mask mode B_norm pix_out hue_offset sat_gain b_correction weight 1
          ≤ process_pixel_mask mode B_norm pix_out hue_offset sat_gain b_correction weight 2)
    ∧ (mask_corr mode hue_offset sat_gain b_correction weight = 0 →
        ∀ c, c < 3 →
          process_pixel_mask mode B_norm pix_out hue_offset sat_gain b_correction weight c
            = pix_out 2 * B_norm)
    ∧ (∀ (E : ColorLib α) (G : GaussianLib α) (B : Bilinear α)
        (d : dt_iop_colorequal_data_t α) (m : Int) (wp : dt_iop_order_iccprofile_info_t α)
        (inp out : Nat → α) (roi_out : dt_iop_roi_t α) (k c : Nat),
        m ≠ 0 → k < roi_out.width * roi_out.height → c < 4 →
        process E G B d 4 (some m) true (some wp) inp out roi_out (4 * k + c)
          = process_pixel_mask (m - 1)
              (1.5 / process_B_norm E (process_white E d) (process_UV E G B d wp inp roi_out)
                (process_L E (process_input_matrix E wp) inp
                  (roi_out.width * roi_out.height))
                out (roi_out.width * roi_out.height))
              (pixel_at (process_out_hsb E G B d wp inp out roi_out) 4 k)
              ((process_corrections E G B d wp inp out roi_out).corrections (2 * k + 0))
              ((process_corrections E G B d wp inp out roi_out).corrections (2 * k + 1))
              ((process_corrections E G B d wp inp out roi_out).b_corrections k)
              (process_weights E G wp inp roi_out k) c) := by
  obtain ⟨e0, e1, e2⟩ := process_pixel_mask_eq mode B_norm pix_out hue_offset sat_gain
    b_correction weight
  generalize mask_corr mode hue_offset sat_gain b_correction weight = corr at e0 e1 e2 ⊢
  generalize pix_out 2 * B_norm = val at hval e0 e1 e2 ⊢
  refine ⟨?_, ?_, ?_, ?_, ?_⟩
  · intro c hc
    have hcc : c = 0 ∨ c = 1 ∨ c = 2 := by omega
    rcases hcc with rfl | rfl | rfl
    · rw [e0]; exact le_max_left _ _
    · rw [e1]; exact le_max_left _ _
    · rw [e2]; exact le_max_left _ _
  · intro hpos
    have hn : ¬ corr < 0 := not_lt.mpr hpos.le
    have r0 : process_pixel_mask mode B_norm pix_out hue_offset sat_gain b_correction weight 0
        = val := by rw [e0, if_neg hn]; exact max_eq_right hval
    have r1 : process_pixel_mask mode B_norm pix_out hue_offset sat_gain b_correction weight 1
        = max 0 (val - corr) := by rw [e1, abs_of_pos hpos]
    have r2 : process_pixel_mask mode B_norm pix_out hue_offset sat_gain b_correction weight 2
        = max 0 (val - corr) := by rw [e2, if_neg hn, abs_of_pos hpos]
    refine ⟨r0, r1, r2, ?_, ?_⟩
    · rw [r0, r1]; exact max_le hval (by linarith)
    · rw [r0, r2]; exact max_le hval (by linarith)
  · intro hneg
    have habs : 0 ≤ |corr| := abs_nonneg _
    have r2 : process_pixel_mask mode B_norm pix_out hue_offset sat_gain b_correction weight 2
        = val := by rw [e2, if_pos hneg]; exact max_eq_right hval
    have r0 : process_pixel_mask mode B_norm pix_out hue_offset sat_gain b_correction weight 0
        = max 0 (val - |corr|) := by rw [e0, if_pos hneg]
    refine ⟨r2, r0, e1, ?_, ?_⟩
    · rw [r0, r2]; exact max_le hval (by linarith)
    · rw [e1, r2]; exact max_le hval (by linarith)
  · intro hz c hc
    have hn : ¬ corr < 0 := by rw [hz]; exact lt_irrefl _
    have hcc : c = 0 ∨ c = 1 ∨ c = 2 := by omega
    rcases hcc with rfl | rfl | rfl
    · rw [e0, if_neg hn]; exact max_eq_right hval
    · rw [e1, hz, abs_zero, sub_zero]; exact max_eq_right hval
    · rw [e2, if_neg hn, hz, abs_zero, sub_zero]; exact max_eq_right hval
  · intro E G B d m wp inp out roi_out k c hm hk hc
    exact process_mask_apply E G B d m wp inp out roi_out hm k hk c hc

/-- Witness for C24: brightness 1/2 shown with a saturation gain of 5/4 (an
increase of 1/4) and with a gain of 3/4 (a decrease of 1/4). -/
theorem C24_mask_red_blue_witness :
    (process_pixel_mask 1 1 (fun _ => (1 / 2 : ℚ)) 0 (5 / 4) 0 0 0 = 1 / 2
      ∧ process_pixel_mask 1 1 (fun _ => (1 / 2 : ℚ)) 0 (5 / 4) 0 0 2 = 1 / 4)
    ∧ (process_pixel_mask 1 1 (fun _ => (1 / 2 : ℚ)) 0 (3 / 4) 0 0 2 = 1 / 2
      ∧ process_pixel_mask 1 1 (fun _ => (1 / 2 : ℚ)) 0 (3 / 4) 0 0 0 = 1 / 4) :=
  have hp := (C24_mask_red_blue 1 1 (fun _ => (1 / 2 : ℚ)) 0 (5 / 4) 0 0 (by norm_num)).2.1
    (by norm_num [mask_corr])
  have hn := (C24_mask_red_blue 1 1 (fun _ => (1 / 2 : ℚ)) 0 (3 / 4) 0 0 (by norm_num)).2.2.1
    (by norm_num [mask_corr])
  ⟨⟨by rw [hp.1]; norm_num, by rw [hp.2.2.1]; norm_num [mask_corr]⟩,
   ⟨by rw [hn.1]; norm_num, by rw [hn.2.1]; norm_num [mask_corr, abs_of_neg]⟩⟩

/-! ### When the filters downsample -/

/-- With a downsampling factor above 1, an image at least `scaling` pixels wide
is resized. -/
lemma resized_of_scaling_gt_one [FloorRing α] (roi : dt_iop_roi_t α) (csigma : α)
    (hs : 1 < filter_scaling roi csigma) (hw : filter_scaling roi csigma ≤ roi.width) :
    resized roi csigma = true := by
  have hwpos : (0 : α) < (roi.width : α) := lt_of_lt_of_le (lt_trans zero_lt_one hs) hw
  have hlt : ds_width roi csigma < roi.width := by
    unfold ds_width
    rw [Nat.floor_lt (div_nonneg hwpos.le (lt_trans zero_lt_one hs).le)]
    exact div_lt_self hwpos hs
  simp only [resized, Bool.or_eq_true, bne_iff_ne, ne_eq]
  left
  exact fun h => absurd h.symm hlt.ne

/-- C26: for an image at least `scaling` pixels wide and high, the downsampled
dimensions are `⌊width/scaling⌋ ≥ 1` and `⌊height/scaling⌋ ≥ 1`; `resized` is
false when `scaling = 1`, and both filters then work on the caller's buffers
themselves, and `resized` is true when `scaling` is 2, 3 or 4; so that nothing
is resized exactly when the factor is 1. -/
theorem C26_downsampling_skipped [FloorRing α] (B : Bilinear α)
    (UV corrections b_corrections : Nat → α) (roi : dt_iop_roi_t α) (csigma : α)
    (hw : filter_scaling roi csigma ≤ roi.width) (hh : filter_scaling roi csigma ≤ roi.height) :
    (ds_width roi csigma = Nat.floor ((roi.width : α) / _get_scaling (csigma * roi.scale))
      ∧ ds_height roi csigma
        = Nat.floor ((roi.height : α) / _get_scaling (csigma * roi.scale))
      ∧ 1 ≤ ds_width roi csigma ∧ 1 ≤ ds_height roi csigma)
    ∧ (filter_scaling roi csigma = 1 →
        resized roi csigma = false
        ∧ prefilter_ds_UV0 B UV roi csigma = UV
        ∧ guide_ds_UV0 B UV roi csigma = UV
        ∧ guide_ds_corrections0 B corrections roi csigma = corrections
        ∧ guide_ds_b_corrections0 B b_corrections roi csigma = b_corrections)
    ∧ (filter_scaling roi csigma = 2 ∨ filter_scaling roi csigma = 3
        ∨ filter_scaling roi csigma = 4 → resized roi csigma = true)
    ∧ (resized roi csigma = false ↔ filter_scaling roi csigma = 1) := by
  obtain ⟨p1, p2⟩ := ds_dims_pos roi csigma hw hh
  refine ⟨⟨rfl, rfl, p1, p2⟩, ?_, ?_, ?_⟩
  · intro h1
    have hr := resized_of_scaling_one roi csigma h1
    simp only [prefilter_ds_UV0, guide_ds_UV0, guide_ds_corrections0, guide_ds_b_corrections0,
      hr, Bool.false_eq_true, if_false, and_self]
  · intro h
    apply resized_of_scaling_gt_one roi csigma _ hw
    rcases h with h | h | h <;> rw [h] <;> norm_num
  · constructor
    · intro hr
      by_contra hne
      have hgt : 1 < filter_scaling roi csigma :=
        lt_of_le_of_ne (one_le_filter_scaling roi csigma) (Ne.symm hne)
      rw [resized_of_scaling_gt_one roi csigma hgt hw] at hr
      exact Bool.noConfusion hr
    · exact resized_of_scaling_one roi csigma

/-- Witness for C26: a 4x4 image filtered with radius 4 at scale 1 (factor 2,
downsampled to 2x2). -/
theorem C26_downsampling_skipped_witness :
    resized (⟨4, 4, 1⟩ : dt_iop_roi_t ℚ) 4 = true
    ∧ 1 ≤ ds_width (⟨4, 4, 1⟩ : dt_iop_roi_t ℚ) 4 :=
  have hs : filter_scaling (⟨4, 4, 1⟩ : dt_iop_roi_t ℚ) 4 = 2 := by
    simp only [filter_scaling, filter_sigma, _get_scaling]
    have h : ⌊(4 : ℚ) * 1 - 1.5⌋ = 2 := by norm_num [Int.floor_eq_iff]
    rw [h]; norm_num
  have h := C26_downsampling_skipped (nearest_resample : Bilinear ℚ) (fun _ => 0) (fun _ => 0)
    (fun _ => 0) ⟨4, 4, 1⟩ 4 (by rw [hs]; norm_num) (by rw [hs]; norm_num)
  ⟨h.2.2.1 (Or.inl hs), h.1.2.2.1⟩

/-! ### The hue shift of the nodes -/

/-- The angle between two nodes does not depend on the hue shift. -/
lemma hue_node_sub_int (M_PI_F : α) (i j : ℕ) (hue_shift : α) :
    _get_hue_node M_PI_F i hue_shift - _get_hue_node M_PI_F j hue_shift
      = (((i : ℤ) - (j : ℤ) : ℤ) : α) * (M_PI_F / 4) := by
  simp only [_get_hue_node, _deg_to_rad, ANGLE_SHIFT]
  push_cast
  ring

/-- A node angle is the angle for hue shift 0 plus the shift in radians. -/
lemma hue_node_shift (M_PI_F : α) (k : ℕ) (hue_shift : α) :
    _get_hue_node M_PI_F k hue_shift = _get_hue_node M_PI_F k 0 + hue_shift * M_PI_F / 180 := by
  simp only [_get_hue_node, _deg_to_rad, ANGLE_SHIFT]
  ring

/-- The kernel matrix entry is a function of `|i - j|` alone. -/
lemma rbf_A_abs [FloorRing α] (expf cosf sqrtf : α → α) (M_PI_F smoothing s s' : α)
    (i j i' j' : Fin NODES)
    (h : |((i : ℕ) : ℤ) - ((j : ℕ) : ℤ)| = |((i' : ℕ) : ℤ) - ((j' : ℕ) : ℤ)|) :
    rbf_A expf cosf sqrtf M_PI_F smoothing s i j
      = rbf_A expf cosf sqrtf M_PI_F smoothing s' i' j' := by
  unfold rbf_A
  congr 1
  apply rbf_series_congr
  rw [hue_node_sub_int, hue_node_sub_int, abs_mul, abs_mul, ← Int.cast_abs, ← Int.cast_abs, h]

/-- C27: the kernel matrix that `_periodic_RBF_interpolate` builds does not
depend on the hue shift: its entry `A[i][j]` depends on `|i − j|` only, so it is
symmetric with a constant diagonal; the solved coefficients are therefore the
same for every hue shift, and the function sampled for the shift `s` is the one
for shift 0 translated in hue, `F_s(h) = F_0(h − s·π/180)`, for every node
vector, smoothing and hue, clipped or not. -/
theorem C27_hue_shift_equivariance [FloorRing α] (expf cosf sqrtf : α → α) (M_PI_F : α)
    (pseudo_solve : (Fin NODES → Fin NODES → α) → (Fin NODES → α) → (Fin NODES → α))
    (LUT_ELEM : Nat) (nodes x : Fin NODES → α) (smoothing s : α) (LUT : Nat → α)
    (clip : Bool) :
    rbf_A expf cosf sqrtf M_PI_F smoothing s = rbf_A expf cosf sqrtf M_PI_F smoothing 0
    ∧ (∀ i j i' j' : Fin NODES,
        |((i : ℕ) : ℤ) - ((j : ℕ) : ℤ)| = |((i' : ℕ) : ℤ) - ((j' : ℕ) : ℤ)| →
        rbf_A expf cosf sqrtf M_PI_F smoothing s i j
          = rbf_A expf cosf sqrtf M_PI_F smoothing s i' j')
    ∧ (∀ i j : Fin NODES,
        rbf_A expf cosf sqrtf M_PI_F smoothing s i j
          = rbf_A expf cosf sqrtf M_PI_F smoothing s j i)
    ∧ (∀ i : Fin NODES,
        rbf_A expf cosf sqrtf M_PI_F smoothing s i i
          = rbf_A expf cosf sqrtf M_PI_F smoothing s 0 0)
    ∧ pseudo_solve (rbf_A expf cosf sqrtf M_PI_F smoothing s) nodes
        = pseudo_solve (rbf_A expf cosf sqrtf M_PI_F smoothing 0) nodes
    ∧ (∀ h : α,
        rbf_eval expf cosf sqrtf M_PI_F x smoothing s clip h
          = rbf_eval expf cosf sqrtf M_PI_F x smoothing 0 clip (h - s * M_PI_F / 180))
    ∧ (∀ i, i < LUT_ELEM →
        _periodic_RBF_interpolate expf cosf sqrtf M_PI_F pseudo_solve LUT_ELEM nodes smoothing
            LUT s clip i
          = rbf_eval expf cosf sqrtf M_PI_F
              (pseudo_solve (rbf_A expf cosf sqrtf M_PI_F smoothing 0) nodes)
              smoothing 0 clip (lut_hue M_PI_F i - s * M_PI_F / 180)) := by
  have hA : rbf_A expf cosf sqrtf M_PI_F smoothing s
      = rbf_A expf cosf sqrtf M_PI_F smoothing 0 := by
    funext i j
    exact rbf_A_abs expf cosf sqrtf M_PI_F smoothing s 0 i j i j rfl
  have hF : ∀ (y : Fin NODES → α) (h : α),
      rbf_eval expf cosf sqrtf M_PI_F y smoothing s clip h
        = rbf_eval expf cosf sqrtf M_PI_F y smoothing 0 clip (h - s * M_PI_F / 180) := by
    intro y h
    have hser : ∀ k : Fin NODES,
        rbf_series expf cosf sqrtf smoothing h (_get_hue_node M_PI_F k s)
          = rbf_series expf cosf sqrtf smoothing (h - s * M_PI_F / 180)
              (_get_hue_node M_PI_F k 0) := by
      intro k
      apply rbf_series_congr
      rw [hue_node_shift M_PI_F k s]
      congr 1
      ring
    simp only [rbf_eval, hser]
  refine ⟨hA, ?_, ?_, ?_, ?_, hF x, ?_⟩
  · intro i j i' j' h
    exact rbf_A_abs expf cosf sqrtf M_PI_F smoothing s s i j i' j' h
  · intro i j
    exact rbf_A_abs expf cosf sqrtf M_PI_F smoothing s s i j j i (abs_sub_comm _ _)
  · intro i
    exact rbf_A_abs expf cosf sqrtf M_PI_F smoothing s s i i 0 0 (by simp)
  · rw [hA]
  · intro i hi
    simp only [_periodic_RBF_interpolate, if_pos hi]
    rw [hA, hF]

/-! ### The hue offset at a node -/

/-- The series is even and periodic in the hue difference, for every whole
number of turns (real cosine). -/
lemma rbf_series_add_int_two_pi (expf sqrtf : ℝ → ℝ) (smoothing h θ : ℝ) (n : ℤ) :
    rbf_series expf Real.cos sqrtf smoothing (h + n * (2 * Real.pi)) θ
      = rbf_series expf Real.cos sqrtf smoothing h θ := by
  unfold rbf_series
  refine Finset.sum_congr rfl (fun l _ => ?_)
  have hcos : ∀ d : ℝ, Real.cos ((l : ℝ) * |d|) = Real.cos ((l : ℝ) * d) := by
    intro d
    have h1 : (l : ℝ) * |d| = |(l : ℝ) * d| := by
      rw [abs_mul, abs_of_nonneg (show (0 : ℝ) ≤ (l : ℝ) from Nat.cast_nonneg l)]
    rw [h1, Real.cos_abs]
  rw [hcos, hcos]
  have h2 : (l : ℝ) * (h + n * (2 * Real.pi) - θ)
      = (l : ℝ) * (h - θ) + ((l * n : ℤ) : ℝ) * (2 * Real.pi) := by
    push_cast; ring
  rw [h2, Real.cos_add_int_mul_two_pi]

/-- The table lookup of the spec returns the entry `i` at the angle of entry
`i`, for `i < 360`. -/
lemma lookup_gamut_at_entry (LUT : Nat → ℝ) (i : ℕ) (hi : i < 360) :
    lookup_gamut Real.pi LUT (lut_hue Real.pi i) = LUT i := by
  have hx : (lut_hue Real.pi i + Real.pi) * 180 / Real.pi = (i : ℝ) := by
    unfold lut_hue
    field_simp
    ring
  have hi' : (i : ℝ) < 360 := by exact_mod_cast hi
  have hw : ⌊(i : ℝ) / 360⌋ = 0 := by
    rw [Int.floor_eq_iff]
    constructor
    · simp only [Int.cast_zero]; positivity
    · simp only [Int.cast_zero, zero_add]; rw [div_lt_one (by norm_num)]; exact hi'
  simp only [lookup_gamut, hx, hw, Int.cast_zero, mul_zero, sub_zero]
  have hf : ⌊(i : ℝ)⌋ = (i : ℤ) := Int.floor_natCast i
  rw [hf]
  simp

/-- The value sampled into a table from the coefficients of `first_column_solve`. -/
lemma rbf_eval_first_column [FloorRing α] (expf cosf sqrtf : α → α) (M_PI_F : α)
    (A : Fin NODES → Fin NODES → α) (y : Fin NODES → α) (smoothing hue_shift hue : α) :
    rbf_eval expf cosf sqrtf M_PI_F (first_column_solve A y) smoothing hue_shift false hue
      = y 0 / A 0 0
        * expf (rbf_series expf cosf sqrtf smoothing hue (_get_hue_node M_PI_F 0 hue_shift)) := by
  simp only [rbf_eval, first_column_solve, Bool.false_eq_true, if_false]
  rw [Finset.sum_eq_single (0 : Fin NODES)]
  · simp
  · intro k _ hk
    simp [hk]
  · intro h
    exact absurd (Finset.mem_univ _) h

/-- The hue nodes of `first_column_params`, in radians, are the first column of
the kernel matrix times `(π/180) / A₀₀`. -/
lemma pack_hue_first_column (sqrtf : ℝ → ℝ) (hue_shift : ℝ) (i : Fin NODES) :
    _pack_hue Real.pi (first_column_params Real.exp Real.cos sqrtf Real.pi hue_shift) i
      = rbf_A Real.exp Real.cos sqrtf Real.pi Real.pi hue_shift i 0
        * (1 / 180 * Real.pi / rbf_A Real.exp Real.cos sqrtf Real.pi Real.pi hue_shift 0 0) := by
  have hA : rbf_A Real.exp Real.cos sqrtf Real.pi Real.pi hue_shift 0 0 ≠ 0 := by
    unfold rbf_A; exact (Real.exp_pos _).ne'
  have hv : _pack_hue Real.pi (first_column_params Real.exp Real.cos sqrtf Real.pi hue_shift) i
      = (if i = 0 then 1
          else rbf_A Real.exp Real.cos sqrtf Real.pi Real.pi hue_shift i 0
            / rbf_A Real.exp Real.cos sqrtf Real.pi Real.pi hue_shift 0 0) / 180 * Real.pi := by
    fin_cases i <;> rfl
  rw [hv]
  split_ifs with h0
  · rw [h0]; field_simp; ring
  · ring

/-- `first_column_solve` solves the hue system of `first_column_params` exactly. -/
lemma first_column_solve_exact (sqrtf : ℝ → ℝ) (hue_shift : ℝ) (i : Fin NODES) :
    ∑ k : Fin NODES, rbf_A Real.exp Real.cos sqrtf Real.pi Real.pi hue_shift i k
        * first_column_solve (rbf_A Real.exp Real.cos sqrtf Real.pi Real.pi hue_shift)
            (_pack_hue Real.pi (first_column_params Real.exp Real.cos sqrtf Real.pi hue_shift))
            k
      = _pack_hue Real.pi (first_column_params Real.exp Real.cos sqrtf Real.pi hue_shift) i := by
  have hA : rbf_A Real.exp Real.cos sqrtf Real.pi Real.pi hue_shift 0 0 ≠ 0 := by
    unfold rbf_A; exact (Real.exp_pos _).ne'
  rw [Finset.sum_eq_single (0 : Fin NODES)]
  · simp only [first_column_solve, if_true]
    rw [pack_hue_first_column sqrtf hue_shift i, pack_hue_first_column sqrtf hue_shift 0]
    field_simp
    ring
  · intro k _ hk
    simp [first_column_solve, hk]
  · intro h
    exact absurd (Finset.mem_univ _) h

/-- Half-way between the angles of the entries `i` and `i + 1` the table lookup
of the spec returns the mean of the two entries. -/
lemma lookup_gamut_half (LUT : Nat → ℝ) (hue : ℝ) (i : ℕ) (hi : i + 1 < 360)
    (hx : (hue + Real.pi) * 180 / Real.pi = (i : ℝ) + 1 / 2) :
    lookup_gamut Real.pi LUT hue = (LUT i + LUT (i + 1)) / 2 := by
  have hi' : (i : ℝ) + 1 < 360 := by exact_mod_cast hi
  have hi0 : (0 : ℝ) ≤ (i : ℝ) := Nat.cast_nonneg i
  have hw : ⌊((i : ℝ) + 1 / 2) / 360⌋ = 0 := by
    rw [Int.floor_eq_iff]
    constructor
    · simp only [Int.cast_zero]; positivity
    · simp only [Int.cast_zero, zero_add]; rw [div_lt_one (by norm_num)]; linarith
  have hf : ⌊(i : ℝ) + 1 / 2⌋ = (i : ℤ) := by
    rw [Int.floor_eq_iff]
    constructor
    · push_cast; linarith
    · push_cast; linarith
  simp only [lookup_gamut, hx, hw, Int.cast_zero, mul_zero, sub_zero, hf, Int.toNat_ofNat]
  rw [Nat.mod_eq_of_lt hi]
  ring

/-- Off a node, within one turn, the series of the kernel for smoothing π is
smaller than at the node. -/
lemma rbf_series_pi_lt (h θ : ℝ) (h0 : 0 < |h - θ|) (h1 : |h - θ| < 2 * Real.pi) :
    rbf_series Real.exp Real.cos Real.sqrt Real.pi h θ
      < rbf_series Real.exp Real.cos Real.sqrt Real.pi θ θ := by
  unfold rbf_series
  rw [rbf_terms_pi]
  have hc : ∀ l : ℕ, 0 < _cosine_coeffs Real.exp (l : ℝ) Real.pi := by
    intro l; unfold _cosine_coeffs; exact Real.exp_pos _
  apply Finset.sum_lt_sum
  · intro l _
    rw [sub_self, abs_zero, mul_zero, Real.cos_zero]
    exact mul_le_mul_of_nonneg_left (Real.cos_le_one _) (hc l).le
  · refine ⟨1, by simp, ?_⟩
    rw [sub_self, abs_zero, mul_zero, Real.cos_zero]
    apply mul_lt_mul_of_pos_left _ (hc 1)
    rw [Nat.cast_one, one_mul]
    apply lt_of_le_of_ne (Real.cos_le_one _)
    intro hcos
    have := (Real.cos_eq_one_iff_of_lt_of_lt (by linarith [Real.pi_pos]) h1).mp hcos
    exact h0.ne' this

/-- The hue table that `commit_params` builds from `first_column_params` with
the solver `first_column_solve`: the kernel centred at the red node, scaled to
1 degree at the node. -/
lemma first_column_LUT_hue (exp2f : ℝ → ℝ) (powf : ℝ → ℝ → ℝ) (LUT_ELEM : Nat)
    (E : ColorLib ℝ) (hue_shift : ℝ)
    (work_profile : Option (dt_iop_order_iccprofile_info_t ℝ))
    (d : dt_iop_colorequal_data_t ℝ) (i : ℕ) (hi : i < LUT_ELEM) :
    (commit_params Real.exp Real.cos Real.sqrt exp2f powf Real.pi first_column_solve LUT_ELEM E
        (first_column_params Real.exp Real.cos Real.sqrt Real.pi hue_shift) work_profile
        d).LUT_hue i
      = 1 / 180 * Real.pi
        * (Real.exp (rbf_series Real.exp Real.cos Real.sqrt Real.pi (lut_hue Real.pi i)
              (_get_hue_node Real.pi 0 hue_shift))
          / Real.exp (rbf_series Real.exp Real.cos Real.sqrt Real.pi
              (_get_hue_node Real.pi 0 hue_shift) (_get_hue_node Real.pi 0 hue_shift))) := by
  have hL := (commit_params_LUT Real.exp Real.cos Real.sqrt exp2f powf Real.pi
    first_column_solve LUT_ELEM E
    (first_column_params Real.exp Real.cos Real.sqrt Real.pi hue_shift) work_profile d).2.1
  have hs : (first_column_params Real.exp Real.cos Real.sqrt Real.pi hue_shift).smoothing_hue
      = 1 := rfl
  have hh : (first_column_params Real.exp Real.cos Real.sqrt Real.pi hue_shift).hue_shift
      = hue_shift := rfl
  rw [hL, hs, hh, one_div_one, one_mul]
  simp only [_periodic_RBF_interpolate, if_pos hi]
  rw [rbf_eval_first_column, pack_hue_first_column Real.sqrt hue_shift 0]
  have hA : rbf_A Real.exp Real.cos Real.sqrt Real.pi Real.pi hue_shift 0 0
      = Real.exp (rbf_series Real.exp Real.cos Real.sqrt Real.pi
          (_get_hue_node Real.pi 0 hue_shift) (_get_hue_node Real.pi 0 hue_shift)) := rfl
  rw [hA]
  have hne := (Real.exp_pos (rbf_series Real.exp Real.cos Real.sqrt Real.pi
    (_get_hue_node Real.pi 0 hue_shift) (_get_hue_node Real.pi 0 hue_shift))).ne'
  field_simp
  ring

/-- With the stand-in conversions of `lookupColorLib` and the filter disabled,
the chroma of the only pixel of a 1x1 image is its first input channel and its
HSB hue is its third input channel. -/
lemma lookupColorLib_pixel [FloorRing α] (M_PI_F : α) (G : GaussianLib α) (B : Bilinear α)
    (d : dt_iop_colorequal_data_t α) (wp : dt_iop_order_iccprofile_info_t α)
    (inp out : Nat → α) (hf : d.use_filter = false) :
    process_JCH (lookupColorLib M_PI_F) (process_white (lookupColorLib M_PI_F) d)
        (process_UV (lookupColorLib M_PI_F) G B d wp inp ⟨1, 1, 1⟩)
        (process_L (lookupColorLib M_PI_F) (process_input_matrix (lookupColorLib M_PI_F) wp)
          inp (1 * 1)) 0 1 = inp 0
    ∧ process_HSB (lookupColorLib M_PI_F) (process_white (lookupColorLib M_PI_F) d)
        (process_UV (lookupColorLib M_PI_F) G B d wp inp ⟨1, 1, 1⟩)
        (process_L (lookupColorLib M_PI_F) (process_input_matrix (lookupColorLib M_PI_F) wp)
          inp (1 * 1)) out 0 0 = inp 2 := by
  have hUV : process_UV (lookupColorLib M_PI_F) G B d wp inp ⟨1, 1, 1⟩ 0 = inp 0 := by
    simp only [process_UV, hf, Bool.false_eq_true, if_false]
    simp [process_UV0, forPixels, process_XYZ, pixel_at, lookupColorLib, copyColorLib]
  have hL : process_L (lookupColorLib M_PI_F)
      (process_input_matrix (lookupColorLib M_PI_F) wp) inp (1 * 1) 0 = inp 2 := by
    simp [process_L, forPixels, process_XYZ, pixel_at, lookupColorLib, copyColorLib]
  constructor
  · have h : process_JCH (lookupColorLib M_PI_F) (process_white (lookupColorLib M_PI_F) d)
        (process_UV (lookupColorLib M_PI_F) G B d wp inp ⟨1, 1, 1⟩)
        (process_L (lookupColorLib M_PI_F) (process_input_matrix (lookupColorLib M_PI_F) wp)
          inp (1 * 1)) 0 1
        = process_UV (lookupColorLib M_PI_F) G B d wp inp ⟨1, 1, 1⟩ 0 := by
      simp [process_JCH, pixel_at, lookupColorLib, copyColorLib]
    rw [h, hUV]
  · have h : process_HSB (lookupColorLib M_PI_F) (process_white (lookupColorLib M_PI_F) d)
        (process_UV (lookupColorLib M_PI_F) G B d wp inp ⟨1, 1, 1⟩)
        (process_L (lookupColorLib M_PI_F) (process_input_matrix (lookupColorLib M_PI_F) wp)
          inp (1 * 1)) out 0 0
        = process_L (lookupColorLib M_PI_F)
            (process_input_matrix (lookupColorLib M_PI_F) wp) inp (1 * 1) 0 := by
      simp [process_HSB, process_JCH, pixel_at, lookupColorLib, copyColorLib]
    rw [h, hL]

/-- C21 as stated fails when the node angle is not a whole number of degrees.
Hue shift 0.5°, the red node configured to 1° and the other hue nodes such that
the exact solution of the kernel system is a multiple of the first unit vector;
real `exp`, `cos`, `sqrt`, the table lookup of the spec, the filter disabled.  A
pixel of chroma 1 whose hue is the angle of the red node, 20.5°, gets a hue
offset below 1° in radians: the lookup blends the entries for 20° and 21°, which
are both below the value at the node. -/
theorem C21_counterexample :
    (∀ i : Fin NODES,
      ∑ k : Fin NODES, rbf_A Real.exp Real.cos Real.sqrt Real.pi Real.pi 0.5 i k
        * first_column_solve (rbf_A Real.exp Real.cos Real.sqrt Real.pi Real.pi 0.5)
            (_pack_hue Real.pi (first_column_params Real.exp Real.cos Real.sqrt Real.pi 0.5)) k
        = _pack_hue Real.pi (first_column_params Real.exp Real.cos Real.sqrt Real.pi 0.5) i)
    ∧ _pack_hue Real.pi (first_column_params Real.exp Real.cos Real.sqrt Real.pi 0.5) 0
        = 1 / 180 * Real.pi
    ∧ process_JCH (lookupColorLib Real.pi)
        (process_white (lookupColorLib Real.pi)
          (commit_params Real.exp Real.cos Real.sqrt (fun x => 2 ^ x) (fun x y => x ^ y)
            Real.pi first_column_solve 361 (lookupColorLib Real.pi)
            (first_column_params Real.exp Real.cos Real.sqrt Real.pi 0.5) none neutral_data))
        (process_UV (lookupColorLib Real.pi) meanGaussian nearest_resample
          (commit_params Real.exp Real.cos Real.sqrt (fun x => 2 ^ x) (fun x y => x ^ y)
            Real.pi first_column_solve 361 (lookupColorLib Real.pi)
            (first_column_params Real.exp Real.cos Real.sqrt Real.pi 0.5) none neutral_data)
          ⟨0, fun _ _ => 0, fun _ _ => 0⟩
          (fun c => if c = 2 then _get_hue_node Real.pi 0 0.5 else 1) ⟨1, 1, 1⟩)
        (process_L (lookupColorLib Real.pi)
          (process_input_matrix (lookupColorLib Real.pi) ⟨0, fun _ _ => 0, fun _ _ => 0⟩)
          (fun c => if c = 2 then _get_hue_node Real.pi 0 0.5 else 1) (1 * 1)) 0 1 = 1
    ∧ pixel_at (process_out_hsb (lookupColorLib Real.pi) meanGaussian nearest_resample
          (commit_params Real.exp Real.cos Real.sqrt (fun x => 2 ^ x) (fun x y => x ^ y)
            Real.pi first_column_solve 361 (lookupColorLib Real.pi)
            (first_column_params Real.exp Real.cos Real.sqrt Real.pi 0.5) none neutral_data)
          ⟨0, fun _ _ => 0, fun _ _ => 0⟩
          (fun c => if c = 2 then _get_hue_node Real.pi 0 0.5 else 1) (fun _ => 0) ⟨1, 1, 1⟩)
        4 0 0 = _get_hue_node Real.pi 0 0.5
    ∧ apply_corrections
        (pixel_at (process_out_hsb (lookupColorLib Real.pi) meanGaussian nearest_resample
          (commit_params Real.exp Real.cos Real.sqrt (fun x => 2 ^ x) (fun x y => x ^ y)
            Real.pi first_column_solve 361 (lookupColorLib Real.pi)
            (first_column_params Real.exp Real.cos Real.sqrt Real.pi 0.5) none neutral_data)
          ⟨0, fun _ _ => 0, fun _ _ => 0⟩
          (fun c => if c = 2 then _get_hue_node Real.pi 0 0.5 else 1) (fun _ => 0) ⟨1, 1, 1⟩)
          4 0)
        ((process_corrections (lookupColorLib Real.pi) meanGaussian nearest_resample
          (commit_params Real.exp Real.cos Real.sqrt (fun x => 2 ^ x) (fun x y => x ^ y)
            Real.pi first_column_solve 361 (lookupColorLib Real.pi)
            (first_column_params Real.exp Real.cos Real.sqrt Real.pi 0.5) none neutral_data)
          ⟨0, fun _ _ => 0, fun _ _ => 0⟩
          (fun c => if c = 2 then _get_hue_node Real.pi 0 0.5 else 1) (fun _ => 0)
          ⟨1, 1, 1⟩).corrections (2 * 0 + 0))
        ((process_corrections (lookupColorLib Real.pi) meanGaussian nearest_resample
          (commit_params Real.exp Real.cos Real.sqrt (fun x => 2 ^ x) (fun x y => x ^ y)
            Real.pi first_column_solve 361 (lookupColorLib Real.pi)
            (first_column_params Real.exp Real.cos Real.sqrt Real.pi 0.5) none neutral_data)
          ⟨0, fun _ _ => 0, fun _ _ => 0⟩
          (fun c => if c = 2 then _get_hue_node Real.pi 0 0.5 else 1) (fun _ => 0)
          ⟨1, 1, 1⟩).corrections (2 * 0 + 1))
        ((process_corrections (lookupColorLib Real.pi) meanGaussian nearest_resample
          (commit_params Real.exp Real.cos Real.sqrt (fun x => 2 ^ x) (fun x y => x ^ y)
            Real.pi first_column_solve 361 (lookupColorLib Real.pi)
            (first_column_params Real.exp Real.cos Real.sqrt Real.pi 0.5) none neutral_data)
          ⟨0, fun _ _ => 0, fun _ _ => 0⟩
          (fun c => if c = 2 then _get_hue_node Real.pi 0 0.5 else 1) (fun _ => 0)
          ⟨1, 1, 1⟩).b_corrections 0) 0
      < _get_hue_node Real.pi 0 0.5 + 1 / 180 * Real.pi := by
  have hf : (commit_params Real.exp Real.cos Real.sqrt (fun x => 2 ^ x) (fun x y => x ^ y)
      Real.pi first_column_solve 361 (lookupColorLib Real.pi)
      (first_column_params Real.exp Real.cos Real.sqrt Real.pi 0.5) none
      neutral_data).use_filter = false :=
    (commit_params_LUT Real.exp Real.cos Real.sqrt (fun x => 2 ^ x) (fun x y => x ^ y)
      Real.pi first_column_solve 361 (lookupColorLib Real.pi)
      (first_column_params Real.exp Real.cos Real.sqrt Real.pi 0.5) none neutral_data).2.2.2
  obtain ⟨hJ, hH⟩ := lookupColorLib_pixel Real.pi meanGaussian nearest_resample _
    ⟨0, fun _ _ => 0, fun _ _ => 0⟩
    (fun c => if c = 2 then _get_hue_node Real.pi 0 0.5 else 1) (fun _ => 0) hf
  simp only [show ¬ ((0 : ℕ) = 2) by norm_num, if_false, if_true] at hJ hH
  have hA : rbf_A Real.exp Real.cos Real.sqrt Real.pi Real.pi 0.5 0 0 ≠ 0 := by
    unfold rbf_A; exact (Real.exp_pos _).ne'
  have hnode : _get_hue_node Real.pi 0 0.5 = 20.5 * Real.pi / 180 := by
    simp only [_get_hue_node, _deg_to_rad, ANGLE_SHIFT]; norm_num
  -- the two table entries around the node are below the value at the node
  have hent : ∀ i : ℕ, i < 361 →
      0 < |lut_hue Real.pi i - _get_hue_node Real.pi 0 0.5| →
      |lut_hue Real.pi i - _get_hue_node Real.pi 0 0.5| < 2 * Real.pi →
      (commit_params Real.exp Real.cos Real.sqrt (fun x => 2 ^ x) (fun x y => x ^ y)
        Real.pi first_column_solve 361 (lookupColorLib Real.pi)
        (first_column_params Real.exp Real.cos Real.sqrt Real.pi 0.5) none
        neutral_data).LUT_hue i < 1 / 180 * Real.pi := by
    intro i hi h0 h1
    rw [first_column_LUT_hue _ _ 361 _ 0.5 none neutral_data i hi]
    have hlt := Real.exp_lt_exp.mpr (rbf_series_pi_lt _ _ h0 h1)
    have hpos : (0 : ℝ) < 1 / 180 * Real.pi := by positivity
    calc 1 / 180 * Real.pi * (_ / _) < 1 / 180 * Real.pi * 1 := by
          apply mul_lt_mul_of_pos_left _ hpos
          rw [div_lt_one (Real.exp_pos _)]
          exact hlt
      _ = 1 / 180 * Real.pi := mul_one _
  have hd200 : |lut_hue Real.pi 200 - _get_hue_node Real.pi 0 0.5| = Real.pi / 360 := by
    rw [hnode]; unfold lut_hue
    have : ((200 : ℕ) : ℝ) * Real.pi / 180 - Real.pi - 20.5 * Real.pi / 180
        = -(Real.pi / 360) := by push_cast; ring
    rw [this, abs_neg, abs_of_pos (by positivity)]
  have hd201 : |lut_hue Real.pi 201 - _get_hue_node Real.pi 0 0.5| = Real.pi / 360 := by
    rw [hnode]; unfold lut_hue
    have : ((201 : ℕ) : ℝ) * Real.pi / 180 - Real.pi - 20.5 * Real.pi / 180
        = Real.pi / 360 := by push_cast; ring
    rw [this, abs_of_pos (by positivity)]
  have h200 := hent 200 (by norm_num) (by rw [hd200]; positivity)
    (by rw [hd200]; linarith [Real.pi_pos])
  have h201 := hent 201 (by norm_num) (by rw [hd201]; positivity)
    (by rw [hd201]; linarith [Real.pi_pos])
  -- the hue of the pixel and its looked-up offset
  have hp0 := process_out_hsb_apply (lookupColorLib Real.pi) meanGaussian nearest_resample
    (commit_params Real.exp Real.cos Real.sqrt (fun x => 2 ^ x) (fun x y => x ^ y)
      Real.pi first_column_solve 361 (lookupColorLib Real.pi)
      (first_column_params Real.exp Real.cos Real.sqrt Real.pi 0.5) none neutral_data)
    ⟨0, fun _ _ => 0, fun _ _ => 0⟩
    (fun c => if c = 2 then _get_hue_node Real.pi 0 0.5 else 1) (fun _ => 0) ⟨1, 1, 1⟩ 0
    (by norm_num) 0 (by norm_num)
  simp only [show ¬ ((0 : ℕ) = 3) by norm_num, if_false] at hp0
  rw [hH] at hp0
  have hc0 := (process_corrections_no_filter (lookupColorLib Real.pi) meanGaussian
    nearest_resample
    (commit_params Real.exp Real.cos Real.sqrt (fun x => 2 ^ x) (fun x y => x ^ y)
      Real.pi first_column_solve 361 (lookupColorLib Real.pi)
      (first_column_params Real.exp Real.cos Real.sqrt Real.pi 0.5) none neutral_data)
    ⟨0, fun _ _ => 0, fun _ _ => 0⟩
    (fun c => if c = 2 then _get_hue_node Real.pi 0 0.5 else 1) (fun _ => 0) ⟨1, 1, 1⟩ hf 0
    (by norm_num) 0 (by norm_num)).1
  have hlk : lookup_gamut Real.pi
      (commit_params Real.exp Real.cos Real.sqrt (fun x => 2 ^ x) (fun x y => x ^ y)
        Real.pi first_column_solve 361 (lookupColorLib Real.pi)
        (first_column_params Real.exp Real.cos Real.sqrt Real.pi 0.5) none
        neutral_data).LUT_hue (_get_hue_node Real.pi 0 0.5)
      < 1 / 180 * Real.pi := by
    rw [lookup_gamut_half _ _ 200 (by norm_num)
      (by rw [hnode]; field_simp; ring)]
    linarith
  refine ⟨fun i => first_column_solve_exact Real.sqrt 0.5 i, ?_, hJ, hp0, ?_⟩
  · rw [pack_hue_first_column Real.sqrt 0.5 0]; field_simp; ring
  · show pixel_at _ 4 0 0 + _ < _
    rw [hp0, hc0]
    simp only [lookup_corrections, hJ, hH, gt_iff_lt, zero_lt_one, if_true]
    have : (lookupColorLib Real.pi).lookup_gamut = lookup_gamut Real.pi := rfl
    rw [this]
    linarith

/-- C21 (amended).  With filtering disabled, when the solver solves the kernel
system of the hue table exactly, for a pixel of chroma > 0 whose hue is the
angle of a table entry `i` (a whole number of degrees) and equals the angle of
node `j` up to a whole number of turns, and at which the table lookup returns
the entry `i`, the hue handed to gamut mapping is the hue of the pixel plus the
value configured for node `j`, converted from degrees to radians; the nodes are
taken in the order red, orange, yellow, green, cyan, blue, lavender, magenta,
for every setting of the other seven nodes. -/
theorem C21_hue_offset_at_node (expf sqrtf exp2f : ℝ → ℝ) (powf : ℝ → ℝ → ℝ)
    (pseudo_solve : (Fin NODES → Fin NODES → ℝ) → (Fin NODES → ℝ) → (Fin NODES → ℝ))
    (LUT_ELEM : Nat) (E : ColorLib ℝ) (G : GaussianLib ℝ) (B : Bilinear ℝ)
    (p : dt_iop_colorequal_params_t ℝ)
    (cp_profile : Option (dt_iop_order_iccprofile_info_t ℝ))
    (d0 d : dt_iop_colorequal_data_t ℝ)
    (wp : dt_iop_order_iccprofile_info_t ℝ) (inp out : Nat → ℝ) (roi_out : dt_iop_roi_t ℝ)
    (k : Nat) (JCH HSB : Nat → ℝ) (j : Fin NODES) (n : ℤ) (i : ℕ)
    (hd : d = commit_params expf Real.cos sqrtf exp2f powf Real.pi pseudo_solve LUT_ELEM E p
      cp_profile d0)
    (hfilter : p.use_filter = false)
    (hsolve : ∀ r : Fin NODES,
      ∑ c : Fin NODES,
        rbf_A expf Real.cos sqrtf Real.pi (1 / p.smoothing_hue * Real.pi) p.hue_shift r c
          * pseudo_solve
              (rbf_A expf Real.cos sqrtf Real.pi (1 / p.smoothing_hue * Real.pi) p.hue_shift)
              (_pack_hue Real.pi p) c
        = _pack_hue Real.pi p r)
    (hk : k < roi_out.width * roi_out.height)
    (hJCH : JCH = process_JCH E (process_white E d) (process_UV E G B d wp inp roi_out)
      (process_L E (process_input_matrix E wp) inp (roi_out.width * roi_out.height)) k)
    (hHSB : HSB = process_HSB E (process_white E d) (process_UV E G B d wp inp roi_out)
      (process_L E (process_input_matrix E wp) inp (roi_out.width * roi_out.height)) out k)
    (hchroma : JCH 1 > 0)
    (hi : i < LUT_ELEM) (hhue : HSB 0 = lut_hue Real.pi i)
    (hnode : HSB 0 + n * (2 * Real.pi) = _get_hue_node Real.pi j p.hue_shift)
    (hlook : E.lookup_gamut d.LUT_hue (lut_hue Real.pi i) = d.LUT_hue i) :
    d.LUT_hue i
      = (![p.hue_red, p.hue_orange, p.hue_yellow, p.hue_green, p.hue_cyan, p.hue_blue,
            p.hue_lavender, p.hue_magenta] j) / 180 * Real.pi
    ∧ (process_corrections E G B d wp inp out roi_out).corrections (2 * k + 0)
      = (![p.hue_red, p.hue_orange, p.hue_yellow, p.hue_green, p.hue_cyan, p.hue_blue,
            p.hue_lavender, p.hue_magenta] j) / 180 * Real.pi
    ∧ apply_corrections (pixel_at (process_out_hsb E G B d wp inp out roi_out) 4 k)
          ((process_corrections E G B d wp inp out roi_out).corrections (2 * k + 0))
          ((process_corrections E G B d wp inp out roi_out).corrections (2 * k + 1))
          ((process_corrections E G B d wp inp out roi_out).b_corrections k) 0
      = HSB 0
        + (![p.hue_red, p.hue_orange, p.hue_yellow, p.hue_green, p.hue_cyan, p.hue_blue,
            p.hue_lavender, p.hue_magenta] j) / 180 * Real.pi := by
  obtain ⟨-, hLh, -, hLf⟩ := commit_params_LUT expf Real.cos sqrtf exp2f powf Real.pi
    pseudo_solve LUT_ELEM E p cp_profile d0
  rw [← hd] at hLh hLf
  have hf : d.use_filter = false := by rw [hLf, hfilter]
  have hpack : (![p.hue_red, p.hue_orange, p.hue_yellow, p.hue_green, p.hue_cyan, p.hue_blue,
      p.hue_lavender, p.hue_magenta] j) / 180 * Real.pi = _pack_hue Real.pi p j := rfl
  rw [hpack]
  -- the table entry is the value sampled at the node
  have hser : ∀ c : Fin NODES,
      rbf_series expf Real.cos sqrtf (1 / p.smoothing_hue * Real.pi) (lut_hue Real.pi i)
          (_get_hue_node Real.pi c p.hue_shift)
        = rbf_series expf Real.cos sqrtf (1 / p.smoothing_hue * Real.pi)
          (_get_hue_node Real.pi j p.hue_shift) (_get_hue_node Real.pi c p.hue_shift) := by
    intro c
    rw [← hnode, hhue, rbf_series_add_int_two_pi]
  have ht : d.LUT_hue i = _pack_hue Real.pi p j := by
    rw [hLh]
    simp only [_periodic_RBF_interpolate, if_pos hi]
    rw [← hsolve j, ← rbf_eval_node]
    simp only [rbf_eval, hser]
  -- the correction of pixel k
  have hc0 := (process_corrections_no_filter E G B d wp inp out roi_out hf k hk 0
    (by norm_num)).1
  rw [← hJCH, ← hHSB] at hc0
  have hl : lookup_corrections E d JCH HSB 0 = _pack_hue Real.pi p j := by
    simp only [lookup_corrections, if_pos hchroma]
    rw [hhue, hlook, ht]
  have hp0 : pixel_at (process_out_hsb E G B d wp inp out roi_out) 4 k 0 = HSB 0 := by
    rw [process_out_hsb_apply E G B d wp inp out roi_out k hk 0 (by norm_num), hHSB]
    simp
  refine ⟨ht, by rw [hc0, hl], ?_⟩
  show pixel_at _ 4 k 0 + _ = _
  rw [hp0, hc0, hl]

/-- Witness for C21 (amended): hue shift 0, the red node configured to 1° (the
other nodes such that the exact solution is a multiple of the first unit
vector), real `exp`, `cos`, `sqrt`, the table lookup of the spec, and a pixel of
chroma 1 whose hue is 20°, the angle of the red node and of table entry 200. -/
theorem C21_hue_offset_at_node_witness :
    (commit_params Real.exp Real.cos Real.sqrt (fun x => 2 ^ x) (fun x y => x ^ y)
        Real.pi first_column_solve 361 (lookupColorLib Real.pi)
        (first_column_params Real.exp Real.cos Real.sqrt Real.pi 0) none
        neutral_data).LUT_hue 200 = 1 / 180 * Real.pi := by
  have hf : (commit_params Real.exp Real.cos Real.sqrt (fun x => 2 ^ x) (fun x y => x ^ y)
      Real.pi first_column_solve 361 (lookupColorLib Real.pi)
      (first_column_params Real.exp Real.cos Real.sqrt Real.pi 0) none
      neutral_data).use_filter = false :=
    (commit_params_LUT Real.exp Real.cos Real.sqrt (fun x => 2 ^ x) (fun x y => x ^ y)
      Real.pi first_column_solve 361 (lookupColorLib Real.pi)
      (first_column_params Real.exp Real.cos Real.sqrt Real.pi 0) none neutral_data).2.2.2
  obtain ⟨hJ, hH⟩ := lookupColorLib_pixel Real.pi meanGaussian nearest_resample _
    ⟨0, fun _ _ => 0, fun _ _ => 0⟩
    (fun c => if c = 2 then lut_hue Real.pi 200 else 1) (fun _ => 0) hf
  simp only [show ¬ ((0 : ℕ) = 2) by norm_num, if_false, if_true] at hJ hH
  have hsm : (1 : ℝ) / (first_column_params Real.exp Real.cos Real.sqrt Real.pi 0).smoothing_hue
      * Real.pi = Real.pi := by
    show (1 : ℝ) / 1 * Real.pi = Real.pi
    rw [one_div_one, one_mul]
  have h := C21_hue_offset_at_node Real.exp Real.sqrt (fun x => 2 ^ x) (fun x y => x ^ y)
    first_column_solve 361 (lookupColorLib Real.pi) meanGaussian nearest_resample
    (first_column_params Real.exp Real.cos Real.sqrt Real.pi 0) none neutral_data _
    ⟨0, fun _ _ => 0, fun _ _ => 0⟩ (fun c => if c = 2 then lut_hue Real.pi 200 else 1)
    (fun _ => 0) ⟨1, 1, 1⟩ 0 _ _ 0 0 200 rfl rfl
    (by
      intro r
      rw [hsm]
      exact first_column_solve_exact Real.sqrt 0 r)
    (by norm_num) rfl rfl
    (by rw [hJ]; exact zero_lt_one)
    (by norm_num) hH
    (by
      rw [hH]
      show lut_hue Real.pi 200 + ((0 : ℤ) : ℝ) * (2 * Real.pi) = _get_hue_node Real.pi 0 0
      simp only [lut_hue, _get_hue_node, _deg_to_rad, ANGLE_SHIFT]
      push_cast
      ring)
    (lookup_gamut_at_entry _ 200 (by norm_num))
  rw [h.1]
  show (1 : ℝ) / 180 * Real.pi = 1 / 180 * Real.pi
  rfl

/-! ### The guard at small variances -/

/-- The regularised determinant of a positive semidefinite covariance with
variances up to `6e-4` and `epsilon` up to `1e-5` is between 0 and
`4 * FLT_EPSILON`. -/
lemma small_variance_det (U V c epsilon : α) (he0 : 0 ≤ epsilon) (he : epsilon ≤ 1e-5)
    (hU0 : 0 ≤ U) (hV0 : 0 ≤ V) (hU : U ≤ 6e-4) (hV : V ≤ 6e-4) (hpsd : c * c ≤ U * V) :
    0 ≤ (U + epsilon) * (V + epsilon) - c * c
    ∧ (U + epsilon) * (V + epsilon) - c * c ≤ 4 * FLT_EPSILON := by
  constructor
  · have h1 : 0 ≤ epsilon * (U + V) := mul_nonneg he0 (add_nonneg hU0 hV0)
    have h2 : 0 ≤ epsilon * epsilon := mul_nonneg he0 he0
    nlinarith
  · have h1 : (U + epsilon) * (V + epsilon) ≤ 6.1e-4 * 6.1e-4 :=
      mul_le_mul (by linarith) (by linarith) (by linarith) (by norm_num)
    have h2 : 0 ≤ c * c := mul_self_nonneg c
    have h3 : (6.1e-4 : α) * 6.1e-4 ≤ 4 * FLT_EPSILON := by
      simp only [FLT_EPSILON]; norm_num
    linarith

/-- At a pixel of small positive semidefinite covariance the guard of the first
filter fails. -/
lemma prefilter_guard_fails (covariance : Nat → α) (epsilon : α) (k : Nat)
    (he0 : 0 ≤ epsilon) (he : epsilon ≤ 1e-5)
    (hsym : covariance (4 * k + 2) = covariance (4 * k + 1))
    (hU0 : 0 ≤ covariance (4 * k + 0)) (hV0 : 0 ≤ covariance (4 * k + 3))
    (hU : covariance (4 * k + 0) ≤ 6e-4) (hV : covariance (4 * k + 3) ≤ 6e-4)
    (hpsd : covariance (4 * k + 1) * covariance (4 * k + 1)
      ≤ covariance (4 * k + 0) * covariance (4 * k + 3)) :
    |prefilter_det covariance epsilon k| ≤ 4 * FLT_EPSILON := by
  obtain ⟨h1, h2⟩ := small_variance_det _ _ _ epsilon he0 he hU0 hV0 hU hV hpsd
  have hd : prefilter_det covariance epsilon k
      = (covariance (4 * k + 0) + epsilon) * (covariance (4 * k + 3) + epsilon)
        - covariance (4 * k + 1) * covariance (4 * k + 1) := by
    simp only [prefilter_det, Sigma, hsym]
  rw [hd, abs_of_nonneg h1]
  exact h2

/-- At a pixel of small positive semidefinite covariance the guard of the second
filter fails. -/
lemma guide_guard_fails (covariance : Nat → α) (epsilon : α) (k : Nat)
    (he0 : 0 ≤ epsilon) (he : epsilon ≤ 1e-5)
    (hsym : covariance (4 * k + 2) = covariance (4 * k + 1))
    (hU0 : 0 ≤ covariance (4 * k + 0)) (hV0 : 0 ≤ covariance (4 * k + 3))
    (hU : covariance (4 * k + 0) ≤ 6e-4) (hV : covariance (4 * k + 3) ≤ 6e-4)
    (hpsd : covariance (4 * k + 1) * covariance (4 * k + 1)
      ≤ covariance (4 * k + 0) * covariance (4 * k + 3)) :
    |guide_det covariance epsilon k| ≤ 4 * FLT_EPSILON := by
  obtain ⟨h1, h2⟩ := small_variance_det _ _ _ epsilon he0 he hU0 hV0 hU hV hpsd
  have hsmall : (1e-15 : α) ≤ 4 * FLT_EPSILON := by
    simp only [FLT_EPSILON]; norm_num
  have hpos : (0 : α) < 1e-15 := by norm_num
  have h0 : 0 ≤ guide_det covariance epsilon k := le_trans hpos.le (le_max_right _ _)
  rw [abs_of_nonneg h0]
  simp only [guide_det, Sigma, hsym]
  exact max_le h2 hsmall

/-- Where every coefficient of the downsampled image is 0, the smoothed and
upsampled coefficients are 0. -/
lemma a_full_zero [FloorRing α] (G : GaussianLib α) (B : Bilinear α)
    (hG : BlurKeepsFlat G) (hB : BilinearKeepsFlat B) (roi : dt_iop_roi_t α)
    (csigma sigma : α) (a : Nat → Nat → α)
    (hdim : 0 < ds_width roi csigma ∧ 0 < ds_height roi csigma)
    (ha : ∀ k c, k < ds_pixels roi csigma → a k c = 0) (k : Nat)
    (hk : k < roi.width * roi.height) (c : Nat) (hc : c < 4) :
    (if resized roi csigma then
      B (_mean_gaussian G (forPixels 4 (ds_pixels roi csigma) a (fun _ => 0))
          (ds_width roi csigma) (ds_height roi csigma) 4 sigma)
        (ds_width roi csigma) (ds_height roi csigma) roi.width roi.height 4
     else
      _mean_gaussian G (forPixels 4 (ds_pixels roi csigma) a (fun _ => 0))
        (ds_width roi csigma) (ds_height roi csigma) 4 sigma) (4 * k + c) = 0 := by
  apply flat_upsample B hB _ roi csigma 4 c 0 hc hdim _ k hk
  intro k' hk'
  apply hG _ _ _ 4 sigma c 0 hc _ k' hk'
  intro k'' hk''
  have hk3 : k'' < ds_pixels roi csigma := hk''
  rw [forPixels_apply 4 (ds_pixels roi csigma) _ _ k'' c hk3 hc]
  exact ha k'' c hk3

/-- The blur of `pairGaussian` is `pair_blur`, for 2 and for 4 channels. -/
lemma mean_gaussian_pair (buf : Nat → α) (width height ch : Nat) (sigma : α) :
    _mean_gaussian (pairGaussian : GaussianLib α) buf width height ch sigma
      = pair_blur width height ch buf := by
  simp only [_mean_gaussian, pairGaussian]
  split_ifs <;> rfl

/-- A 3x1 image filtered with radius 1 at scale 1 is not resized. -/
lemma resized_3x1_radius_1 : resized (⟨3, 1, 1⟩ : dt_iop_roi_t ℚ) 1 = false := by
  apply resized_of_scaling_one
  simp only [filter_scaling, filter_sigma, _get_scaling]
  have h : ⌊(1 : ℚ) * 1 - 1.5⌋ = -1 := by norm_num [Int.floor_eq_iff]
  rw [h]; norm_num

/-- The first filter on the 3x1 image with `U = (1, 1, 2)`, `V = 0` and the
blur `pair_blur`: the covariance of the first pixel is 0, the covariance of the
second pixel has `var(U) = 1/4`, and the coefficient `a` of the second pixel is
`25000/25001`. -/
lemma prefilter_3x1_stages :
    (∀ c, c < 4 →
      prefilter_covariance pairGaussian nearest_resample
        (fun i => if i = 4 then (2 : ℚ) else if i % 2 = 0 then 1 else 0) ⟨3, 1, 1⟩ 1
        (4 * 0 + c) = 0)
    ∧ prefilter_a_full pairGaussian nearest_resample
        (fun i => if i = 4 then (2 : ℚ) else if i % 2 = 0 then 1 else 0) ⟨3, 1, 1⟩ 1 1e-5
        (4 * 0 + 0) = 12500 / 25001
    ∧ prefilter_a_full pairGaussian nearest_resample
        (fun i => if i = 4 then (2 : ℚ) else if i % 2 = 0 then 1 else 0) ⟨3, 1, 1⟩ 1 1e-5
        (4 * 0 + 1) = 0
    ∧ prefilter_b_full pairGaussian nearest_resample
        (fun i => if i = 4 then (2 : ℚ) else if i % 2 = 0 then 1 else 0) ⟨3, 1, 1⟩ 1 1e-5
        (2 * 0 + 0) = 50005 / 100004
    ∧ prefilter_UV_guide pairGaussian nearest_resample
        (fun i => if i = 4 then (2 : ℚ) else if i % 2 = 0 then 1 else 0) ⟨3, 1, 1⟩ 1
        (2 * 0 + 0) = 1
    ∧ prefilter_UV_guide pairGaussian nearest_resample
        (fun i => if i = 4 then (2 : ℚ) else if i % 2 = 0 then 1 else 0) ⟨3, 1, 1⟩ 1
        (2 * 0 + 1) = 0 := by
  have hr := resized_3x1_radius_1
  have hw : ds_width (⟨3, 1, 1⟩ : dt_iop_roi_t ℚ) 1 = 3 := ((resized_eq_false_iff _ _).1 hr).1
  have hh : ds_height (⟨3, 1, 1⟩ : dt_iop_roi_t ℚ) 1 = 1 := ((resized_eq_false_iff _ _).1 hr).2
  have hn : ds_pixels (⟨3, 1, 1⟩ : dt_iop_roi_t ℚ) 1 = 3 := by
    rw [ds_pixels, hw, hh]
  -- the blurred guide
  have hUV : ∀ i, prefilter_ds_UV pairGaussian nearest_resample
      (fun i => if i = 4 then (2 : ℚ) else if i % 2 = 0 then 1 else 0) ⟨3, 1, 1⟩ 1 i
      = pair_blur 3 1 2 (fun i => if i = 4 then (2 : ℚ) else if i % 2 = 0 then 1 else 0) i := by
    intro i
    simp only [prefilter_ds_UV, prefilter_ds_UV0, hr, Bool.false_eq_true, if_false,
      mean_gaussian_pair, hw, hh]
  have u0 := hUV 0
  have u1 := hUV 1
  have u2 := hUV 2
  have u3 := hUV 3
  norm_num [pair_blur] at u0 u1 u2 u3
  -- the covariance of the first two pixels
  have hcov : ∀ i, i < 8 → prefilter_covariance pairGaussian nearest_resample
      (fun i => if i = 4 then (2 : ℚ) else if i % 2 = 0 then 1 else 0) ⟨3, 1, 1⟩ 1 i
      = if i = 4 then 1 / 4 else 0 := by
    intro i hi
    simp only [prefilter_covariance, prefilter_ds_UV0, hr, Bool.false_eq_true, if_false,
      mean_gaussian_pair, hw, hh, hn, covariance_finish, covariance_init, forPixels]
    interval_cases i <;> norm_num [pair_blur, forPixels, u0, u1, u2, u3]
  have c0 := hcov 0 (by norm_num)
  have c1 := hcov 1 (by norm_num)
  have c2 := hcov 2 (by norm_num)
  have c3 := hcov 3 (by norm_num)
  have c4 := hcov 4 (by norm_num)
  have c5 := hcov 5 (by norm_num)
  have c6 := hcov 6 (by norm_num)
  have c7 := hcov 7 (by norm_num)
  norm_num at c0 c1 c2 c3 c4 c5 c6 c7
  -- the coefficients of the first two pixels
  have ha0 : ∀ c, prefilter_a (prefilter_covariance pairGaussian nearest_resample
      (fun i => if i = 4 then (2 : ℚ) else if i % 2 = 0 then 1 else 0) ⟨3, 1, 1⟩ 1) 1e-5 0 c
      = 0 := by
    intro c
    apply coeff_a_degenerate
    norm_num [prefilter_det, Sigma, c0, c1, c2, c3, FLT_EPSILON, abs_of_pos]
  have ha1 : ∀ c, c < 4 → prefilter_a (prefilter_covariance pairGaussian nearest_resample
      (fun i => if i = 4 then (2 : ℚ) else if i % 2 = 0 then 1 else 0) ⟨3, 1, 1⟩ 1) 1e-5 1 c
      = if c = 0 then 25000 / 25001 else 0 := by
    intro c hc
    have hdet : prefilter_det (prefilter_covariance pairGaussian nearest_resample
        (fun i => if i = 4 then (2 : ℚ) else if i % 2 = 0 then 1 else 0) ⟨3, 1, 1⟩ 1) 1e-5 1
        = 25001 / 10000000000 := by
      norm_num [prefilter_det, Sigma, c4, c5, c6, c7]
    have hg : |(25001 / 10000000000 : ℚ)| > 4 * FLT_EPSILON := by
      rw [abs_of_pos (by norm_num)]; norm_num [FLT_EPSILON]
    simp only [prefilter_a, coeff_a, hdet, if_pos hg]
    interval_cases c <;> norm_num [sigma_inv, Sigma, c4, c5, c6, c7]
  have a10 := ha1 0 (by norm_num)
  have a11 := ha1 1 (by norm_num)
  have a00 := ha0 0
  have a01 := ha0 1
  norm_num at a10 a11 a00 a01
  refine ⟨?_, ?_, ?_, ?_, ?_, ?_⟩
  · intro c hc
    interval_cases c
    · exact c0
    · exact c1
    · exact c2
    · exact c3
  · simp only [prefilter_a_full, hr, Bool.false_eq_true, if_false, mean_gaussian_pair, hw, hh,
      hn]
    norm_num [pair_blur, forPixels, a00, a10]
  · simp only [prefilter_a_full, hr, Bool.false_eq_true, if_false, mean_gaussian_pair, hw, hh,
      hn]
    norm_num [pair_blur, forPixels, a01, a11]
  · simp only [prefilter_b_full, hr, Bool.false_eq_true, if_false, mean_gaussian_pair, hw, hh,
      hn]
    norm_num [pair_blur, forPixels, prefilter_b, a00, a01, a10, a11, u0, u1, u2, u3]
  · simp only [prefilter_UV_guide, hr, Bool.false_eq_true, if_false]
    exact u0
  · simp only [prefilter_UV_guide, hr, Bool.false_eq_true, if_false]
    exact u1

/-- C28 as stated fails at a pixel whose neighbours have larger variances.  A
3x1 image with `U = (1, 1, 2)`, `V = 0`, filtered by the first filter with
radius 1 and `epsilon = 1e-5`, the blur averaging each pixel with the next one:
the covariance of the first pixel is 0 and its coefficients are the fallback 0,
but the second pixel has `var(U) = 1/4` and the coefficient `25000/25001`, and
the smoothing of `a` carries half of it to the first pixel; there the filter
output before blending is `100005/100004` (also the final output at weight 1),
not the smoothed mean `b = 50005/100004`. -/
theorem C28_counterexample :
    small_psd_covariance
      (prefilter_covariance pairGaussian nearest_resample
        (fun i => if i = 4 then (2 : ℚ) else if i % 2 = 0 then 1 else 0) ⟨3, 1, 1⟩ 1) 0
    ∧ (∀ c, prefilter_a
        (prefilter_covariance pairGaussian nearest_resample
          (fun i => if i = 4 then (2 : ℚ) else if i % 2 = 0 then 1 else 0) ⟨3, 1, 1⟩ 1)
        1e-5 0 c = 0)
    ∧ prefilter_a_full pairGaussian nearest_resample
          (fun i => if i = 4 then (2 : ℚ) else if i % 2 = 0 then 1 else 0) ⟨3, 1, 1⟩ 1 1e-5
          (4 * 0 + 0)
        * prefilter_UV_guide pairGaussian nearest_resample
          (fun i => if i = 4 then (2 : ℚ) else if i % 2 = 0 then 1 else 0) ⟨3, 1, 1⟩ 1
          (2 * 0 + 0)
      + prefilter_a_full pairGaussian nearest_resample
          (fun i => if i = 4 then (2 : ℚ) else if i % 2 = 0 then 1 else 0) ⟨3, 1, 1⟩ 1 1e-5
          (4 * 0 + 1)
        * prefilter_UV_guide pairGaussian nearest_resample
          (fun i => if i = 4 then (2 : ℚ) else if i % 2 = 0 then 1 else 0) ⟨3, 1, 1⟩ 1
          (2 * 0 + 1)
      + prefilter_b_full pairGaussian nearest_resample
          (fun i => if i = 4 then (2 : ℚ) else if i % 2 = 0 then 1 else 0) ⟨3, 1, 1⟩ 1 1e-5
          (2 * 0 + 0)
      = 100005 / 100004
    ∧ _prefilter_chromaticity pairGaussian nearest_resample
        (fun i => if i = 4 then (2 : ℚ) else if i % 2 = 0 then 1 else 0) (fun _ => 1)
        ⟨3, 1, 1⟩ 1 1e-5 (2 * 0 + 0) = 100005 / 100004
    ∧ prefilter_b_full pairGaussian nearest_resample
        (fun i => if i = 4 then (2 : ℚ) else if i % 2 = 0 then 1 else 0) ⟨3, 1, 1⟩ 1 1e-5
        (2 * 0 + 0) = 50005 / 100004 := by
  obtain ⟨hc, ha0, ha1, hb, hu0, hu1⟩ := prefilter_3x1_stages
  have hsmall : small_psd_covariance
      (prefilter_covariance pairGaussian nearest_resample
        (fun i => if i = 4 then (2 : ℚ) else if i % 2 = 0 then 1 else 0) ⟨3, 1, 1⟩ 1) 0 := by
    simp only [small_psd_covariance, hc 0 (by norm_num), hc 1 (by norm_num),
      hc 2 (by norm_num), hc 3 (by norm_num)]
    norm_num
  have hpre : prefilter_a_full pairGaussian nearest_resample
          (fun i => if i = 4 then (2 : ℚ) else if i % 2 = 0 then 1 else 0) ⟨3, 1, 1⟩ 1 1e-5
          (4 * 0 + 0)
        * prefilter_UV_guide pairGaussian nearest_resample
          (fun i => if i = 4 then (2 : ℚ) else if i % 2 = 0 then 1 else 0) ⟨3, 1, 1⟩ 1
          (2 * 0 + 0)
      + prefilter_a_full pairGaussian nearest_resample
          (fun i => if i = 4 then (2 : ℚ) else if i % 2 = 0 then 1 else 0) ⟨3, 1, 1⟩ 1 1e-5
          (4 * 0 + 1)
        * prefilter_UV_guide pairGaussian nearest_resample
          (fun i => if i = 4 then (2 : ℚ) else if i % 2 = 0 then 1 else 0) ⟨3, 1, 1⟩ 1
          (2 * 0 + 1)
      + prefilter_b_full pairGaussian nearest_resample
          (fun i => if i = 4 then (2 : ℚ) else if i % 2 = 0 then 1 else 0) ⟨3, 1, 1⟩ 1 1e-5
          (2 * 0 + 0)
      = 100005 / 100004 := by
    rw [ha0, ha1, hb, hu0, hu1]; norm_num
  refine ⟨hsmall, ?_, hpre, ?_, hb⟩
  · intro c
    obtain ⟨h1, h2, h3, h4, h5, h6⟩ := hsmall
    exact coeff_a_degenerate _ _ _ _ _ _
      (prefilter_guard_fails _ _ 0 (by norm_num) (by norm_num) h1 h2 h3 h4 h5 h6)
  · rw [(prefilter_out pairGaussian nearest_resample _ (fun _ => 1) ⟨3, 1, 1⟩ 1 1e-5 0
      (by norm_num)).1, hpre]
    norm_num [interpolatef]

/-- C28 (amended).  `commit_params` installs `epsilon = powf(10, -5)` for the
first filter and `powf(10, -6)` for the second.  With `epsilon = 1e-5`, resp.
`1e-6`, and `FLT_EPSILON = 2⁻²³`, at every pixel whose covariance is symmetric
positive semidefinite with both variances at most `6e-4` the guard
`|det| > 4·FLT_EPSILON` fails (on a flat field `det = ε²`), so the coefficients
of that pixel are the fallback `a = 0`, `b = mean(target)`.  The coefficients
are smoothed afterwards: when the covariance of every pixel of the downsampled
image is of this kind (and blur and resampling keep constants), the smoothed
`a` is 0 everywhere and the filter output before blending is the smoothed `b`. -/
theorem C28_guard_fails_small_variance [FloorRing α] (expf cosf sqrtf exp2f : α → α)
    (powf : α → α → α) (M_PI_F : α)
    (pseudo_solve : (Fin NODES → Fin NODES → α) → (Fin NODES → α) → (Fin NODES → α))
    (LUT_ELEM : Nat) (E : ColorLib α) (p : dt_iop_colorequal_params_t α)
    (work_profile : Option (dt_iop_order_iccprofile_info_t α))
    (d : dt_iop_colorequal_data_t α)
    (ds_UV covariance : Nat → α) (k : Nat)
    (ds_UV' ds_corrections ds_b_corrections correlations covariance' : Nat → α) (k' : Nat)
    (hsmall : small_psd_covariance covariance k)
    (hsmall' : small_psd_covariance covariance' k') :
    ((commit_params expf cosf sqrtf exp2f powf M_PI_F pseudo_solve LUT_ELEM E p work_profile
          d).chroma_feathering = powf 10 (-5)
      ∧ (commit_params expf cosf sqrtf exp2f powf M_PI_F pseudo_solve LUT_ELEM E p work_profile
          d).param_feathering = powf 10 (-6))
    ∧ (|prefilter_det covariance 1e-5 k| ≤ 4 * FLT_EPSILON
      ∧ (∀ c, prefilter_a covariance 1e-5 k c = 0)
      ∧ prefilter_b ds_UV covariance 1e-5 k 0 = ds_UV (2 * k + 0)
      ∧ prefilter_b ds_UV covariance 1e-5 k 1 = ds_UV (2 * k + 1))
    ∧ (|guide_det covariance' 1e-6 k'| ≤ 4 * FLT_EPSILON
      ∧ (∀ c, guide_a correlations covariance' 1e-6 k' c = 0)
      ∧ guide_b ds_UV' ds_corrections ds_b_corrections correlations covariance' 1e-6 k' 0
          = ds_corrections (2 * k' + 1)
      ∧ guide_b ds_UV' ds_corrections ds_b_corrections correlations covariance' 1e-6 k' 1
          = ds_b_corrections k')
    ∧ (∀ (flat : Nat → α) (epsilon : α) (j : Nat), (∀ c, c < 4 → flat (4 * j + c) = 0) →
        prefilter_det flat epsilon j = epsilon * epsilon)
    ∧ (∀ (G : GaussianLib α) (B : Bilinear α) (UV : Nat → α) (roi : dt_iop_roi_t α)
        (csigma : α), BlurKeepsFlat G → BilinearKeepsFlat B →
        filter_scaling roi csigma ≤ roi.width → filter_scaling roi csigma ≤ roi.height →
        (∀ j, j < ds_pixels roi csigma →
          small_psd_covariance (prefilter_covariance G B UV roi csigma) j) →
        ∀ j, j < roi.width * roi.height →
          (∀ c, c < 4 → prefilter_a_full G B UV roi csigma 1e-5 (4 * j + c) = 0)
          ∧ prefilter_a_full G B UV roi csigma 1e-5 (4 * j + 0)
                * prefilter_UV_guide G B UV roi csigma (2 * j + 0)
              + prefilter_a_full G B UV roi csigma 1e-5 (4 * j + 1)
                * prefilter_UV_guide G B UV roi csigma (2 * j + 1)
              + prefilter_b_full G B UV roi csigma 1e-5 (2 * j + 0)
            = prefilter_b_full G B UV roi csigma 1e-5 (2 * j + 0)
          ∧ prefilter_a_full G B UV roi csigma 1e-5 (4 * j + 2)
                * prefilter_UV_guide G B UV roi csigma (2 * j + 0)
              + prefilter_a_full G B UV roi csigma 1e-5 (4 * j + 3)
                * prefilter_UV_guide G B UV roi csigma (2 * j + 1)
              + prefilter_b_full G B UV roi csigma 1e-5 (2 * j + 1)
            = prefilter_b_full G B UV roi csigma 1e-5 (2 * j + 1))
    ∧ (∀ (G : GaussianLib α) (B : Bilinear α) (bufs : GuideBuffers α) (roi : dt_iop_roi_t α)
        (csigma : α), BlurKeepsFlat G → BilinearKeepsFlat B →
        filter_scaling roi csigma ≤ roi.width → filter_scaling roi csigma ≤ roi.height →
        (∀ j, j < ds_pixels roi csigma →
          small_psd_covariance (guide_covariance G B bufs.UV roi csigma) j) →
        ∀ j, j < roi.width * roi.height →
          (∀ c, c < 4 → guide_a_full G B bufs roi csigma 1e-6 (4 * j + c) = 0)
          ∧ guide_cv (guide_a_full G B bufs roi csigma 1e-6)
              (guide_b_full G B bufs roi csigma 1e-6)
              (guide_buffers_at_apply G B bufs roi csigma).UV j 0
            = guide_b_full G B bufs roi csigma 1e-6 (2 * j + 0)
          ∧ guide_cv (guide_a_full G B bufs roi csigma 1e-6)
              (guide_b_full G B bufs roi csigma 1e-6)
              (guide_buffers_at_apply G B bufs roi csigma).UV j 1
            = guide_b_full G B bufs roi csigma 1e-6 (2 * j + 1)) := by
  have e5 : (0 : α) ≤ 1e-5 ∧ (1e-5 : α) ≤ 1e-5 := ⟨by norm_num, le_rfl⟩
  have e6 : (0 : α) ≤ 1e-6 ∧ (1e-6 : α) ≤ 1e-5 := ⟨by norm_num, by norm_num⟩
  have hpre : ∀ (cov : Nat → α) (j : Nat), small_psd_covariance cov j →
      |prefilter_det cov 1e-5 j| ≤ 4 * FLT_EPSILON := by
    intro cov j ⟨h1, h2, h3, h4, h5, h6⟩
    exact prefilter_guard_fails cov _ j e5.1 e5.2 h1 h2 h3 h4 h5 h6
  have hgui : ∀ (cov : Nat → α) (j : Nat), small_psd_covariance cov j →
      |guide_det cov 1e-6 j| ≤ 4 * FLT_EPSILON := by
    intro cov j ⟨h1, h2, h3, h4, h5, h6⟩
    exact guide_guard_fails cov _ j e6.1 e6.2 h1 h2 h3 h4 h5 h6
  have ha : ∀ c, prefilter_a covariance 1e-5 k c = 0 :=
    fun c => coeff_a_degenerate _ _ _ _ _ _ (hpre _ _ hsmall)
  have ha' : ∀ c, guide_a correlations covariance' 1e-6 k' c = 0 :=
    fun c => coeff_a_degenerate _ _ _ _ _ _ (hgui _ _ hsmall')
  refine ⟨?_, ⟨hpre _ _ hsmall, ha, ?_, ?_⟩, ⟨hgui _ _ hsmall', ha', ?_, ?_⟩, ?_, ?_, ?_⟩
  · cases work_profile with
    | none => exact ⟨rfl, rfl⟩
    | some wp =>
      simp only [commit_params]
      split_ifs <;> exact ⟨rfl, rfl⟩
  · simp only [prefilter_b, ha]; ring
  · simp only [prefilter_b, ha]; ring
  · simp only [guide_b, ha']; ring
  · simp only [guide_b, ha']; ring
  · intro flat epsilon j hflat
    simp only [prefilter_det, Sigma, hflat 0 (by norm_num), hflat 1 (by norm_num),
      hflat 2 (by norm_num), hflat 3 (by norm_num)]
    ring
  · intro G B UV roi csigma hG hB hw hh hall j hj
    have hz : ∀ c, c < 4 → prefilter_a_full G B UV roi csigma 1e-5 (4 * j + c) = 0 := by
      intro c hc
      exact a_full_zero G B hG hB roi csigma _ _ (ds_dims_pos roi csigma hw hh)
        (fun i c' hi => coeff_a_degenerate _ _ _ _ _ _ (hpre _ _ (hall i hi))) j hj c hc
    refine ⟨hz, ?_, ?_⟩
    · rw [hz 0 (by norm_num), hz 1 (by norm_num)]; ring
    · rw [hz 2 (by norm_num), hz 3 (by norm_num)]; ring
  · intro G B bufs roi csigma hG hB hw hh hall j hj
    have hz : ∀ c, c < 4 → guide_a_full G B bufs roi csigma 1e-6 (4 * j + c) = 0 := by
      intro c hc
      exact a_full_zero G B hG hB roi csigma _ _ (ds_dims_pos roi csigma hw hh)
        (fun i c' hi => coeff_a_degenerate _ _ _ _ _ _ (hgui _ _ (hall i hi))) j hj c hc
    refine ⟨hz, ?_, ?_⟩
    · simp only [guide_cv, hz 0 (by norm_num), hz 1 (by norm_num)]; ring
    · simp only [guide_cv, hz 2 (by norm_num), hz 3 (by norm_num)]; ring

/-- Witness for C28 (amended): zero covariance (a flat field) in both filters. -/
theorem C28_guard_fails_small_variance_witness :
    prefilter_b (fun i => (i : ℚ) + 5) (fun _ => 0) 1e-5 0 0 = 5
    ∧ guide_b (fun _ => (1 : ℚ)) (fun i => (i : ℚ) + 7) (fun _ => 3) (fun _ => 2)
        (fun _ => 0) 1e-6 0 0 = 8 :=
  have h := C28_guard_fails_small_variance (fun x : ℚ => x) (fun x => x) (fun x => x)
    (fun x => x) (fun x _ => x) 3 (fun _ y => y) 361 copyColorLib (identity_params 0) none
    neutral_data (fun i => (i : ℚ) + 5) (fun _ => 0) 0
    (fun _ => (1 : ℚ)) (fun i => (i : ℚ) + 7) (fun _ => 3) (fun _ => 2) (fun _ => 0) 0
    (by simp only [small_psd_covariance]; norm_num)
    (by simp only [small_psd_covariance]; norm_num)
  ⟨by rw [h.2.1.2.2.1]; norm_num, by rw [h.2.2.1.2.2.1]; norm_num⟩

end Theorems

end Colorequal
